import Mathlib

/-!
# Streaming transaction signing (keepkey/local/baremetal/signing.c)

A shallow embedding of the signing state machine of `signing.c` and of the raw
previous-transaction byte parser, followed by theorems about them.

Conventions of the embedding:

* the module-scope C variables become the fields of `State`;
* `uint32_t` / `uint64_t` values are natural numbers, and every C operation that can
  wrap is written with an explicit `% 2 ^ 32` or `% 2 ^ 64`;
* a `SHA256_CTX` is represented by the byte string that has been fed to it since its
  last `sha256_Init`; `sha256_Final` is the digest function of the environment applied
  to that byte string;
* functions that `signing.c` calls but does not define (hashing, key derivation, the
  policy module, the user interface, the transaction serialisers) are fields of `Env`;
* every message written to the host and every call into the user interface is appended
  to `State.log`.
-/

namespace Signing

/-- A byte string; every element stands for one `uint8_t`. -/
abbrev Bytes := List Nat

/-! ## Enumerations -/

/-- The anonymous enum of `signing_stage`. -/
inductive Stage
  | STAGE_REQUEST_1_INPUT
  | STAGE_REQUEST_2_PREV_META
  | STAGE_REQUEST_2_PREV_INPUT
  | STAGE_REQUEST_2_PREV_OUTPUT
  | STAGE_REQUEST_3_OUTPUT
  | STAGE_REQUEST_4_INPUT
  | STAGE_REQUEST_4_OUTPUT
  | STAGE_REQUEST_5_OUTPUT
  deriving DecidableEq, Repr

/-- The anonymous enum of `raw_tx_status`. -/
inductive RawTxStatus
  | NOT_PARSING
  | PARSING_VERSION
  | PARSING_INPUT_COUNT
  | PARSING_INPUTS
  | PARSING_OUTPUT_COUNT
  | PARSING_OUTPUTS_VALUE
  | PARSING_OUTPUTS
  | PARSING_LOCKTIME
  deriving DecidableEq, Repr

/-- The failure codes that `signing.c` passes to `fsm_sendFailure`. -/
inductive FailureType
  | Failure_UnexpectedMessage
  | Failure_Other
  | Failure_ActionCancelled
  | Failure_NotEnoughFunds
  deriving DecidableEq, Repr

/-- The request types of a `TxRequest`. -/
inductive RequestType
  | TXINPUT
  | TXOUTPUT
  | TXMETA
  | TXFINISHED
  deriving DecidableEq, Repr

/-- Script type of a current input; `other` stands for any further wire value. -/
inductive InputScriptType
  | SPENDADDRESS
  | SPENDMULTISIG
  | other (v : Nat)
  deriving DecidableEq, Repr

/-- Script type of a current output; `other` stands for any further wire value. -/
inductive OutputScriptType
  | PAYTOADDRESS
  | PAYTOSCRIPTHASH
  | PAYTOMULTISIG
  | other (v : Nat)
  deriving DecidableEq, Repr

/-- Address type of a current output; `other` stands for a value that none of the
`case` labels of `check_valid_output_address` matches. -/
inductive OutputAddressType
  | SPEND
  | TRANSFER
  | CHANGE
  | EXCHANGE
  | other (v : Nat)
  deriving DecidableEq, Repr

/-- The exchange error codes that `send_fsm_co_error_message` distinguishes; `other`
stands for a value that only the `default` label matches. -/
inductive ExchangeError
  | NO_EXCHANGE_ERROR
  | ERROR_EXCHANGE_SIGNATURE
  | ERROR_EXCHANGE_DEPOSIT_COINTYPE
  | ERROR_EXCHANGE_DEPOSIT_ADDRESS
  | ERROR_EXCHANGE_DEPOSIT_AMOUNT
  | ERROR_EXCHANGE_WITHDRAWAL_COINTYPE
  | ERROR_EXCHANGE_WITHDRAWAL_ADDRESS
  | ERROR_EXCHANGE_WITHDRAWAL_AMOUNT
  | ERROR_EXCHANGE_RETURN_COINTYPE
  | ERROR_EXCHANGE_RETURN_ADDRESS
  | ERROR_EXCHANGE_API_KEY
  | ERROR_EXCHANGE_CANCEL
  | ERROR_EXCHANGE_RESPONSE_STRUCTURE
  | other (v : Nat)
  deriving DecidableEq, Repr

/-- The button request types used by `signing.c`. -/
inductive ButtonRequestType
  | ButtonRequest_FeeOverThreshold
  deriving DecidableEq, Repr

/-! ## Message and record types

Only the fields that `signing.c` reads or writes are named; the memory image of a whole
record, where the code hashes one, is supplied by `Env`. -/

/-- Multisig descriptor: opaque to the core apart from the signature slots. -/
structure MultisigRedeemScriptType where
  descriptor : Bytes
  signatures : List Bytes
  deriving DecidableEq, Repr

/-- A current-transaction or previous-transaction input as received from the host.
`script_sig` holds the `script_sig.size` meaningful bytes. -/
structure TxInputType where
  address_n : List Nat
  address_n_count : Nat
  prev_hash : Bytes
  prev_hash_size : Nat
  prev_index : Nat
  script_sig : Bytes
  has_sequence : Bool
  sequence : Nat
  script_type : InputScriptType
  has_multisig : Bool
  multisig : MultisigRedeemScriptType
  has_amount : Bool
  amount : Nat
  deriving DecidableEq, Repr

/-- A current-transaction output as received from the host. -/
structure TxOutputType where
  has_address : Bool
  address : Bytes
  address_n : List Nat
  address_n_count : Nat
  amount : Nat
  script_type : OutputScriptType
  has_multisig : Bool
  multisig : MultisigRedeemScriptType
  has_address_type : Bool
  address_type : OutputAddressType
  has_exchange_type : Bool
  exchange_type : Bytes
  deriving DecidableEq, Repr

/-- A compiled output: amount and output script. -/
structure TxOutputBinType where
  amount : Nat
  script_pubkey : Bytes
  deriving DecidableEq, Repr

/-- The part of a `TxAck` that `signing_txack` looks at: the first element of each of the
three arrays and the metadata of a previous transaction. -/
structure TransactionType where
  inputs : TxInputType
  outputs : TxOutputType
  bin_outputs : TxOutputBinType
  inputs_cnt : Nat
  outputs_cnt : Nat
  version : Nat
  lock_time : Nat
  deriving DecidableEq, Repr

/-- The coin parameters read by `signing.c`. -/
structure CoinType where
  has_forkid : Bool
  forkid : Nat
  maxfee_kb : Nat
  address_type : Nat
  deriving DecidableEq, Repr

/-- An HD node: the two keys read by the core, the rest opaque. -/
structure HDNode where
  private_key : Bytes
  public_key : Bytes
  chain : Bytes
  deriving DecidableEq, Repr

/-- A streaming transaction serialiser. `signing.c` reads and writes the four header
fields and the hash context; `book` stands for the bookkeeping fields that only the
serialiser functions themselves use. -/
structure TxStruct where
  inputs_len : Nat
  outputs_len : Nat
  version : Nat
  lock_time : Nat
  add_hash_type : Bool
  ctx : Bytes
  book : List Nat
  deriving DecidableEq, Repr

/-- The `serialized` part of a `TxRequest`. -/
structure TxRequestSerializedType where
  has_signature_index : Bool
  signature_index : Nat
  has_signature : Bool
  signature : Bytes
  has_serialized_tx : Bool
  serialized_tx : Bytes
  deriving DecidableEq, Repr

/-- The outbound `TxRequest` message. -/
structure TxRequest where
  has_request_type : Bool
  request_type : RequestType
  has_details : Bool
  has_request_index : Bool
  request_index : Nat
  has_tx_hash : Bool
  tx_hash : Bytes
  has_serialized : Bool
  serialized : TxRequestSerializedType
  deriving DecidableEq, Repr

/-- Everything the device does that is visible outside `signing.c`, in call order. -/
inductive Event
  | failure (code : FailureType) (text : String)
  | tx_request (resp : TxRequest)
  | go_home
  | confirm (type : ButtonRequestType) (title : String) (amount : Nat)
  | confirm_transaction (total : Nat) (fee : Nat)
  | layout_simple_message (text : String)
  | policy_compile_output (out : TxOutputType) (needs_confirm : Bool)
  deriving DecidableEq, Repr

/-! ## The environment: what `signing.c` calls but does not define -/

/-- The external collaborators of the core. Each field is the functional content of the C
function of the same name; a function that fills an output buffer returns the bytes it
wrote, and a function that also returns a status returns both. -/
structure Env where
  /-- Digest of the byte string held by a context (`sha256_Final`, `sha256_Raw`). -/
  sha256 : Bytes → Bytes
  /-- The `sizeof(TxInputType)` bytes of a received input record. -/
  bytes_TxInputType : TxInputType → Bytes
  /-- The `sizeof(TxOutputBinType)` bytes of a compiled output record. -/
  bytes_TxOutputBinType : TxOutputBinType → Bytes
  /-- The `sizeof(&txinput->script_type)` bytes that start at the `script_type` field. -/
  script_type_window : TxInputType → Bytes
  /-- Status (zero on failure) and the 32 bytes written. -/
  cryptoMultisigFingerprint : MultisigRedeemScriptType → Nat × Bytes
  cryptoMultisigPubkeyIndex : MultisigRedeemScriptType → Bytes → Int
  /-- Return code, the compiled output, and the exchange error left behind. -/
  run_policy_compile_output :
    CoinType → HDNode → TxOutputType → Bool → Int × TxOutputBinType × ExchangeError
  TXOUT_COMPILE_ERROR : Int
  TXOUT_CANCEL : Int
  TXOUT_EXCHANGE_CONTRACT_ERROR : Int
  /-- Return value (zero on failure), the bytes appended to the hash context of the
  serialiser, and its new bookkeeping. -/
  tx_serialize_input_hash : TxStruct → TxInputType → Nat × Bytes × List Nat
  tx_serialize_output_hash : TxStruct → TxOutputBinType → Nat × Bytes × List Nat
  /-- The 32 bytes written by `tx_hash_final(t, hash, reverse)`. -/
  tx_hash_final : TxStruct → Bool → Bytes
  /-- The bytes written to the output buffer and the new bookkeeping. -/
  tx_serialize_input : TxStruct → TxInputType → Bytes × List Nat
  tx_serialize_output : TxStruct → TxOutputBinType → Bytes × List Nat
  /-- The bytes that `tx_prevout_hash` feeds to a context. -/
  tx_prevout_bytes : TxInputType → Bytes
  /-- The bytes that `tx_sequence_hash` feeds to a context. -/
  tx_sequence_bytes : TxInputType → Bytes
  /-- The bytes that `tx_output_hash` feeds to a context. -/
  tx_output_bytes : TxOutputBinType → Bytes
  transactionEstimateSizeKb : Nat → Nat → Nat
  /-- The user's answer to `confirm(type, title, "%s", coin_amnt_to_str(amount))`. -/
  confirm : ButtonRequestType → String → Nat → Bool
  /-- The user's answer to `confirm_transaction` for the two rendered amounts. -/
  confirm_transaction : Nat → Nat → Bool
  /-- Status (zero on failure) and the node after derivation. -/
  hdnode_private_ckd_cached : HDNode → List Nat → Nat → Nat × HDNode
  hdnode_fill_public_key : HDNode → HDNode
  compile_script_multisig : MultisigRedeemScriptType → Bytes
  ecdsa_get_pubkeyhash : Bytes → Bytes
  compile_script_sig : Nat → Bytes → Bytes
  /-- The 64-byte signature of a digest under a private key. -/
  ecdsa_sign_digest : Bytes → Bytes → Bytes
  ecdsa_sig_to_der : Bytes → Bytes
  serialize_script_multisig : MultisigRedeemScriptType → Bytes
  serialize_script_sig : Bytes → Bytes → Nat → Bytes

/-! ## Module state -/

/-- The object the parser's `ptr` points into. -/
inductive PtrTarget
  | unset
  | version
  | current_output_val
  | lock_time
  deriving DecidableEq, Repr

/-- The module-scope variables of `signing.c`, the function-scope statics of
`parse_raw_txack`, the exchange error kept by the exchange module, and the log of
outbound effects. -/
structure State where
  inputs_count : Nat
  outputs_count : Nat
  coin : CoinType
  root : HDNode
  node : HDNode
  signing : Bool
  idx1 : Nat
  idx2 : Nat
  resp : TxRequest
  input : TxInputType
  bin_output : TxOutputBinType
  to_tx : TxStruct
  transaction_previous : TxStruct
  ti : TxStruct
  transaction_current : Bytes
  hash : Bytes
  hash_check : Bytes
  privkey : Bytes
  pubkey : Bytes
  sig : Bytes
  to_spend : Nat
  spending : Nat
  change_spend : Nat
  multisig_fp_set : Bool
  multisig_fp_mismatch : Bool
  hash_prevouts : Bytes
  hash_sequence : Bytes
  hash_outputs : Bytes
  hashers0 : Bytes
  hashers1 : Bytes
  hashers2 : Bytes
  multisig_fp : Bytes
  signing_stage : Stage
  version : Nat
  lock_time : Nat
  raw_tx_status : RawTxStatus
  state_pos : Int
  ptr : PtrTarget
  ptr_off : Nat
  var_int_buffer : Bytes
  var_int_buffer_index : Nat
  seen : Nat
  script_len : Nat
  current_output_val : Nat
  /-- Number of byte stores that fell outside the object or buffer they were aimed at. -/
  stray_writes : Nat
  exchange_error : ExchangeError
  log : List Event
  deriving DecidableEq, Repr

/-! ## Small helpers for C idioms -/

/-- The four bytes of a `uint32_t` in memory (little-endian target). -/
def le32 (v : Nat) : Bytes :=
  [v % 256, v / 256 % 256, v / 65536 % 256, v / 16777216 % 256]

/-- The eight bytes of a `uint64_t` in memory (little-endian target). -/
def le64 (v : Nat) : Bytes :=
  le32 (v % 4294967296) ++ le32 (v / 4294967296 % 4294967296)

/-- The value of an object after the byte at offset `k` has been overwritten by `b`. -/
def setByte (v k b : Nat) : Nat :=
  v - (v / 256 ^ k % 256) * 256 ^ k + (b % 256) * 256 ^ k

/-- Conversion of a `uint32_t` value to `int32_t`. -/
def toInt32 (v : Nat) : Int :=
  if v % 2 ^ 32 < 2 ^ 31 then ((v % 2 ^ 32 : Nat) : Int) else ((v % 2 ^ 32 : Nat) : Int) - 2 ^ 32

/-- Whether `memcmp(a, b, 32) != 0`. -/
def memcmp32_ne (a b : Bytes) : Bool :=
  decide (a.take 32 ≠ b.take 32)

/-- An all-zero `TxRequest` (`memset(&resp, 0, sizeof(TxRequest))`). -/
def TxRequest.zero : TxRequest :=
  { has_request_type := false, request_type := RequestType.TXINPUT, has_details := false,
    has_request_index := false, request_index := 0, has_tx_hash := false, tx_hash := [],
    has_serialized := false,
    serialized := { has_signature_index := false, signature_index := 0,
                    has_signature := false, signature := [],
                    has_serialized_tx := false, serialized_tx := [] } }

/-- An all-zero `TxInputType` (`memset(&input, 0, sizeof(TxInputType))`). -/
def TxInputType.zero : TxInputType :=
  { address_n := [], address_n_count := 0, prev_hash := List.replicate 32 0,
    prev_hash_size := 0, prev_index := 0, script_sig := [], has_sequence := false,
    sequence := 0, script_type := InputScriptType.SPENDADDRESS, has_multisig := false,
    multisig := { descriptor := [], signatures := [] }, has_amount := false, amount := 0 }

/-- The constant `VAR_INT_BUFFER`. Modelled from the spec: the constant is declared outside
`signing.c`; the spec gives the varint accumulator as `var_int_buffer[9]`. -/
def VAR_INT_BUFFER : Nat := 9

/-- The value `n - 1` computed in `uint32_t` arithmetic. -/
def dec32 (n : Nat) : Nat :=
  (n + (2 ^ 32 - 1)) % 2 ^ 32

/-- The value `a + b` computed in `uint64_t` arithmetic. -/
def add64 (a b : Nat) : Nat :=
  (a + b) % 2 ^ 64

/-- The value `a - b` computed in `uint64_t` arithmetic. -/
def sub64 (a b : Nat) : Nat :=
  (a % 2 ^ 64 + (2 ^ 64 - b % 2 ^ 64)) % 2 ^ 64

/-- The call `fsm_sendFailure(code, text)`. -/
def fsm_sendFailure (code : FailureType) (text : String) (s : State) : State :=
  { s with log := s.log ++ [Event.failure code text] }

/-- The call `msg_write(MessageType_MessageType_TxRequest, &resp)`. -/
def msg_write (s : State) : State :=
  { s with log := s.log ++ [Event.tx_request s.resp] }

/-- The call `go_home()`. -/
def go_home (s : State) : State :=
  { s with log := s.log ++ [Event.go_home] }

/-- Modelled from the spec: `tx_init` is defined outside `signing.c`. It stores the counts,
version and lock time it is given and opens a fresh hash context (spec 4.5, step 2). -/
def tx_init (inputs_len outputs_len version lock_time : Nat) (add_hash_type : Bool) :
    TxStruct :=
  { inputs_len := inputs_len, outputs_len := outputs_len, version := version,
    lock_time := lock_time, add_hash_type := add_hash_type, ctx := [], book := [] }

/-- Modelled from the spec: the varint encoding of a length, defined outside `signing.c`
(spec 4.3: prefix below 0xFD one byte, 0xFD two more bytes, 0xFE four more bytes). -/
def ser_length (n : Nat) : Bytes :=
  if n < 253 then [n]
  else if n < 65536 then [253, n % 256, n / 256 % 256]
  else 254 :: le32 n

/-- Modelled from the spec: `deser_length` is defined outside `signing.c`. It returns the
number of bytes the varint at the start of the buffer occupies, decided by its prefix
byte (spec 4.3), and the value read from the bytes that follow the prefix, as far as it
fits the 32-bit result. -/
def deser_length (buf : Bytes) : Nat × Nat :=
  let b (i : Nat) : Nat := buf.getD i 0
  if b 0 < 253 then (1, b 0)
  else if b 0 = 253 then (3, b 1 + b 2 * 256)
  else if b 0 = 254 then (5, b 1 + b 2 * 256 + b 3 * 65536 + b 4 * 16777216)
  else (9, b 1 + b 2 * 256 + b 3 * 65536 + b 4 * 16777216)

/-- The function `tx_script_hash`. Modelled from the spec: defined outside `signing.c`; it
feeds the script bytes prefixed by their varint length (spec 4.6). -/
def tx_script_hash (ctx : Bytes) (data : Bytes) : Bytes :=
  ctx ++ ser_length data.length ++ data

/-! ## `signing.c`, function by function -/

/-- The function `send_fsm_co_error_message`. -/
def send_fsm_co_error_message (env : Env) (co_error : Int) (s : State) : State :=
  if co_error = env.TXOUT_COMPILE_ERROR then
    fsm_sendFailure FailureType.Failure_Other "Failed to compile output" s
  else if co_error = env.TXOUT_CANCEL then
    fsm_sendFailure FailureType.Failure_ActionCancelled "Transaction cancelled" s
  else if co_error = env.TXOUT_EXCHANGE_CONTRACT_ERROR then
    match s.exchange_error with
    | ExchangeError.ERROR_EXCHANGE_SIGNATURE =>
        fsm_sendFailure FailureType.Failure_Other "Exchange signature error" s
    | ExchangeError.ERROR_EXCHANGE_DEPOSIT_COINTYPE =>
        fsm_sendFailure FailureType.Failure_Other "Exchange deposit coin type error" s
    | ExchangeError.ERROR_EXCHANGE_DEPOSIT_ADDRESS =>
        fsm_sendFailure FailureType.Failure_Other "Exchange deposit address error" s
    | ExchangeError.ERROR_EXCHANGE_DEPOSIT_AMOUNT =>
        fsm_sendFailure FailureType.Failure_Other "Exchange deposit amount error" s
    | ExchangeError.ERROR_EXCHANGE_WITHDRAWAL_COINTYPE =>
        fsm_sendFailure FailureType.Failure_Other "Exchange withdrawal coin type error" s
    | ExchangeError.ERROR_EXCHANGE_WITHDRAWAL_ADDRESS =>
        fsm_sendFailure FailureType.Failure_Other "Exchange withdrawal address error" s
    | ExchangeError.ERROR_EXCHANGE_WITHDRAWAL_AMOUNT =>
        fsm_sendFailure FailureType.Failure_Other "Exchange withdrawal amount error" s
    | ExchangeError.ERROR_EXCHANGE_RETURN_COINTYPE =>
        fsm_sendFailure FailureType.Failure_Other "Exchange return coin type error" s
    | ExchangeError.ERROR_EXCHANGE_RETURN_ADDRESS =>
        fsm_sendFailure FailureType.Failure_Other "Exchange return address error" s
    | ExchangeError.ERROR_EXCHANGE_API_KEY =>
        fsm_sendFailure FailureType.Failure_Other "Exchange api key error" s
    | ExchangeError.ERROR_EXCHANGE_CANCEL =>
        fsm_sendFailure FailureType.Failure_ActionCancelled "Exchange transaction cancelled" s
    | ExchangeError.ERROR_EXCHANGE_RESPONSE_STRUCTURE =>
        fsm_sendFailure FailureType.Failure_Other "Obsolete Response structure error" s
    | ExchangeError.NO_EXCHANGE_ERROR => s
    | ExchangeError.other _ => s
  else
    fsm_sendFailure FailureType.Failure_Other "Unknown TxOut compilation error" s

/-- The function `check_valid_output_address`. -/
def check_valid_output_address (tx_out : TxOutputType) : Bool :=
  match tx_out.address_type with
  | OutputAddressType.SPEND => tx_out.has_address
  | OutputAddressType.TRANSFER => decide (tx_out.address_n_count > 0)
  | OutputAddressType.CHANGE => decide (tx_out.address_n_count > 0)
  | OutputAddressType.EXCHANGE => tx_out.has_exchange_type
  | OutputAddressType.other _ => false

/-- The function `reset_parsing_buffer`, applied to the parser's own buffer and index. -/
def reset_parsing_buffer (s : State) : State :=
  { s with var_int_buffer := List.replicate VAR_INT_BUFFER 0, var_int_buffer_index := 0 }

/-- The function `send_req_1_input`. -/
def send_req_1_input (s : State) : State :=
  msg_write { s with
    signing_stage := Stage.STAGE_REQUEST_1_INPUT,
    resp := { s.resp with has_request_type := true, request_type := RequestType.TXINPUT,
                          has_details := true, has_request_index := true,
                          request_index := s.idx1 } }

/-- The function `send_req_2_prev_meta`. -/
def send_req_2_prev_meta (s : State) : State :=
  msg_write { s with
    signing_stage := Stage.STAGE_REQUEST_2_PREV_META,
    resp := { s.resp with has_request_type := true, request_type := RequestType.TXMETA,
                          has_details := true, has_tx_hash := true,
                          tx_hash := s.input.prev_hash.take s.input.prev_hash_size } }

/-- The function `send_req_2_prev_input`. -/
def send_req_2_prev_input (s : State) : State :=
  msg_write { s with
    signing_stage := Stage.STAGE_REQUEST_2_PREV_INPUT,
    resp := { s.resp with has_request_type := true, request_type := RequestType.TXINPUT,
                          has_details := true, has_request_index := true,
                          request_index := s.idx2, has_tx_hash := true,
                          tx_hash := s.input.prev_hash.take s.input.prev_hash_size } }

/-- The function `send_req_2_prev_output`. -/
def send_req_2_prev_output (s : State) : State :=
  msg_write { s with
    signing_stage := Stage.STAGE_REQUEST_2_PREV_OUTPUT,
    resp := { s.resp with has_request_type := true, request_type := RequestType.TXOUTPUT,
                          has_details := true, has_request_index := true,
                          request_index := s.idx2, has_tx_hash := true,
                          tx_hash := s.input.prev_hash.take s.input.prev_hash_size } }

/-- The function `send_req_3_output`. -/
def send_req_3_output (s : State) : State :=
  msg_write { s with
    signing_stage := Stage.STAGE_REQUEST_3_OUTPUT,
    resp := { s.resp with has_request_type := true, request_type := RequestType.TXOUTPUT,
                          has_details := true, has_request_index := true,
                          request_index := s.idx1 } }

/-- The function `send_req_4_input`. -/
def send_req_4_input (s : State) : State :=
  msg_write { s with
    signing_stage := Stage.STAGE_REQUEST_4_INPUT,
    resp := { s.resp with has_request_type := true, request_type := RequestType.TXINPUT,
                          has_details := true, has_request_index := true,
                          request_index := s.idx2 } }

/-- The function `send_req_4_output`. -/
def send_req_4_output (s : State) : State :=
  msg_write { s with
    signing_stage := Stage.STAGE_REQUEST_4_OUTPUT,
    resp := { s.resp with has_request_type := true, request_type := RequestType.TXOUTPUT,
                          has_details := true, has_request_index := true,
                          request_index := s.idx2 } }

/-- The function `send_req_5_output`. -/
def send_req_5_output (s : State) : State :=
  msg_write { s with
    signing_stage := Stage.STAGE_REQUEST_5_OUTPUT,
    resp := { s.resp with has_request_type := true, request_type := RequestType.TXOUTPUT,
                          has_details := true, has_request_index := true,
                          request_index := s.idx1 } }

/-- The function `send_req_finished`. -/
def send_req_finished (s : State) : State :=
  msg_write { s with
    resp := { s.resp with has_request_type := true,
                          request_type := RequestType.TXFINISHED } }

/-- The function `signing_abort`. -/
def signing_abort (s : State) : State :=
  if s.signing then { go_home s with signing := false } else s

/-- The byte string fed to `transaction_current` right after `sha256_Init`: the memory of
`inputs_count`, `outputs_count`, `version` and `lock_time`. -/
def commit_header (inputs_count outputs_count version lock_time : Nat) : Bytes :=
  le32 inputs_count ++ le32 outputs_count ++ le32 version ++ le32 lock_time

/-- The function `signing_init`; `s` holds the values the module variables had before. -/
def signing_init (_inputs_count _outputs_count : Nat) (_coin : CoinType) (_root : HDNode)
    (_version _lock_time : Nat) (s : State) : State :=
  let s : State := { s with
    inputs_count := _inputs_count, outputs_count := _outputs_count, coin := _coin,
    root := _root, version := _version, lock_time := _lock_time,
    idx1 := 0, to_spend := 0, spending := 0, change_spend := 0,
    input := TxInputType.zero, resp := TxRequest.zero,
    signing := true,
    multisig_fp_set := false, multisig_fp_mismatch := false,
    to_tx := tx_init _inputs_count _outputs_count _version _lock_time false,
    transaction_current := commit_header _inputs_count _outputs_count _version _lock_time,
    hashers0 := [], hashers1 := [], hashers2 := [],
    raw_tx_status := RawTxStatus.NOT_PARSING }
  let s := send_req_1_input s
  { s with exchange_error := ExchangeError.NO_EXCHANGE_ERROR }

/-- The function `compile_input_script_sig`: its return value, the module state after it
(only `node` can change) and the input record it was given, after it. -/
def compile_input_script_sig (env : Env) (s : State) (tinput : TxInputType) :
    Bool × State × TxInputType :=
  if !s.multisig_fp_mismatch &&
      (decide (tinput.script_type ≠ InputScriptType.SPENDMULTISIG)
        || decide ((env.cryptoMultisigFingerprint tinput.multisig).1 = 0)
        || memcmp32_ne s.multisig_fp (env.cryptoMultisigFingerprint tinput.multisig).2) then
    (false, s, tinput)
  else
    let r := env.hdnode_private_ckd_cached s.root tinput.address_n tinput.address_n_count
    if r.1 = 0 then
      (false, { s with node := r.2 }, tinput)
    else
      let node := env.hdnode_fill_public_key r.2
      let script :=
        if tinput.has_multisig then env.compile_script_multisig tinput.multisig
        else env.compile_script_sig s.coin.address_type (env.ecdsa_get_pubkeyhash node.public_key)
      (decide (script.length > 0), { s with node := node }, { tinput with script_sig := script })

/-- The byte string that `signing_hash_bip143` feeds to its hash context, in order. -/
def bip143_preimage (env : Env) (s : State) (txinput : TxInputType) (sighash forkid : Nat) :
    Bytes :=
  let hash_type := (forkid * 256 % 2 ^ 32) ||| sighash
  tx_script_hash
      (le32 s.version ++ s.hash_prevouts.take 32 ++ s.hash_sequence.take 32
        ++ env.tx_prevout_bytes txinput)
      txinput.script_sig
    ++ le64 txinput.amount ++ env.tx_sequence_bytes txinput ++ s.hash_outputs.take 32
    ++ le32 s.lock_time ++ le32 hash_type

/-- The function `signing_hash_bip143`: the 32 bytes it leaves in `xhash`. -/
def signing_hash_bip143 (env : Env) (s : State) (txinput : TxInputType) (sighash forkid : Nat) :
    Bytes :=
  env.sha256 ((env.sha256 (bip143_preimage env s txinput sighash forkid)).take 32)

/-! ### `parse_raw_txack` -/

/-- The statement `*ptr++ = msg[i]`. -/
def store_ptr (s : State) (b : Nat) : State :=
  let s1 : State :=
    match s.ptr with
    | PtrTarget.version =>
        if s.ptr_off < 4 then
          { s with transaction_previous := { s.transaction_previous with
              version := setByte s.transaction_previous.version s.ptr_off b } }
        else { s with stray_writes := s.stray_writes + 1 }
    | PtrTarget.current_output_val =>
        if s.ptr_off < 8 then
          { s with current_output_val := setByte s.current_output_val s.ptr_off b }
        else { s with stray_writes := s.stray_writes + 1 }
    | PtrTarget.lock_time =>
        if s.ptr_off < 4 then
          { s with transaction_previous := { s.transaction_previous with
              lock_time := setByte s.transaction_previous.lock_time s.ptr_off b } }
        else { s with stray_writes := s.stray_writes + 1 }
    | PtrTarget.unset => { s with stray_writes := s.stray_writes + 1 }
  { s1 with ptr_off := s.ptr_off + 1 }

/-- The statement `var_int_buffer[var_int_buffer_index++] = msg[i]`. -/
def push_var_int (s : State) (b : Nat) : State :=
  let s1 : State :=
    if s.var_int_buffer_index < VAR_INT_BUFFER then
      { s with var_int_buffer := s.var_int_buffer.set s.var_int_buffer_index (b % 256) }
    else { s with stray_writes := s.stray_writes + 1 }
  { s1 with var_int_buffer_index := (s.var_int_buffer_index + 1) % 256 }

/-- The statement `sha256_Update(&(transaction_previous.ctx), msg + i, 1)`. -/
def hash_raw_byte (s : State) (b : Nat) : State :=
  { s with transaction_previous := { s.transaction_previous with
      ctx := s.transaction_previous.ctx ++ [b] } }

/-- The body of `case PARSING_VERSION` up to its `break`. -/
def parsing_version (s : State) (b : Nat) : State :=
  let s := store_ptr s b
  if s.state_pos = 1 then
    reset_parsing_buffer { s with raw_tx_status := RawTxStatus.PARSING_INPUT_COUNT }
  else s

/-- The body of `case PARSING_INPUT_COUNT`. -/
def parsing_input_count (s : State) (b : Nat) : State :=
  let s := push_var_int s b
  let d := deser_length s.var_int_buffer
  let s : State := { s with transaction_previous := { s.transaction_previous with
                       inputs_len := d.2 } }
  if s.var_int_buffer_index ≥ d.1 then
    reset_parsing_buffer { s with raw_tx_status := RawTxStatus.PARSING_INPUTS,
                                  state_pos := 36, seen := 0 }
  else s

/-- The body of `case PARSING_INPUTS`. -/
def parsing_inputs (s : State) (b : Nat) : State :=
  if s.state_pos < 0 ∧ s.seen < s.transaction_previous.inputs_len then
    let s := push_var_int s b
    let d := deser_length s.var_int_buffer
    let s : State := { s with script_len := d.2 }
    if s.var_int_buffer_index ≥ d.1 then
      let seen := s.seen + 1
      let state_pos :=
        if seen < s.transaction_previous.inputs_len then toInt32 (s.script_len + 4 + 36)
        else toInt32 (s.script_len + 3)
      reset_parsing_buffer { s with seen := seen, state_pos := state_pos, script_len := 0 }
    else s
  else if s.state_pos < 0 then
    { s with raw_tx_status := RawTxStatus.PARSING_OUTPUT_COUNT }
  else s

/-- The body of `case PARSING_OUTPUT_COUNT`. -/
def parsing_output_count (s : State) (b : Nat) : State :=
  let s := push_var_int s b
  let d := deser_length s.var_int_buffer
  let s : State := { s with transaction_previous := { s.transaction_previous with
                       outputs_len := d.2 } }
  if s.var_int_buffer_index ≥ d.1 then
    reset_parsing_buffer { s with raw_tx_status := RawTxStatus.PARSING_OUTPUTS_VALUE,
                                  state_pos := 8, seen := 0, current_output_val := 0,
                                  ptr := PtrTarget.current_output_val, ptr_off := 0 }
  else s

/-- The body of `case PARSING_OUTPUTS_VALUE`. -/
def parsing_outputs_value (s : State) (b : Nat) : State :=
  if s.state_pos < 8 then
    let s := store_ptr s b
    if s.state_pos < 1 then
      let s : State :=
        if s.seen = s.input.prev_index then
          { s with to_spend := add64 s.to_spend s.current_output_val }
        else s
      reset_parsing_buffer { s with raw_tx_status := RawTxStatus.PARSING_OUTPUTS,
                                    script_len := 0 }
    else s
  else s

/-- The body of `case PARSING_OUTPUTS`. -/
def parsing_outputs (s : State) (b : Nat) : State :=
  if s.state_pos < 0 ∧ s.seen < s.transaction_previous.outputs_len then
    let s := push_var_int s b
    let d := deser_length s.var_int_buffer
    let s : State := { s with script_len := d.2 }
    if s.var_int_buffer_index ≥ d.1 then
      let s : State := { s with seen := s.seen + 1 }
      if s.seen < s.transaction_previous.outputs_len then
        { s with current_output_val := 0, ptr := PtrTarget.current_output_val, ptr_off := 0,
                 raw_tx_status := RawTxStatus.PARSING_OUTPUTS_VALUE,
                 state_pos := toInt32 (s.script_len + 8) }
      else
        { s with state_pos := toInt32 (s.script_len + (2 ^ 32 - 1)) }
    else s
  else if s.state_pos < 0 then
    reset_parsing_buffer { s with raw_tx_status := RawTxStatus.PARSING_LOCKTIME,
                                  state_pos := 4, ptr := PtrTarget.lock_time, ptr_off := 0 }
  else s

/-- The body of `case PARSING_LOCKTIME`; the flag tells whether the function returned. -/
def parsing_locktime (env : Env) (s : State) (b : Nat) : State × Bool :=
  let s := if s.state_pos ≥ 0 then store_ptr s b else s
  if s.state_pos < 1 then
    let s : State := { s with raw_tx_status := RawTxStatus.NOT_PARSING, resp := TxRequest.zero }
    let s := hash_raw_byte s b
    let s : State := { s with hash := env.tx_hash_final s.transaction_previous true }
    if memcmp32_ne s.hash s.input.prev_hash then
      (signing_abort (fsm_sendFailure FailureType.Failure_Other
        "Encountered invalid prevhash" s), true)
    else if s.idx1 < dec32 s.inputs_count then
      (send_req_1_input { s with idx1 := s.idx1 + 1 }, true)
    else
      (send_req_3_output { s with idx1 := 0 }, true)
  else (s, false)

/-- One iteration of the `for` loop of `parse_raw_txack` on the byte `b`; the flag tells
whether the function returned from inside the loop. The decrement of the signed counter
`state_pos` is not wrapped: `state_pos` is an unbounded integer here and an `int32_t` in
the source, where a decrement below `-2^31` is undefined; the two agree as long as
`state_pos` stays at or above `-2^31`. -/
def parse_raw_byte (env : Env) (s0 : State) (b : Nat) : State × Bool :=
  let s : State := { s0 with state_pos := s0.state_pos - 1 }
  match s.raw_tx_status with
  | RawTxStatus.NOT_PARSING =>
      let s : State := { s with transaction_previous := tx_init 0 0 0 0 false,
                                state_pos := 4,
                                raw_tx_status := RawTxStatus.PARSING_VERSION,
                                ptr := PtrTarget.version, ptr_off := 0 }
      (hash_raw_byte (parsing_version s b) b, false)
  | RawTxStatus.PARSING_VERSION => (hash_raw_byte (parsing_version s b) b, false)
  | RawTxStatus.PARSING_INPUT_COUNT => (hash_raw_byte (parsing_input_count s b) b, false)
  | RawTxStatus.PARSING_INPUTS => (hash_raw_byte (parsing_inputs s b) b, false)
  | RawTxStatus.PARSING_OUTPUT_COUNT => (hash_raw_byte (parsing_output_count s b) b, false)
  | RawTxStatus.PARSING_OUTPUTS_VALUE => (hash_raw_byte (parsing_outputs_value s b) b, false)
  | RawTxStatus.PARSING_OUTPUTS => (hash_raw_byte (parsing_outputs s b) b, false)
  | RawTxStatus.PARSING_LOCKTIME =>
      let r := parsing_locktime env s b
      if r.2 then r else (hash_raw_byte r.1 b, false)

/-- The function `parse_raw_txack` on the `msg_size` bytes of `msg`. -/
def parse_raw_txack (env : Env) (s : State) : Bytes → State
  | [] => s
  | b :: rest =>
      let r := parse_raw_byte env s b
      if r.2 then r.1 else parse_raw_txack env r.1 rest

/-! ### `signing_txack` -/

/-- The call `tx_serialize_input_hash(t, input)`: return value and serialiser after it. -/
def tx_serialize_input_hash (env : Env) (t : TxStruct) (input : TxInputType) :
    Nat × TxStruct :=
  let r := env.tx_serialize_input_hash t input
  (r.1, { t with ctx := t.ctx ++ r.2.1, book := r.2.2 })

/-- The call `tx_serialize_output_hash(t, output)`: return value and serialiser after it. -/
def tx_serialize_output_hash (env : Env) (t : TxStruct) (output : TxOutputBinType) :
    Nat × TxStruct :=
  let r := env.tx_serialize_output_hash t output
  (r.1, { t with ctx := t.ctx ++ r.2.1, book := r.2.2 })

/-- A failure followed by `signing_abort()`. -/
def fail_abort (code : FailureType) (text : String) (s : State) : State :=
  signing_abort (fsm_sendFailure code text s)

/-- The multisig fingerprint bookkeeping at the head of `case STAGE_REQUEST_1_INPUT`; the
flag is false when `cryptoMultisigFingerprint` reported an error. -/
def input_multisig_fp (env : Env) (s : State) (txinput : TxInputType) : Bool × State :=
  if txinput.script_type = InputScriptType.SPENDMULTISIG then
    if txinput.has_multisig && !s.multisig_fp_mismatch then
      let fp := env.cryptoMultisigFingerprint txinput.multisig
      if s.multisig_fp_set then
        if fp.1 = 0 then (false, s)
        else if memcmp32_ne s.multisig_fp fp.2 then
          (true, { s with multisig_fp_mismatch := true })
        else (true, s)
      else
        if fp.1 = 0 then (false, { s with multisig_fp := fp.2 })
        else (true, { s with multisig_fp := fp.2, multisig_fp_set := true })
    else (true, s)
  else (true, { s with multisig_fp_mismatch := true })

/-- The body of `case STAGE_REQUEST_1_INPUT`. -/
def txack_request_1_input (env : Env) (s : State) (tx : TransactionType) : State :=
  let r := input_multisig_fp env s tx.inputs
  if !r.1 then
    fail_abort FailureType.Failure_Other "Error computing multisig fingeprint" r.2
  else
    let s := r.2
    let s : State := { s with
      transaction_current := s.transaction_current ++ env.bytes_TxInputType tx.inputs,
      input := tx.inputs,
      hashers0 := s.hashers0 ++ env.tx_prevout_bytes tx.inputs,
      hashers1 := s.hashers1 ++ env.tx_sequence_bytes tx.inputs,
      hashers2 := s.hashers2 ++ env.tx_prevout_bytes tx.inputs
                    ++ env.script_type_window tx.inputs }
    send_req_2_prev_meta s

/-- The body of `case STAGE_REQUEST_2_PREV_META`. -/
def txack_request_2_prev_meta (s : State) (tx : TransactionType) : State :=
  send_req_2_prev_input { s with
    transaction_previous := tx_init tx.inputs_cnt tx.outputs_cnt tx.version tx.lock_time false,
    idx2 := 0 }

/-- The body of `case STAGE_REQUEST_2_PREV_INPUT`. -/
def txack_request_2_prev_input (env : Env) (s : State) (tx : TransactionType) : State :=
  let r := tx_serialize_input_hash env s.transaction_previous tx.inputs
  let s : State := { s with transaction_previous := r.2 }
  if r.1 = 0 then
    fail_abort FailureType.Failure_Other "Failed to serialize input" s
  else if s.idx2 < dec32 s.transaction_previous.inputs_len then
    send_req_2_prev_input { s with idx2 := s.idx2 + 1 }
  else
    send_req_2_prev_output { s with idx2 := 0 }

/-- The body of `case STAGE_REQUEST_2_PREV_OUTPUT`. -/
def txack_request_2_prev_output (env : Env) (s : State) (tx : TransactionType) : State :=
  let r := tx_serialize_output_hash env s.transaction_previous tx.bin_outputs
  let s : State := { s with transaction_previous := r.2 }
  if r.1 = 0 then
    fail_abort FailureType.Failure_Other "Failed to serialize output" s
  else
    let s : State := { s with
      to_spend := if s.idx2 = s.input.prev_index then
                    add64 s.to_spend tx.bin_outputs.amount
                  else s.to_spend }
    if s.idx2 < dec32 s.transaction_previous.outputs_len then
      send_req_2_prev_output { s with idx2 := s.idx2 + 1 }
    else
      let s : State := { s with hash := env.tx_hash_final s.transaction_previous true }
      if memcmp32_ne s.hash s.input.prev_hash then
        fail_abort FailureType.Failure_Other "Encountered invalid prevhash" s
      else if s.idx1 < dec32 s.inputs_count then
        send_req_1_input { s with idx1 := s.idx1 + 1 }
      else
        let hp := env.sha256 s.hashers0
        let hs := env.sha256 s.hashers1
        send_req_3_output { s with
          hash_prevouts := env.sha256 (hp.take 32),
          hash_sequence := env.sha256 (hs.take 32),
          hash_check := env.sha256 s.hashers2,
          hashers0 := [],
          idx1 := 0, idx2 := 0 }

/-- The change test at the head of `case STAGE_REQUEST_3_OUTPUT`: an error when a failure is
sent instead (with its text), otherwise the value of `is_change`. -/
def output_is_change (env : Env) (s : State) (out : TxOutputType) : Except String Bool :=
  if out.script_type = OutputScriptType.PAYTOMULTISIG ∧ out.has_multisig = true ∧
      s.multisig_fp_set = true ∧ s.multisig_fp_mismatch = false then
    if (env.cryptoMultisigFingerprint out.multisig).1 = 0 then
      Except.error "Error computing multisig fingeprint"
    else
      Except.ok (!memcmp32_ne s.multisig_fp (env.cryptoMultisigFingerprint out.multisig).2)
  else if out.has_address_type then
    if check_valid_output_address out = false then
      Except.error "Invalid output address type"
    else
      Except.ok (decide (out.script_type = OutputScriptType.PAYTOADDRESS ∧
        out.address_n_count > 0 ∧ out.address_type = OutputAddressType.CHANGE))
  else
    Except.ok (decide (out.script_type = OutputScriptType.PAYTOADDRESS ∧
      out.address_n_count > 0))

/-- The call `run_policy_compile_output(coin, root, out, &bin_output, needs_confirm)`:
its return code and the state after it. -/
def run_policy_compile_output (env : Env) (s : State) (out : TxOutputType)
    (needs_confirm : Bool) : Int × State :=
  let r := env.run_policy_compile_output s.coin s.root out needs_confirm
  (r.1, { s with bin_output := r.2.1, exchange_error := r.2.2,
                 log := s.log ++ [Event.policy_compile_output out needs_confirm] })

/-- The right-hand side of the fee check, `(uint64_t)tx_est_size * coin->maxfee_kb`, with
`tx_est_size = transactionEstimateSizeKb(inputs_count, outputs_count)` a `uint32_t`. -/
def fee_threshold (env : Env) (inputs_count outputs_count maxfee_kb : Nat) : Nat :=
  env.transactionEstimateSizeKb inputs_count outputs_count % 2 ^ 32 * maxfee_kb % 2 ^ 64

/-- The `else` branch of `if (idx1 < outputs_count - 1)` in `case STAGE_REQUEST_3_OUTPUT`:
the fee check and the two confirmations. -/
def txack_confirmation_gate (env : Env) (s : State) : State :=
  let s : State := { s with hash_check := env.sha256 s.transaction_current }
  if s.spending > s.to_spend then
    fail_abort FailureType.Failure_NotEnoughFunds "Not enough funds" s
  else
    let fee := s.to_spend - s.spending
    let over :=
      decide (fee > fee_threshold env s.inputs_count s.outputs_count s.coin.maxfee_kb)
    let s1 : State := { s with
      log := if over then
               s.log ++ [Event.confirm
                 ButtonRequestType.ButtonRequest_FeeOverThreshold "Confirm Fee" fee]
             else s.log }
    if over && !env.confirm ButtonRequestType.ButtonRequest_FeeOverThreshold "Confirm Fee" fee
    then
      fail_abort FailureType.Failure_ActionCancelled
        "Fee over threshold. Signing cancelled." s1
    else
      let total := sub64 s1.to_spend s1.change_spend
      let s2 : State := { s1 with log := s1.log ++ [Event.confirm_transaction total fee] }
      if !env.confirm_transaction total fee then
        fail_abort FailureType.Failure_ActionCancelled "Signing cancelled by user" s2
      else
        let s3 : State := { s2 with
          log := s2.log ++ [Event.layout_simple_message "Signing Transaction..."],
          idx1 := 0, idx2 := 0,
          hash_outputs := env.sha256 ((env.sha256 s2.hashers0).take 32) }
        send_req_4_input s3

/-- The body of `case STAGE_REQUEST_3_OUTPUT`. -/
def txack_request_3_output (env : Env) (s : State) (tx : TransactionType) : State :=
  match output_is_change env s tx.outputs with
  | Except.error text => fail_abort FailureType.Failure_Other text s
  | Except.ok is_change =>
    if is_change && decide (s.change_spend ≠ 0) then
      fail_abort FailureType.Failure_Other "Only one change output allowed" s
    else
      let s : State := { s with
        change_spend := if is_change then tx.outputs.amount else s.change_spend }
      let r := run_policy_compile_output env s tx.outputs (!is_change)
      if r.1 ≤ env.TXOUT_COMPILE_ERROR then
        signing_abort (send_fsm_co_error_message env r.1 r.2)
      else
        let s := r.2
        let s : State := { s with
          spending := add64 s.spending tx.outputs.amount,
          transaction_current := s.transaction_current ++ env.bytes_TxOutputBinType s.bin_output,
          hashers0 := s.hashers0 ++ env.tx_output_bytes s.bin_output }
        if s.idx1 < dec32 s.outputs_count then
          send_req_3_output { s with idx1 := s.idx1 + 1 }
        else
          txack_confirmation_gate env s

/-- The constants `SIGHASH_ALL` and `SIGHASH_FORKID`. -/
def SIGHASH_ALL : Nat := 1

/-- See `SIGHASH_ALL`. -/
def SIGHASH_FORKID : Nat := 64

/-- The two statements that store a signature into slot `i` of the signature array. -/
def set_signature (sigs : List Bytes) (i : Nat) (v : Bytes) : List Bytes :=
  if i < sigs.length then sigs.set i v
  else sigs ++ List.replicate (i - sigs.length) [] ++ [v]

/-- The body of `case STAGE_REQUEST_4_INPUT`. -/
def txack_request_4_input (env : Env) (s : State) (tx : TransactionType) : State :=
  let s : State := { s with
    ti := if s.idx2 = 0 then
            tx_init s.inputs_count s.outputs_count s.version s.lock_time true
          else s.ti,
    transaction_current :=
      if s.idx2 = 0 then commit_header s.inputs_count s.outputs_count s.version s.lock_time
      else s.transaction_current,
    privkey := if s.idx2 = 0 then List.replicate 32 0 else s.privkey,
    pubkey := if s.idx2 = 0 then List.replicate 33 0 else s.pubkey }
  let s : State := { s with
    transaction_current := s.transaction_current ++ env.bytes_TxInputType tx.inputs }
  if s.idx2 = s.idx1 then
    let s : State := { s with input := tx.inputs }
    let c := compile_input_script_sig env s tx.inputs
    let s := c.2.1
    let txinput := c.2.2
    if txinput.script_sig.length = 0 then
      fail_abort FailureType.Failure_Other "Failed to compile input" s
    else
      let s : State := { s with privkey := s.node.private_key.take 32,
                                pubkey := s.node.public_key.take 33 }
      let r := tx_serialize_input_hash env s.ti txinput
      let s : State := { s with ti := r.2 }
      if r.1 = 0 then
        fail_abort FailureType.Failure_Other "Failed to serialize input" s
      else if s.idx2 < dec32 s.inputs_count then
        send_req_4_input { s with idx2 := s.idx2 + 1 }
      else
        send_req_4_output { s with idx2 := 0 }
  else
    let txinput : TxInputType := { tx.inputs with script_sig := [] }
    let r := tx_serialize_input_hash env s.ti txinput
    let s : State := { s with ti := r.2 }
    if r.1 = 0 then
      fail_abort FailureType.Failure_Other "Failed to serialize input" s
    else if s.idx2 < dec32 s.inputs_count then
      send_req_4_input { s with idx2 := s.idx2 + 1 }
    else
      send_req_4_output { s with idx2 := 0 }

/-- The tail of `case STAGE_REQUEST_4_OUTPUT` from `tx_hash_final(&ti, hash, false)` on:
sign the digest, build the script, serialise the input and request what comes next. -/
def txack_sign_input (env : Env) (s : State) (sighash : Nat) : State :=
  let s : State := { s with hash := env.tx_hash_final s.ti false }
  let s : State := { s with sig := env.ecdsa_sign_digest s.privkey s.hash }
  let s : State := { s with resp := { s.resp with
    has_serialized := true,
    serialized := { s.resp.serialized with
      has_signature_index := true, signature_index := s.idx1,
      has_signature := true, has_serialized_tx := true,
      signature := env.ecdsa_sig_to_der s.sig } } }
  let finish (s : State) : State :=
    let r := env.tx_serialize_input s.to_tx s.input
    let s : State := { s with
      to_tx := { s.to_tx with book := r.2 },
      resp := { s.resp with serialized := { s.resp.serialized with serialized_tx := r.1 } } }
    if s.idx1 < dec32 s.inputs_count then
      send_req_4_input { s with idx1 := s.idx1 + 1, idx2 := 0 }
    else
      send_req_5_output { s with idx1 := 0 }
  if s.input.script_type = InputScriptType.SPENDMULTISIG then
    if !s.input.has_multisig then
      fail_abort FailureType.Failure_Other "Multisig info not provided" s
    else
      let pubkey_idx := env.cryptoMultisigPubkeyIndex s.input.multisig s.pubkey
      if pubkey_idx < 0 then
        fail_abort FailureType.Failure_Other "Pubkey not found in multisig script" s
      else
        let m : MultisigRedeemScriptType := { s.input.multisig with
          signatures := set_signature s.input.multisig.signatures pubkey_idx.toNat
                          s.resp.serialized.signature }
        let s : State := { s with input := { s.input with
          multisig := m, script_sig := env.serialize_script_multisig m } }
        if s.input.script_sig.length = 0 then
          fail_abort FailureType.Failure_Other "Failed to serialize multisig script" s
        else finish s
  else
    finish { s with input := { s.input with
      script_sig := env.serialize_script_sig s.resp.serialized.signature s.pubkey sighash } }

/-- The `else` branch of `if (idx2 < outputs_count - 1)` in `case STAGE_REQUEST_4_OUTPUT`. -/
def txack_finish_inner_sweep (env : Env) (s : State) : State :=
  if s.coin.has_forkid then
    let c := compile_input_script_sig env s s.input
    let s : State := { c.2.1 with input := c.2.2 }
    if !c.1 then
      fail_abort FailureType.Failure_Other "Processor Error: Failed to compile input" s
    else if !s.input.has_amount then
      fail_abort FailureType.Failure_Other
        "Data Error: SIGHASH_FORKID input without amount" s
    else if s.input.amount > s.to_spend then
      fail_abort FailureType.Failure_Other
        "Data Error: Transaction has changed during signing" s
    else
      let s : State := { s with to_spend := s.to_spend - s.input.amount }
      let sighash := SIGHASH_ALL ||| SIGHASH_FORKID
      let s : State := { s with
        hash := signing_hash_bip143 env s s.input sighash s.coin.forkid }
      if memcmp32_ne s.hash s.hash_check then
        fail_abort FailureType.Failure_Other "Transaction has changed during signing" s
      else txack_sign_input env s sighash
  else
    let s : State := { s with hash := env.sha256 s.transaction_current }
    if memcmp32_ne s.hash s.hash_check then
      fail_abort FailureType.Failure_Other "Transaction has changed during signing" s
    else txack_sign_input env s SIGHASH_ALL

/-- The body of `case STAGE_REQUEST_4_OUTPUT`. -/
def txack_request_4_output (env : Env) (s : State) (tx : TransactionType) : State :=
  let r := run_policy_compile_output env s tx.outputs false
  if r.1 ≤ env.TXOUT_COMPILE_ERROR then
    signing_abort (send_fsm_co_error_message env r.1 r.2)
  else
    let s := r.2
    let s : State := { s with
      transaction_current := s.transaction_current ++ env.bytes_TxOutputBinType s.bin_output }
    let t := tx_serialize_output_hash env s.ti s.bin_output
    let s : State := { s with ti := t.2 }
    if t.1 = 0 then
      fail_abort FailureType.Failure_Other "Failed to serialize output" s
    else if s.idx2 < dec32 s.outputs_count then
      send_req_4_output { s with idx2 := s.idx2 + 1 }
    else
      txack_finish_inner_sweep env s

/-- The body of `case STAGE_REQUEST_5_OUTPUT`. -/
def txack_request_5_output (env : Env) (s : State) (tx : TransactionType) : State :=
  let r := run_policy_compile_output env s tx.outputs false
  if r.1 ≤ env.TXOUT_COMPILE_ERROR then
    signing_abort (send_fsm_co_error_message env r.1 r.2)
  else
    let s := r.2
    let o := env.tx_serialize_output s.to_tx s.bin_output
    let s : State := { s with
      to_tx := { s.to_tx with book := o.2 },
      resp := { s.resp with
        has_serialized := true,
        serialized := { s.resp.serialized with has_serialized_tx := true,
                                               serialized_tx := o.1 } } }
    if s.idx1 < dec32 s.outputs_count then
      send_req_5_output { s with idx1 := s.idx1 + 1 }
    else
      signing_abort (send_req_finished s)

/-- The function `signing_txack`. The statements after the `switch` are unreachable here,
since `Stage` has exactly the eight enumerators. -/
def signing_txack (env : Env) (s : State) (tx : TransactionType) : State :=
  if !s.signing then
    go_home (fsm_sendFailure FailureType.Failure_UnexpectedMessage "Not in Signing mode" s)
  else
    match s.signing_stage with
    | Stage.STAGE_REQUEST_1_INPUT =>
        txack_request_1_input env { s with resp := TxRequest.zero } tx
    | Stage.STAGE_REQUEST_2_PREV_META =>
        txack_request_2_prev_meta { s with resp := TxRequest.zero } tx
    | Stage.STAGE_REQUEST_2_PREV_INPUT =>
        txack_request_2_prev_input env { s with resp := TxRequest.zero } tx
    | Stage.STAGE_REQUEST_2_PREV_OUTPUT =>
        txack_request_2_prev_output env { s with resp := TxRequest.zero } tx
    | Stage.STAGE_REQUEST_3_OUTPUT =>
        txack_request_3_output env { s with resp := TxRequest.zero } tx
    | Stage.STAGE_REQUEST_4_INPUT =>
        txack_request_4_input env { s with resp := TxRequest.zero } tx
    | Stage.STAGE_REQUEST_4_OUTPUT =>
        txack_request_4_output env { s with resp := TxRequest.zero } tx
    | Stage.STAGE_REQUEST_5_OUTPUT =>
        txack_request_5_output env { s with resp := TxRequest.zero } tx

/-- A message from the host: a structured `TxAck`, handled by `signing_txack`, or a slice
of raw previous-transaction bytes, handled by `parse_raw_txack`. -/
inductive HostMsg
  | txack (tx : TransactionType)
  | raw (msg : Bytes)
  deriving DecidableEq, Repr

/-- The device's reaction to one host message. -/
def handle (env : Env) (s : State) : HostMsg → State
  | HostMsg.txack tx => signing_txack env s tx
  | HostMsg.raw msg => parse_raw_txack env s msg

/-- The device's reaction to a sequence of structured `TxAck` messages. -/
def run_txacks (env : Env) (s : State) : List TransactionType → State
  | [] => s
  | tx :: rest => run_txacks env (signing_txack env s tx) rest

/-- The device's reaction to a sequence of host messages of either kind. -/
def run (env : Env) (s : State) : List HostMsg → State
  | [] => s
  | m :: rest => run env (handle env s m) rest

/-! ## Vocabulary of the specifications -/

/-- The events of an uneventful step: requests, failures other than the commit-hash
failure, returns to the home screen and calls of the policy module. -/
def Event.plain : Event → Bool
  | Event.failure _ text => text != "Transaction has changed during signing"
  | Event.tx_request r => !r.has_serialized
  | Event.go_home => true
  | Event.policy_compile_output _ _ => true
  | Event.confirm _ _ _ => false
  | Event.confirm_transaction _ _ => false
  | Event.layout_simple_message _ => false

/-- Whether an event is the fee-confirmation prompt. -/
def Event.is_fee_prompt : Event → Bool
  | Event.confirm ButtonRequestType.ButtonRequest_FeeOverThreshold title _ =>
      title == "Confirm Fee"
  | _ => false

/-- Whether an event is a `TxRequest` that carries a signature. -/
def Event.has_signature : Event → Bool
  | Event.tx_request r => r.has_serialized && r.serialized.has_signature
  | _ => false

/-- The log `log` continues the log `base` with events that all satisfy `P`. -/
def Extends (P : Event → Bool) (base log : List Event) : Prop :=
  ∃ L, log = base ++ L ∧ ∀ e ∈ L, P e = true

/-- The values of the module variables at power-up: the initialisers written in
`signing.c`, zero for everything else. -/
def State.boot : State :=
  { inputs_count := 0, outputs_count := 0,
    coin := { has_forkid := false, forkid := 0, maxfee_kb := 0, address_type := 0 },
    root := { private_key := [], public_key := [], chain := [] },
    node := { private_key := [], public_key := [], chain := [] },
    signing := false, idx1 := 0, idx2 := 0, resp := TxRequest.zero,
    input := TxInputType.zero, bin_output := { amount := 0, script_pubkey := [] },
    to_tx := tx_init 0 0 0 0 false, transaction_previous := tx_init 0 0 0 0 false,
    ti := tx_init 0 0 0 0 false, transaction_current := [],
    hash := List.replicate 32 0, hash_check := List.replicate 32 0,
    privkey := List.replicate 32 0, pubkey := List.replicate 33 0,
    sig := List.replicate 64 0,
    to_spend := 0, spending := 0, change_spend := 0,
    multisig_fp_set := false, multisig_fp_mismatch := false,
    hash_prevouts := List.replicate 32 0, hash_sequence := List.replicate 32 0,
    hash_outputs := List.replicate 32 0,
    hashers0 := [], hashers1 := [], hashers2 := [], multisig_fp := List.replicate 32 0,
    signing_stage := Stage.STAGE_REQUEST_1_INPUT, version := 1, lock_time := 0,
    raw_tx_status := RawTxStatus.NOT_PARSING, state_pos := 0, ptr := PtrTarget.unset,
    ptr_off := 0, var_int_buffer := List.replicate VAR_INT_BUFFER 0,
    var_int_buffer_index := 0, seen := 0, script_len := 0, current_output_val := 0,
    stray_writes := 0, exchange_error := ExchangeError.NO_EXCHANGE_ERROR, log := [] }

/-- A small concrete environment on which the definitions can be evaluated: the digest
is the identity on byte strings, records are laid out field after field, every
cryptographic helper succeeds, and the user confirms every prompt. -/
def demoEnv : Env :=
  { sha256 := fun b => b,
    bytes_TxInputType := fun i =>
      i.prev_hash ++ le32 i.prev_index ++ i.script_sig ++ le32 i.sequence ++ le64 i.amount,
    bytes_TxOutputBinType := fun o => le64 o.amount ++ o.script_pubkey,
    script_type_window := fun _ => [0, 0, 0, 0],
    cryptoMultisigFingerprint := fun m => (1, m.descriptor),
    cryptoMultisigPubkeyIndex := fun _ _ => 0,
    run_policy_compile_output := fun _ _ o _ =>
      (1, { amount := o.amount, script_pubkey := o.address }, ExchangeError.NO_EXCHANGE_ERROR),
    TXOUT_COMPILE_ERROR := 0,
    TXOUT_CANCEL := -1,
    TXOUT_EXCHANGE_CONTRACT_ERROR := -2,
    tx_serialize_input_hash := fun t i =>
      (1, i.prev_hash ++ le32 i.prev_index ++ i.script_sig, t.book),
    tx_serialize_output_hash := fun t o => (1, le64 o.amount ++ o.script_pubkey, t.book),
    tx_hash_final := fun t _ => t.ctx,
    tx_serialize_input := fun t i => (i.prev_hash ++ i.script_sig, t.book),
    tx_serialize_output := fun t o => (le64 o.amount ++ o.script_pubkey, t.book),
    tx_prevout_bytes := fun i => i.prev_hash ++ le32 i.prev_index,
    tx_sequence_bytes := fun i => le32 i.sequence,
    tx_output_bytes := fun o => le64 o.amount ++ o.script_pubkey,
    transactionEstimateSizeKb := fun _ _ => 1,
    confirm := fun _ _ _ => true,
    confirm_transaction := fun _ _ => true,
    hdnode_private_ckd_cached := fun n _ _ => (1, n),
    hdnode_fill_public_key := fun n => n,
    compile_script_multisig := fun m => 174 :: m.descriptor,
    ecdsa_get_pubkeyhash := fun p => p,
    compile_script_sig := fun _ h => 118 :: h,
    ecdsa_sign_digest := fun k d => k ++ d,
    ecdsa_sig_to_der := fun g => 48 :: g,
    serialize_script_multisig := fun m => 174 :: m.descriptor,
    serialize_script_sig := fun g p _ => g ++ p }

/-- An all-zero input record. -/
def zeroInput : TxInputType := TxInputType.zero

/-- An all-zero output record. -/
def zeroOutput : TxOutputType :=
  { has_address := false, address := [], address_n := [], address_n_count := 0, amount := 0,
    script_type := OutputScriptType.PAYTOADDRESS, has_multisig := false,
    multisig := { descriptor := [], signatures := [] }, has_address_type := false,
    address_type := OutputAddressType.SPEND, has_exchange_type := false, exchange_type := [] }

/-- An all-zero `TxAck`. -/
def zeroAck : TransactionType :=
  { inputs := zeroInput, outputs := zeroOutput,
    bin_outputs := { amount := 0, script_pubkey := [] },
    inputs_cnt := 0, outputs_cnt := 0, version := 0, lock_time := 0 }

/-- The session has ended and, since the log `base`, nothing but plain events happened. -/
def Dead (base : List Event) (s : State) : Prop :=
  s.signing = false ∧ Extends Event.plain base s.log

/-- A serialized transaction whose only output has an empty script: version 1, one
input (32-byte txid, index 0, empty script, sequence 0xFFFFFFFF), one output of value
10000 with script length 0, lock time 0. Sixty bytes. -/
def emptyScriptTx : Bytes :=
  [1, 0, 0, 0] ++ [1] ++ (List.replicate 32 17 ++ [0, 0, 0, 0]) ++ [0]
    ++ [255, 255, 255, 255] ++ [1] ++ [16, 39, 0, 0, 0, 0, 0, 0] ++ [0] ++ [0, 0, 0, 0]

/-- The same transaction with the one-byte output script `0x51`. Sixty-one bytes. -/
def oneByteScriptTx : Bytes :=
  [1, 0, 0, 0] ++ [1] ++ (List.replicate 32 17 ++ [0, 0, 0, 0]) ++ [0]
    ++ [255, 255, 255, 255] ++ [1] ++ [16, 39, 0, 0, 0, 0, 0, 0] ++ [1, 81] ++ [0, 0, 0, 0]

/-- Coin parameters of a coin without fork-id. -/
def demoCoin : CoinType :=
  { has_forkid := false, forkid := 0, maxfee_kb := 100000, address_type := 0 }

/-- A root node for the evaluations. -/
def demoRoot : HDNode :=
  { private_key := List.replicate 32 1, public_key := List.replicate 33 2, chain := [] }

/-- The device right after `signing_init` for one input and one output, at power-up. -/
def demoStart : State :=
  signing_init 1 1 demoCoin demoRoot 1 0 State.boot

/-- A `TxAck` carrying a current or previous input. -/
def ackInput (i : TxInputType) : TransactionType :=
  { zeroAck with inputs := i }

/-- A `TxAck` carrying the metadata of a previous transaction. -/
def ackMeta (inputs_cnt outputs_cnt version lock_time : Nat) : TransactionType :=
  { zeroAck with inputs_cnt := inputs_cnt, outputs_cnt := outputs_cnt, version := version,
                 lock_time := lock_time }

/-- A `TxAck` carrying an output of a previous transaction. -/
def ackBinOutput (amount : Nat) (script : Bytes) : TransactionType :=
  { zeroAck with bin_outputs := { amount := amount, script_pubkey := script } }

/-- A `TxAck` carrying a current output. -/
def ackOutput (o : TxOutputType) : TransactionType :=
  { zeroAck with outputs := o }

/-- A pay-to-address output to the wallet's own derivation path, without an explicit
address type: the second alternative of the change test. -/
def changeOutput (amount : Nat) : TxOutputType :=
  { zeroOutput with address_n := [0], address_n_count := 1, amount := amount }

/-- A pay-to-address output to an external address. -/
def spendOutput (amount : Nat) : TxOutputType :=
  { zeroOutput with has_address := true, address := [49, 65], amount := amount }

/-- The structured messages for one current input that spends output 0, worth `amount`, of
a previous transaction with one input and one output. In `demoEnv` the finalized hash of
that previous transaction starts with thirty-two zero bytes. -/
def demoInputAcks (amount : Nat) : List TransactionType :=
  [ackInput zeroInput, ackMeta 1 1 1 0, ackInput zeroInput, ackBinOutput amount [81]]

/-- Phase 1 of a session with one input worth 10000 and two outputs that both pass the
change test, the first with amount zero. -/
def twoChangeAcks : List TransactionType :=
  demoInputAcks 10000 ++ [ackOutput (changeOutput 0), ackOutput (changeOutput 5000)]

/-- Coin parameters of a fork-id coin with `forkid = 0`. -/
def forkCoin : CoinType :=
  { has_forkid := true, forkid := 0, maxfee_kb := 100000, address_type := 0 }

/-- An environment in which every digest is the same thirty-two zero bytes, so that
every comparison of two digests succeeds. -/
def flatEnv : Env :=
  { demoEnv with sha256 := fun _ => List.replicate 32 0 }

/-- The input of scenario S3: it carries its amount, 200000. -/
def forkInput : TxInputType :=
  { zeroInput with has_amount := true, amount := 200000 }

/-- Scenario S3 up to the end of the first inner sweep of phase 2: one input of 200000,
one external output of 199000, then the same input and output again. -/
def forkAcks : List TransactionType :=
  [ackInput forkInput, ackMeta 1 1 1 0, ackInput zeroInput, ackBinOutput 200000 [81],
   ackOutput (spendOutput 199000),
   ackInput forkInput, ackOutput (spendOutput 199000)]

/-- Events that involve no user interaction. -/
def Event.silent : Event → Bool
  | Event.confirm _ _ _ => false
  | Event.confirm_transaction _ _ => false
  | Event.layout_simple_message _ => false
  | _ => true

/-- The fields of the module state on which the course of a session depends. -/
structure Core where
  signing : Bool
  signing_stage : Stage
  idx1 : Nat
  idx2 : Nat
  inputs_count : Nat
  outputs_count : Nat
  coin : CoinType
  root : HDNode
  version : Nat
  lock_time : Nat
  to_spend : Nat
  spending : Nat
  change_spend : Nat
  input : TxInputType
  transaction_current : Bytes
  prev_inputs_len : Nat
  prev_outputs_len : Nat
  hash_check : Bytes
  multisig_fp_set : Bool
  multisig_fp_mismatch : Bool
  multisig_fp : Bytes

/-- The projection of the module state onto `Core`. -/
def State.core (s : State) : Core :=
  { signing := s.signing, signing_stage := s.signing_stage, idx1 := s.idx1, idx2 := s.idx2,
    inputs_count := s.inputs_count, outputs_count := s.outputs_count, coin := s.coin,
    root := s.root, version := s.version, lock_time := s.lock_time, to_spend := s.to_spend,
    spending := s.spending, change_spend := s.change_spend, input := s.input,
    transaction_current := s.transaction_current,
    prev_inputs_len := s.transaction_previous.inputs_len,
    prev_outputs_len := s.transaction_previous.outputs_len,
    hash_check := s.hash_check, multisig_fp_set := s.multisig_fp_set,
    multisig_fp_mismatch := s.multisig_fp_mismatch, multisig_fp := s.multisig_fp }

/-- The device in scenario S5 when the only output is about to arrive: one input whose
previous output is worth 50000 has been verified. -/
def shortFundsState : State :=
  run_txacks demoEnv (signing_init 1 1 demoCoin demoRoot 1 0 State.boot) (demoInputAcks 50000)

/-- The change condition in the words of the specification (4.4): a multisig output with
multisig info while every input so far carried the same fingerprint
(`multisig_fp_set && !multisig_fp_mismatch`) and the output's fingerprint equals
`multisig_fp`; or a pay-to-address output with a derivation path of non-zero length whose
address type is absent, or present and equal to `CHANGE`. -/
def spec_is_change (env : Env) (s : State) (out : TxOutputType) : Prop :=
  (out.script_type = OutputScriptType.PAYTOMULTISIG ∧ out.has_multisig = true ∧
    s.multisig_fp_set = true ∧ s.multisig_fp_mismatch = false ∧
    memcmp32_ne s.multisig_fp (env.cryptoMultisigFingerprint out.multisig).2 = false) ∨
  (out.script_type = OutputScriptType.PAYTOADDRESS ∧ out.address_n_count > 0 ∧
    (out.has_address_type = false ∨
      (out.has_address_type = true ∧ out.address_type = OutputAddressType.CHANGE)))

/-- A current input whose `prev_hash` is thirty-two bytes `9`; in `demoEnv` no previous
transaction hashes to it. -/
def strangerInput : TxInputType :=
  { zeroInput with prev_hash := List.replicate 32 9, prev_hash_size := 32 }

/-- Structured mode: the device has received `strangerInput`, the metadata of a previous
transaction with one input and one output, and that input; its only output is due. -/
def strangerState : State :=
  run_txacks demoEnv demoStart [ackInput strangerInput, ackMeta 1 1 1 0, ackInput zeroInput]

/-- Raw mode: the device has received `strangerInput` and all bytes but the last of the
raw previous transaction `oneByteScriptTx`. -/
def strangerRawState : State :=
  parse_raw_txack demoEnv (signing_txack demoEnv demoStart (ackInput strangerInput))
    oneByteScriptTx.dropLast

/-- The session is over or has passed the confirmation gate. -/
def PastGate (s : State) : Prop :=
  s.signing = false ∨ s.signing_stage = Stage.STAGE_REQUEST_4_INPUT ∨
    s.signing_stage = Stage.STAGE_REQUEST_4_OUTPUT ∨
    s.signing_stage = Stage.STAGE_REQUEST_5_OUTPUT

/-- The events appended to the log between the states `s` and `t`. -/
def new_events (s t : State) : List Event :=
  t.log.drop s.log.length

/-- The number of fee-confirmation prompts among some events. -/
def fee_prompts (L : List Event) : Nat :=
  (L.filter Event.is_fee_prompt).length

/-- The call `signing_txack(tx)` in state `s` reaches the confirmation gate, that is, the
computation of `fee` in `case STAGE_REQUEST_3_OUTPUT`: the session is live in that stage,
`idx1 < outputs_count - 1` is false, the change test raises no failure, the output is not
a second change output, the policy module compiles it, and the funds check passes. -/
def reaches_gate (env : Env) (s : State) (tx : TransactionType) : Prop :=
  s.signing = true ∧ s.signing_stage = Stage.STAGE_REQUEST_3_OUTPUT ∧
  ¬ s.idx1 < dec32 s.outputs_count ∧
  (∃ b, output_is_change env s tx.outputs = Except.ok b ∧
    ¬ (b = true ∧ s.change_spend ≠ 0) ∧
    env.TXOUT_COMPILE_ERROR
      < (env.run_policy_compile_output s.coin s.root tx.outputs (!b)).1) ∧
  add64 s.spending tx.outputs.amount ≤ s.to_spend

/-- The value of `fee` at the confirmation gate reached by `signing_txack(tx)` in `s`. -/
def gate_fee (s : State) (tx : TransactionType) : Nat :=
  s.to_spend - add64 s.spending tx.outputs.amount

/-- The session is live and past the confirmation gate: phase 2. -/
def in_phase_2 (s : State) : Bool :=
  s.signing && (decide (s.signing_stage = Stage.STAGE_REQUEST_4_INPUT)
    || decide (s.signing_stage = Stage.STAGE_REQUEST_4_OUTPUT)
    || decide (s.signing_stage = Stage.STAGE_REQUEST_5_OUTPUT))

/-- In the run of `msgs` from `s`, no raw bytes are delivered during phase 2. -/
def raw_only_before_gate (env : Env) : State → List HostMsg → Bool
  | _, [] => true
  | s, HostMsg.txack tx :: rest => raw_only_before_gate env (signing_txack env s tx) rest
  | s, HostMsg.raw msg :: rest =>
      !in_phase_2 s && raw_only_before_gate env (parse_raw_txack env s msg) rest

/-- A raw previous transaction with one input and one output of value 1000000. -/
def richRawTx : Bytes :=
  [1, 0, 0, 0] ++ [1] ++ (List.replicate 32 17 ++ [0, 0, 0, 0]) ++ [0]
    ++ [255, 255, 255, 255] ++ [1] ++ [64, 66, 15, 0, 0, 0, 0, 0] ++ [1, 81] ++ [0, 0, 0, 0]

/-- A current input whose `prev_hash` is, in `demoEnv`, the finalized hash of `richRawTx`. -/
def richInput : TxInputType :=
  { zeroInput with prev_hash := richRawTx.take 32, prev_hash_size := 32 }

/-- A raw-mode session of one input and one output up to the confirmation gate. -/
def rawSession : List HostMsg :=
  [HostMsg.txack (ackInput richInput), HostMsg.raw richRawTx,
   HostMsg.txack (ackOutput (spendOutput 100))]

/-- The session `rawSession` followed, in phase 2, by the same raw previous transaction
and the same output once more. -/
def reentrySession : List HostMsg :=
  rawSession ++ [HostMsg.raw richRawTx, HostMsg.txack (ackOutput (spendOutput 100))]

/-- The variable `to_spend` after a previous transaction whose output at the input's
`prev_index`, if there is one, is carried by `o`. -/
def spend_ref (to_spend : Nat) : Option TransactionType → Nat
  | some tx => add64 to_spend tx.bin_outputs.amount
  | none => to_spend

/-- The messages with which the host answers the requests for one input of the current
transaction in structured mode: the input, the metadata of its previous transaction, and
the inputs and outputs of that previous transaction. -/
structure InputBlock where
  input : TransactionType
  prev_meta : TransactionType
  prev_inputs : List TransactionType
  prev_outputs : List TransactionType

/-- The messages of a block, in the order in which they are requested. -/
def InputBlock.acks (b : InputBlock) : List TransactionType :=
  b.input :: b.prev_meta :: (b.prev_inputs ++ b.prev_outputs)

/-- The metadata announce as many inputs and outputs as the host then streams, at least
one of each and fewer than `2 ^ 32`. -/
def InputBlock.well_formed (b : InputBlock) : Bool :=
  decide (1 ≤ b.prev_inputs.length) && decide (1 ≤ b.prev_outputs.length) &&
  decide (b.prev_meta.inputs_cnt = b.prev_inputs.length) &&
  decide (b.prev_meta.outputs_cnt = b.prev_outputs.length) &&
  decide (b.prev_inputs.length < 2 ^ 32) && decide (b.prev_outputs.length < 2 ^ 32)

/-- The amount of the previous output at the input's `prev_index`; zero when the previous
transaction has no output of that index. -/
def InputBlock.referenced (b : InputBlock) : Nat :=
  match b.prev_outputs[b.input.inputs.prev_index]? with
  | some tx => tx.bin_outputs.amount
  | none => 0

/-- The bytes that phase 1 feeds to the commit hash for the output carried by `tx`: the
output as the policy module compiles it, asked to confirm unless the output is change. -/
def phase1_output_bytes (env : Env) (s : State) (tx : TransactionType) : Bytes :=
  match output_is_change env s tx.outputs with
  | Except.ok b =>
      env.bytes_TxOutputBinType
        (env.run_policy_compile_output s.coin s.root tx.outputs (!b)).2.1
  | Except.error _ => []

/-- The blocks of all inputs, one after the other. -/
def input_acks (blocks : List InputBlock) : List TransactionType :=
  blocks.flatMap InputBlock.acks

/-- The sum of the referenced amounts of the blocks. -/
def referenced_total (blocks : List InputBlock) : Nat :=
  (blocks.map InputBlock.referenced).sum

/-- The sum of the amounts of the outputs carried by some messages. -/
def outputs_total (outs : List TransactionType) : Nat :=
  (outs.map (fun tx => tx.outputs.amount)).sum

/-- The inputs of all blocks, as `signing_txack` feeds them to the commit hash. -/
def input_bytes (env : Env) (blocks : List InputBlock) : Bytes :=
  blocks.flatMap (fun b => env.bytes_TxInputType b.input.inputs)

/-- The state in which the last output of a structured session arrives: `signing_init`
for as many inputs as there are blocks and one output more than `outs`, then the blocks
and the outputs `outs`. -/
def phase1_state (env : Env) (blocks : List InputBlock) (outs : List TransactionType)
    (coin : CoinType) (root : HDNode) (version lock_time : Nat) (s0 : State) : State :=
  run_txacks env
    (signing_init blocks.length (outs.length + 1) coin root version lock_time s0)
    (input_acks blocks ++ outs)

/-- A structured block for the evaluations: an all-zero input that spends output 0,
worth `amount`, of a previous transaction with one input and one output. -/
def demoBlock (amount : Nat) : InputBlock :=
  { input := ackInput zeroInput, prev_meta := ackMeta 1 1 1 0,
    prev_inputs := [ackInput zeroInput], prev_outputs := [ackBinOutput amount [81]] }

/-- Two inputs whose referenced amounts, `2 ^ 63` and `2 ^ 63 + 5`, add up to
`2 ^ 64 + 5`. -/
def wrapBlocks : List InputBlock :=
  [demoBlock (2 ^ 63), demoBlock (2 ^ 63 + 5)]

/-- A session that has ended with "Not enough funds" after the input `richInput`, whose
previous transaction `richRawTx` was delivered raw: no session is live, and `input` still
holds `richInput`. -/
def deadRichState : State :=
  run demoEnv demoStart
    [HostMsg.txack (ackInput richInput), HostMsg.raw richRawTx,
     HostMsg.txack (ackOutput (spendOutput 2000000))]

/-- Whether an event is a `TxRequest` written to the host. -/
def Event.is_tx_request : Event → Bool
  | Event.tx_request _ => true
  | _ => false

/-- An environment like `demoEnv` in which the policy module answers an output that
carries an exchange type with `TXOUT_EXCHANGE_CONTRACT_ERROR` and leaves
`NO_EXCHANGE_ERROR` behind. -/
def exchangeEnv : Env :=
  { demoEnv with
    run_policy_compile_output := fun c r o n =>
      if o.has_exchange_type then
        (-2, { amount := o.amount, script_pubkey := o.address },
          ExchangeError.NO_EXCHANGE_ERROR)
      else demoEnv.run_policy_compile_output c r o n }

/-- An output that carries an exchange type. -/
def exchangeOutput (amount : Nat) : TxOutputType :=
  { spendOutput amount with has_exchange_type := true, exchange_type := [1] }

/-- A session of one input and one output in phase 2, when the output of the inner sweep
is due. -/
def sweepOutputState : State :=
  run_txacks exchangeEnv demoStart
    (demoInputAcks 10000 ++ [ackOutput (spendOutput 9000), ackInput zeroInput])

/-- The pre-image of the BIP-143 digest in the words of the specification (4.6): version,
`hash_prevouts`, `hash_sequence`, the prevout of the input, its script with varint length,
its amount, its sequence, `hash_outputs`, the lock time, and `(forkid << 8) | sighash`
modulo `2 ^ 32`. -/
def spec_bip143_preimage (env : Env) (s : State) (txinput : TxInputType)
    (sighash forkid : Nat) : Bytes :=
  le32 s.version ++ s.hash_prevouts.take 32 ++ s.hash_sequence.take 32
    ++ env.tx_prevout_bytes txinput
    ++ (ser_length txinput.script_sig.length ++ txinput.script_sig)
    ++ le64 txinput.amount ++ env.tx_sequence_bytes txinput ++ s.hash_outputs.take 32
    ++ le32 s.lock_time ++ le32 (((forkid <<< 8) ||| sighash) % 2 ^ 32)

/-- The binary output that the policy module compiles for the output carried by `tx`
when it is not asked to confirm, as in phase 2. -/
def phase2_output (env : Env) (s : State) (tx : TransactionType) : TxOutputBinType :=
  (env.run_policy_compile_output s.coin s.root tx.outputs false).2.1

/-- The 32-byte value that the end of the inner sweep compares with `hash_check`: the
BIP-143 digest of the retained input, compiled once more, for a fork-id coin, otherwise
the commit hash recomputed in phase 2. -/
def sweep_digest (env : Env) (T : State) : Bytes :=
  if T.coin.has_forkid then
    signing_hash_bip143 env T (compile_input_script_sig env T T.input).2.2
      (SIGHASH_ALL ||| SIGHASH_FORKID) T.coin.forkid
  else env.sha256 T.transaction_current

/-- The state `t` differs from `s`, as far as `Core` goes, at most in `to_spend` and in
the announced lengths of the previous transaction. -/
def raw_frame (s t : State) : Prop :=
  t.core = { s.core with
    to_spend := t.to_spend,
    prev_inputs_len := t.transaction_previous.inputs_len,
    prev_outputs_len := t.transaction_previous.outputs_len }

/-- The stages in which `idx1` counts inputs of the current transaction; in the other
two, `REQUEST_3_OUTPUT` and `REQUEST_5_OUTPUT`, it counts outputs. -/
def Stage.is_input_stage : Stage → Bool
  | Stage.STAGE_REQUEST_3_OUTPUT => false
  | Stage.STAGE_REQUEST_5_OUTPUT => false
  | _ => true

/-- In a live session `idx1` is below `inputs_count` in an input stage and below
`outputs_count` in an output stage. -/
def idx1_in_range (s : State) : Prop :=
  s.signing = true →
    s.idx1 < (if s.signing_stage.is_input_stage then s.inputs_count else s.outputs_count)

/-- The invariant behind `idx1_in_range`, on the fields of `Core`: the counts are `n` and
`m`, and `idx1` is in range for the stage. -/
def Core.in_range (n m : Nat) (c : Core) : Prop :=
  c.inputs_count = n ∧ c.outputs_count = m ∧
  c.idx1 < (if c.signing_stage.is_input_stage then n else m)

/-- The 32-byte value that the last output of an inner sweep, carried by `tx` and
received in state `s`, makes the device compare with `hash_check`: for a fork-id coin the
BIP-143 digest of the retained input, compiled once more, with sighash `ALL | FORKID`;
otherwise the commit hash recomputed in phase 2, over what was fed so far and the output
compiled from `tx`. -/
def phase2_digest (env : Env) (s : State) (tx : TransactionType) : Bytes :=
  if s.coin.has_forkid then
    signing_hash_bip143 env s (compile_input_script_sig env s s.input).2.2
      (SIGHASH_ALL ||| SIGHASH_FORKID) s.coin.forkid
  else
    env.sha256 (s.transaction_current ++ env.bytes_TxOutputBinType (phase2_output env s tx))

/-- The function `in_phase_2` on the fields of `Core`. -/
def Core.in_phase_2 (c : Core) : Bool :=
  c.signing && (decide (c.signing_stage = Stage.STAGE_REQUEST_4_INPUT)
    || decide (c.signing_stage = Stage.STAGE_REQUEST_4_OUTPUT)
    || decide (c.signing_stage = Stage.STAGE_REQUEST_5_OUTPUT))

/-- The values that `signing_init` and the confirmation gate fix for the rest of a
session are the same in `s` and `t`: the counts, the coin, the root node, version and
lock time, and `hash_check`. -/
def same_session (s t : State) : Prop :=
  t.inputs_count = s.inputs_count ∧ t.outputs_count = s.outputs_count ∧ t.coin = s.coin ∧
  t.root = s.root ∧ t.version = s.version ∧ t.lock_time = s.lock_time ∧
  t.hash_check = s.hash_check

/-- The bytes that phase 1 of a structured session feeds to the commit hash: the header,
the inputs of the blocks, and the outputs `outs` as the policy module compiles them in
phase 1; `P` is the state in which the last output arrives. -/
def phase1_commit (env : Env) (blocks : List InputBlock) (outs : List TransactionType)
    (P : State) : Bytes :=
  commit_header P.inputs_count P.outputs_count P.version P.lock_time
    ++ input_bytes env blocks ++ outs.flatMap (phase1_output_bytes env P)

/-- The bytes that an inner sweep of phase 2 feeds to the commit hash: the header, the
inputs carried by `ins`, and the outputs carried by `outs` as the policy module compiles
them in phase 2. -/
def sweep_commit (env : Env) (s : State) (ins outs : List TransactionType) : Bytes :=
  commit_header s.inputs_count s.outputs_count s.version s.lock_time
    ++ ins.flatMap (fun t => env.bytes_TxInputType t.inputs)
    ++ outs.flatMap (fun t => env.bytes_TxOutputBinType (phase2_output env s t))

/-- A structured session at some point after its phase 1: `signing_init`, the blocks of the
inputs, the outputs `outs`, the last output `last`, and then the messages `mid`. -/
def sweep_start (env : Env) (blocks : List InputBlock) (outs : List TransactionType)
    (last : TransactionType) (coin : CoinType) (root : HDNode) (version lock_time : Nat)
    (s0 : State) (mid : List TransactionType) : State :=
  run_txacks env (phase1_state env blocks outs coin root version lock_time s0) (last :: mid)

/-- The binary output that the policy module compiles in phase 1 for the output carried
by `tx`: it is asked to confirm unless the output is change; none when the change test
sends a failure. -/
def phase1_output (env : Env) (s : State) (tx : TransactionType) : Option TxOutputBinType :=
  match output_is_change env s tx.outputs with
  | Except.ok b => some (env.run_policy_compile_output s.coin s.root tx.outputs (!b)).2.1
  | Except.error _ => none

/-- Whether an event is not the failure "Transaction has changed during signing". -/
def Event.not_changed : Event → Bool
  | Event.failure _ text => text != "Transaction has changed during signing"
  | _ => true

/-- An environment like `demoEnv` whose digest is injective: a byte string is digested
to the single number that encodes it. -/
def injectiveEnv : Env :=
  { demoEnv with sha256 := fun b => [Encodable.encode b] }

/-- Two inputs, worth 6000 and 4000. -/
def twoBlocks : List InputBlock :=
  [demoBlock 6000, demoBlock 4000]

/-- The messages of one inner sweep of a session with the inputs `twoBlocks` and two
outputs, up to the last output: the two inputs and the first output, 5000 to an external
address. -/
def sweepAcks : List TransactionType :=
  [ackInput zeroInput, ackInput zeroInput, ackOutput (spendOutput 5000)]

/-- The `signature_index` of a `TxRequest` that carries a signature. -/
def Event.signature_index : Event → Option Nat
  | Event.tx_request r =>
      if r.has_serialized && r.serialized.has_signature then some r.serialized.signature_index
      else none
  | _ => none

/-- The values of `signature_index` of the requests that carry a signature, in the order
in which the requests are written. -/
def sig_indices (L : List Event) : List Nat :=
  L.filterMap Event.signature_index

/-- The piece of the outbound transaction carried by a `TxRequest` that has no
signature: a serialized output. -/
def Event.output_chunk : Event → Option Bytes
  | Event.tx_request r =>
      if r.has_serialized && r.serialized.has_serialized_tx && !r.serialized.has_signature then
        some r.serialized.serialized_tx
      else none
  | _ => none

/-- The serialized outputs written to the host, in order. -/
def output_chunks (L : List Event) : List Bytes :=
  L.filterMap Event.output_chunk

/-- The events that carry no piece of the outbound transaction: everything but a
`TxRequest` with `has_serialized`. -/
def Event.quiet : Event → Bool
  | Event.tx_request r => !r.has_serialized
  | _ => true

/-- The signature indices that a live session has sent by the time it is in the state
`s`: none in phase 1, those below `idx1` during the sweeps, all of them in stage
`REQUEST_5_OUTPUT`. -/
def expected_signatures (s : State) : List Nat :=
  match s.signing_stage with
  | Stage.STAGE_REQUEST_4_INPUT => List.range s.idx1
  | Stage.STAGE_REQUEST_4_OUTPUT => List.range s.idx1
  | Stage.STAGE_REQUEST_5_OUTPUT => List.range s.inputs_count
  | _ => []

/-- The number of serialized outputs that a live session has sent by the time it is in
the state `s`: `idx1` in stage `REQUEST_5_OUTPUT`, none before. -/
def expected_outputs (s : State) : Nat :=
  match s.signing_stage with
  | Stage.STAGE_REQUEST_5_OUTPUT => s.idx1
  | _ => 0

/-- Whether an event is a `TxRequest` of type `TXFINISHED`. -/
def Event.is_finished : Event → Bool
  | Event.tx_request r => decide (r.request_type = RequestType.TXFINISHED)
  | _ => false

/-- Whether an event is a failure sent to the host. -/
def Event.is_failure : Event → Bool
  | Event.failure _ _ => true
  | _ => false

/-- A session of one input and one output in which the host delivers the raw previous
transaction three times: in phase 1; in stage `REQUEST_5_OUTPUT`, after the signature; and
in the middle of the inner sweep that follows, after its input. -/
def signTwiceSession : List HostMsg :=
  rawSession ++
    [HostMsg.txack (ackInput richInput), HostMsg.txack (ackOutput (spendOutput 100)),
     HostMsg.raw richRawTx, HostMsg.txack (ackOutput (spendOutput 100)),
     HostMsg.txack (ackInput richInput), HostMsg.raw richRawTx,
     HostMsg.txack (ackOutput (spendOutput 100)),
     HostMsg.txack (ackInput richInput), HostMsg.txack (ackOutput (spendOutput 100)),
     HostMsg.txack (ackOutput (spendOutput 100))]

/-- The device right after `signing_init` for one input and two outputs, at power-up. -/
def twoOutputStart : State :=
  signing_init 1 2 demoCoin demoRoot 1 0 State.boot

/-- A session of one input and two outputs, of 100 and 200, in which the host delivers
the raw previous transaction again after the first output of stage `REQUEST_5_OUTPUT` has
been serialised, and once more in the middle of the inner sweep that follows. -/
def serializeAgainSession : List HostMsg :=
  [HostMsg.txack (ackInput richInput), HostMsg.raw richRawTx,
   HostMsg.txack (ackOutput (spendOutput 100)), HostMsg.txack (ackOutput (spendOutput 200)),
   HostMsg.txack (ackInput richInput),
   HostMsg.txack (ackOutput (spendOutput 100)), HostMsg.txack (ackOutput (spendOutput 200)),
   HostMsg.txack (ackOutput (spendOutput 100)),
   HostMsg.raw richRawTx,
   HostMsg.txack (ackOutput (spendOutput 100)), HostMsg.txack (ackOutput (spendOutput 200)),
   HostMsg.txack (ackInput richInput), HostMsg.raw richRawTx,
   HostMsg.txack (ackOutput (spendOutput 100)), HostMsg.txack (ackOutput (spendOutput 200)),
   HostMsg.txack (ackInput richInput),
   HostMsg.txack (ackOutput (spendOutput 100)), HostMsg.txack (ackOutput (spendOutput 200)),
   HostMsg.txack (ackOutput (spendOutput 100)), HostMsg.txack (ackOutput (spendOutput 200))]

/-- A structured session of two inputs and two outputs up to the last output of stage
`REQUEST_5_OUTPUT`: phase 1, the two inner sweeps, and the first output of stage 5. -/
def twoInputSession : List HostMsg :=
  (input_acks twoBlocks
    ++ [ackOutput (spendOutput 5000), ackOutput (changeOutput 4000)]
    ++ sweepAcks ++ [ackOutput (changeOutput 4000)]
    ++ sweepAcks ++ [ackOutput (changeOutput 4000)]
    ++ [ackOutput (spendOutput 5000)]).map HostMsg.txack

/-- A fork-id session of one input and one output when the output of the inner sweep is
due: the input of 200000 has been verified, confirmed and received again. -/
def forkSweepState : State :=
  run_txacks flatEnv (signing_init 1 1 forkCoin demoRoot 1 0 State.boot) forkAcks.dropLast

/-- The function `compile_input_script_sig` returns false before it writes a script: the
multisig fingerprint check fails, or the derivation of the key fails. -/
def compile_fails_early (env : Env) (s : State) (i : TxInputType) : Prop :=
  (s.multisig_fp_mismatch = false ∧
    (i.script_type ≠ InputScriptType.SPENDMULTISIG ∨
     (env.cryptoMultisigFingerprint i.multisig).1 = 0 ∨
     memcmp32_ne s.multisig_fp (env.cryptoMultisigFingerprint i.multisig).2 = true)) ∨
  (env.hdnode_private_ckd_cached s.root i.address_n i.address_n_count).1 = 0

/-- The serialiser `ti` as `case STAGE_REQUEST_4_INPUT` uses it: opened afresh at the first
input of a sweep. -/
def sweep_ti (s : State) : TxStruct :=
  if s.idx2 = 0 then tx_init s.inputs_count s.outputs_count s.version s.lock_time true
  else s.ti

/-- The module state in which `case STAGE_REQUEST_4_INPUT` calls
`compile_input_script_sig` for the input to be signed: the sweep has been opened if this is
its first input, the commit hash has been fed the input, and the input has been copied to
`input`. -/
def sweep_input_state (env : Env) (s : State) (tx : TransactionType) : State :=
  { s with
    ti := sweep_ti s,
    transaction_current :=
      (if s.idx2 = 0 then commit_header s.inputs_count s.outputs_count s.version s.lock_time
       else s.transaction_current) ++ env.bytes_TxInputType tx.inputs,
    privkey := if s.idx2 = 0 then List.replicate 32 0 else s.privkey,
    pubkey := if s.idx2 = 0 then List.replicate 33 0 else s.pubkey,
    input := tx.inputs }

/-- The state after `memcpy(privkey, node.private_key, 32)` and
`memcpy(pubkey, node.public_key, 33)`. -/
def sweep_keyed_state (env : Env) (s : State) (tx : TransactionType) : State :=
  { (compile_input_script_sig env (sweep_input_state env s tx) tx.inputs).2.1 with
    privkey := (compile_input_script_sig env (sweep_input_state env s tx)
      tx.inputs).2.1.node.private_key.take 32,
    pubkey := (compile_input_script_sig env (sweep_input_state env s tx)
      tx.inputs).2.1.node.public_key.take 33 }

/-- The script that `compile_input_script_sig` writes into the input record when it gets
that far: the multisig redeem script, or the pay-to-address script of the derived key. -/
def compiled_script (env : Env) (s : State) (i : TxInputType) : Bytes :=
  if i.has_multisig then env.compile_script_multisig i.multisig
  else env.compile_script_sig s.coin.address_type
    (env.ecdsa_get_pubkeyhash
      (env.hdnode_fill_public_key
        (env.hdnode_private_ckd_cached s.root i.address_n i.address_n_count).2).public_key)

/-- An environment like `demoEnv` in which the derivation of a key fails and leaves the
node as it was given. -/
def noKeyEnv : Env :=
  { demoEnv with hdnode_private_ckd_cached := fun n _ _ => (0, n) }

/-- An all-zero input in which the host has put a one-byte script. -/
def hostScriptInput : TxInputType :=
  { zeroInput with script_sig := [7] }

/-- A session of one input, `hostScriptInput`, and one output, in `noKeyEnv`, right after
the confirmation gate. -/
def noKeyGateState : State :=
  run_txacks noKeyEnv demoStart
    [ackInput hostScriptInput, ackMeta 1 1 1 0, ackInput zeroInput, ackBinOutput 10000 [81],
     ackOutput (spendOutput 9000)]

/-- A multisig input with the redeem-script descriptor `d`. -/
def multisigInput (d : Bytes) : TxInputType :=
  { zeroInput with script_type := InputScriptType.SPENDMULTISIG, has_multisig := true,
                   multisig := { descriptor := d, signatures := [] } }

/-- A multisig input with another descriptor than the one of `multisigGateState`, in which
the host has put a two-byte script. -/
def forgedMultisigInput : TxInputType :=
  { multisigInput [6] with script_sig := [7, 7] }

/-- A session of one multisig input with descriptor `[5]` and one output, in `demoEnv`,
right after the confirmation gate. -/
def multisigGateState : State :=
  run_txacks demoEnv demoStart
    [ackInput (multisigInput [5]), ackMeta 1 1 1 0, ackInput zeroInput,
     ackBinOutput 10000 [81], ackOutput (spendOutput 9000)]

/-- Whether the call of `parse_raw_txack` on the bytes `a` in the state `s` returns from
inside its loop, that is, whether some byte of `a` completes the lock time. -/
def reaches_completion (env : Env) (s : State) : Bytes → Bool
  | [] => false
  | b :: rest =>
      (parse_raw_byte env s b).2 || reaches_completion env (parse_raw_byte env s b).1 rest

/-- The device after `signing_init` for one input and one output and the input
`richInput`: the raw previous transaction is awaited. -/
def richInputState : State :=
  signing_txack demoEnv demoStart (ackInput richInput)

/-- Whether the serialiser of the previous transaction, starting as `t`, accepts each of
the outputs carried by `outs` in turn. -/
def prev_outputs_serialized (env : Env) (t : TxStruct) : List TransactionType → Bool
  | [] => true
  | tx :: rest =>
      decide ((tx_serialize_output_hash env t tx.bin_outputs).1 ≠ 0) &&
      prev_outputs_serialized env (tx_serialize_output_hash env t tx.bin_outputs).2 rest

/-- The device in `demoStart` after the input, the metadata and the input of its previous
transaction: the outputs of the previous transaction are due. -/
def prevOutputState : State :=
  run_txacks demoEnv demoStart [ackInput zeroInput, ackMeta 1 1 1 0, ackInput zeroInput]

/-- A session of one multisig input with descriptor `[5]` and one output, in `demoEnv`,
when the output is due: `multisig_fp_set` is set and `multisig_fp_mismatch` is clear. -/
def multisigOutputState : State :=
  run_txacks demoEnv demoStart
    [ackInput (multisigInput [5]), ackMeta 1 1 1 0, ackInput zeroInput,
     ackBinOutput 10000 [81]]

/-- A multisig output with multisig info that carries the explicit address type `SPEND`
but no address. -/
def badTypeOutput : TxOutputType :=
  { zeroOutput with script_type := OutputScriptType.PAYTOMULTISIG, has_multisig := true,
                    multisig := { descriptor := [6], signatures := [] },
                    has_address_type := true, address_type := OutputAddressType.SPEND,
                    has_address := false, amount := 9000 }

/-- Following the spec: what holds of the state `after` once the previous transaction of
the last current input has been verified in the state `before`: the first output is
requested, `idx1` is reset, `hash_prevouts` and `hash_sequence` hold the double SHA-256 of
the accumulated prevouts and sequences, and the hasher of the outputs is fresh. -/
def spec_inputs_finalized (env : Env) (before after : State) : Prop :=
  after.signing_stage = Stage.STAGE_REQUEST_3_OUTPUT ∧ after.idx1 = 0 ∧
  after.hash_prevouts = env.sha256 ((env.sha256 before.hashers0).take 32) ∧
  after.hash_sequence = env.sha256 ((env.sha256 before.hashers1).take 32) ∧
  after.hashers0 = []

instance (env : Env) (before after : State) :
    Decidable (spec_inputs_finalized env before after) := by
  unfold spec_inputs_finalized
  infer_instance

/-- The session of `rawSession` with the previous transaction delivered in structured
mode instead: its one input carries the first thirty-two bytes of `richRawTx` as
`prev_hash`, so that in `demoEnv` the finalized hash is the one `richInput` names. -/
def structuredRichAcks : List TransactionType :=
  [ackInput richInput, ackMeta 1 1 1 0,
   ackInput { zeroInput with prev_hash := richRawTx.take 32, prev_hash_size := 32 },
   ackBinOutput 1000000 [81]]

/-- The session of `rawSession` when the previous transaction has been verified. -/
def rawRichState : State :=
  parse_raw_txack demoEnv richInputState richRawTx

/-- The session of `structuredRichAcks` when the previous transaction has been verified. -/
def structuredRichState : State :=
  run_txacks demoEnv demoStart structuredRichAcks

/-- The inputs of the current transaction that the device receives in stage
`REQUEST_1_INPUT` of a live session, in the run of `msgs` from `s`. -/
def stage1_inputs (env : Env) : State → List HostMsg → List TxInputType
  | _, [] => []
  | s, HostMsg.txack tx :: rest =>
      (if s.signing = true ∧ s.signing_stage = Stage.STAGE_REQUEST_1_INPUT then [tx.inputs]
       else []) ++ stage1_inputs env (signing_txack env s tx) rest
  | s, HostMsg.raw msg :: rest => stage1_inputs env (parse_raw_txack env s msg) rest

/-- The input `i` is a multisig input and, if it carries multisig info, its fingerprint is
the one stored in `multisig_fp`. -/
def shares_fingerprint (env : Env) (s : State) (i : TxInputType) : Prop :=
  i.script_type = InputScriptType.SPENDMULTISIG ∧
  (i.has_multisig = true →
    s.multisig_fp_set = true ∧ (env.cryptoMultisigFingerprint i.multisig).1 ≠ 0 ∧
    memcmp32_ne s.multisig_fp (env.cryptoMultisigFingerprint i.multisig).2 = false)

/-- A multisig input without multisig info. -/
def bareMultisigInput : TxInputType :=
  { zeroInput with script_type := InputScriptType.SPENDMULTISIG }

/-- Phase 1 of a session of two inputs and one output up to the end of the input sweep:
the first input is a multisig input with descriptor `[5]`, the second a multisig input
without multisig info. -/
def bareMultisigSession : List HostMsg :=
  ([ackInput (multisigInput [5]), ackMeta 1 1 1 0, ackInput zeroInput,
    ackBinOutput 10000 [81],
    ackInput bareMultisigInput, ackMeta 1 1 1 0, ackInput zeroInput,
    ackBinOutput 10000 [81]]).map HostMsg.txack

/-- A multisig output with the descriptor `[5]`. -/
def multisigOutput (amount : Nat) : TxOutputType :=
  { zeroOutput with script_type := OutputScriptType.PAYTOMULTISIG, has_multisig := true,
                    multisig := { descriptor := [5], signatures := [] }, amount := amount }

/-- The device right after `signing_init` for two inputs and one output, at power-up. -/
def bareMultisigStart : State :=
  signing_init 2 1 demoCoin demoRoot 1 0 State.boot

/-- The variables on which the course of `parse_raw_txack` and its effect on `to_spend`
depend: the parser's statics, the announced lengths of the previous transaction,
`to_spend`, and `prev_index` of the retained input. -/
structure ParserView where
  status : RawTxStatus
  state_pos : Int
  ptr : PtrTarget
  ptr_off : Nat
  buf : Bytes
  buf_index : Nat
  seen : Nat
  script_len : Nat
  current_output_val : Nat
  inputs_len : Nat
  outputs_len : Nat
  to_spend : Nat
  prev_index : Nat
  deriving DecidableEq, Repr

/-- The projection of the module state onto `ParserView`. -/
def State.parser (s : State) : ParserView :=
  { status := s.raw_tx_status, state_pos := s.state_pos, ptr := s.ptr, ptr_off := s.ptr_off,
    buf := s.var_int_buffer, buf_index := s.var_int_buffer_index, seen := s.seen,
    script_len := s.script_len, current_output_val := s.current_output_val,
    inputs_len := s.transaction_previous.inputs_len,
    outputs_len := s.transaction_previous.outputs_len,
    to_spend := s.to_spend, prev_index := s.input.prev_index }

/-- The effect of `store_ptr` on the view. -/
def view_store_ptr (v : ParserView) (b : Nat) : ParserView :=
  let v1 : ParserView :=
    match v.ptr with
    | PtrTarget.current_output_val =>
        if v.ptr_off < 8 then
          { v with current_output_val := setByte v.current_output_val v.ptr_off b }
        else v
    | _ => v
  { v1 with ptr_off := v.ptr_off + 1 }

/-- The effect of `push_var_int` on the view. -/
def view_push_var_int (v : ParserView) (b : Nat) : ParserView :=
  let v1 : ParserView :=
    if v.buf_index < VAR_INT_BUFFER then { v with buf := v.buf.set v.buf_index (b % 256) }
    else v
  { v1 with buf_index := (v.buf_index + 1) % 256 }

/-- The effect of `reset_parsing_buffer` on the view. -/
def view_reset (v : ParserView) : ParserView :=
  { v with buf := List.replicate VAR_INT_BUFFER 0, buf_index := 0 }

/-- The effect of `parsing_version` on the view. -/
def view_version (v : ParserView) (b : Nat) : ParserView :=
  let v := view_store_ptr v b
  if v.state_pos = 1 then view_reset { v with status := RawTxStatus.PARSING_INPUT_COUNT }
  else v

/-- The effect of `parsing_input_count` on the view. -/
def view_input_count (v : ParserView) (b : Nat) : ParserView :=
  let v := view_push_var_int v b
  let d := deser_length v.buf
  let v : ParserView := { v with inputs_len := d.2 }
  if v.buf_index ≥ d.1 then
    view_reset { v with status := RawTxStatus.PARSING_INPUTS, state_pos := 36, seen := 0 }
  else v

/-- The effect of `parsing_inputs` on the view. -/
def view_inputs (v : ParserView) (b : Nat) : ParserView :=
  if v.state_pos < 0 ∧ v.seen < v.inputs_len then
    let v := view_push_var_int v b
    let d := deser_length v.buf
    let v : ParserView := { v with script_len := d.2 }
    if v.buf_index ≥ d.1 then
      let seen := v.seen + 1
      let state_pos :=
        if seen < v.inputs_len then toInt32 (v.script_len + 4 + 36)
        else toInt32 (v.script_len + 3)
      view_reset { v with seen := seen, state_pos := state_pos, script_len := 0 }
    else v
  else if v.state_pos < 0 then
    { v with status := RawTxStatus.PARSING_OUTPUT_COUNT }
  else v

/-- The effect of `parsing_output_count` on the view. -/
def view_output_count (v : ParserView) (b : Nat) : ParserView :=
  let v := view_push_var_int v b
  let d := deser_length v.buf
  let v : ParserView := { v with outputs_len := d.2 }
  if v.buf_index ≥ d.1 then
    view_reset { v with status := RawTxStatus.PARSING_OUTPUTS_VALUE,
                        state_pos := 8, seen := 0, current_output_val := 0,
                        ptr := PtrTarget.current_output_val, ptr_off := 0 }
  else v

/-- The effect of `parsing_outputs_value` on the view. -/
def view_outputs_value (v : ParserView) (b : Nat) : ParserView :=
  if v.state_pos < 8 then
    let v := view_store_ptr v b
    if v.state_pos < 1 then
      let v : ParserView :=
        if v.seen = v.prev_index then
          { v with to_spend := add64 v.to_spend v.current_output_val }
        else v
      view_reset { v with status := RawTxStatus.PARSING_OUTPUTS, script_len := 0 }
    else v
  else v

/-- The effect of `parsing_outputs` on the view. -/
def view_outputs (v : ParserView) (b : Nat) : ParserView :=
  if v.state_pos < 0 ∧ v.seen < v.outputs_len then
    let v := view_push_var_int v b
    let d := deser_length v.buf
    let v : ParserView := { v with script_len := d.2 }
    if v.buf_index ≥ d.1 then
      let v : ParserView := { v with seen := v.seen + 1 }
      if v.seen < v.outputs_len then
        { v with current_output_val := 0, ptr := PtrTarget.current_output_val, ptr_off := 0,
                 status := RawTxStatus.PARSING_OUTPUTS_VALUE,
                 state_pos := toInt32 (v.script_len + 8) }
      else
        { v with state_pos := toInt32 (v.script_len + (2 ^ 32 - 1)) }
    else v
  else if v.state_pos < 0 then
    view_reset { v with status := RawTxStatus.PARSING_LOCKTIME,
                        state_pos := 4, ptr := PtrTarget.lock_time, ptr_off := 0 }
  else v

/-- The effect of `parsing_locktime` on the view, and whether the function returned. -/
def view_locktime (v : ParserView) (b : Nat) : ParserView × Bool :=
  let v := if v.state_pos ≥ 0 then view_store_ptr v b else v
  if v.state_pos < 1 then ({ v with status := RawTxStatus.NOT_PARSING }, true)
  else (v, false)

/-- The effect of `parse_raw_byte` on the view, and whether the function returned. -/
def view_parse_raw_byte (v0 : ParserView) (b : Nat) : ParserView × Bool :=
  let v : ParserView := { v0 with state_pos := v0.state_pos - 1 }
  match v.status with
  | RawTxStatus.NOT_PARSING =>
      (view_version { v with inputs_len := 0, outputs_len := 0, state_pos := 4,
                             status := RawTxStatus.PARSING_VERSION,
                             ptr := PtrTarget.version, ptr_off := 0 } b, false)
  | RawTxStatus.PARSING_VERSION => (view_version v b, false)
  | RawTxStatus.PARSING_INPUT_COUNT => (view_input_count v b, false)
  | RawTxStatus.PARSING_INPUTS => (view_inputs v b, false)
  | RawTxStatus.PARSING_OUTPUT_COUNT => (view_output_count v b, false)
  | RawTxStatus.PARSING_OUTPUTS_VALUE => (view_outputs_value v b, false)
  | RawTxStatus.PARSING_OUTPUTS => (view_outputs v b, false)
  | RawTxStatus.PARSING_LOCKTIME => view_locktime v b

/-- The effect of `parse_raw_txack` on the view. -/
def view_parse_raw_txack (v : ParserView) : Bytes → ParserView
  | [] => v
  | b :: rest =>
      let r := view_parse_raw_byte v b
      if r.2 then r.1 else view_parse_raw_txack r.1 rest

/-- The view after one byte. -/
def view_step (v : ParserView) (b : Nat) : ParserView :=
  (view_parse_raw_byte v b).1

/-- The view after the bytes `bytes`, none of which is taken to end the call. -/
def view_feed (v : ParserView) (bytes : Bytes) : ParserView :=
  bytes.foldl view_step v

/-- No byte of `bytes` makes the parser return from inside its loop. -/
def view_quiet (v : ParserView) : Bytes → Prop
  | [] => True
  | b :: rest => (view_parse_raw_byte v b).2 = false ∧ view_quiet (view_step v b) rest

/-- The bytes `bytes` take the view `v` to the view `w` without the parser returning from
inside its loop. -/
def Steps (v : ParserView) (bytes : Bytes) (w : ParserView) : Prop :=
  view_quiet v bytes ∧ view_feed v bytes = w

/-- The bytes `bytes` are a varint of value `n` in one of the three forms that
`deser_length` reads into 32 bits: one byte below `0xFD`; `0xFD` and two bytes; `0xFE` and
four bytes. -/
inductive Varint : Bytes → Nat → Prop
  | one (b0 : Nat) (h0 : b0 < 253) : Varint [b0] b0
  | three (b1 b2 : Nat) (h1 : b1 < 256) (h2 : b2 < 256) :
      Varint [253, b1, b2] (b1 + b2 * 256)
  | five (b1 b2 b3 b4 : Nat) (h1 : b1 < 256) (h2 : b2 < 256) (h3 : b3 < 256) (h4 : b4 < 256) :
      Varint [254, b1, b2, b3, b4] (b1 + b2 * 256 + b3 * 65536 + b4 * 16777216)

/-- The value of a byte string read as a little-endian number. -/
def le_value : Bytes → Nat
  | [] => 0
  | b :: rest => b + 256 * le_value rest

/-- An input of a raw transaction: the outpoint, the varint length of the script, the
script, and the sequence number. -/
structure RawInput where
  outpoint : Bytes
  script_len : Bytes
  script : Bytes
  sequence : Bytes
  deriving DecidableEq, Repr

/-- An output of a raw transaction: the value, the varint length of the script, and the
script. -/
structure RawOutput where
  value : Bytes
  script_len : Bytes
  script : Bytes
  deriving DecidableEq, Repr

/-- A raw transaction, field by field. -/
structure RawTx where
  version : Bytes
  input_count : Bytes
  inputs : List RawInput
  output_count : Bytes
  outputs : List RawOutput
  lock_time : Bytes
  deriving DecidableEq, Repr

/-- The bytes of an input. -/
def RawInput.bytes (i : RawInput) : Bytes :=
  i.outpoint ++ i.script_len ++ i.script ++ i.sequence

/-- The bytes of an output. -/
def RawOutput.bytes (o : RawOutput) : Bytes :=
  o.value ++ o.script_len ++ o.script

/-- The bytes of a raw transaction. -/
def RawTx.bytes (t : RawTx) : Bytes :=
  t.version ++ t.input_count ++ t.inputs.flatMap RawInput.bytes ++ t.output_count
    ++ t.outputs.flatMap RawOutput.bytes ++ t.lock_time

/-- The fields of the input have their sizes, and the varint gives the length of the
script. -/
def RawInput.well_formed (i : RawInput) : Prop :=
  i.outpoint.length = 36 ∧ Varint i.script_len i.script.length ∧ i.sequence.length = 4

/-- The fields of the output have their sizes, the value consists of bytes, and the
varint gives the length of the script. -/
def RawOutput.well_formed (o : RawOutput) : Prop :=
  o.value.length = 8 ∧ (∀ b ∈ o.value, b < 256) ∧ Varint o.script_len o.script.length

/-- A well-formed raw transaction with at least one input and one output. -/
def RawTx.well_formed (t : RawTx) : Prop :=
  t.version.length = 4 ∧ Varint t.input_count t.inputs.length ∧ 1 ≤ t.inputs.length ∧
  (∀ i ∈ t.inputs, i.well_formed) ∧ Varint t.output_count t.outputs.length ∧
  1 ≤ t.outputs.length ∧ (∀ o ∈ t.outputs, o.well_formed) ∧ t.lock_time.length = 4

/-- Every script of the transaction is shorter than `bound` bytes. -/
def RawTx.scripts_below (t : RawTx) (bound : Nat) : Prop :=
  (∀ i ∈ t.inputs, i.script.length < bound) ∧ (∀ o ∈ t.outputs, o.script.length < bound)

/-- The variable `to_spend` after a raw previous transaction whose output at the input's
`prev_index`, if there is one, is `o`. -/
def raw_spend (to_spend : Nat) : Option RawOutput → Nat
  | some o => add64 to_spend (le_value o.value)
  | none => to_spend

/-- The transaction `richRawTx`, field by field. -/
def richTx : RawTx :=
  { version := [1, 0, 0, 0], input_count := [1],
    inputs := [{ outpoint := List.replicate 32 17 ++ [0, 0, 0, 0], script_len := [0],
                 script := [], sequence := [255, 255, 255, 255] }],
    output_count := [1],
    outputs := [{ value := [64, 66, 15, 0, 0, 0, 0, 0], script_len := [1], script := [81] }],
    lock_time := [0, 0, 0, 0] }

/-- The first sixteen bytes of the script of the input of `longScriptTx`: read as the end
of the inputs, an output count of one, an output of value 7 with an empty script, and a
lock time. -/
def longScriptHead : Bytes :=
  [0, 1, 7, 0, 0, 0, 0, 0, 0, 0, 1, 0, 0, 0, 0, 0]

/-- A well-formed transaction with one input, whose script is `2 ^ 31` bytes long, and one
output of value 5000. -/
def longScriptTx : RawTx :=
  { version := [1, 0, 0, 0], input_count := [1],
    inputs := [{ outpoint := List.replicate 36 0, script_len := [254, 0, 0, 0, 128],
                 script := longScriptHead ++ List.replicate (2 ^ 31 - 16) 0,
                 sequence := [255, 255, 255, 255] }],
    output_count := [1],
    outputs := [{ value := [136, 19, 0, 0, 0, 0, 0, 0], script_len := [1], script := [81] }],
    lock_time := [0, 0, 0, 0] }

/-- The bytes of `longScriptTx` up to the sixteenth byte of the script of its input. -/
def longScriptStart : Bytes :=
  [1, 0, 0, 0] ++ [1] ++ List.replicate 36 0 ++ [254, 0, 0, 0, 128] ++ longScriptHead

/-- The device after `signing_init` for one input and one output and an input that names,
in `demoEnv`, the hash of `longScriptStart` as `prev_hash`. -/
def longScriptState : State :=
  signing_txack demoEnv demoStart
    (ackInput { zeroInput with prev_hash := longScriptStart.take 32, prev_hash_size := 32 })

/-- The statement `dogm128_ram[(((63 - ycoord) / 8) * 128) + xcoord] |= (1 << ((63 - ycoord) % 8))`
of `dogm128_set_dot` (dogm128.c:145-149).  The `u8` arguments are promoted to `int`, so the
subtraction, the truncating division and the remainder are computed on integers; the result of
the `|=` is converted back to `u8`.  An index outside `dogm128_ram[1024]` or a negative shift
count is undefined and modelled by `none`. -/
def dogm128_set_dot (dogm128_ram : List Nat) (xcoord ycoord : Nat) : Option (List Nat) :=
  let x : Int := ((xcoord % 256 : Nat) : Int)
  let y : Int := ((ycoord % 256 : Nat) : Int)
  let index : Int := Int.tdiv (63 - y) 8 * 128 + x
  let shift : Int := Int.tmod (63 - y) 8
  if 0 ≤ index ∧ index < 1024 ∧ 0 ≤ shift then
    some (dogm128_ram.set index.toNat
      ((dogm128_ram.getD index.toNat 0 ||| (1 <<< shift.toNat)) % 256))
  else none

/-- The statement `dogm128_ram[(((63 - ycoord) / 8) * 128) + xcoord] &= ~(1 << ((63 - ycoord) % 8))`
of `dogm128_clear_dot` (dogm128.c:151-155).  The complement is taken on a 32-bit `int`; the
result of the `&=` is converted back to `u8`. -/
def dogm128_clear_dot (dogm128_ram : List Nat) (xcoord ycoord : Nat) : Option (List Nat) :=
  let x : Int := ((xcoord % 256 : Nat) : Int)
  let y : Int := ((ycoord % 256 : Nat) : Int)
  let index : Int := Int.tdiv (63 - y) 8 * 128 + x
  let shift : Int := Int.tmod (63 - y) 8
  if 0 ≤ index ∧ index < 1024 ∧ 0 ≤ shift then
    some (dogm128_ram.set index.toNat
      ((dogm128_ram.getD index.toNat 0 &&& (2 ^ 32 - 1 - (1 <<< shift.toNat))) % 256))
  else none

/-- The dot's byte index in the display RAM, as the specification writes it. -/
def dot_index (xcoord ycoord : Nat) : Nat := ((63 - ycoord) / 8) * 128 + xcoord

/-- The dot's bit number inside its byte, as the specification writes it. -/
def dot_bit (ycoord : Nat) : Nat := (63 - ycoord) % 8

/-- A display RAM of 1024 bytes. -/
def display_ram (ram : List Nat) : Prop := ram.length = 1024 ∧ ∀ b ∈ ram, b < 256

/-- The blank display RAM. -/
def blankRam : List Nat := List.replicate 1024 0

/-- What the parser's variables satisfy between two bytes when every store of the next
byte lands inside the object it is aimed at: the remaining stores through `ptr` fit the
field `ptr` points into, and the next varint byte goes to an index below
`VAR_INT_BUFFER`. -/
def view_safe (v : ParserView) : Prop :=
  match v.status with
  | RawTxStatus.NOT_PARSING => True
  | RawTxStatus.PARSING_VERSION =>
      v.ptr = PtrTarget.version ∧ 2 ≤ v.state_pos ∧ (v.ptr_off : Int) + v.state_pos ≤ 5
  | RawTxStatus.PARSING_INPUT_COUNT => v.buf_index < VAR_INT_BUFFER
  | RawTxStatus.PARSING_INPUTS => v.buf_index < VAR_INT_BUFFER
  | RawTxStatus.PARSING_OUTPUT_COUNT => v.buf_index < VAR_INT_BUFFER
  | RawTxStatus.PARSING_OUTPUTS_VALUE =>
      v.ptr = PtrTarget.current_output_val ∧
        (v.ptr_off = 0 ∨ (1 ≤ v.state_pos ∧ (v.ptr_off : Int) + v.state_pos ≤ 8))
  | RawTxStatus.PARSING_OUTPUTS => v.buf_index < VAR_INT_BUFFER ∨ ¬ v.seen < v.outputs_len
  | RawTxStatus.PARSING_LOCKTIME =>
      v.ptr = PtrTarget.lock_time ∧ 1 ≤ v.state_pos ∧ (v.ptr_off : Int) + v.state_pos ≤ 4

/-- No structured `TxAck` of the session is taken as the metadata of a previous
transaction (stage `REQUEST_2_PREV_META`, session live) while the raw parser is in
`PARSING_OUTPUTS`. -/
def outputs_len_stable (env : Env) : State → List HostMsg → Bool
  | _, [] => true
  | s, HostMsg.txack tx :: rest =>
      !(s.signing && decide (s.signing_stage = Stage.STAGE_REQUEST_2_PREV_META)
          && decide (s.raw_tx_status = RawTxStatus.PARSING_OUTPUTS))
        && outputs_len_stable env (signing_txack env s tx) rest
  | s, HostMsg.raw msg :: rest => outputs_len_stable env (parse_raw_txack env s msg) rest

/-- The first 59 bytes of a raw previous transaction with one input and one output whose
script length is written as the nine-byte varint `FF 00 00 00 00 00 00 00 00`. -/
def nineByteVarintHead : Bytes :=
  [1, 0, 0, 0] ++ [1] ++ (List.replicate 32 17 ++ [0, 0, 0, 0]) ++ [0]
    ++ [255, 255, 255, 255] ++ [1] ++ [16, 39, 0, 0, 0, 0, 0, 0]
    ++ [255, 0, 0, 0, 0, 0, 0, 0, 0]

/-- A session that delivers `nineByteVarintHead` in raw mode and then announces two
outputs for the same previous transaction in structured mode. -/
def overrunSession : List HostMsg :=
  [HostMsg.txack (ackInput zeroInput), HostMsg.raw nineByteVarintHead,
   HostMsg.txack (ackMeta 1 2 1 0)]

/-- A session that delivers a whole previous transaction in raw mode, in two slices. -/
def rawSlicesSession : List HostMsg :=
  [HostMsg.txack (ackInput zeroInput), HostMsg.raw (oneByteScriptTx.take 50),
   HostMsg.raw (oneByteScriptTx.drop 50)]

/-- Whether the call `signing_txack(tx)` in state `s` executes `spending += tx->outputs[0].amount`
in `case STAGE_REQUEST_3_OUTPUT`, and with which value of `is_change`: the session is live in
that stage, the change test raised no failure, the output is not refused as a second change
output, and the policy module compiled it. -/
def summed_output (env : Env) (s : State) (tx : TransactionType) : Option Bool :=
  if s.signing = true ∧ s.signing_stage = Stage.STAGE_REQUEST_3_OUTPUT then
    match output_is_change env s tx.outputs with
    | Except.error _ => none
    | Except.ok b =>
        if b = true ∧ s.change_spend ≠ 0 then none
        else if (env.run_policy_compile_output s.coin s.root tx.outputs (!b)).1
            ≤ env.TXOUT_COMPILE_ERROR then none
        else some b
  else none

/-- The outputs that one host message makes the device sum into `spending`, each with its
value of `is_change`. -/
def step_outputs (env : Env) (s : State) : HostMsg → List (TxOutputType × Bool)
  | HostMsg.txack tx =>
      match summed_output env s tx with
      | some b => [(tx.outputs, b)]
      | none => []
  | HostMsg.raw _ => []

/-- The outputs that the messages `msgs`, handled from state `s` on, make the device sum into
`spending`, in order, each with its value of `is_change`. -/
def summed_outputs (env : Env) : State → List HostMsg → List (TxOutputType × Bool)
  | _, [] => []
  | s, m :: rest => step_outputs env s m ++ summed_outputs env (handle env s m) rest

/-- The sum of the amounts of the listed outputs. -/
def amounts_total (l : List (TxOutputType × Bool)) : Nat :=
  (l.map (fun p => p.1.amount)).sum

/-- The sum of the amounts of the listed outputs that were recorded as change. -/
def change_total (l : List (TxOutputType × Bool)) : Nat :=
  ((l.filter (fun p => p.2)).map (fun p => p.1.amount)).sum

/-- The sum of the amounts of the listed outputs that were not recorded as change. -/
def non_change_total (l : List (TxOutputType × Bool)) : Nat :=
  ((l.filter (fun p => !p.2)).map (fun p => p.1.amount)).sum

/-- What the amounts of a live session satisfy after the outputs `outs` have been summed. -/
def funds_inv (s : State) (outs : List (TxOutputType × Bool)) : Prop :=
  s.signing = true →
    s.to_spend < 2 ^ 64 ∧ s.spending = amounts_total outs % 2 ^ 64 ∧
    s.change_spend = change_total outs

/-- A session with one input worth 10000, an external output of 3000 and a change output
of 5000, up to the message before the last output. -/
def changeSessionHead : List HostMsg :=
  (demoInputAcks 10000).map HostMsg.txack ++ [HostMsg.txack (ackOutput (spendOutput 3000))]

/-- A session of one input and one output: in phase 1 the input is a multisig input without
multisig info, so that stage `REQUEST_1_INPUT` leaves the fingerprint bookkeeping alone; in
phase 2 the host sends the input with the multisig descriptor `[5]`. -/
def staleFingerprintSession : List HostMsg :=
  ([ackInput bareMultisigInput, ackMeta 1 1 1 0, ackInput zeroInput, ackBinOutput 10000 [81],
    ackOutput (spendOutput 9000), ackInput (multisigInput [5])]).map HostMsg.txack

/-- The session `staleFingerprintSession` started by `signing_init` for one input and one
output on a device whose module variables hold the values `prior`. -/
def staleFingerprintRun (prior : State) : State :=
  run demoEnv (signing_init 1 1 demoCoin demoRoot 1 0 prior) staleFingerprintSession

/-- The index that a request for an input of the current transaction asks for: a
`TxRequest` of type `TXINPUT` that names no previous transaction (`send_req_1_input`). -/
def Event.input_request : Event → Option Nat
  | Event.tx_request r =>
      if r.has_request_type = true ∧ r.request_type = RequestType.TXINPUT ∧
          r.has_tx_hash = false then some r.request_index
      else none
  | _ => none

/-- The indices of the current inputs requested by the events `L`, in order. -/
def input_requests (L : List Event) : List Nat :=
  L.filterMap Event.input_request

/-- The stages of the input sweep of phase 1. -/
def Stage.in_input_sweep : Stage → Bool
  | Stage.STAGE_REQUEST_1_INPUT => true
  | Stage.STAGE_REQUEST_2_PREV_META => true
  | Stage.STAGE_REQUEST_2_PREV_INPUT => true
  | Stage.STAGE_REQUEST_2_PREV_OUTPUT => true
  | _ => false

/-- Every message of `msgs`, handled from state `s` on, arrives during the input sweep of
phase 1. -/
def input_sweep (env : Env) : State → List HostMsg → Bool
  | _, [] => true
  | s, m :: rest => s.signing_stage.in_input_sweep && input_sweep env (handle env s m) rest

/-- Between the states `s` and `t` the log grew by events whose requests for current
inputs are `X`, in this order. -/
def Requests (s t : State) (X : List Nat) : Prop :=
  ∃ E, t.log = s.log ++ E ∧ input_requests E = X

/-- The structured messages of the input sweep of a session with the two inputs
`twoBlocks`. -/
def twoInputSweep : List HostMsg :=
  (input_acks twoBlocks).map HostMsg.txack

/-- The device after `signing_init` for `inputs_count = 0` and one output, at power-up. -/
def zeroInputsStart : State :=
  signing_init 0 1 demoCoin demoRoot 1 0 State.boot

/-! # Theorems

## Basic facts -/

theorem dec32_lt (n j : Nat) (h1 : 1 ≤ n) (h2 : n < 2 ^ 32) : j < dec32 n ↔ j + 1 < n := by
  unfold dec32
  have : (n + (2 ^ 32 - 1)) % 2 ^ 32 = n - 1 := by omega
  rw [this]; omega

theorem extends_of_append {P : Event → Bool} {base L : List Event}
    (h : ∀ e ∈ L, P e = true) : Extends P base (base ++ L) :=
  ⟨L, rfl, h⟩

theorem extends_refl (P : Event → Bool) (base : List Event) : Extends P base base :=
  ⟨[], by simp, by simp⟩

theorem extends_trans {P : Event → Bool} {a b c : List Event} (h1 : Extends P a b)
    (h2 : Extends P b c) : Extends P a c := by
  obtain ⟨L1, rfl, hL1⟩ := h1
  obtain ⟨L2, rfl, hL2⟩ := h2
  refine ⟨L1 ++ L2, by simp, ?_⟩
  intro e he
  rcases List.mem_append.1 he with h | h
  · exact hL1 e h
  · exact hL2 e h

theorem extends_mono {P Q : Event → Bool} {a b : List Event}
    (hPQ : ∀ e, P e = true → Q e = true) (h : Extends P a b) : Extends Q a b := by
  obtain ⟨L, rfl, hL⟩ := h
  exact ⟨L, rfl, fun e he => hPQ e (hL e he)⟩

@[simp] theorem extends_append_iff (P : Event → Bool) (base L : List Event) :
    Extends P base (base ++ L) ↔ ∀ e ∈ L, P e = true := by
  constructor
  · rintro ⟨L', h, hL⟩
    have : L = L' := List.append_cancel_left h
    subst this; exact hL
  · exact extends_of_append

@[simp] theorem extends_self_iff (P : Event → Bool) (base : List Event) :
    Extends P base base ↔ True := by
  simp [extends_refl]

theorem run_txacks_append (env : Env) (s : State) (a b : List TransactionType) :
    run_txacks env s (a ++ b) = run_txacks env (run_txacks env s a) b := by
  induction a generalizing s with
  | nil => rfl
  | cons tx a ih => simp [run_txacks, ih]

theorem signing_txack_dead (env : Env) (s : State) (tx : TransactionType)
    (h : s.signing = false) :
    signing_txack env s tx =
      { s with log := s.log ++ [Event.failure FailureType.Failure_UnexpectedMessage
                                  "Not in Signing mode", Event.go_home] } := by
  simp [signing_txack, h, go_home, fsm_sendFailure]

theorem dead_step (env : Env) {base : List Event} {s : State} (tx : TransactionType)
    (h : Dead base s) : Dead base (signing_txack env s tx) := by
  rw [signing_txack_dead env s tx h.1]
  refine ⟨h.1, extends_trans h.2 ?_⟩
  simp [Event.plain]

theorem dead_run (env : Env) {base : List Event} {s : State} (msgs : List TransactionType)
    (h : Dead base s) : Dead base (run_txacks env s msgs) := by
  induction msgs generalizing s with
  | nil => exact h
  | cons tx rest ih => exact ih (dead_step env tx h)

theorem dead_mono {a b : List Event} {s : State} (hab : Extends Event.plain a b)
    (h : Dead b s) : Dead a s :=
  ⟨h.1, extends_trans hab h.2⟩

@[simp] theorem fail_abort_signing (code : FailureType) (text : String) (s : State) :
    (fail_abort code text s).signing = false := by
  simp only [fail_abort, signing_abort, go_home, fsm_sendFailure]
  split_ifs with h <;> simp_all

theorem fail_abort_log (code : FailureType) (text : String) (s : State)
    (htext : text ≠ "Transaction has changed during signing") :
    Extends Event.plain s.log (fail_abort code text s).log := by
  simp only [fail_abort, signing_abort, go_home, fsm_sendFailure]
  split_ifs with h <;> simp_all [Event.plain]

theorem fail_abort_log_eq (code : FailureType) (text : String) (s : State) :
    (fail_abort code text s).log =
      s.log ++ Event.failure code text :: (if s.signing then [Event.go_home] else []) := by
  simp only [fail_abort, signing_abort, go_home, fsm_sendFailure]
  split_ifs with h <;> simp_all

@[simp] theorem co_error_abort_signing (env : Env) (co : Int) (s : State) :
    (signing_abort (send_fsm_co_error_message env co s)).signing = false := by
  simp only [signing_abort, go_home]
  split_ifs with h <;> simp_all

theorem send_fsm_co_error_message_log (env : Env) (co : Int) (s : State) :
    Extends Event.plain s.log (send_fsm_co_error_message env co s).log := by
  simp only [send_fsm_co_error_message, fsm_sendFailure]
  split_ifs
  · simp [Event.plain]
  · simp [Event.plain]
  · split <;> simp [Event.plain]
  · simp [Event.plain]

theorem co_error_abort_log (env : Env) (co : Int) (s : State) :
    Extends Event.plain s.log (signing_abort (send_fsm_co_error_message env co s)).log := by
  refine extends_trans (send_fsm_co_error_message_log env co s) ?_
  simp only [signing_abort, go_home]
  split_ifs <;> simp [Event.plain]

/-! ## The raw previous-transaction parser on a transaction with an empty last script -/

/-- C7 (evaluation at the failing input). `parse_raw_txack`, started in `NOT_PARSING`,
is fed the sixty bytes of `emptyScriptTx`, a well-formed transaction whose last output has
an empty script. After the last byte the parser has not reached locktime completion: it
is in `PARSING_LOCKTIME` with one byte still expected, and it has sent nothing. Only one
more byte (here `0`) completes it, and the bytes hashed are then the transaction followed
by that foreign byte. With a one-byte last script the parser completes on the last byte
of the transaction and has hashed exactly its bytes. -/
theorem parse_raw_txack_empty_last_script :
    (parse_raw_txack demoEnv demoStart emptyScriptTx).raw_tx_status
        = RawTxStatus.PARSING_LOCKTIME ∧
    (parse_raw_txack demoEnv demoStart emptyScriptTx).state_pos = 1 ∧
    (parse_raw_txack demoEnv demoStart emptyScriptTx).log = demoStart.log ∧
    (parse_raw_txack demoEnv demoStart (emptyScriptTx ++ [0])).raw_tx_status
        = RawTxStatus.NOT_PARSING ∧
    (parse_raw_txack demoEnv demoStart (emptyScriptTx ++ [0])).transaction_previous.ctx
        = emptyScriptTx ++ [0] ∧
    (parse_raw_txack demoEnv demoStart oneByteScriptTx).raw_tx_status
        = RawTxStatus.NOT_PARSING ∧
    (parse_raw_txack demoEnv demoStart oneByteScriptTx).transaction_previous.ctx
        = oneByteScriptTx ∧
    (parse_raw_txack demoEnv demoStart oneByteScriptTx.dropLast).raw_tx_status
        = RawTxStatus.PARSING_LOCKTIME := by
  refine ⟨by decide, by decide, by decide, by decide, by decide, by decide, by decide,
    by decide⟩

/-! ## Two change outputs, the first with amount zero -/

/-- C4 (evaluation at the failing input). A session with one input worth 10000 and two
outputs that both pass the change test, the first with amount 0 and the second with
amount 5000. The policy module is called for both with `needs_confirm = false`, no
failure is sent, the final confirmation is shown (total 5000, fee 5000) and the session
goes on to phase 2. -/
theorem two_change_outputs_accepted :
    (run_txacks demoEnv (signing_init 1 2 demoCoin demoRoot 1 0 State.boot) twoChangeAcks).signing
      = true ∧
    (run_txacks demoEnv (signing_init 1 2 demoCoin demoRoot 1 0 State.boot)
        twoChangeAcks).signing_stage = Stage.STAGE_REQUEST_4_INPUT ∧
    ((run_txacks demoEnv (signing_init 1 2 demoCoin demoRoot 1 0 State.boot)
        twoChangeAcks).log.filter
        (fun e => match e with
          | Event.tx_request _ => false
          | _ => true))
      = [Event.policy_compile_output (changeOutput 0) false,
         Event.policy_compile_output (changeOutput 5000) false,
         Event.confirm_transaction 5000 5000,
         Event.layout_simple_message "Signing Transaction..."] := by
  refine ⟨by decide, by decide, by decide⟩

/-! ## The digest that is signed for a fork-id coin -/

set_option maxRecDepth 100000 in
/-- C10 (evaluation at the failing input). Scenario S3 on a fork-id coin. With a digest
function that separates different byte strings (`demoEnv`) the session ends at the end of
the inner sweep with "Transaction has changed during signing" and no request carries a
signature, because the BIP-143 digest is compared with `hash_check`, the phase-1 commit
hash. With a digest function that makes this comparison succeed (`flatEnv`) a signature
is emitted, and it is the signature of `tx_hash_final(&ti, hash, false)`, which
overwrote the BIP-143 digest in `hash`, not of the BIP-143 digest. -/
theorem forkid_signs_legacy_digest :
    (run_txacks demoEnv (signing_init 1 1 forkCoin demoRoot 1 0 State.boot) forkAcks).signing
      = false ∧
    (run_txacks demoEnv (signing_init 1 1 forkCoin demoRoot 1 0 State.boot) forkAcks).log.filter
        (fun e => match e with
          | Event.failure _ _ => true
          | _ => Event.has_signature e)
      = [Event.failure FailureType.Failure_Other "Transaction has changed during signing"] ∧
    (run_txacks flatEnv (signing_init 1 1 forkCoin demoRoot 1 0 State.boot) forkAcks).signing
      = true ∧
    (run_txacks flatEnv (signing_init 1 1 forkCoin demoRoot 1 0 State.boot) forkAcks).sig
      = flatEnv.ecdsa_sign_digest
          (run_txacks flatEnv (signing_init 1 1 forkCoin demoRoot 1 0 State.boot) forkAcks).privkey
          (flatEnv.tx_hash_final
            (run_txacks flatEnv (signing_init 1 1 forkCoin demoRoot 1 0 State.boot) forkAcks).ti
            false) ∧
    (run_txacks flatEnv (signing_init 1 1 forkCoin demoRoot 1 0 State.boot) forkAcks).hash
      ≠ signing_hash_bip143 flatEnv
          (run_txacks flatEnv (signing_init 1 1 forkCoin demoRoot 1 0 State.boot) forkAcks)
          (run_txacks flatEnv (signing_init 1 1 forkCoin demoRoot 1 0 State.boot) forkAcks).input
          (SIGHASH_ALL ||| SIGHASH_FORKID) forkCoin.forkid ∧
    (run_txacks flatEnv (signing_init 1 1 forkCoin demoRoot 1 0 State.boot) forkAcks).log.filter
        Event.has_signature
      = [Event.tx_request
          (run_txacks flatEnv (signing_init 1 1 forkCoin demoRoot 1 0 State.boot) forkAcks).resp] ∧
    (run_txacks flatEnv (signing_init 1 1 forkCoin demoRoot 1 0 State.boot)
        forkAcks).resp.serialized.signature
      = flatEnv.ecdsa_sig_to_der
          (run_txacks flatEnv (signing_init 1 1 forkCoin demoRoot 1 0 State.boot) forkAcks).sig := by
  refine ⟨by decide, by decide, by decide, by decide, by decide, by decide, by decide⟩

/-! ## The dispatch of `signing_txack` -/

theorem signing_txack_at_1_input (env : Env) (s : State) (tx : TransactionType)
    (hlive : s.signing = true) (hstage : s.signing_stage = Stage.STAGE_REQUEST_1_INPUT) :
    signing_txack env s tx = txack_request_1_input env { s with resp := TxRequest.zero } tx := by
  unfold signing_txack
  simp only [hlive, hstage, Bool.not_true, Bool.false_eq_true, if_false]

theorem signing_txack_at_2_prev_meta (env : Env) (s : State) (tx : TransactionType)
    (hlive : s.signing = true) (hstage : s.signing_stage = Stage.STAGE_REQUEST_2_PREV_META) :
    signing_txack env s tx = txack_request_2_prev_meta { s with resp := TxRequest.zero } tx := by
  unfold signing_txack
  simp only [hlive, hstage, Bool.not_true, Bool.false_eq_true, if_false]

theorem signing_txack_at_2_prev_input (env : Env) (s : State) (tx : TransactionType)
    (hlive : s.signing = true) (hstage : s.signing_stage = Stage.STAGE_REQUEST_2_PREV_INPUT) :
    signing_txack env s tx =
      txack_request_2_prev_input env { s with resp := TxRequest.zero } tx := by
  unfold signing_txack
  simp only [hlive, hstage, Bool.not_true, Bool.false_eq_true, if_false]

theorem signing_txack_at_2_prev_output (env : Env) (s : State) (tx : TransactionType)
    (hlive : s.signing = true) (hstage : s.signing_stage = Stage.STAGE_REQUEST_2_PREV_OUTPUT) :
    signing_txack env s tx =
      txack_request_2_prev_output env { s with resp := TxRequest.zero } tx := by
  unfold signing_txack
  simp only [hlive, hstage, Bool.not_true, Bool.false_eq_true, if_false]

theorem signing_txack_at_3_output (env : Env) (s : State) (tx : TransactionType)
    (hlive : s.signing = true) (hstage : s.signing_stage = Stage.STAGE_REQUEST_3_OUTPUT) :
    signing_txack env s tx = txack_request_3_output env { s with resp := TxRequest.zero } tx := by
  unfold signing_txack
  simp only [hlive, hstage, Bool.not_true, Bool.false_eq_true, if_false]

theorem signing_txack_at_4_input (env : Env) (s : State) (tx : TransactionType)
    (hlive : s.signing = true) (hstage : s.signing_stage = Stage.STAGE_REQUEST_4_INPUT) :
    signing_txack env s tx = txack_request_4_input env { s with resp := TxRequest.zero } tx := by
  unfold signing_txack
  simp only [hlive, hstage, Bool.not_true, Bool.false_eq_true, if_false]

theorem signing_txack_at_4_output (env : Env) (s : State) (tx : TransactionType)
    (hlive : s.signing = true) (hstage : s.signing_stage = Stage.STAGE_REQUEST_4_OUTPUT) :
    signing_txack env s tx = txack_request_4_output env { s with resp := TxRequest.zero } tx := by
  unfold signing_txack
  simp only [hlive, hstage, Bool.not_true, Bool.false_eq_true, if_false]

theorem signing_txack_at_5_output (env : Env) (s : State) (tx : TransactionType)
    (hlive : s.signing = true) (hstage : s.signing_stage = Stage.STAGE_REQUEST_5_OUTPUT) :
    signing_txack env s tx = txack_request_5_output env { s with resp := TxRequest.zero } tx := by
  unfold signing_txack
  simp only [hlive, hstage, Bool.not_true, Bool.false_eq_true, if_false]

/-! ## Stage by stage: what is logged and what becomes of the core -/

theorem input_multisig_fp_core (env : Env) (s : State) (i : TxInputType) :
    (input_multisig_fp env s i).2.core =
      { s.core with
        multisig_fp_set := (input_multisig_fp env s i).2.multisig_fp_set,
        multisig_fp_mismatch := (input_multisig_fp env s i).2.multisig_fp_mismatch,
        multisig_fp := (input_multisig_fp env s i).2.multisig_fp } ∧
    (input_multisig_fp env s i).2.log = s.log ∧
    (input_multisig_fp env s i).2.resp = s.resp := by
  simp only [input_multisig_fp]
  split_ifs <;> simp [State.core]

theorem txack_request_1_input_log (env : Env) (s : State) (tx : TransactionType)
    (hresp : s.resp.has_serialized = false) :
    Extends Event.plain s.log (txack_request_1_input env s tx).log := by
  obtain ⟨-, hlog, hr⟩ := input_multisig_fp_core env s tx.inputs
  simp only [txack_request_1_input]
  split_ifs
  · rw [← hlog]; exact fail_abort_log _ _ _ (by decide)
  · simp [send_req_2_prev_meta, msg_write, hlog, hr, Event.plain, hresp]

theorem txack_request_1_input_core (env : Env) (s : State) (tx : TransactionType) :
    (txack_request_1_input env s tx).signing = false ∨
    (txack_request_1_input env s tx).core =
      { s.core with
        signing_stage := Stage.STAGE_REQUEST_2_PREV_META,
        input := tx.inputs,
        transaction_current := s.transaction_current ++ env.bytes_TxInputType tx.inputs,
        multisig_fp_set := (input_multisig_fp env s tx.inputs).2.multisig_fp_set,
        multisig_fp_mismatch := (input_multisig_fp env s tx.inputs).2.multisig_fp_mismatch,
        multisig_fp := (input_multisig_fp env s tx.inputs).2.multisig_fp } := by
  obtain ⟨hc, -, -⟩ := input_multisig_fp_core env s tx.inputs
  simp only [txack_request_1_input]
  split_ifs
  · exact Or.inl (fail_abort_signing _ _ _)
  · right
    simp only [State.core, Core.mk.injEq] at hc
    simp [State.core, send_req_2_prev_meta, msg_write, hc]

theorem txack_request_2_prev_meta_log (s : State) (tx : TransactionType)
    (hresp : s.resp.has_serialized = false) :
    Extends Event.plain s.log (txack_request_2_prev_meta s tx).log := by
  simp [txack_request_2_prev_meta, send_req_2_prev_input, msg_write, Event.plain, hresp]

theorem txack_request_2_prev_meta_core (s : State) (tx : TransactionType) :
    (txack_request_2_prev_meta s tx).core =
      { s.core with
        signing_stage := Stage.STAGE_REQUEST_2_PREV_INPUT,
        idx2 := 0,
        prev_inputs_len := tx.inputs_cnt,
        prev_outputs_len := tx.outputs_cnt } := by
  simp [txack_request_2_prev_meta, send_req_2_prev_input, msg_write, State.core, tx_init]

theorem txack_request_2_prev_input_log (env : Env) (s : State) (tx : TransactionType)
    (hresp : s.resp.has_serialized = false) :
    Extends Event.plain s.log (txack_request_2_prev_input env s tx).log := by
  simp only [txack_request_2_prev_input]
  split_ifs
  · exact fail_abort_log _ _ _ (by decide)
  · simp [send_req_2_prev_input, msg_write, Event.plain, hresp]
  · simp [send_req_2_prev_output, msg_write, Event.plain, hresp]

theorem txack_request_2_prev_input_core (env : Env) (s : State) (tx : TransactionType) :
    (txack_request_2_prev_input env s tx).signing = false ∨
    (txack_request_2_prev_input env s tx).core =
      { s.core with
        signing_stage :=
          if s.idx2 < dec32 s.transaction_previous.inputs_len then
            Stage.STAGE_REQUEST_2_PREV_INPUT
          else Stage.STAGE_REQUEST_2_PREV_OUTPUT,
        idx2 := if s.idx2 < dec32 s.transaction_previous.inputs_len then s.idx2 + 1 else 0 } := by
  simp only [txack_request_2_prev_input]
  by_cases h1 : (tx_serialize_input_hash env s.transaction_previous tx.inputs).1 = 0
  · rw [if_pos h1]; exact Or.inl (fail_abort_signing _ _ _)
  · rw [if_neg h1]; right
    by_cases h2 : s.idx2 < dec32 s.transaction_previous.inputs_len
    · simp [State.core, send_req_2_prev_input, msg_write, tx_serialize_input_hash, h2]
    · simp [State.core, send_req_2_prev_output, msg_write, tx_serialize_input_hash, h2]

theorem txack_request_2_prev_output_log (env : Env) (s : State) (tx : TransactionType)
    (hresp : s.resp.has_serialized = false) :
    Extends Event.plain s.log (txack_request_2_prev_output env s tx).log := by
  simp only [txack_request_2_prev_output]
  split_ifs
  all_goals first
    | exact fail_abort_log _ _ _ (by decide)
    | simp [send_req_2_prev_output, send_req_1_input, send_req_3_output, msg_write,
        Event.plain, hresp]

theorem txack_request_2_prev_output_core (env : Env) (s : State) (tx : TransactionType) :
    (txack_request_2_prev_output env s tx).signing = false ∨
    (txack_request_2_prev_output env s tx).core =
      (if s.idx2 < dec32 s.transaction_previous.outputs_len then
        { s.core with
          signing_stage := Stage.STAGE_REQUEST_2_PREV_OUTPUT,
          idx2 := s.idx2 + 1,
          to_spend := if s.idx2 = s.input.prev_index then
              add64 s.to_spend tx.bin_outputs.amount else s.to_spend }
      else if s.idx1 < dec32 s.inputs_count then
        { s.core with
          signing_stage := Stage.STAGE_REQUEST_1_INPUT,
          idx1 := s.idx1 + 1,
          to_spend := if s.idx2 = s.input.prev_index then
              add64 s.to_spend tx.bin_outputs.amount else s.to_spend }
      else
        { s.core with
          signing_stage := Stage.STAGE_REQUEST_3_OUTPUT,
          idx1 := 0, idx2 := 0,
          to_spend := if s.idx2 = s.input.prev_index then
              add64 s.to_spend tx.bin_outputs.amount else s.to_spend,
          hash_check := env.sha256 s.hashers2 }) := by
  simp only [txack_request_2_prev_output]
  by_cases h1 : (tx_serialize_output_hash env s.transaction_previous tx.bin_outputs).1 = 0
  · rw [if_pos h1]; exact Or.inl (fail_abort_signing _ _ _)
  · rw [if_neg h1]
    by_cases h2 : s.idx2 < dec32 s.transaction_previous.outputs_len
    · right
      simp [State.core, send_req_2_prev_output, msg_write, tx_serialize_output_hash, h2]
    · by_cases h3 : memcmp32_ne
          (env.tx_hash_final (tx_serialize_output_hash env s.transaction_previous
            tx.bin_outputs).2 true) s.input.prev_hash = true
      · left
        simp only [tx_serialize_output_hash] at h3
        simp [tx_serialize_output_hash, h2, h3]
      · right
        simp only [tx_serialize_output_hash] at h3
        by_cases h4 : s.idx1 < dec32 s.inputs_count
        · simp [State.core, send_req_1_input, msg_write, tx_serialize_output_hash, h2, h3, h4]
        · simp [State.core, send_req_3_output, msg_write, tx_serialize_output_hash, h2, h3, h4]

/-! ### The confirmation gate -/

theorem txack_confirmation_gate_core (env : Env) (s : State) :
    (txack_confirmation_gate env s).signing = false ∨
    (s.spending ≤ s.to_spend ∧
      (txack_confirmation_gate env s).core =
        { s.core with
          signing_stage := Stage.STAGE_REQUEST_4_INPUT,
          idx1 := 0, idx2 := 0,
          hash_check := env.sha256 s.transaction_current }) := by
  simp only [txack_confirmation_gate]
  by_cases h1 : s.spending > s.to_spend
  · rw [if_pos h1]; exact Or.inl (fail_abort_signing _ _ _)
  · rw [if_neg h1]
    generalize decide (s.to_spend - s.spending >
      fee_threshold env s.inputs_count s.outputs_count s.coin.maxfee_kb) = over
    generalize env.confirm ButtonRequestType.ButtonRequest_FeeOverThreshold "Confirm Fee"
      (s.to_spend - s.spending) = cf
    generalize env.confirm_transaction (sub64 s.to_spend s.change_spend)
      (s.to_spend - s.spending) = ct
    have h1' : s.spending ≤ s.to_spend := Nat.le_of_not_lt h1
    cases over <;> cases cf <;> cases ct <;>
      simp [State.core, send_req_4_input, msg_write, h1']

/-- What the confirmation gate logs, case by case. -/
theorem txack_confirmation_gate_log (env : Env) (s : State) (hlive : s.signing = true)
    (hresp : s.resp.has_serialized = false) :
    ∃ L, (txack_confirmation_gate env s).log = s.log ++ L ∧
      ((s.to_spend < s.spending ∧
          L = [Event.failure FailureType.Failure_NotEnoughFunds "Not enough funds",
               Event.go_home]) ∨
       (s.spending ≤ s.to_spend ∧ fee_threshold env s.inputs_count s.outputs_count s.coin.maxfee_kb
            < s.to_spend - s.spending ∧
          ∃ T, L = Event.confirm ButtonRequestType.ButtonRequest_FeeOverThreshold "Confirm Fee"
                    (s.to_spend - s.spending) :: T ∧
            ∀ e ∈ T, Event.is_fee_prompt e = false ∧
              (∀ total fee, e = Event.confirm_transaction total fee →
                fee = s.to_spend - s.spending ∧ total = sub64 s.to_spend s.change_spend) ∧
              (∀ c text, e = Event.failure c text →
                text ≠ "Transaction has changed during signing") ∧
              Event.has_signature e = false) ∨
       (s.spending ≤ s.to_spend ∧ ¬ fee_threshold env s.inputs_count s.outputs_count s.coin.maxfee_kb
            < s.to_spend - s.spending ∧
          ∀ e ∈ L, Event.is_fee_prompt e = false ∧
            (∀ total fee, e = Event.confirm_transaction total fee →
              fee = s.to_spend - s.spending ∧ total = sub64 s.to_spend s.change_spend) ∧
            (∀ c text, e = Event.failure c text →
              text ≠ "Transaction has changed during signing") ∧
            Event.has_signature e = false)) := by
  simp only [txack_confirmation_gate]
  by_cases h1 : s.to_spend < s.spending
  · refine ⟨[Event.failure FailureType.Failure_NotEnoughFunds "Not enough funds",
      Event.go_home], ?_, Or.inl ⟨h1, rfl⟩⟩
    simp [h1, fail_abort_log_eq, hlive]
  · have h1' : s.spending ≤ s.to_spend := Nat.le_of_not_lt h1
    by_cases h2 : fee_threshold env s.inputs_count s.outputs_count s.coin.maxfee_kb
        < s.to_spend - s.spending
    · by_cases h3 : env.confirm ButtonRequestType.ButtonRequest_FeeOverThreshold "Confirm Fee"
          (s.to_spend - s.spending) = true
      · by_cases h4 : env.confirm_transaction (sub64 s.to_spend s.change_spend)
            (s.to_spend - s.spending) = true
        · refine ⟨[Event.confirm ButtonRequestType.ButtonRequest_FeeOverThreshold "Confirm Fee"
              (s.to_spend - s.spending),
            Event.confirm_transaction (sub64 s.to_spend s.change_spend)
              (s.to_spend - s.spending),
            Event.layout_simple_message "Signing Transaction...",
            Event.tx_request { s.resp with has_request_type := true,
                                           request_type := RequestType.TXINPUT,
                                           has_details := true, has_request_index := true,
                                           request_index := 0 }], ?_,
            Or.inr (Or.inl ⟨h1', h2, _, rfl, ?_⟩)⟩
          · simp [h1, h2, h3, h4, send_req_4_input, msg_write]
          · simp [Event.is_fee_prompt, Event.has_signature, hresp]
        · refine ⟨[Event.confirm ButtonRequestType.ButtonRequest_FeeOverThreshold "Confirm Fee"
              (s.to_spend - s.spending),
            Event.confirm_transaction (sub64 s.to_spend s.change_spend)
              (s.to_spend - s.spending),
            Event.failure FailureType.Failure_ActionCancelled "Signing cancelled by user",
            Event.go_home], ?_, Or.inr (Or.inl ⟨h1', h2, _, rfl, ?_⟩)⟩
          · simp [h1, h2, h3, h4, fail_abort_log_eq, hlive]
          · simp [Event.is_fee_prompt, Event.has_signature]
      · refine ⟨[Event.confirm ButtonRequestType.ButtonRequest_FeeOverThreshold "Confirm Fee"
            (s.to_spend - s.spending),
          Event.failure FailureType.Failure_ActionCancelled
            "Fee over threshold. Signing cancelled.",
          Event.go_home], ?_, Or.inr (Or.inl ⟨h1', h2, _, rfl, ?_⟩)⟩
        · simp [h1, h2, h3, fail_abort_log_eq, hlive]
        · simp [Event.is_fee_prompt, Event.has_signature]
    · by_cases h4 : env.confirm_transaction (sub64 s.to_spend s.change_spend)
          (s.to_spend - s.spending) = true
      · refine ⟨[Event.confirm_transaction (sub64 s.to_spend s.change_spend)
            (s.to_spend - s.spending),
          Event.layout_simple_message "Signing Transaction...",
          Event.tx_request { s.resp with has_request_type := true,
                                         request_type := RequestType.TXINPUT,
                                         has_details := true, has_request_index := true,
                                         request_index := 0 }], ?_,
          Or.inr (Or.inr ⟨h1', h2, ?_⟩)⟩
        · simp [h1, h2, h4, send_req_4_input, msg_write]
        · simp [Event.is_fee_prompt, Event.has_signature, hresp]
      · refine ⟨[Event.confirm_transaction (sub64 s.to_spend s.change_spend)
            (s.to_spend - s.spending),
          Event.failure FailureType.Failure_ActionCancelled "Signing cancelled by user",
          Event.go_home], ?_, Or.inr (Or.inr ⟨h1', h2, ?_⟩)⟩
        · simp [h1, h2, h4, fail_abort_log_eq, hlive]
        · simp [Event.is_fee_prompt, Event.has_signature]

/-! ### `STAGE_REQUEST_3_OUTPUT` -/

/-- When the change test passes, the output is not a second change output and the policy
module compiles it, the state `sp` in which the test `idx1 < outputs_count - 1` is made
is known, and so is what follows. -/
theorem txack_request_3_output_ok (env : Env) (s : State) (tx : TransactionType) (b : Bool)
    (hb : output_is_change env s tx.outputs = Except.ok b)
    (hone : ¬ (b = true ∧ s.change_spend ≠ 0))
    (hco : env.TXOUT_COMPILE_ERROR
      < (env.run_policy_compile_output s.coin s.root tx.outputs (!b)).1) :
    ∃ sp : State,
      sp.log = s.log ++ [Event.policy_compile_output tx.outputs (!b)] ∧
      sp.resp = s.resp ∧
      sp.core = { s.core with
        spending := add64 s.spending tx.outputs.amount,
        change_spend := if b then tx.outputs.amount else s.change_spend,
        transaction_current := s.transaction_current ++ env.bytes_TxOutputBinType
          (env.run_policy_compile_output s.coin s.root tx.outputs (!b)).2.1 } ∧
      txack_request_3_output env s tx =
        (if s.idx1 < dec32 s.outputs_count then
          send_req_3_output { sp with idx1 := s.idx1 + 1 }
        else txack_confirmation_gate env sp) := by
  have hone' : (b && decide (s.change_spend ≠ 0)) = false := by
    cases b <;> simp_all
  have hco' : ¬ (env.run_policy_compile_output s.coin s.root tx.outputs (!b)).1
      ≤ env.TXOUT_COMPILE_ERROR := not_le.2 hco
  refine ⟨{ (run_policy_compile_output env
      { s with change_spend := if b then tx.outputs.amount else s.change_spend }
      tx.outputs (!b)).2 with
      spending := add64 s.spending tx.outputs.amount,
      transaction_current := s.transaction_current ++ env.bytes_TxOutputBinType
        (env.run_policy_compile_output s.coin s.root tx.outputs (!b)).2.1,
      hashers0 := s.hashers0 ++ env.tx_output_bytes
        (env.run_policy_compile_output s.coin s.root tx.outputs (!b)).2.1 }, ?_, ?_, ?_, ?_⟩
  · simp [run_policy_compile_output]
  · simp [run_policy_compile_output]
  · simp [run_policy_compile_output, State.core]
  · simp only [txack_request_3_output, hb]
    simp only [hone', Bool.false_eq_true, if_false]
    have hco'' : ¬ (run_policy_compile_output env
        { s with change_spend := if b = true then tx.outputs.amount else s.change_spend }
        tx.outputs (!b)).1 ≤ env.TXOUT_COMPILE_ERROR := hco'
    rw [if_neg hco'']
    simp [run_policy_compile_output]

theorem txack_request_3_output_cases (env : Env) (s : State) (tx : TransactionType) :
    ((txack_request_3_output env s tx).signing = false ∧
      Extends Event.plain s.log (txack_request_3_output env s tx).log) ∨
    ∃ b, output_is_change env s tx.outputs = Except.ok b ∧
      ¬ (b = true ∧ s.change_spend ≠ 0) ∧
      env.TXOUT_COMPILE_ERROR
        < (env.run_policy_compile_output s.coin s.root tx.outputs (!b)).1 := by
  cases hb : output_is_change env s tx.outputs with
  | error text =>
      left
      have htext : text ≠ "Transaction has changed during signing" := by
        intro h
        subst h
        simp only [output_is_change] at hb
        split_ifs at hb <;> simp at hb
      simp only [txack_request_3_output, hb]
      exact ⟨fail_abort_signing _ _ _, fail_abort_log _ _ _ htext⟩
  | ok b =>
      by_cases hone : b = true ∧ s.change_spend ≠ 0
      · left
        have hone' : (b && decide (s.change_spend ≠ 0)) = true := by
          obtain ⟨h1, h2⟩ := hone
          subst h1
          simpa using h2
        simp only [txack_request_3_output, hb, hone', if_true]
        exact ⟨fail_abort_signing _ _ _, fail_abort_log _ _ _ (by decide)⟩
      · by_cases hco : env.TXOUT_COMPILE_ERROR
            < (env.run_policy_compile_output s.coin s.root tx.outputs (!b)).1
        · exact Or.inr ⟨b, rfl, hone, hco⟩
        · left
          have hone' : (b && decide (s.change_spend ≠ 0)) = false := by
            cases b <;> simp_all
          have hco' : (env.run_policy_compile_output s.coin s.root tx.outputs (!b)).1
              ≤ env.TXOUT_COMPILE_ERROR := not_lt.1 hco
          simp only [txack_request_3_output, hb]
          simp only [hone', Bool.false_eq_true, if_false]
          have hco'' : (run_policy_compile_output env
              { s with change_spend := if b = true then tx.outputs.amount else s.change_spend }
              tx.outputs (!b)).1 ≤ env.TXOUT_COMPILE_ERROR := hco'
          rw [if_pos hco'']
          refine ⟨co_error_abort_signing _ _ _, ?_⟩
          refine extends_trans ?_ (co_error_abort_log _ _ _)
          simp [run_policy_compile_output, Event.plain]

/-! ### The stages of phase 2: nothing in them asks the user -/

theorem plain_silent (e : Event) (h : Event.plain e = true) : Event.silent e = true := by
  cases e <;> simp_all [Event.plain, Event.silent]

theorem compile_input_script_sig_log (env : Env) (s : State) (i : TxInputType) :
    (compile_input_script_sig env s i).2.1.log = s.log ∧
    (compile_input_script_sig env s i).2.1.resp = s.resp ∧
    (compile_input_script_sig env s i).2.1.signing = s.signing := by
  simp only [compile_input_script_sig]
  split_ifs <;> simp

theorem txack_request_4_input_log (env : Env) (s : State) (tx : TransactionType)
    (hresp : s.resp.has_serialized = false) :
    Extends Event.plain s.log (txack_request_4_input env s tx).log := by
  simp only [txack_request_4_input]
  split_ifs
  all_goals first
    | (refine extends_trans ?_ (fail_abort_log _ _ _ (by decide))
       simp [compile_input_script_sig_log])
    | simp [send_req_4_input, send_req_4_output, msg_write, Event.plain, hresp,
        compile_input_script_sig_log]

theorem txack_sign_input_log (env : Env) (s : State) (sighash : Nat) :
    Extends Event.silent s.log (txack_sign_input env s sighash).log := by
  simp only [txack_sign_input]
  split_ifs
  all_goals first
    | exact extends_mono plain_silent (fail_abort_log _ _ _ (by decide))
    | simp [send_req_4_input, send_req_5_output, msg_write, Event.silent]

theorem fail_abort_silent (code : FailureType) (text : String) (s : State) :
    Extends Event.silent s.log (fail_abort code text s).log := by
  simp only [fail_abort, signing_abort, go_home, fsm_sendFailure]
  split_ifs with h <;> simp_all [Event.silent]

theorem txack_finish_inner_sweep_log (env : Env) (s : State) :
    Extends Event.silent s.log (txack_finish_inner_sweep env s).log := by
  simp only [txack_finish_inner_sweep]
  split_ifs
  all_goals first
    | (refine extends_trans ?_ (fail_abort_silent _ _ _)
       simp [compile_input_script_sig_log])
    | (refine extends_trans ?_ (txack_sign_input_log _ _ _)
       simp [compile_input_script_sig_log])

theorem txack_request_4_output_log (env : Env) (s : State) (tx : TransactionType) :
    Extends Event.silent s.log (txack_request_4_output env s tx).log := by
  simp only [txack_request_4_output]
  split_ifs
  · refine extends_trans ?_ (extends_mono plain_silent (co_error_abort_log _ _ _))
    simp [run_policy_compile_output, Event.silent]
  · refine extends_trans ?_ (fail_abort_silent _ _ _)
    simp [run_policy_compile_output, Event.silent]
  · simp [send_req_4_output, msg_write, run_policy_compile_output, Event.silent]
  · refine extends_trans ?_ (txack_finish_inner_sweep_log _ _)
    simp [run_policy_compile_output, Event.silent]

theorem txack_request_5_output_log (env : Env) (s : State) (tx : TransactionType) :
    Extends Event.silent s.log (txack_request_5_output env s tx).log := by
  simp only [txack_request_5_output]
  split_ifs
  · refine extends_trans ?_ (extends_mono plain_silent (co_error_abort_log _ _ _))
    simp [run_policy_compile_output, Event.silent]
  · simp [send_req_5_output, msg_write, run_policy_compile_output, Event.silent]
  · simp only [signing_abort, go_home, send_req_finished, msg_write]
    split_ifs <;> simp [run_policy_compile_output, Event.silent]

/-! ### Every step: silent, or the confirmation gate -/

theorem output_is_change_resp (env : Env) (s : State) (out : TxOutputType) (r : TxRequest) :
    output_is_change env { s with resp := r } out = output_is_change env s out := by
  simp [output_is_change]

theorem txack_confirmation_gate_amounts (env : Env) (s : State) :
    (txack_confirmation_gate env s).to_spend = s.to_spend ∧
    (txack_confirmation_gate env s).spending = s.spending := by
  simp only [txack_confirmation_gate, fail_abort, signing_abort, go_home, fsm_sendFailure,
    send_req_4_input, msg_write]
  split_ifs <;> simp

/-- One call of `signing_txack` either logs only silent events, or it is the call that
takes the last output of phase 1 to the confirmation gate; `sp` is the state in which the
gate is entered. -/
theorem signing_txack_silent_or_gate (env : Env) (s : State) (tx : TransactionType) :
    Extends Event.silent s.log (signing_txack env s tx).log ∨
    (s.signing = true ∧ s.signing_stage = Stage.STAGE_REQUEST_3_OUTPUT ∧
      ¬ s.idx1 < dec32 s.outputs_count ∧
      ∃ b, output_is_change env s tx.outputs = Except.ok b ∧
        ¬ (b = true ∧ s.change_spend ≠ 0) ∧
        env.TXOUT_COMPILE_ERROR
          < (env.run_policy_compile_output s.coin s.root tx.outputs (!b)).1 ∧
        ∃ sp : State,
          sp.log = s.log ++ [Event.policy_compile_output tx.outputs (!b)] ∧
          sp.resp = TxRequest.zero ∧
          sp.core = { s.core with
            spending := add64 s.spending tx.outputs.amount,
            change_spend := if b then tx.outputs.amount else s.change_spend,
            transaction_current := s.transaction_current ++ env.bytes_TxOutputBinType
              (env.run_policy_compile_output s.coin s.root tx.outputs (!b)).2.1 } ∧
          signing_txack env s tx = txack_confirmation_gate env sp) := by
  by_cases hlive : s.signing = true
  swap
  · left
    rw [signing_txack_dead env s tx (by simpa using hlive)]
    simp [Event.silent]
  have hz : ({ s with resp := TxRequest.zero } : State).resp.has_serialized = false := rfl
  cases hstage : s.signing_stage with
  | STAGE_REQUEST_1_INPUT =>
      left; rw [signing_txack_at_1_input env s tx hlive hstage]
      have h := txack_request_1_input_log env { s with resp := TxRequest.zero } tx hz
      exact extends_mono plain_silent h
  | STAGE_REQUEST_2_PREV_META =>
      left; rw [signing_txack_at_2_prev_meta env s tx hlive hstage]
      have h := txack_request_2_prev_meta_log { s with resp := TxRequest.zero } tx hz
      exact extends_mono plain_silent h
  | STAGE_REQUEST_2_PREV_INPUT =>
      left; rw [signing_txack_at_2_prev_input env s tx hlive hstage]
      have h := txack_request_2_prev_input_log env { s with resp := TxRequest.zero } tx hz
      exact extends_mono plain_silent h
  | STAGE_REQUEST_2_PREV_OUTPUT =>
      left; rw [signing_txack_at_2_prev_output env s tx hlive hstage]
      have h := txack_request_2_prev_output_log env { s with resp := TxRequest.zero } tx hz
      exact extends_mono plain_silent h
  | STAGE_REQUEST_4_INPUT =>
      left; rw [signing_txack_at_4_input env s tx hlive hstage]
      have h := txack_request_4_input_log env { s with resp := TxRequest.zero } tx hz
      exact extends_mono plain_silent h
  | STAGE_REQUEST_4_OUTPUT =>
      left; rw [signing_txack_at_4_output env s tx hlive hstage]
      exact txack_request_4_output_log env { s with resp := TxRequest.zero } tx
  | STAGE_REQUEST_5_OUTPUT =>
      left; rw [signing_txack_at_5_output env s tx hlive hstage]
      exact txack_request_5_output_log env { s with resp := TxRequest.zero } tx
  | STAGE_REQUEST_3_OUTPUT =>
      rw [signing_txack_at_3_output env s tx hlive hstage]
      rcases txack_request_3_output_cases env { s with resp := TxRequest.zero } tx with
        hdead | ⟨b, hb, hone, hco⟩
      · exact Or.inl (extends_mono plain_silent hdead.2)
      · obtain ⟨sp, hlog, hresp, hcore, heq⟩ :=
          txack_request_3_output_ok env { s with resp := TxRequest.zero } tx b hb hone hco
        rw [output_is_change_resp] at hb
        dsimp only at hone hco hlog hresp heq
        have hcore' : sp.core = { s.core with
            spending := add64 s.spending tx.outputs.amount,
            change_spend := if b then tx.outputs.amount else s.change_spend,
            transaction_current := s.transaction_current ++ env.bytes_TxOutputBinType
              (env.run_policy_compile_output s.coin s.root tx.outputs (!b)).2.1 } := hcore
        by_cases hlt : s.idx1 < dec32 s.outputs_count
        · left
          rw [heq, if_pos hlt]
          simp [send_req_3_output, msg_write, hlog, Event.silent]
        · right
          rw [heq, if_neg hlt]
          exact ⟨hlive, rfl, hlt, b, hb, hone, hco, sp, hlog, hresp, hcore', rfl⟩

/-! ## Not enough funds -/

theorem mem_of_log_eq {base L pre post : List Event} {e : Event}
    (h : base ++ L = base ++ pre ++ e :: post) : e ∈ L := by
  rw [List.append_assoc] at h
  have := List.append_cancel_left h
  rw [this]
  simp

/-- C2. In stage `REQUEST_3_OUTPUT`, when the last output (`idx1 = outputs_count - 1`) has
passed the change test, is not a second change output and has been compiled, and the
accumulated spending exceeds `to_spend`, `signing_txack` calls the policy module, sends
`Failure_NotEnoughFunds` "Not enough funds", goes home and ends the session; it logs
nothing else, so neither the fee confirmation nor `confirm_transaction` is invoked.
Conversely, whenever a call of `signing_txack` (in any state) invokes
`confirm_transaction`, `spending <= to_spend` holds after it. -/
theorem not_enough_funds (env : Env) (s : State) (tx : TransactionType) :
    (∀ b, s.signing = true → s.signing_stage = Stage.STAGE_REQUEST_3_OUTPUT →
      s.idx1 = dec32 s.outputs_count →
      output_is_change env s tx.outputs = Except.ok b →
      ¬ (b = true ∧ s.change_spend ≠ 0) →
      env.TXOUT_COMPILE_ERROR
        < (env.run_policy_compile_output s.coin s.root tx.outputs (!b)).1 →
      s.to_spend < add64 s.spending tx.outputs.amount →
      (signing_txack env s tx).log =
        s.log ++ [Event.policy_compile_output tx.outputs (!b),
                  Event.failure FailureType.Failure_NotEnoughFunds "Not enough funds",
                  Event.go_home] ∧
      (signing_txack env s tx).signing = false) ∧
    (∀ pre post total fee,
      (signing_txack env s tx).log = s.log ++ pre ++ Event.confirm_transaction total fee :: post →
      (signing_txack env s tx).spending ≤ (signing_txack env s tx).to_spend) := by
  constructor
  · intro b hlive hstage hidx hb hone hco hfunds
    have hb0 : output_is_change env { s with resp := TxRequest.zero } tx.outputs
        = Except.ok b := by rw [output_is_change_resp]; exact hb
    obtain ⟨sp, hlog, hresp, hcore, heq⟩ :=
      txack_request_3_output_ok env { s with resp := TxRequest.zero } tx b hb0 hone hco
    dsimp only at hlog hresp heq
    have hlt : ¬ s.idx1 < dec32 s.outputs_count := by rw [hidx]; exact lt_irrefl _
    rw [signing_txack_at_3_output env s tx hlive hstage, heq, if_neg hlt]
    simp only [State.core, Core.mk.injEq] at hcore
    obtain ⟨hsig, -, -, -, -, -, -, -, -, -, hts, hsp, -⟩ := hcore
    have hfunds' : sp.to_spend < sp.spending := by rw [hts, hsp]; exact hfunds
    obtain ⟨L, hL, hcases⟩ := txack_confirmation_gate_log env sp (by rw [hsig]; exact hlive)
      (by rw [hresp]; rfl)
    rcases hcases with ⟨-, hL'⟩ | ⟨hle, -⟩ | ⟨hle, -⟩
    · refine ⟨by rw [hL, hlog, hL']; simp, ?_⟩
      rcases txack_confirmation_gate_core env sp with h | ⟨hle, -⟩
      · exact h
      · exact absurd hfunds' (not_lt.2 hle)
    · exact absurd hfunds' (not_lt.2 hle)
    · exact absurd hfunds' (not_lt.2 hle)
  · intro pre post total fee hlogeq
    rcases signing_txack_silent_or_gate env s tx with hsil | ⟨hlive, -, -, b, -, -, -, sp, hlog,
      hresp, hcore, heq⟩
    · obtain ⟨L, hL, hLs⟩ := hsil
      rw [hL] at hlogeq
      have := hLs _ (mem_of_log_eq hlogeq)
      simp [Event.silent] at this
    · have hsl : sp.signing = true := by
        have := congrArg Core.signing hcore
        simpa [State.core, hlive] using this
      rw [heq] at hlogeq ⊢
      obtain ⟨hts, hsp⟩ := txack_confirmation_gate_amounts env sp
      rw [hts, hsp]
      obtain ⟨L, hL, hcases⟩ := txack_confirmation_gate_log env sp hsl (by rw [hresp]; rfl)
      rcases hcases with ⟨-, hL'⟩ | ⟨hle, -⟩ | ⟨hle, -⟩
      · rw [hL, hlog, hL', List.append_assoc] at hlogeq
        have := mem_of_log_eq hlogeq
        simp at this
      · exact hle
      · exact hle

/-- Witness for `not_enough_funds`: scenario S5 (previous output 50000, current output
60000) at the arrival of the output. -/
theorem not_enough_funds_witness :
    (signing_txack demoEnv shortFundsState (ackOutput (spendOutput 60000))).log =
      shortFundsState.log ++
        [Event.policy_compile_output (ackOutput (spendOutput 60000)).outputs (!false),
         Event.failure FailureType.Failure_NotEnoughFunds "Not enough funds",
         Event.go_home] ∧
    (signing_txack demoEnv shortFundsState (ackOutput (spendOutput 60000))).signing = false :=
  (not_enough_funds demoEnv shortFundsState (ackOutput (spendOutput 60000))).1 false
    (by decide) (by decide) (by decide) rfl (by decide) (by decide) (by decide)

/-! ## The change test -/

theorem output_is_change_spec (env : Env) (s : State) (out : TxOutputType) (b : Bool)
    (h : output_is_change env s out = Except.ok b) :
    b = true ↔ spec_is_change env s out := by
  simp only [output_is_change] at h
  unfold spec_is_change
  split_ifs at h with h1 h2 h3 h4
  · simp only [Except.ok.injEq] at h
    subst h
    obtain ⟨a1, a2, a3, a4⟩ := h1
    simp [a1, a2, a3, a4]
  · simp only [Except.ok.injEq] at h
    subst h
    have hne : ¬ (out.script_type = OutputScriptType.PAYTOMULTISIG ∧ out.has_multisig = true ∧
      s.multisig_fp_set = true ∧ s.multisig_fp_mismatch = false ∧
      memcmp32_ne s.multisig_fp (env.cryptoMultisigFingerprint out.multisig).2 = false) :=
      fun ⟨a1, a2, a3, a4, _⟩ => h1 ⟨a1, a2, a3, a4⟩
    simp [hne, h3]
  · simp only [Except.ok.injEq] at h
    subst h
    have hne : ¬ (out.script_type = OutputScriptType.PAYTOMULTISIG ∧ out.has_multisig = true ∧
      s.multisig_fp_set = true ∧ s.multisig_fp_mismatch = false ∧
      memcmp32_ne s.multisig_fp (env.cryptoMultisigFingerprint out.multisig).2 = false) :=
      fun ⟨a1, a2, a3, a4, _⟩ => h1 ⟨a1, a2, a3, a4⟩
    simp [hne, h3]

/-- The first event that `case STAGE_REQUEST_3_OUTPUT` logs: a failure when the change
test fails or finds a second change output, the call of the policy module otherwise. -/
theorem txack_request_3_output_log_head (env : Env) (s : State) (tx : TransactionType)
    (hlive : s.signing = true) (hresp : s.resp.has_serialized = false) :
    (∃ c text rest, (txack_request_3_output env s tx).log
        = s.log ++ Event.failure c text :: rest) ∨
    (∃ b, output_is_change env s tx.outputs = Except.ok b ∧
      ∃ rest, (txack_request_3_output env s tx).log
        = s.log ++ Event.policy_compile_output tx.outputs (!b) :: rest) := by
  cases hb : output_is_change env s tx.outputs with
  | error text =>
      left
      simp only [txack_request_3_output, hb]
      exact ⟨_, _, _, fail_abort_log_eq _ _ _⟩
  | ok b =>
      by_cases hone : b = true ∧ s.change_spend ≠ 0
      · left
        have hone' : (b && decide (s.change_spend ≠ 0)) = true := by
          obtain ⟨h1, h2⟩ := hone
          subst h1
          simpa using h2
        simp only [txack_request_3_output, hb, hone', if_true]
        exact ⟨_, _, _, fail_abort_log_eq _ _ _⟩
      · right
        refine ⟨b, rfl, ?_⟩
        by_cases hco : env.TXOUT_COMPILE_ERROR
            < (env.run_policy_compile_output s.coin s.root tx.outputs (!b)).1
        · obtain ⟨sp, hlog, hr, hcore, heq⟩ := txack_request_3_output_ok env s tx b hb hone hco
          rw [heq]
          by_cases hlt : s.idx1 < dec32 s.outputs_count
          · rw [if_pos hlt]
            refine ⟨[Event.tx_request
              (send_req_3_output { sp with idx1 := s.idx1 + 1 }).resp], ?_⟩
            simp [send_req_3_output, msg_write, hlog]
          · rw [if_neg hlt]
            have hsl : sp.signing = true := by
              have := congrArg Core.signing hcore
              simpa [State.core, hlive] using this
            obtain ⟨L, hL, -⟩ := txack_confirmation_gate_log env sp hsl (by rw [hr]; exact hresp)
            exact ⟨L, by rw [hL, hlog]; simp⟩
        · have hone' : (b && decide (s.change_spend ≠ 0)) = false := by
            cases b <;> simp_all
          have hco' : (env.run_policy_compile_output s.coin s.root tx.outputs (!b)).1
              ≤ env.TXOUT_COMPILE_ERROR := not_lt.1 hco
          simp only [txack_request_3_output, hb]
          simp only [hone', Bool.false_eq_true, if_false]
          have hco'' : (run_policy_compile_output env
              { s with change_spend := if b = true then tx.outputs.amount else s.change_spend }
              tx.outputs (!b)).1 ≤ env.TXOUT_COMPILE_ERROR := hco'
          rw [if_pos hco'']
          obtain ⟨L, hL, -⟩ := co_error_abort_log env
            (run_policy_compile_output env
              { s with change_spend := if b = true then tx.outputs.amount else s.change_spend }
              tx.outputs (!b)).1
            (run_policy_compile_output env
              { s with change_spend := if b = true then tx.outputs.amount else s.change_spend }
              tx.outputs (!b)).2
          exact ⟨L, by rw [hL]; simp [run_policy_compile_output]⟩

/-- C5. For an output received in `REQUEST_3_OUTPUT`: whenever the change test of
`signing.c` yields a value of `is_change` instead of a failure, that value is true exactly
when the condition of the specification holds; and whenever the policy module is called
for the output, it is called with `needs_confirm = false` exactly when that condition
holds. -/
theorem change_classification (env : Env) (s : State) (tx : TransactionType) :
    (∀ b, output_is_change env s tx.outputs = Except.ok b →
      (b = true ↔ spec_is_change env s tx.outputs)) ∧
    (s.signing = true → s.signing_stage = Stage.STAGE_REQUEST_3_OUTPUT →
      ∀ nc rest,
        (signing_txack env s tx).log
          = s.log ++ Event.policy_compile_output tx.outputs nc :: rest →
        (nc = false ↔ spec_is_change env s tx.outputs)) := by
  refine ⟨fun b hb => output_is_change_spec env s tx.outputs b hb, ?_⟩
  intro hlive hstage nc rest hlog
  rw [signing_txack_at_3_output env s tx hlive hstage] at hlog
  rcases txack_request_3_output_log_head env { s with resp := TxRequest.zero } tx hlive rfl with
    ⟨c, text, rest', h⟩ | ⟨b, hb, rest', h⟩
  · rw [h] at hlog
    have := List.append_cancel_left hlog
    simp at this
  · rw [h] at hlog
    have := List.append_cancel_left hlog
    simp only [List.cons.injEq, Event.policy_compile_output.injEq, true_and] at this
    rw [output_is_change_resp] at hb
    rw [← output_is_change_spec env s tx.outputs b hb, ← this.1]
    cases b <;> simp

/-- Witness for `change_classification`: in a session with one verified input the first
output is a pay-to-address output to the wallet's own path; the policy module is called
with `needs_confirm = false`. -/
theorem change_classification_witness :
    (false = false ↔ spec_is_change demoEnv
      (run_txacks demoEnv (signing_init 1 2 demoCoin demoRoot 1 0 State.boot)
        (demoInputAcks 10000))
      (ackOutput (changeOutput 0)).outputs) :=
  (change_classification demoEnv
      (run_txacks demoEnv (signing_init 1 2 demoCoin demoRoot 1 0 State.boot)
        (demoInputAcks 10000))
      (ackOutput (changeOutput 0))).2 (by decide) (by decide) false
    [Event.tx_request
      { TxRequest.zero with has_request_type := true, request_type := RequestType.TXOUTPUT,
                            has_details := true, has_request_index := true,
                            request_index := 1 }]
    (by decide)

/-! ## A previous transaction that does not hash to `prev_hash` -/

theorem store_ptr_frame (s : State) (b : Nat) :
    (store_ptr s b).transaction_previous.ctx = s.transaction_previous.ctx ∧
    (store_ptr s b).input = s.input ∧
    (store_ptr s b).log = s.log ∧
    (store_ptr s b).signing = s.signing ∧
    (store_ptr s b).idx1 = s.idx1 ∧
    (store_ptr s b).signing_stage = s.signing_stage ∧
    (store_ptr s b).inputs_count = s.inputs_count ∧
    (store_ptr s b).state_pos = s.state_pos := by
  simp only [store_ptr]
  split <;> (try split_ifs) <;> simp

/-- The byte that completes the lock time: `parse_raw_txack` returns from inside
the loop, with the finalized hash in `hash`. -/
theorem parsing_locktime_done (env : Env) (s : State) (b : Nat) (hpos : s.state_pos < 1) :
    (parsing_locktime env s b).2 = true ∧
    (parsing_locktime env s b).1.hash
      = env.tx_hash_final (parsing_locktime env s b).1.transaction_previous true ∧
    (parsing_locktime env s b).1.transaction_previous.ctx = s.transaction_previous.ctx ++ [b] ∧
    (memcmp32_ne (parsing_locktime env s b).1.hash s.input.prev_hash = true →
      (parsing_locktime env s b).1.log =
        s.log ++ Event.failure FailureType.Failure_Other "Encountered invalid prevhash"
          :: (if s.signing then [Event.go_home] else []) ∧
      (parsing_locktime env s b).1.signing = false ∧
      (parsing_locktime env s b).1.idx1 = s.idx1 ∧
      (parsing_locktime env s b).1.signing_stage = s.signing_stage) := by
  obtain ⟨f1, f2, f3, f4, f5, f6, f7, f8⟩ := store_ptr_frame s b
  have key : ∀ t : State, t.state_pos < 1 →
      t.transaction_previous.ctx = s.transaction_previous.ctx → t.input = s.input →
      t.log = s.log → t.signing = s.signing → t.idx1 = s.idx1 →
      t.signing_stage = s.signing_stage →
      (let u : State := { (hash_raw_byte { t with raw_tx_status := RawTxStatus.NOT_PARSING,
                                                   resp := TxRequest.zero } b) with
          hash := env.tx_hash_final (hash_raw_byte { t with
            raw_tx_status := RawTxStatus.NOT_PARSING, resp := TxRequest.zero } b).transaction_previous
            true }
       let r : State × Bool :=
        if memcmp32_ne u.hash u.input.prev_hash then
          (signing_abort (fsm_sendFailure FailureType.Failure_Other
            "Encountered invalid prevhash" u), true)
        else if u.idx1 < dec32 u.inputs_count then
          (send_req_1_input { u with idx1 := u.idx1 + 1 }, true)
        else (send_req_3_output { u with idx1 := 0 }, true)
       r.2 = true ∧
       r.1.hash = env.tx_hash_final r.1.transaction_previous true ∧
       r.1.transaction_previous.ctx = s.transaction_previous.ctx ++ [b] ∧
       (memcmp32_ne r.1.hash s.input.prev_hash = true →
        r.1.log = s.log ++ Event.failure FailureType.Failure_Other
            "Encountered invalid prevhash" :: (if s.signing then [Event.go_home] else []) ∧
        r.1.signing = false ∧ r.1.idx1 = s.idx1 ∧ r.1.signing_stage = s.signing_stage)) := by
    intro t _ g1 g2 g3 g4 g5 g6
    dsimp only
    by_cases hm : memcmp32_ne (env.tx_hash_final (hash_raw_byte { t with
        raw_tx_status := RawTxStatus.NOT_PARSING, resp := TxRequest.zero } b).transaction_previous
        true) t.input.prev_hash = true
    · simp only [hash_raw_byte] at hm ⊢
      rw [if_pos hm]
      simp only [signing_abort, go_home, fsm_sendFailure]
      by_cases hs : s.signing = true
      · simp [g1, g2, g3, g4, g5, g6, hs]
      · simp [g1, g2, g3, g4, g5, g6, hs]
    · simp only [hash_raw_byte] at hm ⊢
      rw [if_neg hm]
      rw [g2, g1] at hm
      split_ifs <;> simp [send_req_1_input, send_req_3_output, msg_write, g1, hm]
  simp only [parsing_locktime]
  by_cases h0 : s.state_pos ≥ 0
  · rw [if_pos h0, if_pos (by rw [f8]; exact hpos)]
    exact key (store_ptr s b) (by rw [f8]; exact hpos) f1 f2 f3 f4 f5 f6
  · rw [if_neg h0, if_pos hpos]
    exact key s hpos rfl rfl rfl rfl rfl rfl

theorem parse_raw_byte_at_locktime (env : Env) (s : State) (b : Nat)
    (hstat : s.raw_tx_status = RawTxStatus.PARSING_LOCKTIME) :
    parse_raw_byte env s b =
      if (parsing_locktime env { s with state_pos := s.state_pos - 1 } b).2 then
        parsing_locktime env { s with state_pos := s.state_pos - 1 } b
      else
        (hash_raw_byte (parsing_locktime env { s with state_pos := s.state_pos - 1 } b).1 b,
          false) := by
  unfold parse_raw_byte
  simp only [hstat]

/-- C6. Structured mode: in `REQUEST_2_PREV_OUTPUT`, when the final previous output has
been serialised and the finalized hash of the previous transaction differs from
`input.prev_hash`, `signing_txack` sends `Failure_Other` "Encountered invalid prevhash",
goes home, and logs nothing else (no `TxRequest`); the session ends and `idx1` and the
stage keep their values. Raw mode: when `parse_raw_txack` meets, in `PARSING_LOCKTIME`,
the byte that completes the lock time, the hash left in `hash` is the finalized hash of
the previous-transaction context, which has been fed that byte; if it differs from
`input.prev_hash`, the same failure is sent, the rest of the message is dropped, no
`TxRequest` is written, the session ends and `idx1` and the stage keep their values. -/
theorem invalid_prevhash (env : Env) (s : State) :
    (∀ tx : TransactionType,
      s.signing = true → s.signing_stage = Stage.STAGE_REQUEST_2_PREV_OUTPUT →
      (tx_serialize_output_hash env s.transaction_previous tx.bin_outputs).1 ≠ 0 →
      ¬ s.idx2 < dec32 s.transaction_previous.outputs_len →
      memcmp32_ne
        (env.tx_hash_final
          (tx_serialize_output_hash env s.transaction_previous tx.bin_outputs).2 true)
        s.input.prev_hash = true →
      (signing_txack env s tx).log =
        s.log ++ [Event.failure FailureType.Failure_Other "Encountered invalid prevhash",
                  Event.go_home] ∧
      (signing_txack env s tx).signing = false ∧
      (signing_txack env s tx).idx1 = s.idx1 ∧
      (signing_txack env s tx).signing_stage = s.signing_stage) ∧
    (∀ (b : Nat) (rest : Bytes),
      s.raw_tx_status = RawTxStatus.PARSING_LOCKTIME → s.state_pos ≤ 1 →
      (parse_raw_txack env s (b :: rest)).hash
        = env.tx_hash_final (parse_raw_txack env s (b :: rest)).transaction_previous true ∧
      (parse_raw_txack env s (b :: rest)).transaction_previous.ctx
        = s.transaction_previous.ctx ++ [b] ∧
      (memcmp32_ne (parse_raw_txack env s (b :: rest)).hash s.input.prev_hash = true →
        (parse_raw_txack env s (b :: rest)).log =
          s.log ++ Event.failure FailureType.Failure_Other "Encountered invalid prevhash"
            :: (if s.signing then [Event.go_home] else []) ∧
        (parse_raw_txack env s (b :: rest)).signing = false ∧
        (parse_raw_txack env s (b :: rest)).idx1 = s.idx1 ∧
        (parse_raw_txack env s (b :: rest)).signing_stage = s.signing_stage)) := by
  constructor
  · intro tx hlive hstage hser hlast hmis
    rw [signing_txack_at_2_prev_output env s tx hlive hstage]
    simp only [txack_request_2_prev_output]
    have hser' : ¬ (tx_serialize_output_hash env
        ({ s with resp := TxRequest.zero } : State).transaction_previous tx.bin_outputs).1 = 0 :=
      hser
    rw [if_neg hser']
    simp only [tx_serialize_output_hash] at hmis hlast ⊢
    simp [hlast, hmis, fail_abort_log_eq, hlive, fail_abort, signing_abort, go_home,
      fsm_sendFailure]
  · intro b rest hstat hpos
    have hpos' : ({ s with state_pos := s.state_pos - 1 } : State).state_pos < 1 := by
      show s.state_pos - 1 < 1
      omega
    obtain ⟨h1, h2, h3, h4⟩ := parsing_locktime_done env { s with state_pos := s.state_pos - 1 } b hpos'
    have hrun : parse_raw_txack env s (b :: rest)
        = (parsing_locktime env { s with state_pos := s.state_pos - 1 } b).1 := by
      rw [parse_raw_txack, parse_raw_byte_at_locktime env s b hstat]
      simp only [h1, if_true]
    rw [hrun]
    exact ⟨h2, h3, h4⟩

/-- Witness for `invalid_prevhash`: in `demoEnv` the previous transaction streamed for
`strangerInput` does not hash to its `prev_hash`, in structured mode (the final previous
output arrives) and in raw mode (the last byte of the raw transaction arrives). -/
theorem invalid_prevhash_witness :
    ((signing_txack demoEnv strangerState (ackBinOutput 10000 [81])).log =
        strangerState.log ++
          [Event.failure FailureType.Failure_Other "Encountered invalid prevhash",
           Event.go_home] ∧
      (signing_txack demoEnv strangerState (ackBinOutput 10000 [81])).signing = false ∧
      (signing_txack demoEnv strangerState (ackBinOutput 10000 [81])).idx1
        = strangerState.idx1 ∧
      (signing_txack demoEnv strangerState (ackBinOutput 10000 [81])).signing_stage
        = strangerState.signing_stage) ∧
    ((parse_raw_txack demoEnv strangerRawState [0]).log =
        strangerRawState.log ++
          Event.failure FailureType.Failure_Other "Encountered invalid prevhash"
            :: (if strangerRawState.signing then [Event.go_home] else []) ∧
      (parse_raw_txack demoEnv strangerRawState [0]).signing = false ∧
      (parse_raw_txack demoEnv strangerRawState [0]).idx1 = strangerRawState.idx1 ∧
      (parse_raw_txack demoEnv strangerRawState [0]).signing_stage
        = strangerRawState.signing_stage) :=
  ⟨(invalid_prevhash demoEnv strangerState).1 (ackBinOutput 10000 [81])
      (by decide) (by decide) (by decide) (by decide) (by decide),
   ((invalid_prevhash demoEnv strangerRawState).2 0 []
      (by decide) (by decide)).2.2 (by decide)⟩

/-! ## After the gate there is no way back -/

theorem fail_abort_stage (code : FailureType) (text : String) (s : State) :
    (fail_abort code text s).signing_stage = s.signing_stage := by
  simp only [fail_abort, signing_abort, go_home, fsm_sendFailure]
  split_ifs <;> rfl

theorem co_error_abort_stage (env : Env) (co : Int) (s : State) :
    (signing_abort (send_fsm_co_error_message env co s)).signing_stage = s.signing_stage := by
  simp only [signing_abort, go_home, send_fsm_co_error_message, fsm_sendFailure]
  split_ifs <;> first | rfl | (split <;> rfl)

theorem compile_input_script_sig_stage (env : Env) (s : State) (i : TxInputType) :
    (compile_input_script_sig env s i).2.1.signing_stage = s.signing_stage := by
  simp only [compile_input_script_sig]
  split_ifs <;> simp

theorem txack_request_4_input_stage (env : Env) (s : State) (tx : TransactionType)
    (h : s.signing_stage = Stage.STAGE_REQUEST_4_INPUT) :
    (txack_request_4_input env s tx).signing_stage = Stage.STAGE_REQUEST_4_INPUT ∨
    (txack_request_4_input env s tx).signing_stage = Stage.STAGE_REQUEST_4_OUTPUT := by
  simp only [txack_request_4_input]
  split_ifs <;>
    simp [send_req_4_input, send_req_4_output, msg_write, fail_abort_stage,
      compile_input_script_sig_stage, h]

theorem txack_sign_input_stage (env : Env) (s : State) (sighash : Nat) :
    (txack_sign_input env s sighash).signing_stage = s.signing_stage ∨
    (txack_sign_input env s sighash).signing_stage = Stage.STAGE_REQUEST_4_INPUT ∨
    (txack_sign_input env s sighash).signing_stage = Stage.STAGE_REQUEST_5_OUTPUT := by
  simp only [txack_sign_input]
  split_ifs <;> simp [send_req_4_input, send_req_5_output, msg_write, fail_abort_stage]

theorem txack_sign_input_stage_of (env : Env) (t s : State) (sighash : Nat)
    (h : t.signing_stage = s.signing_stage) :
    (txack_sign_input env t sighash).signing_stage = s.signing_stage ∨
    (txack_sign_input env t sighash).signing_stage = Stage.STAGE_REQUEST_4_INPUT ∨
    (txack_sign_input env t sighash).signing_stage = Stage.STAGE_REQUEST_5_OUTPUT := by
  rcases txack_sign_input_stage env t sighash with h' | h' | h'
  · left; rw [h', h]
  · exact Or.inr (Or.inl h')
  · exact Or.inr (Or.inr h')

theorem txack_finish_inner_sweep_stage (env : Env) (s : State) :
    (txack_finish_inner_sweep env s).signing_stage = s.signing_stage ∨
    (txack_finish_inner_sweep env s).signing_stage = Stage.STAGE_REQUEST_4_INPUT ∨
    (txack_finish_inner_sweep env s).signing_stage = Stage.STAGE_REQUEST_5_OUTPUT := by
  simp only [txack_finish_inner_sweep]
  split_ifs
  · left; rw [fail_abort_stage]; simp [compile_input_script_sig_stage]
  · left; rw [fail_abort_stage]; simp [compile_input_script_sig_stage]
  · left; rw [fail_abort_stage]; simp [compile_input_script_sig_stage]
  · left; rw [fail_abort_stage]; simp [compile_input_script_sig_stage]
  · exact txack_sign_input_stage_of env _ s _ (by simp [compile_input_script_sig_stage])
  · left; rw [fail_abort_stage]
  · exact txack_sign_input_stage_of env _ s _ rfl

theorem txack_request_4_output_stage (env : Env) (s : State) (tx : TransactionType)
    (h : s.signing_stage = Stage.STAGE_REQUEST_4_OUTPUT) :
    (txack_request_4_output env s tx).signing_stage = Stage.STAGE_REQUEST_4_OUTPUT ∨
    (txack_request_4_output env s tx).signing_stage = Stage.STAGE_REQUEST_4_INPUT ∨
    (txack_request_4_output env s tx).signing_stage = Stage.STAGE_REQUEST_5_OUTPUT := by
  simp only [txack_request_4_output]
  split_ifs
  · left; rw [co_error_abort_stage]; simpa [run_policy_compile_output] using h
  · left; rw [fail_abort_stage]; simpa [run_policy_compile_output] using h
  · left; simp [send_req_4_output, msg_write]
  · rcases txack_finish_inner_sweep_stage env _ with h' | h' | h'
    · left; rw [h']; simpa [run_policy_compile_output] using h
    · exact Or.inr (Or.inl h')
    · exact Or.inr (Or.inr h')

theorem txack_request_5_output_stage (env : Env) (s : State) (tx : TransactionType)
    (h : s.signing_stage = Stage.STAGE_REQUEST_5_OUTPUT) :
    (txack_request_5_output env s tx).signing_stage = Stage.STAGE_REQUEST_5_OUTPUT := by
  simp only [txack_request_5_output]
  split_ifs
  · rw [co_error_abort_stage]; simpa [run_policy_compile_output] using h
  · simp [send_req_5_output, msg_write]
  · simp only [signing_abort, go_home, send_req_finished, msg_write]
    split_ifs <;> simpa [run_policy_compile_output] using h

theorem past_gate_step (env : Env) (s : State) (tx : TransactionType) (h : PastGate s) :
    PastGate (signing_txack env s tx) := by
  by_cases hlive : s.signing = true
  swap
  · left
    rw [signing_txack_dead env s tx (by simpa using hlive)]
    simpa using hlive
  rcases h with h | h | h | h
  · rw [h] at hlive; exact absurd hlive (by simp)
  · rw [signing_txack_at_4_input env s tx hlive h]
    rcases txack_request_4_input_stage env { s with resp := TxRequest.zero } tx h with h' | h'
    · exact Or.inr (Or.inl h')
    · exact Or.inr (Or.inr (Or.inl h'))
  · rw [signing_txack_at_4_output env s tx hlive h]
    rcases txack_request_4_output_stage env { s with resp := TxRequest.zero } tx h with
      h' | h' | h'
    · exact Or.inr (Or.inr (Or.inl h'))
    · exact Or.inr (Or.inl h')
    · exact Or.inr (Or.inr (Or.inr h'))
  · rw [signing_txack_at_5_output env s tx hlive h]
    exact Or.inr (Or.inr (Or.inr
      (txack_request_5_output_stage env { s with resp := TxRequest.zero } tx h)))

/-! ## The fee-confirmation prompt -/

theorem new_events_of_append {s t : State} {L : List Event} (h : t.log = s.log ++ L) :
    new_events s t = L := by
  simp [new_events, h]

theorem fee_prompts_append (A B : List Event) :
    fee_prompts (A ++ B) = fee_prompts A + fee_prompts B := by
  simp [fee_prompts]

theorem fee_prompts_of_silent (L : List Event) (h : ∀ e ∈ L, Event.silent e = true) :
    fee_prompts L = 0 := by
  simp only [fee_prompts, List.length_eq_zero, List.filter_eq_nil_iff]
  intro e he
  have := h e he
  cases e <;> simp_all [Event.silent, Event.is_fee_prompt]

theorem fee_prompts_of_none (L : List Event) (h : ∀ e ∈ L, Event.is_fee_prompt e = false) :
    fee_prompts L = 0 := by
  simp only [fee_prompts, List.length_eq_zero, List.filter_eq_nil_iff]
  intro e he
  simp [h e he]

/-- What one gate step logs, in terms of the state `sp` in which the gate is entered. -/
theorem gate_step_prompts (env : Env) (sp : State) (hlive : sp.signing = true)
    (hresp : sp.resp = TxRequest.zero) :
    ∃ L, (txack_confirmation_gate env sp).log = sp.log ++ L ∧ fee_prompts L ≤ 1 ∧
      ((∃ e ∈ L, Event.is_fee_prompt e = true) ↔
        (sp.spending ≤ sp.to_spend ∧
          fee_threshold env sp.inputs_count sp.outputs_count sp.coin.maxfee_kb
            < sp.to_spend - sp.spending)) ∧
      (∀ e ∈ L, Event.is_fee_prompt e = true →
        e = Event.confirm ButtonRequestType.ButtonRequest_FeeOverThreshold "Confirm Fee"
          (sp.to_spend - sp.spending)) := by
  obtain ⟨L, hL, hcases⟩ := txack_confirmation_gate_log env sp hlive (by rw [hresp]; rfl)
  refine ⟨L, hL, ?_⟩
  rcases hcases with ⟨hlt, rfl⟩ | ⟨hle, hthr, T, rfl, hT⟩ | ⟨hle, hthr, hL'⟩
  · refine ⟨by simp [fee_prompts, Event.is_fee_prompt], ?_, by simp [Event.is_fee_prompt]⟩
    constructor
    · simp [Event.is_fee_prompt]
    · rintro ⟨hle, -⟩
      exact absurd hlt (not_lt.2 hle)
  · have hT0 : fee_prompts T = 0 := fee_prompts_of_none T (fun e he => (hT e he).1)
    refine ⟨?_, ?_, ?_⟩
    · have : fee_prompts (Event.confirm ButtonRequestType.ButtonRequest_FeeOverThreshold
          "Confirm Fee" (sp.to_spend - sp.spending) :: T) = 1 + fee_prompts T := by
        simp [fee_prompts, Event.is_fee_prompt, Nat.add_comm]
      rw [this, hT0]
    · constructor
      · intro _
        exact ⟨hle, hthr⟩
      · intro _
        exact ⟨_, List.mem_cons_self _ _, by simp [Event.is_fee_prompt]⟩
    · intro e he hp
      rcases List.mem_cons.1 he with h | h
      · exact h
      · rw [(hT e h).1] at hp
        exact absurd hp (by simp)
  · refine ⟨by rw [fee_prompts_of_none L (fun e he => (hL' e he).1)]; exact Nat.zero_le _, ?_,
      ?_⟩
    · constructor
      · rintro ⟨e, he, hp⟩
        rw [(hL' e he).1] at hp
        exact absurd hp (by simp)
      · rintro ⟨-, h⟩
        exact absurd h hthr
    · intro e he hp
      rw [(hL' e he).1] at hp
      exact absurd hp (by simp)

theorem gate_past (env : Env) (sp : State) : PastGate (txack_confirmation_gate env sp) := by
  rcases txack_confirmation_gate_core env sp with h | ⟨-, h⟩
  · exact Or.inl h
  · right; left
    have := congrArg Core.signing_stage h
    simpa [State.core] using this

/-- The gate step, from its conditions: the state `sp` in which the gate is entered. -/
theorem signing_txack_gate_of (env : Env) (s : State) (tx : TransactionType) (b : Bool)
    (hlive : s.signing = true) (hstage : s.signing_stage = Stage.STAGE_REQUEST_3_OUTPUT)
    (hlast : ¬ s.idx1 < dec32 s.outputs_count)
    (hb : output_is_change env s tx.outputs = Except.ok b)
    (hone : ¬ (b = true ∧ s.change_spend ≠ 0))
    (hco : env.TXOUT_COMPILE_ERROR
      < (env.run_policy_compile_output s.coin s.root tx.outputs (!b)).1) :
    ∃ sp : State,
      sp.log = s.log ++ [Event.policy_compile_output tx.outputs (!b)] ∧
      sp.resp = TxRequest.zero ∧
      sp.core = { s.core with
        spending := add64 s.spending tx.outputs.amount,
        change_spend := if b then tx.outputs.amount else s.change_spend,
        transaction_current := s.transaction_current ++ env.bytes_TxOutputBinType
          (env.run_policy_compile_output s.coin s.root tx.outputs (!b)).2.1 } ∧
      signing_txack env s tx = txack_confirmation_gate env sp := by
  have hb0 : output_is_change env { s with resp := TxRequest.zero } tx.outputs
      = Except.ok b := by rw [output_is_change_resp]; exact hb
  obtain ⟨sp, hlog, hresp, hcore, heq⟩ :=
    txack_request_3_output_ok env { s with resp := TxRequest.zero } tx b hb0 hone hco
  dsimp only at hlog hresp heq
  refine ⟨sp, hlog, hresp, hcore, ?_⟩
  rw [signing_txack_at_3_output env s tx hlive hstage, heq, if_neg hlast]

/-- The fee prompt is among the events of a call of `signing_txack` exactly when the call
reaches the confirmation gate with a fee over the threshold; the amount shown is the fee. -/
theorem fee_prompt_step_iff (env : Env) (s : State) (tx : TransactionType) (a : Nat) :
    Event.confirm ButtonRequestType.ButtonRequest_FeeOverThreshold "Confirm Fee" a
        ∈ new_events s (signing_txack env s tx) ↔
      (reaches_gate env s tx ∧
        fee_threshold env s.inputs_count s.outputs_count s.coin.maxfee_kb < gate_fee s tx ∧
        a = gate_fee s tx) := by
  constructor
  · intro hmem
    rcases signing_txack_silent_or_gate env s tx with hsil | ⟨hlive, hstage, hlast, b, hb, hone,
      hco, sp, hlog, hresp, hcore, heq⟩
    · obtain ⟨L1, hL1, hs1⟩ := hsil
      rw [new_events_of_append hL1] at hmem
      have := hs1 _ hmem
      simp [Event.silent] at this
    · have hsl : sp.signing = true := by
        have := congrArg Core.signing hcore
        simpa [State.core, hlive] using this
      obtain ⟨Lg, hLg, -, hiff, hform⟩ := gate_step_prompts env sp hsl hresp
      have hnew : new_events s (signing_txack env s tx)
          = Event.policy_compile_output tx.outputs (!b) :: Lg := by
        apply new_events_of_append
        rw [heq, hLg, hlog]; simp
      rw [hnew] at hmem
      have hmem' : Event.confirm ButtonRequestType.ButtonRequest_FeeOverThreshold
          "Confirm Fee" a ∈ Lg := by
        rcases List.mem_cons.1 hmem with h | h
        · exact absurd h (by simp)
        · exact h
      have hp : Event.is_fee_prompt (Event.confirm
          ButtonRequestType.ButtonRequest_FeeOverThreshold "Confirm Fee" a) = true := by
        simp [Event.is_fee_prompt]
      obtain ⟨hle, hthr⟩ := hiff.1 ⟨_, hmem', hp⟩
      have hform' := hform _ hmem' hp
      simp only [State.core, Core.mk.injEq] at hcore
      obtain ⟨-, -, -, -, hic, hoc, hcoin, -, -, -, hts, hsp, -⟩ := hcore
      rw [hts, hsp] at hle hthr hform'
      rw [hic, hoc, hcoin] at hthr
      refine ⟨⟨hlive, hstage, hlast, ⟨b, hb, hone, hco⟩, hle⟩, hthr, ?_⟩
      simpa [gate_fee] using hform'
  · rintro ⟨⟨hlive, hstage, hlast, ⟨b, hb, hone, hco⟩, hle⟩, hthr, rfl⟩
    obtain ⟨sp, hlog, hresp, hcore, heq⟩ :=
      signing_txack_gate_of env s tx b hlive hstage hlast hb hone hco
    have hsl : sp.signing = true := by
      have := congrArg Core.signing hcore
      simpa [State.core, hlive] using this
    obtain ⟨Lg, hLg, -, hiff, hform⟩ := gate_step_prompts env sp hsl hresp
    have hnew : new_events s (signing_txack env s tx)
        = Event.policy_compile_output tx.outputs (!b) :: Lg := by
      apply new_events_of_append
      rw [heq, hLg, hlog]; simp
    simp only [State.core, Core.mk.injEq] at hcore
    obtain ⟨-, -, -, -, hic, hoc, hcoin, -, -, -, hts, hsp, -⟩ := hcore
    obtain ⟨e, he, hp⟩ := hiff.2 ⟨by rw [hts, hsp]; exact hle,
      by rw [hts, hsp, hic, hoc, hcoin]; exact hthr⟩
    have hform' := hform e he hp
    rw [hts, hsp] at hform'
    rw [hnew]
    refine List.mem_cons_of_mem _ ?_
    rw [hform'] at he
    exact he

/-- The parser stages before the lock time touch neither the log nor the session flag. -/
theorem parsing_frame (s : State) (b : Nat) :
    ((parsing_version s b).log = s.log ∧ (parsing_version s b).signing = s.signing) ∧
    ((parsing_input_count s b).log = s.log ∧ (parsing_input_count s b).signing = s.signing) ∧
    ((parsing_inputs s b).log = s.log ∧ (parsing_inputs s b).signing = s.signing) ∧
    ((parsing_output_count s b).log = s.log ∧ (parsing_output_count s b).signing = s.signing) ∧
    ((parsing_outputs_value s b).log = s.log ∧
      (parsing_outputs_value s b).signing = s.signing) ∧
    ((parsing_outputs s b).log = s.log ∧ (parsing_outputs s b).signing = s.signing) := by
  obtain ⟨-, -, f3, f4, -⟩ := store_ptr_frame s b
  refine ⟨?_, ?_, ?_, ?_, ?_, ?_⟩
  · simp only [parsing_version, reset_parsing_buffer]
    split_ifs <;> simp [f3, f4]
  · simp only [parsing_input_count, reset_parsing_buffer, push_var_int]
    split_ifs <;> simp
  · simp only [parsing_inputs, reset_parsing_buffer, push_var_int]
    split_ifs <;> simp
  · simp only [parsing_output_count, reset_parsing_buffer, push_var_int]
    split_ifs <;> simp
  · simp only [parsing_outputs_value, reset_parsing_buffer]
    split_ifs <;> simp [f3, f4]
  · simp only [parsing_outputs, reset_parsing_buffer, push_var_int]
    split_ifs <;> simp

/-- The lock-time stage logs nothing but plain events and cannot revive a session. -/
theorem parsing_locktime_log (env : Env) (s : State) (b : Nat) :
    Extends Event.plain s.log (parsing_locktime env s b).1.log ∧
    (s.signing = false → (parsing_locktime env s b).1.signing = false) := by
  obtain ⟨-, -, f3, f4, -⟩ := store_ptr_frame s b
  simp only [parsing_locktime, hash_raw_byte, send_req_1_input, send_req_3_output, msg_write,
    signing_abort, go_home, fsm_sendFailure]
  split_ifs <;> simp [Extends, Event.plain, f3, f4, TxRequest.zero]

theorem frame_plain {s t : State} (hl : t.log = s.log) (hs : t.signing = s.signing) :
    Extends Event.plain s.log t.log ∧ (s.signing = false → t.signing = false) := by
  refine ⟨⟨[], by simp [hl], by simp⟩, fun h => by rw [hs, h]⟩

/-- One byte of raw input logs nothing but plain events and cannot revive a session. -/
theorem parse_raw_byte_log (env : Env) (s : State) (b : Nat) :
    Extends Event.plain s.log (parse_raw_byte env s b).1.log ∧
    (s.signing = false → (parse_raw_byte env s b).1.signing = false) := by
  have hh : ∀ t : State, (hash_raw_byte t b).log = t.log ∧
      (hash_raw_byte t b).signing = t.signing := fun t => ⟨rfl, rfl⟩
  cases hst : s.raw_tx_status
  case PARSING_LOCKTIME =>
    rw [parse_raw_byte_at_locktime env s b hst]
    have h := parsing_locktime_log env { s with state_pos := s.state_pos - 1 } b
    split_ifs
    · exact h
    · exact ⟨by rw [(hh _).1]; exact h.1, fun hs => by rw [(hh _).2]; exact h.2 hs⟩
  all_goals simp only [parse_raw_byte, hst]
  · exact frame_plain ((hh _).1.trans (parsing_frame _ b).1.1)
      ((hh _).2.trans (parsing_frame _ b).1.2)
  · exact frame_plain ((hh _).1.trans (parsing_frame _ b).1.1)
      ((hh _).2.trans (parsing_frame _ b).1.2)
  · exact frame_plain ((hh _).1.trans (parsing_frame _ b).2.1.1)
      ((hh _).2.trans (parsing_frame _ b).2.1.2)
  · exact frame_plain ((hh _).1.trans (parsing_frame _ b).2.2.1.1)
      ((hh _).2.trans (parsing_frame _ b).2.2.1.2)
  · exact frame_plain ((hh _).1.trans (parsing_frame _ b).2.2.2.1.1)
      ((hh _).2.trans (parsing_frame _ b).2.2.2.1.2)
  · exact frame_plain ((hh _).1.trans (parsing_frame _ b).2.2.2.2.1.1)
      ((hh _).2.trans (parsing_frame _ b).2.2.2.2.1.2)
  · exact frame_plain ((hh _).1.trans (parsing_frame _ b).2.2.2.2.2.1)
      ((hh _).2.trans (parsing_frame _ b).2.2.2.2.2.2)

/-- A raw message logs nothing but plain events and cannot revive a session. -/
theorem parse_raw_txack_log (env : Env) (msg : Bytes) :
    ∀ s : State, Extends Event.plain s.log (parse_raw_txack env s msg).log ∧
      (s.signing = false → (parse_raw_txack env s msg).signing = false) := by
  induction msg with
  | nil => intro s; exact ⟨extends_refl _ _, fun h => h⟩
  | cons b rest ih =>
      intro s
      obtain ⟨h1, h2⟩ := parse_raw_byte_log env s b
      rw [parse_raw_txack]
      split_ifs
      · exact ⟨h1, h2⟩
      · obtain ⟨h3, h4⟩ := ih (parse_raw_byte env s b).1
        exact ⟨extends_trans h1 h3, fun h => h4 (h2 h)⟩

/-- What one `TxAck` adds to the log, as far as fee prompts go. -/
theorem signing_txack_fee_prompts (env : Env) (s : State) (tx : TransactionType) :
    ∃ L, (signing_txack env s tx).log = s.log ++ L ∧ fee_prompts L ≤ 1 ∧
      (PastGate s → fee_prompts L = 0) ∧
      (fee_prompts L ≠ 0 → PastGate (signing_txack env s tx)) := by
  rcases signing_txack_silent_or_gate env s tx with hsil | ⟨hlive, hstage, -, b, -, -, -, sp,
    hlog, hresp, hcore, heq⟩
  · obtain ⟨L1, hL1, hs1⟩ := hsil
    have h0 := fee_prompts_of_silent L1 hs1
    exact ⟨L1, hL1, by rw [h0]; exact Nat.zero_le _, fun _ => h0, fun h => absurd h0 h⟩
  · have hsl : sp.signing = true := by
      have := congrArg Core.signing hcore
      simpa [State.core, hlive] using this
    obtain ⟨Lg, hLg, hleg, -, -⟩ := gate_step_prompts env sp hsl hresp
    have hpast : PastGate (signing_txack env s tx) := by rw [heq]; exact gate_past env sp
    have hcount : fee_prompts (Event.policy_compile_output tx.outputs (!b) :: Lg)
        = fee_prompts Lg := by
      simp [fee_prompts, Event.is_fee_prompt]
    refine ⟨Event.policy_compile_output tx.outputs (!b) :: Lg, ?_, ?_, ?_, fun _ => hpast⟩
    · rw [heq, hLg, hlog]
      simp
    · rw [hcount]; exact hleg
    · intro hp
      rcases hp with h | h | h | h
      · rw [h] at hlive; exact absurd hlive (by simp)
      · rw [hstage] at h; exact absurd h (by decide)
      · rw [hstage] at h; exact absurd h (by decide)
      · rw [hstage] at h; exact absurd h (by decide)

/-- Over any sequence of host messages that delivers no raw bytes during phase 2, at most
one fee prompt is logged, and none once the session is over or past the gate. -/
theorem run_fee_prompts (env : Env) (msgs : List HostMsg) :
    ∀ s : State, raw_only_before_gate env s msgs = true →
      ∃ L, (run env s msgs).log = s.log ++ L ∧ fee_prompts L ≤ 1 ∧
        (PastGate s → fee_prompts L = 0) := by
  induction msgs with
  | nil =>
      intro s _
      exact ⟨[], by simp [run], by simp [fee_prompts], fun _ => by simp [fee_prompts]⟩
  | cons m rest ih =>
      intro s hg
      cases m with
      | txack tx =>
          obtain ⟨L2, hL2, hle2, hpast2⟩ := ih (signing_txack env s tx) hg
          obtain ⟨L1, hL1, hle1, hp1, hq1⟩ := signing_txack_fee_prompts env s tx
          refine ⟨L1 ++ L2, ?_, ?_, ?_⟩
          · rw [run, handle, hL2, hL1, List.append_assoc]
          · rw [fee_prompts_append]
            by_cases h0 : fee_prompts L1 = 0
            · rw [h0]; simpa using hle2
            · rw [hpast2 (hq1 h0)]; simpa using hle1
          · intro hp
            rw [fee_prompts_append, hp1 hp, hpast2 (past_gate_step env s tx hp)]
      | raw msg =>
          simp only [raw_only_before_gate, Bool.and_eq_true, Bool.not_eq_true'] at hg
          obtain ⟨hph, hrest⟩ := hg
          obtain ⟨L2, hL2, hle2, hpast2⟩ := ih (parse_raw_txack env s msg) hrest
          obtain ⟨⟨L1, hL1, hs1⟩, hdead⟩ := parse_raw_txack_log env msg s
          have h0 : fee_prompts L1 = 0 :=
            fee_prompts_of_silent L1 (fun e he => plain_silent e (hs1 e he))
          refine ⟨L1 ++ L2, ?_, ?_, ?_⟩
          · rw [run, handle, hL2, hL1, List.append_assoc]
          · rw [fee_prompts_append, h0]; simpa using hle2
          · intro hp
            have hd : s.signing = false := by
              rcases hp with h | h | h | h
              · exact h
              all_goals
                cases hsg : s.signing
                · rfl
                · simp [in_phase_2, hsg, h] at hph
            rw [fee_prompts_append, h0, hpast2 (Or.inl (hdead hd))]

set_option maxRecDepth 100000 in
/-- C3. The fee-confirmation prompt, `confirm(ButtonRequest_FeeOverThreshold, "Confirm
Fee", fee)`, is among the events of a call of `signing_txack` if and only if that call
reaches the confirmation gate with `fee > tx_est_size * coin.maxfee_kb` (the product as
the code computes it, in 64 bits), and the amount shown is that fee; `parse_raw_txack`
never logs the prompt. In a session, `signing_init` followed by any host messages, that
delivers no raw bytes during phase 2, the prompt is logged at most once. In the session
`reentrySession`, which delivers a raw previous transaction after the gate,
`parse_raw_txack` accepts it, the stage returns to `REQUEST_3_OUTPUT`, and the prompt is
logged twice. -/
theorem fee_prompt_iff_gate :
    (∀ (env : Env) (s : State) (tx : TransactionType) (a : Nat),
      Event.confirm ButtonRequestType.ButtonRequest_FeeOverThreshold "Confirm Fee" a
          ∈ new_events s (signing_txack env s tx) ↔
        (reaches_gate env s tx ∧
          fee_threshold env s.inputs_count s.outputs_count s.coin.maxfee_kb < gate_fee s tx ∧
          a = gate_fee s tx)) ∧
    (∀ (env : Env) (s : State) (msg : Bytes),
      fee_prompts (new_events s (parse_raw_txack env s msg)) = 0) ∧
    (∀ (env : Env) (inputs_count outputs_count : Nat) (coin : CoinType) (root : HDNode)
        (version lock_time : Nat) (s0 : State) (msgs : List HostMsg),
      raw_only_before_gate env
          (signing_init inputs_count outputs_count coin root version lock_time s0) msgs = true →
      fee_prompts
        (new_events (signing_init inputs_count outputs_count coin root version lock_time s0)
          (run env
            (signing_init inputs_count outputs_count coin root version lock_time s0) msgs))
        ≤ 1) ∧
    in_phase_2 (run demoEnv demoStart rawSession) = true ∧
    (run demoEnv demoStart (rawSession ++ [HostMsg.raw richRawTx])).signing_stage
      = Stage.STAGE_REQUEST_3_OUTPUT ∧
    fee_prompts (new_events demoStart (run demoEnv demoStart reentrySession)) = 2 := by
  refine ⟨fee_prompt_step_iff, ?_, ?_, by decide, by decide, by decide⟩
  · intro env s msg
    obtain ⟨⟨L, hL, hs⟩, -⟩ := parse_raw_txack_log env msg s
    rw [new_events_of_append hL]
    exact fee_prompts_of_silent L (fun e he => plain_silent e (hs e he))
  · intro env ic oc coin root v lt s0 msgs hg
    obtain ⟨L, hL, hle, -⟩ := run_fee_prompts env msgs (signing_init ic oc coin root v lt s0) hg
    rw [new_events_of_append hL]
    exact hle

/-- C3, at a session: in `rawSession`, a raw-mode session up to the gate, the prompt is
logged once. -/
theorem fee_prompt_iff_gate_witness :
    raw_only_before_gate demoEnv (signing_init 1 1 demoCoin demoRoot 1 0 State.boot)
        rawSession = true ∧
    fee_prompts
      (new_events (signing_init 1 1 demoCoin demoRoot 1 0 State.boot)
        (run demoEnv (signing_init 1 1 demoCoin demoRoot 1 0 State.boot) rawSession)) ≤ 1 :=
  ⟨by decide,
    fee_prompt_iff_gate.2.2.1 demoEnv 1 1 demoCoin demoRoot 1 0 State.boot rawSession
      (by decide)⟩

/-- The fields of a state whose projection is known. -/
theorem core_fields {t : State} {c : Core} (h : t.core = c) :
    t.signing = c.signing ∧ t.signing_stage = c.signing_stage ∧ t.idx1 = c.idx1 ∧
    t.idx2 = c.idx2 ∧ t.inputs_count = c.inputs_count ∧ t.outputs_count = c.outputs_count ∧
    t.coin = c.coin ∧ t.root = c.root ∧ t.version = c.version ∧ t.lock_time = c.lock_time ∧
    t.to_spend = c.to_spend ∧ t.spending = c.spending ∧ t.change_spend = c.change_spend ∧
    t.input = c.input ∧ t.transaction_current = c.transaction_current ∧
    t.transaction_previous.inputs_len = c.prev_inputs_len ∧
    t.transaction_previous.outputs_len = c.prev_outputs_len ∧
    t.hash_check = c.hash_check ∧ t.multisig_fp_set = c.multisig_fp_set ∧
    t.multisig_fp_mismatch = c.multisig_fp_mismatch ∧ t.multisig_fp = c.multisig_fp := by
  subst h
  simp [State.core]

theorem run_txacks_dead_signing (env : Env) (msgs : List TransactionType) :
    ∀ s : State, s.signing = false → (run_txacks env s msgs).signing = false := by
  induction msgs with
  | nil => intro s h; exact h
  | cons tx rest ih =>
      intro s h
      rw [run_txacks]
      apply ih
      rw [signing_txack_dead env s tx h]
      exact h

theorem signing_txack_core_2_prev_input (env : Env) (s : State) (tx : TransactionType)
    (hlive : s.signing = true) (hstage : s.signing_stage = Stage.STAGE_REQUEST_2_PREV_INPUT) :
    (signing_txack env s tx).signing = false ∨
    (signing_txack env s tx).core =
      { s.core with
        signing_stage :=
          if s.idx2 < dec32 s.transaction_previous.inputs_len then
            Stage.STAGE_REQUEST_2_PREV_INPUT
          else Stage.STAGE_REQUEST_2_PREV_OUTPUT,
        idx2 := if s.idx2 < dec32 s.transaction_previous.inputs_len then s.idx2 + 1 else 0 } := by
  rw [signing_txack_at_2_prev_input env s tx hlive hstage]
  exact txack_request_2_prev_input_core env { s with resp := TxRequest.zero } tx

/-- The previous inputs of one previous transaction: after the last of them the previous
outputs are due. -/
theorem run_prev_inputs (env : Env) (ins : List TransactionType) :
    ∀ s : State, s.signing = true → s.signing_stage = Stage.STAGE_REQUEST_2_PREV_INPUT →
      1 ≤ ins.length → s.idx2 + ins.length = s.transaction_previous.inputs_len →
      s.transaction_previous.inputs_len < 2 ^ 32 →
      (run_txacks env s ins).signing = false ∨
      (run_txacks env s ins).core =
        { s.core with signing_stage := Stage.STAGE_REQUEST_2_PREV_OUTPUT, idx2 := 0 } := by
  induction ins with
  | nil => intro s _ _ h; simp at h
  | cons tx rest ih =>
      intro s hlive hstage _ hlen hlt
      rw [run_txacks]
      rcases signing_txack_core_2_prev_input env s tx hlive hstage with hd | hc
      · exact Or.inl (run_txacks_dead_signing env rest _ hd)
      · simp only [List.length_cons] at hlen
        have h1 : 1 ≤ s.transaction_previous.inputs_len := by omega
        cases rest with
        | nil =>
            right
            have hn : ¬ s.idx2 < dec32 s.transaction_previous.inputs_len := by
              rw [dec32_lt _ _ h1 hlt]; simp at hlen; omega
            rw [if_neg hn, if_neg hn] at hc
            exact hc
        | cons tx2 rest2 =>
            have hp : s.idx2 < dec32 s.transaction_previous.inputs_len := by
              rw [dec32_lt _ _ h1 hlt]; simp at hlen; omega
            rw [if_pos hp, if_pos hp] at hc
            obtain ⟨f1, f2, -, f4, -, -, -, -, -, -, -, -, -, -, -, f16, -⟩ := core_fields hc
            dsimp only [State.core] at f1 f2 f4 f16
            rcases ih (signing_txack env s tx) (f1.trans hlive) f2 (by simp)
              (by rw [f4, f16]; simp at hlen ⊢; omega) (by rw [f16]; exact hlt) with hd | hc2
            · exact Or.inl hd
            · right
              rw [hc2, hc]

theorem signing_txack_core_2_prev_output (env : Env) (s : State) (tx : TransactionType)
    (hlive : s.signing = true) (hstage : s.signing_stage = Stage.STAGE_REQUEST_2_PREV_OUTPUT) :
    (signing_txack env s tx).signing = false ∨
    (signing_txack env s tx).core =
      (if s.idx2 < dec32 s.transaction_previous.outputs_len then
        { s.core with
          signing_stage := Stage.STAGE_REQUEST_2_PREV_OUTPUT,
          idx2 := s.idx2 + 1,
          to_spend := if s.idx2 = s.input.prev_index then
              add64 s.to_spend tx.bin_outputs.amount else s.to_spend }
      else if s.idx1 < dec32 s.inputs_count then
        { s.core with
          signing_stage := Stage.STAGE_REQUEST_1_INPUT,
          idx1 := s.idx1 + 1,
          to_spend := if s.idx2 = s.input.prev_index then
              add64 s.to_spend tx.bin_outputs.amount else s.to_spend }
      else
        { s.core with
          signing_stage := Stage.STAGE_REQUEST_3_OUTPUT,
          idx1 := 0, idx2 := 0,
          to_spend := if s.idx2 = s.input.prev_index then
              add64 s.to_spend tx.bin_outputs.amount else s.to_spend,
          hash_check := env.sha256 s.hashers2 }) := by
  rw [signing_txack_at_2_prev_output env s tx hlive hstage]
  exact txack_request_2_prev_output_core env { s with resp := TxRequest.zero } tx

/-- The previous outputs of one previous transaction: `to_spend` grows by the amount of
the output at `prev_index`, and after the last of them the next input or the first
output is due. -/
theorem run_prev_outputs (env : Env) (outs : List TransactionType) :
    ∀ s : State, s.signing = true → s.signing_stage = Stage.STAGE_REQUEST_2_PREV_OUTPUT →
      1 ≤ outs.length → s.idx2 + outs.length = s.transaction_previous.outputs_len →
      s.transaction_previous.outputs_len < 2 ^ 32 →
      (run_txacks env s outs).signing = false ∨
      (run_txacks env s outs).core =
        { s.core with
          signing_stage := if s.idx1 < dec32 s.inputs_count then Stage.STAGE_REQUEST_1_INPUT
                           else Stage.STAGE_REQUEST_3_OUTPUT,
          idx1 := if s.idx1 < dec32 s.inputs_count then s.idx1 + 1 else 0,
          idx2 := (run_txacks env s outs).idx2,
          to_spend := spend_ref s.to_spend
            (if s.idx2 ≤ s.input.prev_index then outs[s.input.prev_index - s.idx2]? else none),
          hash_check := (run_txacks env s outs).hash_check } := by
  induction outs with
  | nil => intro s _ _ h; simp at h
  | cons tx rest ih =>
      intro s hlive hstage _ hlen hlt
      rw [run_txacks]
      rcases signing_txack_core_2_prev_output env s tx hlive hstage with hd | hc
      · exact Or.inl (run_txacks_dead_signing env rest _ hd)
      · simp only [List.length_cons] at hlen
        have h1 : 1 ≤ s.transaction_previous.outputs_len := by omega
        cases rest with
        | nil =>
            right
            have hn : ¬ s.idx2 < dec32 s.transaction_previous.outputs_len := by
              rw [dec32_lt _ _ h1 hlt]; simp at hlen; omega
            rw [if_neg hn] at hc
            have hts : spend_ref s.to_spend
                (if s.idx2 ≤ s.input.prev_index then [tx][s.input.prev_index - s.idx2]? else none)
                = if s.idx2 = s.input.prev_index then add64 s.to_spend tx.bin_outputs.amount
                  else s.to_spend := by
              by_cases he : s.idx2 = s.input.prev_index
              · simp [he, spend_ref]
              · by_cases hle : s.idx2 ≤ s.input.prev_index
                · have : s.input.prev_index - s.idx2 = (s.input.prev_index - s.idx2 - 1) + 1 := by
                    omega
                  rw [if_pos hle, if_neg he, this]
                  simp [spend_ref]
                · simp [hle, he, spend_ref]
            rw [hts]
            simp only [run_txacks]
            by_cases hi : s.idx1 < dec32 s.inputs_count
            · rw [if_pos hi] at hc
              rw [if_pos hi, if_pos hi]
              obtain ⟨-, -, -, f4, -, -, -, -, -, -, -, -, -, -, -, -, -, f18, -⟩ := core_fields hc
              dsimp only [State.core] at f4 f18
              rw [hc, f4, f18]
              rfl
            · rw [if_neg hi] at hc
              rw [if_neg hi, if_neg hi]
              obtain ⟨-, -, -, f4, -, -, -, -, -, -, -, -, -, -, -, -, -, f18, -⟩ := core_fields hc
              dsimp only [State.core] at f4 f18
              rw [hc, f4, f18]
        | cons tx2 rest2 =>
            have hp : s.idx2 < dec32 s.transaction_previous.outputs_len := by
              rw [dec32_lt _ _ h1 hlt]; simp at hlen; omega
            rw [if_pos hp] at hc
            obtain ⟨f1, f2, f3, f4, f5, -, -, -, -, -, f11, -, -, f14, -, -, f17, -⟩ :=
              core_fields hc
            dsimp only [State.core] at f1 f2 f3 f4 f5 f11 f14 f17
            rcases ih (signing_txack env s tx) (f1.trans hlive) f2 (by simp)
              (by rw [f4, f17]; simp at hlen ⊢; omega) (by rw [f17]; exact hlt) with hd | hc2
            · exact Or.inl hd
            · right
              rw [hc2, hc, f3, f4, f5, f11, f14]
              have hts : spend_ref
                  (if s.idx2 = s.input.prev_index then add64 s.to_spend tx.bin_outputs.amount
                    else s.to_spend)
                  (if s.idx2 + 1 ≤ s.input.prev_index then
                    (tx2 :: rest2)[s.input.prev_index - (s.idx2 + 1)]? else none)
                  = spend_ref s.to_spend
                    (if s.idx2 ≤ s.input.prev_index then
                      (tx :: tx2 :: rest2)[s.input.prev_index - s.idx2]? else none) := by
                by_cases he : s.idx2 = s.input.prev_index
                · simp [he, spend_ref]
                · by_cases hle : s.idx2 ≤ s.input.prev_index
                  · have e1 : s.input.prev_index - s.idx2
                        = (s.input.prev_index - (s.idx2 + 1)) + 1 := by omega
                    have e2 : s.idx2 + 1 ≤ s.input.prev_index := by omega
                    rw [if_neg he, if_pos hle, if_pos e2, e1, List.getElem?_cons_succ]
                  · have e2 : ¬ s.idx2 + 1 ≤ s.input.prev_index := by omega
                    rw [if_neg he, if_neg hle, if_neg e2]
              rw [hts]

theorem core_refresh {t : State} {c : Core} (h : t.core = c) :
    t.core = { c with
      idx2 := t.idx2, prev_inputs_len := t.transaction_previous.inputs_len,
      prev_outputs_len := t.transaction_previous.outputs_len, hash_check := t.hash_check,
      multisig_fp_set := t.multisig_fp_set, multisig_fp_mismatch := t.multisig_fp_mismatch,
      multisig_fp := t.multisig_fp } := by
  subst h
  rfl

theorem signing_txack_core_1_input (env : Env) (s : State) (tx : TransactionType)
    (hlive : s.signing = true) (hstage : s.signing_stage = Stage.STAGE_REQUEST_1_INPUT) :
    (signing_txack env s tx).signing = false ∨
    (signing_txack env s tx).core =
      { s.core with
        signing_stage := Stage.STAGE_REQUEST_2_PREV_META,
        input := tx.inputs,
        transaction_current := s.transaction_current ++ env.bytes_TxInputType tx.inputs,
        multisig_fp_set := (signing_txack env s tx).multisig_fp_set,
        multisig_fp_mismatch := (signing_txack env s tx).multisig_fp_mismatch,
        multisig_fp := (signing_txack env s tx).multisig_fp } := by
  rw [signing_txack_at_1_input env s tx hlive hstage]
  rcases txack_request_1_input_core env { s with resp := TxRequest.zero } tx with h | h
  · exact Or.inl h
  · right
    obtain ⟨-, -, -, -, -, -, -, -, -, -, -, -, -, -, -, -, -, -, f19, f20, f21⟩ := core_fields h
    rw [f19, f20, f21]
    exact h

theorem signing_txack_core_2_prev_meta (env : Env) (s : State) (tx : TransactionType)
    (hlive : s.signing = true) (hstage : s.signing_stage = Stage.STAGE_REQUEST_2_PREV_META) :
    (signing_txack env s tx).core =
      { s.core with
        signing_stage := Stage.STAGE_REQUEST_2_PREV_INPUT,
        idx2 := 0,
        prev_inputs_len := tx.inputs_cnt,
        prev_outputs_len := tx.outputs_cnt } := by
  rw [signing_txack_at_2_prev_meta env s tx hlive hstage]
  exact txack_request_2_prev_meta_core { s with resp := TxRequest.zero } tx

theorem spend_ref_eq (t : Nat) (b : InputBlock) (ht : t < 2 ^ 64) :
    spend_ref t (b.prev_outputs[b.input.inputs.prev_index]?) = add64 t b.referenced := by
  unfold InputBlock.referenced
  cases b.prev_outputs[b.input.inputs.prev_index]? with
  | none => simp [spend_ref, add64]; omega
  | some tx => simp [spend_ref]

/-- One block of structured messages, from the request for the input to the verdict on
its previous transaction. -/
theorem run_block (env : Env) (b : InputBlock) (s : State)
    (hlive : s.signing = true) (hstage : s.signing_stage = Stage.STAGE_REQUEST_1_INPUT)
    (hwf : b.well_formed = true) (hts : s.to_spend < 2 ^ 64) :
    (run_txacks env s b.acks).signing = false ∨
    (run_txacks env s b.acks).core =
      { s.core with
        signing_stage := if s.idx1 < dec32 s.inputs_count then Stage.STAGE_REQUEST_1_INPUT
                         else Stage.STAGE_REQUEST_3_OUTPUT,
        idx1 := if s.idx1 < dec32 s.inputs_count then s.idx1 + 1 else 0,
        idx2 := (run_txacks env s b.acks).idx2,
        to_spend := add64 s.to_spend b.referenced,
        input := b.input.inputs,
        transaction_current := s.transaction_current ++ env.bytes_TxInputType b.input.inputs,
        prev_inputs_len := (run_txacks env s b.acks).transaction_previous.inputs_len,
        prev_outputs_len := (run_txacks env s b.acks).transaction_previous.outputs_len,
        hash_check := (run_txacks env s b.acks).hash_check,
        multisig_fp_set := (run_txacks env s b.acks).multisig_fp_set,
        multisig_fp_mismatch := (run_txacks env s b.acks).multisig_fp_mismatch,
        multisig_fp := (run_txacks env s b.acks).multisig_fp } := by
  simp only [InputBlock.well_formed, Bool.and_eq_true, decide_eq_true_eq] at hwf
  obtain ⟨⟨⟨⟨⟨w1, w2⟩, w3⟩, w4⟩, w5⟩, w6⟩ := hwf
  have hrun : run_txacks env s b.acks =
      run_txacks env (run_txacks env (signing_txack env (signing_txack env s b.input)
        b.prev_meta) b.prev_inputs) b.prev_outputs := by
    simp only [InputBlock.acks, run_txacks, run_txacks_append]
  rw [hrun]
  have dead : ∀ t : State, t.signing = false →
      (run_txacks env (run_txacks env (signing_txack env t b.prev_meta) b.prev_inputs)
        b.prev_outputs).signing = false := by
    intro t ht
    apply run_txacks_dead_signing
    apply run_txacks_dead_signing
    rw [signing_txack_dead env t _ ht]
    exact ht
  rcases signing_txack_core_1_input env s b.input hlive hstage with hd | h1
  · exact Or.inl (dead _ hd)
  obtain ⟨a1, a2, a3, -, a5, -, -, -, -, -, a11, -, -, a14, a15, -⟩ := core_fields h1
  dsimp only [State.core] at a1 a2 a3 a5 a11 a14 a15
  have h2 := signing_txack_core_2_prev_meta env (signing_txack env s b.input) b.prev_meta
    (a1.trans hlive) a2
  obtain ⟨b1, b2, b3, b4, b5, -, -, -, -, -, b11, -, -, b14, b15, b16, b17, -⟩ := core_fields h2
  dsimp only [State.core] at b1 b2 b3 b4 b5 b11 b14 b15 b16 b17
  rcases run_prev_inputs env b.prev_inputs _ (b1.trans (a1.trans hlive)) b2 w1
    (by rw [b4, b16, w3]; simp) (by rw [b16, w3]; exact w5) with hd | h3
  · exact Or.inl (run_txacks_dead_signing env _ _ hd)
  obtain ⟨c1, c2, c3, c4, c5, -, -, -, -, -, c11, -, -, c14, c15, -, c17, -⟩ := core_fields h3
  dsimp only [State.core] at c1 c2 c3 c4 c5 c11 c14 c15 c17
  rcases run_prev_outputs env b.prev_outputs _ (c1.trans (b1.trans (a1.trans hlive))) c2 w2
    (by rw [c4, c17, b17, w4]; simp) (by rw [c17, b17, w4]; exact w6) with hd | h4
  · exact Or.inl hd
  right
  have h5 := core_refresh h4
  rw [h5, c3, c4, c5, c11, c14, b3, b5, b11, b14, a3, a5, a11, a14, h3, h2, h1]
  simp only [Nat.zero_le, if_true, Nat.sub_zero]
  rw [spend_ref_eq s.to_spend b hts]

theorem output_is_change_congr (env : Env) (s t : State) (out : TxOutputType)
    (h1 : t.multisig_fp_set = s.multisig_fp_set)
    (h2 : t.multisig_fp_mismatch = s.multisig_fp_mismatch)
    (h3 : t.multisig_fp = s.multisig_fp) :
    output_is_change env t out = output_is_change env s out := by
  simp only [output_is_change, h1, h2, h3]

theorem phase1_output_bytes_congr (env : Env) (s t : State) (tx : TransactionType)
    (h1 : t.multisig_fp_set = s.multisig_fp_set)
    (h2 : t.multisig_fp_mismatch = s.multisig_fp_mismatch)
    (h3 : t.multisig_fp = s.multisig_fp) (h4 : t.coin = s.coin) (h5 : t.root = s.root) :
    phase1_output_bytes env t tx = phase1_output_bytes env s tx := by
  simp only [phase1_output_bytes, output_is_change_congr env s t tx.outputs h1 h2 h3, h4, h5]

theorem run_txacks_nil (env : Env) (s : State) : run_txacks env s [] = s := rfl

/-- The blocks of all inputs: `to_spend` has grown by the referenced amounts, modulo
`2 ^ 64`, the commit hash has been fed the inputs, and the first output is due. -/
theorem run_blocks (env : Env) (blocks : List InputBlock) :
    ∀ s : State, s.signing = true → s.signing_stage = Stage.STAGE_REQUEST_1_INPUT →
      1 ≤ blocks.length → s.idx1 + blocks.length = s.inputs_count → s.inputs_count < 2 ^ 32 →
      (∀ b ∈ blocks, b.well_formed = true) → s.to_spend < 2 ^ 64 →
      (run_txacks env s (input_acks blocks)).signing = false ∨
      (run_txacks env s (input_acks blocks)).core =
        { s.core with
          signing_stage := Stage.STAGE_REQUEST_3_OUTPUT,
          idx1 := 0,
          idx2 := (run_txacks env s (input_acks blocks)).idx2,
          to_spend := (s.to_spend + referenced_total blocks) % 2 ^ 64,
          input := (run_txacks env s (input_acks blocks)).input,
          transaction_current := s.transaction_current ++ input_bytes env blocks,
          prev_inputs_len :=
            (run_txacks env s (input_acks blocks)).transaction_previous.inputs_len,
          prev_outputs_len :=
            (run_txacks env s (input_acks blocks)).transaction_previous.outputs_len,
          hash_check := (run_txacks env s (input_acks blocks)).hash_check,
          multisig_fp_set := (run_txacks env s (input_acks blocks)).multisig_fp_set,
          multisig_fp_mismatch := (run_txacks env s (input_acks blocks)).multisig_fp_mismatch,
          multisig_fp := (run_txacks env s (input_acks blocks)).multisig_fp } := by
  induction blocks with
  | nil => intro s _ _ h; simp at h
  | cons b rest ih =>
      intro s hlive hstage _ hlen hlt hwf hts
      have hrun : run_txacks env s (input_acks (b :: rest))
          = run_txacks env (run_txacks env s b.acks) (input_acks rest) := by
        simp only [input_acks, List.flatMap_cons, run_txacks_append]
      rw [hrun]
      simp only [List.length_cons] at hlen
      have h1 : 1 ≤ s.inputs_count := by omega
      rcases run_block env b s hlive hstage (hwf b (by simp)) hts with hd | hc
      · exact Or.inl (run_txacks_dead_signing env _ _ hd)
      · cases rest with
        | nil =>
            right
            have hn : ¬ s.idx1 < dec32 s.inputs_count := by
              rw [dec32_lt _ _ h1 hlt]; simp at hlen; omega
            rw [if_neg hn, if_neg hn] at hc
            have e : input_acks ([] : List InputBlock) = [] := rfl
            rw [e, run_txacks_nil]
            have h5 := core_refresh hc
            obtain ⟨-, -, -, -, -, -, -, -, -, -, -, -, -, f14, -⟩ := core_fields hc
            dsimp only [State.core] at f14
            rw [h5, f14]
            simp [referenced_total, input_bytes, add64]
        | cons b2 rest2 =>
            have hp : s.idx1 < dec32 s.inputs_count := by
              rw [dec32_lt _ _ h1 hlt]; simp at hlen; omega
            rw [if_pos hp, if_pos hp] at hc
            obtain ⟨f1, f2, f3, -, f5, -, -, -, -, -, f11, -, -, -, f15, -⟩ := core_fields hc
            dsimp only [State.core] at f1 f2 f3 f5 f11 f15
            rcases ih (run_txacks env s b.acks) (f1.trans hlive) f2 (by simp)
              (by rw [f3, f5]; simp at hlen ⊢; omega) (by rw [f5]; exact hlt)
              (fun x hx => hwf x (by simp [hx])) (by rw [f11]; exact Nat.mod_lt _ (by norm_num))
              with hd | hc2
            · exact Or.inl hd
            · right
              rw [hc2, hc, f11, f15]
              simp [referenced_total, input_bytes, add64, Nat.add_assoc]

theorem send_req_3_output_core (s : State) :
    (send_req_3_output s).core = { s.core with signing_stage := Stage.STAGE_REQUEST_3_OUTPUT } := by
  simp [send_req_3_output, msg_write, State.core]

theorem phase1_output_bytes_of (env : Env) (s : State) (tx : TransactionType) (b : Bool)
    (hb : output_is_change env s tx.outputs = Except.ok b) :
    phase1_output_bytes env s tx = env.bytes_TxOutputBinType
      (env.run_policy_compile_output s.coin s.root tx.outputs (!b)).2.1 := by
  simp only [phase1_output_bytes, hb]

/-- An output that is not the last one: it is added to `spending` and to the commit
hash, and the next output is requested. -/
theorem signing_txack_core_3_output_next (env : Env) (s : State) (tx : TransactionType)
    (hlive : s.signing = true) (hstage : s.signing_stage = Stage.STAGE_REQUEST_3_OUTPUT)
    (hnl : s.idx1 < dec32 s.outputs_count) :
    (signing_txack env s tx).signing = false ∨
    (signing_txack env s tx).core =
      { s.core with
        idx1 := s.idx1 + 1,
        spending := add64 s.spending tx.outputs.amount,
        change_spend := (signing_txack env s tx).change_spend,
        transaction_current := s.transaction_current ++ phase1_output_bytes env s tx } := by
  rw [signing_txack_at_3_output env s tx hlive hstage]
  rcases txack_request_3_output_cases env { s with resp := TxRequest.zero } tx with
    ⟨hd, -⟩ | ⟨b, hb, hone, hco⟩
  · exact Or.inl hd
  · right
    obtain ⟨sp, -, -, hcore, heq⟩ :=
      txack_request_3_output_ok env { s with resp := TxRequest.zero } tx b hb hone hco
    have hb' : output_is_change env s tx.outputs = Except.ok b := by
      rw [← output_is_change_resp env s tx.outputs TxRequest.zero]; exact hb
    have hnl' : ({ s with resp := TxRequest.zero } : State).idx1
        < dec32 ({ s with resp := TxRequest.zero } : State).outputs_count := hnl
    rw [heq, if_pos hnl', phase1_output_bytes_of env s tx b hb']
    have h1 := send_req_3_output_core
      { sp with idx1 := ({ s with resp := TxRequest.zero } : State).idx1 + 1 }
    have h2 := core_fields h1
    obtain ⟨-, -, -, -, -, -, -, -, -, -, -, -, f13, -⟩ := h2
    rw [f13, h1]
    simp only [State.core, Core.mk.injEq] at hcore ⊢
    obtain ⟨c1, c2, c3, c4, c5, c6, c7, c8, c9, c10, c11, c12, c13, c14, c15, c16, c17, c18,
      c19, c20, c21⟩ := hcore
    refine ⟨c1, ?_, trivial, c4, c5, c6, c7, c8, c9, c10, c11, c12, trivial, c14, c15, c16, c17,
      c18, c19, c20, c21⟩
    exact hstage.symm

/-- The outputs before the last one: `spending` has grown by their amounts, modulo
`2 ^ 64`, and the commit hash has been fed the compiled outputs. -/
theorem run_outputs (env : Env) (outs : List TransactionType) :
    ∀ s : State, s.signing = true → s.signing_stage = Stage.STAGE_REQUEST_3_OUTPUT →
      s.idx1 + outs.length < s.outputs_count → s.outputs_count < 2 ^ 32 →
      s.spending < 2 ^ 64 →
      (run_txacks env s outs).signing = false ∨
      (run_txacks env s outs).core =
        { s.core with
          idx1 := s.idx1 + outs.length,
          spending := (s.spending + outputs_total outs) % 2 ^ 64,
          change_spend := (run_txacks env s outs).change_spend,
          transaction_current :=
            s.transaction_current ++ outs.flatMap (phase1_output_bytes env s) } := by
  induction outs with
  | nil =>
      intro s _ _ _ _ hsp
      right
      rw [run_txacks_nil]
      simp [outputs_total, State.core]
      exact (Nat.mod_eq_of_lt hsp).symm
  | cons tx rest ih =>
      intro s hlive hstage hlen hlt hsp
      rw [run_txacks]
      simp only [List.length_cons] at hlen
      have h1 : 1 ≤ s.outputs_count := by omega
      have hnl : s.idx1 < dec32 s.outputs_count := by
        rw [dec32_lt _ _ h1 hlt]; omega
      rcases signing_txack_core_3_output_next env s tx hlive hstage hnl with hd | hc
      · exact Or.inl (run_txacks_dead_signing env rest _ hd)
      · obtain ⟨f1, f2, f3, -, -, f6, f7, f8, -, -, -, f12, -, -, f15, -, -, -, f19, f20, f21⟩ :=
          core_fields hc
        dsimp only [State.core] at f1 f2 f3 f6 f7 f8 f12 f15 f19 f20 f21
        rcases ih (signing_txack env s tx) (f1.trans hlive) (f2.trans hstage)
          (by rw [f3, f6]; omega) (by rw [f6]; exact hlt)
          (by rw [f12]; exact Nat.mod_lt _ (by norm_num)) with hd | hc2
        · exact Or.inl hd
        · right
          have hb : phase1_output_bytes env (signing_txack env s tx)
              = phase1_output_bytes env s :=
            funext fun x => phase1_output_bytes_congr env s _ x f19 f20 f21 f7 f8
          rw [hc2, hc, f3, f12, f15]
          simp [outputs_total, add64, hb, Nat.add_assoc, Nat.add_comm 1 rest.length]

theorem signing_init_core (n m : Nat) (coin : CoinType) (root : HDNode) (v lt : Nat)
    (s0 : State) :
    (signing_init n m coin root v lt s0).core =
      { signing := true, signing_stage := Stage.STAGE_REQUEST_1_INPUT, idx1 := 0,
        idx2 := s0.idx2, inputs_count := n, outputs_count := m, coin := coin, root := root,
        version := v, lock_time := lt, to_spend := 0, spending := 0, change_spend := 0,
        input := TxInputType.zero, transaction_current := commit_header n m v lt,
        prev_inputs_len := s0.transaction_previous.inputs_len,
        prev_outputs_len := s0.transaction_previous.outputs_len,
        hash_check := s0.hash_check, multisig_fp_set := false, multisig_fp_mismatch := false,
        multisig_fp := s0.multisig_fp } := by
  simp [signing_init, send_req_1_input, msg_write, State.core]

/-- Phase 1 of a structured session up to the last output: unless the session has ended,
the amounts are the sums modulo `2 ^ 64` and the commit hash has been fed the header, the
inputs and the compiled outputs. -/
theorem run_phase1 (env : Env) (blocks : List InputBlock) (outs : List TransactionType)
    (coin : CoinType) (root : HDNode) (version lock_time : Nat) (s0 : State)
    (hb : 1 ≤ blocks.length) (hbl : blocks.length < 2 ^ 32) (hol : outs.length + 1 < 2 ^ 32)
    (hwf : ∀ b ∈ blocks, b.well_formed = true) :
    (phase1_state env blocks outs coin root version lock_time s0).signing = false ∨
    ((phase1_state env blocks outs coin root version lock_time s0).signing = true ∧
      (phase1_state env blocks outs coin root version lock_time s0).signing_stage
        = Stage.STAGE_REQUEST_3_OUTPUT ∧
      (phase1_state env blocks outs coin root version lock_time s0).idx1 = outs.length ∧
      (phase1_state env blocks outs coin root version lock_time s0).inputs_count
        = blocks.length ∧
      (phase1_state env blocks outs coin root version lock_time s0).outputs_count
        = outs.length + 1 ∧
      (phase1_state env blocks outs coin root version lock_time s0).coin = coin ∧
      (phase1_state env blocks outs coin root version lock_time s0).root = root ∧
      (phase1_state env blocks outs coin root version lock_time s0).version = version ∧
      (phase1_state env blocks outs coin root version lock_time s0).lock_time = lock_time ∧
      (phase1_state env blocks outs coin root version lock_time s0).to_spend
        = referenced_total blocks % 2 ^ 64 ∧
      (phase1_state env blocks outs coin root version lock_time s0).spending
        = outputs_total outs % 2 ^ 64 ∧
      (phase1_state env blocks outs coin root version lock_time s0).transaction_current
        = commit_header blocks.length (outs.length + 1) version lock_time
          ++ input_bytes env blocks
          ++ outs.flatMap (phase1_output_bytes env
              (phase1_state env blocks outs coin root version lock_time s0))) := by
  have h0 := signing_init_core blocks.length (outs.length + 1) coin root version lock_time s0
  obtain ⟨a1, a2, a3, -, a5, a6, a7, a8, a9, a10, a11, a12, -, -, a15, -⟩ := core_fields h0
  dsimp only at a1 a2 a3 a5 a6 a7 a8 a9 a10 a11 a12 a15
  unfold phase1_state
  rw [run_txacks_append]
  rcases run_blocks env blocks _ a1 a2 hb (by rw [a3, a5]; simp) (by rw [a5]; exact hbl) hwf
    (by rw [a11]; norm_num) with hd | h1
  · exact Or.inl (run_txacks_dead_signing env _ _ hd)
  obtain ⟨b1, b2, b3, -, b5, b6, b7, b8, b9, b10, b11, b12, -, -, b15, -⟩ := core_fields h1
  dsimp only [State.core] at b1 b2 b3 b5 b6 b7 b8 b9 b10 b11 b12 b15
  rcases run_outputs env outs _ (b1.trans a1) b2 (by rw [b3, b6, a6]; simp)
    (by rw [b6, a6]; exact hol) (by rw [b12, a12]; norm_num) with hd | h2
  · exact Or.inl hd
  right
  obtain ⟨c1, c2, c3, -, c5, c6, c7, c8, c9, c10, c11, c12, -, -, c15, -, -, -, c19, c20, c21⟩ :=
    core_fields h2
  dsimp only [State.core] at c1 c2 c3 c5 c6 c7 c8 c9 c10 c11 c12 c15 c19 c20 c21
  have hbytes : phase1_output_bytes env
      (run_txacks env (run_txacks env
        (signing_init blocks.length (outs.length + 1) coin root version lock_time s0)
        (input_acks blocks)) outs)
      = phase1_output_bytes env (run_txacks env
        (signing_init blocks.length (outs.length + 1) coin root version lock_time s0)
        (input_acks blocks)) :=
    funext fun x => phase1_output_bytes_congr env _ _ x c19 c20 c21 c7 c8
  refine ⟨c1.trans (b1.trans a1), c2.trans b2, by rw [c3, b3]; simp, c5.trans (b5.trans a5),
    c6.trans (b6.trans a6), c7.trans (b7.trans a7), c8.trans (b8.trans a8),
    c9.trans (b9.trans a9), c10.trans (b10.trans a10), ?_, ?_, ?_⟩
  · rw [c11, b11, a11]; simp
  · rw [c12, b12, a12]; simp
  · rw [hbytes, c15, b15, a15]

/-- The fee that a gate step shows in `confirm_transaction` is the value of `fee`. -/
theorem gate_step_shown_fee (env : Env) (s : State) (tx : TransactionType)
    (hg : reaches_gate env s tx) (total fee : Nat)
    (hmem : Event.confirm_transaction total fee ∈ new_events s (signing_txack env s tx)) :
    fee = gate_fee s tx := by
  obtain ⟨hlive, hstage, hlast, ⟨b, hb, hone, hco⟩, hle⟩ := hg
  obtain ⟨sp, hlog, hresp, hcore, heq⟩ :=
    signing_txack_gate_of env s tx b hlive hstage hlast hb hone hco
  obtain ⟨f1, -, -, -, -, -, -, -, -, -, f11, f12, -⟩ := core_fields hcore
  dsimp only [State.core] at f1 f11 f12
  obtain ⟨L, hL, hcases⟩ := txack_confirmation_gate_log env sp (f1.trans hlive)
    (by rw [hresp]; rfl)
  have hnew : new_events s (signing_txack env s tx)
      = Event.policy_compile_output tx.outputs (!b) :: L := by
    apply new_events_of_append
    rw [heq, hL, hlog]; simp
  rw [hnew] at hmem
  have hmem' : Event.confirm_transaction total fee ∈ L := by
    rcases List.mem_cons.1 hmem with h | h
    · exact absurd h (by simp)
    · exact h
  have key : fee = sp.to_spend - sp.spending := by
    rcases hcases with ⟨-, rfl⟩ | ⟨-, -, T, rfl, hT⟩ | ⟨-, -, hL'⟩
    · simp at hmem'
    · rcases List.mem_cons.1 hmem' with h | h
      · exact absurd h (by simp)
      · exact ((hT _ h).2.1 total fee rfl).1
    · exact ((hL' _ hmem').2.1 total fee rfl).1
  rw [key, f11, f12, gate_fee]

/-- C1, as the code has it. In a structured session that runs from `signing_init` to the
confirmation gate (one block of messages per input, then the outputs, the last of which
reaches the gate), the value of `fee` at the gate, which is the fee shown in
`confirm_transaction`, is the sum of the referenced amounts modulo `2 ^ 64` minus the sum
of the output amounts modulo `2 ^ 64`; the second is not above the first. When neither
sum reaches `2 ^ 64`, it is their exact integer difference. -/
theorem fee_is_difference_mod (env : Env) (blocks : List InputBlock)
    (outs : List TransactionType) (last : TransactionType)
    (coin : CoinType) (root : HDNode) (version lock_time : Nat) (s0 : State)
    (hb : 1 ≤ blocks.length) (hbl : blocks.length < 2 ^ 32) (hol : outs.length + 1 < 2 ^ 32)
    (hwf : ∀ b ∈ blocks, b.well_formed = true)
    (hgate : reaches_gate env
      (phase1_state env blocks outs coin root version lock_time s0) last) :
    gate_fee (phase1_state env blocks outs coin root version lock_time s0) last
      = referenced_total blocks % 2 ^ 64 - outputs_total (outs ++ [last]) % 2 ^ 64 ∧
    outputs_total (outs ++ [last]) % 2 ^ 64 ≤ referenced_total blocks % 2 ^ 64 ∧
    (∀ total fee : Nat,
      Event.confirm_transaction total fee
          ∈ new_events (phase1_state env blocks outs coin root version lock_time s0)
              (signing_txack env
                (phase1_state env blocks outs coin root version lock_time s0) last) →
        fee = gate_fee (phase1_state env blocks outs coin root version lock_time s0) last) ∧
    (referenced_total blocks < 2 ^ 64 → outputs_total (outs ++ [last]) < 2 ^ 64 →
      ((gate_fee (phase1_state env blocks outs coin root version lock_time s0) last : Nat)
          : Int)
        = (referenced_total blocks : Int) - (outputs_total (outs ++ [last]) : Int)) := by
  have hlive := hgate.1
  have hle := hgate.2.2.2.2
  rcases run_phase1 env blocks outs coin root version lock_time s0 hb hbl hol hwf with
    hd | ⟨-, -, -, -, -, -, -, -, -, hts, hsp, -⟩
  · rw [hd] at hlive; exact absurd hlive (by simp)
  have hsum : add64 (phase1_state env blocks outs coin root version lock_time s0).spending
      last.outputs.amount = outputs_total (outs ++ [last]) % 2 ^ 64 := by
    rw [hsp]
    simp [add64, outputs_total]
  rw [hsum, hts] at hle
  have hfee : gate_fee (phase1_state env blocks outs coin root version lock_time s0) last
      = referenced_total blocks % 2 ^ 64 - outputs_total (outs ++ [last]) % 2 ^ 64 := by
    rw [gate_fee, hsum, hts]
  refine ⟨hfee, hle, fun total fee h => gate_step_shown_fee env _ last hgate total fee h, ?_⟩
  intro h1 h2
  rw [hfee]
  rw [Nat.mod_eq_of_lt h1, Nat.mod_eq_of_lt h2] at hle ⊢
  omega

/-- C1, at a session: one input that refers to an amount of 10000 and one output of 9000;
the fee is 1000. -/
theorem fee_is_difference_mod_witness :
    reaches_gate demoEnv
      (phase1_state demoEnv [demoBlock 10000] [] demoCoin demoRoot 1 0 State.boot)
      (ackOutput (spendOutput 9000)) ∧
    gate_fee (phase1_state demoEnv [demoBlock 10000] [] demoCoin demoRoot 1 0 State.boot)
      (ackOutput (spendOutput 9000)) = 1000 :=
  ⟨⟨by decide, by decide, by decide, ⟨false, rfl, by decide, by decide⟩, by decide⟩,
    (fee_is_difference_mod demoEnv [demoBlock 10000] [] (ackOutput (spendOutput 9000))
      demoCoin demoRoot 1 0 State.boot (by decide) (by decide) (by decide) (by decide)
      ⟨by decide, by decide, by decide, ⟨false, rfl, by decide, by decide⟩, by decide⟩).1⟩

/-- C1, as stated, fails: with two inputs that refer to `2 ^ 63` and `2 ^ 63 + 5` and one
output of 1, the session reaches the gate and `confirm_transaction` shows the fee 4, while
the sum of the referenced amounts minus the sum of the output amounts is `2 ^ 64 + 4`. -/
theorem fee_wraps_at_64_bits :
    reaches_gate demoEnv
      (phase1_state demoEnv wrapBlocks [] demoCoin demoRoot 1 0 State.boot)
      (ackOutput (spendOutput 1)) ∧
    gate_fee (phase1_state demoEnv wrapBlocks [] demoCoin demoRoot 1 0 State.boot)
      (ackOutput (spendOutput 1)) = 4 ∧
    Event.confirm_transaction 5 4
      ∈ new_events (phase1_state demoEnv wrapBlocks [] demoCoin demoRoot 1 0 State.boot)
          (signing_txack demoEnv
            (phase1_state demoEnv wrapBlocks [] demoCoin demoRoot 1 0 State.boot)
            (ackOutput (spendOutput 1))) ∧
    (referenced_total wrapBlocks : Int) - (outputs_total [ackOutput (spendOutput 1)] : Int)
      = 2 ^ 64 + 4 :=
  ⟨⟨by decide, by decide, by decide, ⟨false, rfl, by decide, by decide⟩, by decide⟩,
    by decide, by decide, by decide⟩

/-- C14. With no live session, `signing_txack` appends to the log exactly the failure
`Failure_UnexpectedMessage` "Not in Signing mode" and the return to the home screen, no
`TxRequest`, and changes nothing else in the module state: stage, indices, amounts,
multisig flags and hashes keep their values. -/
theorem not_in_signing_mode (env : Env) (s : State) (tx : TransactionType)
    (h : s.signing = false) :
    signing_txack env s tx =
      { s with log := s.log ++ [Event.failure FailureType.Failure_UnexpectedMessage
                                  "Not in Signing mode", Event.go_home] } ∧
    new_events s (signing_txack env s tx) =
      [Event.failure FailureType.Failure_UnexpectedMessage "Not in Signing mode",
       Event.go_home] ∧
    (signing_txack env s tx).signing = false ∧
    (signing_txack env s tx).signing_stage = s.signing_stage ∧
    (signing_txack env s tx).idx1 = s.idx1 ∧ (signing_txack env s tx).idx2 = s.idx2 ∧
    (signing_txack env s tx).to_spend = s.to_spend ∧
    (signing_txack env s tx).spending = s.spending ∧
    (signing_txack env s tx).change_spend = s.change_spend ∧
    (signing_txack env s tx).multisig_fp_set = s.multisig_fp_set ∧
    (signing_txack env s tx).multisig_fp_mismatch = s.multisig_fp_mismatch ∧
    (signing_txack env s tx).multisig_fp = s.multisig_fp ∧
    (signing_txack env s tx).hash = s.hash ∧
    (signing_txack env s tx).hash_check = s.hash_check ∧
    (signing_txack env s tx).hash_prevouts = s.hash_prevouts ∧
    (signing_txack env s tx).hash_sequence = s.hash_sequence ∧
    (signing_txack env s tx).hash_outputs = s.hash_outputs ∧
    (signing_txack env s tx).transaction_current = s.transaction_current := by
  have e := signing_txack_dead env s tx h
  refine ⟨e, ?_, ?_⟩
  · exact new_events_of_append (by rw [e])
  · rw [e]
    exact ⟨h, rfl, rfl, rfl, rfl, rfl, rfl, rfl, rfl, rfl, rfl, rfl, rfl, rfl, rfl, rfl⟩

/-- C14, at a state: the device at power-up. -/
theorem not_in_signing_mode_witness :
    State.boot.signing = false ∧
    new_events State.boot (signing_txack demoEnv State.boot zeroAck) =
      [Event.failure FailureType.Failure_UnexpectedMessage "Not in Signing mode",
       Event.go_home] :=
  ⟨rfl, (not_in_signing_mode demoEnv State.boot zeroAck rfl).2.1⟩

set_option maxRecDepth 100000 in
/-- C15 fails. With no live session (`deadRichState`), `parse_raw_txack` parses the raw
previous transaction `richRawTx`, adds its output value to `to_spend` and writes a
`TxRequest`; at power-up it adds the output value of `oneByteScriptTx` to `to_spend`
before it sends the prevhash failure. In phase 2 of a live session (stage
`REQUEST_4_INPUT`) it adds the value to `to_spend`, sets the stage back to
`REQUEST_3_OUTPUT` and writes a `TxRequest`. -/
theorem raw_bytes_not_rejected :
    (deadRichState.signing = false ∧
      (parse_raw_txack demoEnv deadRichState richRawTx).to_spend
        = deadRichState.to_spend + 1000000 ∧
      (new_events deadRichState (parse_raw_txack demoEnv deadRichState richRawTx)).map
          Event.is_tx_request = [true]) ∧
    (State.boot.signing = false ∧ State.boot.to_spend = 0 ∧
      (parse_raw_txack demoEnv State.boot oneByteScriptTx).to_spend = 10000) ∧
    ((run demoEnv demoStart rawSession).signing = true ∧
      (run demoEnv demoStart rawSession).signing_stage = Stage.STAGE_REQUEST_4_INPUT ∧
      (parse_raw_txack demoEnv (run demoEnv demoStart rawSession) richRawTx).signing_stage
        = Stage.STAGE_REQUEST_3_OUTPUT ∧
      (parse_raw_txack demoEnv (run demoEnv demoStart rawSession) richRawTx).to_spend
        = (run demoEnv demoStart rawSession).to_spend + 1000000 ∧
      (new_events (run demoEnv demoStart rawSession)
        (parse_raw_txack demoEnv (run demoEnv demoStart rawSession) richRawTx)).map
          Event.is_tx_request = [true]) := by
  refine ⟨⟨by decide, by decide, by decide⟩, ⟨by decide, by decide, by decide⟩,
    ⟨by decide, by decide, by decide, by decide, by decide⟩⟩

/-- After `TXOUT_EXCHANGE_CONTRACT_ERROR` with no exchange error on record,
`send_fsm_co_error_message` sends nothing; `signing_abort` then ends the session. -/
theorem co_error_abort_silent (env : Env) (s : State)
    (hlive : s.signing = true)
    (h1 : env.TXOUT_EXCHANGE_CONTRACT_ERROR ≠ env.TXOUT_COMPILE_ERROR)
    (h2 : env.TXOUT_EXCHANGE_CONTRACT_ERROR ≠ env.TXOUT_CANCEL)
    (hex : s.exchange_error = ExchangeError.NO_EXCHANGE_ERROR) :
    (signing_abort (send_fsm_co_error_message env env.TXOUT_EXCHANGE_CONTRACT_ERROR s)).log
      = s.log ++ [Event.go_home] ∧
    (signing_abort (send_fsm_co_error_message env env.TXOUT_EXCHANGE_CONTRACT_ERROR s)).signing
      = false := by
  have e : send_fsm_co_error_message env env.TXOUT_EXCHANGE_CONTRACT_ERROR s = s := by
    simp only [send_fsm_co_error_message, if_neg h1, if_neg h2, if_true, hex]
  rw [e]
  simp [signing_abort, go_home, hlive]

/-- C16 fails for one error code. When the policy module returns
`TXOUT_EXCHANGE_CONTRACT_ERROR` and leaves `NO_EXCHANGE_ERROR` behind, a live session in
stage `REQUEST_4_OUTPUT` or `REQUEST_5_OUTPUT` ends without any outbound message: the
call of `signing_txack` logs the call of the policy module and the return to the home
screen, and neither a `Failure` nor a `TxRequest`. -/
theorem contract_error_sends_nothing (env : Env) (s : State) (tx : TransactionType)
    (hlive : s.signing = true)
    (hstage : s.signing_stage = Stage.STAGE_REQUEST_4_OUTPUT ∨
      s.signing_stage = Stage.STAGE_REQUEST_5_OUTPUT)
    (hco : (env.run_policy_compile_output s.coin s.root tx.outputs false).1
      = env.TXOUT_EXCHANGE_CONTRACT_ERROR)
    (hex : (env.run_policy_compile_output s.coin s.root tx.outputs false).2.2
      = ExchangeError.NO_EXCHANGE_ERROR)
    (hle : env.TXOUT_EXCHANGE_CONTRACT_ERROR ≤ env.TXOUT_COMPILE_ERROR)
    (h1 : env.TXOUT_EXCHANGE_CONTRACT_ERROR ≠ env.TXOUT_COMPILE_ERROR)
    (h2 : env.TXOUT_EXCHANGE_CONTRACT_ERROR ≠ env.TXOUT_CANCEL) :
    new_events s (signing_txack env s tx)
      = [Event.policy_compile_output tx.outputs false, Event.go_home] ∧
    (signing_txack env s tx).signing = false := by
  have key : ∀ t : State, t.signing = true → t.coin = s.coin → t.root = s.root →
      (signing_abort (send_fsm_co_error_message env
          (run_policy_compile_output env t tx.outputs false).1
          (run_policy_compile_output env t tx.outputs false).2)).log
        = t.log ++ [Event.policy_compile_output tx.outputs false, Event.go_home] ∧
      (signing_abort (send_fsm_co_error_message env
          (run_policy_compile_output env t tx.outputs false).1
          (run_policy_compile_output env t tx.outputs false).2)).signing = false := by
    intro t ht hc hr
    have e1 : (run_policy_compile_output env t tx.outputs false).1
        = env.TXOUT_EXCHANGE_CONTRACT_ERROR := by
      simp only [run_policy_compile_output, hc, hr, hco]
    rw [e1]
    obtain ⟨a, b⟩ := co_error_abort_silent env
      (run_policy_compile_output env t tx.outputs false).2
      (by simp [run_policy_compile_output, ht]) h1 h2
      (by simp only [run_policy_compile_output, hc, hr, hex])
    refine ⟨?_, b⟩
    rw [a]
    simp [run_policy_compile_output]
  have hle' : ∀ t : State, t.coin = s.coin → t.root = s.root →
      (run_policy_compile_output env t tx.outputs false).1 ≤ env.TXOUT_COMPILE_ERROR := by
    intro t hc hr
    simp only [run_policy_compile_output, hc, hr, hco]
    exact hle
  rcases hstage with hstage | hstage
  · rw [signing_txack_at_4_output env s tx hlive hstage]
    unfold txack_request_4_output
    simp only [if_pos (hle' { s with resp := TxRequest.zero } rfl rfl)]
    obtain ⟨a, b⟩ := key { s with resp := TxRequest.zero } hlive rfl rfl
    exact ⟨new_events_of_append a, b⟩
  · rw [signing_txack_at_5_output env s tx hlive hstage]
    unfold txack_request_5_output
    simp only [if_pos (hle' { s with resp := TxRequest.zero } rfl rfl)]
    obtain ⟨a, b⟩ := key { s with resp := TxRequest.zero } hlive rfl rfl
    exact ⟨new_events_of_append a, b⟩

set_option maxRecDepth 100000 in
/-- C16, at a state: in phase 2 of a session of one input and one output, the output of
the inner sweep carries an exchange type. -/
theorem contract_error_sends_nothing_witness :
    sweepOutputState.signing = true ∧
    sweepOutputState.signing_stage = Stage.STAGE_REQUEST_4_OUTPUT ∧
    new_events sweepOutputState
        (signing_txack exchangeEnv sweepOutputState (ackOutput (exchangeOutput 9000)))
      = [Event.policy_compile_output (exchangeOutput 9000) false, Event.go_home] ∧
    (signing_txack exchangeEnv sweepOutputState (ackOutput (exchangeOutput 9000))).signing
      = false :=
  ⟨by decide, by decide,
    contract_error_sends_nothing exchangeEnv sweepOutputState (ackOutput (exchangeOutput 9000))
      (by decide) (Or.inl (by decide)) (by decide) (by decide) (by decide) (by decide)
      (by decide)⟩

/-- C18, as the code has it. The function `signing_init` does not look at `signing`: in
every state, live or not, it starts a session with the values it is given, the amounts and
the index at zero and the multisig flags cleared, and it writes exactly one message, the
`TxRequest` for input 0; no `Failure` is sent. -/
theorem signing_init_restarts (n m : Nat) (coin : CoinType) (root : HDNode) (v lt : Nat)
    (s : State) :
    new_events s (signing_init n m coin root v lt s) =
      [Event.tx_request { TxRequest.zero with
        has_request_type := true, request_type := RequestType.TXINPUT,
        has_details := true, has_request_index := true, request_index := 0 }] ∧
    (signing_init n m coin root v lt s).signing = true ∧
    (signing_init n m coin root v lt s).signing_stage = Stage.STAGE_REQUEST_1_INPUT ∧
    (signing_init n m coin root v lt s).inputs_count = n ∧
    (signing_init n m coin root v lt s).outputs_count = m ∧
    (signing_init n m coin root v lt s).coin = coin ∧
    (signing_init n m coin root v lt s).root = root ∧
    (signing_init n m coin root v lt s).version = v ∧
    (signing_init n m coin root v lt s).lock_time = lt ∧
    (signing_init n m coin root v lt s).idx1 = 0 ∧
    (signing_init n m coin root v lt s).to_spend = 0 ∧
    (signing_init n m coin root v lt s).spending = 0 ∧
    (signing_init n m coin root v lt s).change_spend = 0 ∧
    (signing_init n m coin root v lt s).multisig_fp_set = false ∧
    (signing_init n m coin root v lt s).multisig_fp_mismatch = false ∧
    (signing_init n m coin root v lt s).transaction_current = commit_header n m v lt ∧
    (signing_init n m coin root v lt s).raw_tx_status = RawTxStatus.NOT_PARSING := by
  refine ⟨?_, rfl, rfl, rfl, rfl, rfl, rfl, rfl, rfl, rfl, rfl, rfl, rfl, rfl, rfl, rfl, rfl⟩
  apply new_events_of_append
  simp [signing_init, send_req_1_input, msg_write]

set_option maxRecDepth 100000 in
/-- C18, as stated, fails: `shortFundsState` is a live session in stage
`REQUEST_3_OUTPUT` with `to_spend = 50000`; `signing_init` on it sends no failure and
starts a session over it, in stage `REQUEST_1_INPUT` with `to_spend = 0`. -/
theorem signing_init_over_live_session :
    shortFundsState.signing = true ∧
    shortFundsState.signing_stage = Stage.STAGE_REQUEST_3_OUTPUT ∧
    shortFundsState.to_spend = 50000 ∧
    (new_events shortFundsState
      (signing_init 2 2 demoCoin demoRoot 1 0 shortFundsState)).map Event.is_tx_request
        = [true] ∧
    (signing_init 2 2 demoCoin demoRoot 1 0 shortFundsState).signing = true ∧
    (signing_init 2 2 demoCoin demoRoot 1 0 shortFundsState).signing_stage
      = Stage.STAGE_REQUEST_1_INPUT ∧
    (signing_init 2 2 demoCoin demoRoot 1 0 shortFundsState).inputs_count = 2 ∧
    (signing_init 2 2 demoCoin demoRoot 1 0 shortFundsState).to_spend = 0 := by
  refine ⟨by decide, by decide, by decide, by decide, by decide, by decide, by decide,
    by decide⟩

theorem hash_type_eq (sighash forkid : Nat) (h : sighash < 256) :
    (forkid * 256 % 2 ^ 32) ||| sighash = ((forkid <<< 8) ||| sighash) % 2 ^ 32 ∧
    ((forkid <<< 8) ||| sighash) % 2 ^ 32 = 256 * (forkid % 2 ^ 24) + sighash := by
  have h8 : sighash < 2 ^ 8 := by norm_num; exact h
  have e1 : forkid * 256 % 2 ^ 32 = 2 ^ 8 * (forkid % 2 ^ 24) := by omega
  have e2 : forkid <<< 8 = 2 ^ 8 * forkid := by rw [Nat.shiftLeft_eq]; ring
  rw [e1, e2, ← Nat.mul_add_lt_is_or h8, ← Nat.mul_add_lt_is_or h8]
  constructor <;> omega

/-- C11. The function `signing_hash_bip143` leaves in `xhash` the digest of the first 32
bytes of the digest of `P`, where `P` is, in this order: the session version (4 bytes
little-endian), `hash_prevouts` (32), `hash_sequence` (32), the prevout serialization of
the input, its `script_sig` prefixed by the varint of its length, its amount (8 bytes
little-endian), its sequence serialization, `hash_outputs` (32), the session lock time (4
bytes little-endian) and the 4 little-endian bytes of `(forkid << 8) | sighash` modulo
`2 ^ 32`. The first of these last four bytes is `sighash`. With a digest of 32 bytes the
result is `SHA256(SHA256(P))`. -/
theorem bip143_digest (env : Env) (s : State) (txinput : TxInputType) (sighash forkid : Nat)
    (h : sighash < 256) :
    signing_hash_bip143 env s txinput sighash forkid
      = env.sha256 ((env.sha256 (spec_bip143_preimage env s txinput sighash forkid)).take 32) ∧
    (le32 (((forkid <<< 8) ||| sighash) % 2 ^ 32)).head? = some sighash ∧
    ((env.sha256 (spec_bip143_preimage env s txinput sighash forkid)).length = 32 →
      signing_hash_bip143 env s txinput sighash forkid
        = env.sha256 (env.sha256 (spec_bip143_preimage env s txinput sighash forkid))) := by
  obtain ⟨e1, e2⟩ := hash_type_eq sighash forkid h
  have hp : bip143_preimage env s txinput sighash forkid
      = spec_bip143_preimage env s txinput sighash forkid := by
    simp only [bip143_preimage, spec_bip143_preimage, tx_script_hash, e1, List.append_assoc]
  have h1 : signing_hash_bip143 env s txinput sighash forkid
      = env.sha256 ((env.sha256 (spec_bip143_preimage env s txinput sighash forkid)).take 32) := by
    simp only [signing_hash_bip143, hp]
  refine ⟨h1, ?_, ?_⟩
  · rw [e2]
    simp only [le32, List.head?_cons]
    congr 1
    omega
  · intro hl
    rw [h1, ← hl, List.take_length]

/-- C11, at an input: the input of scenario S3 with sighash `ALL | FORKID`. -/
theorem bip143_digest_witness :
    SIGHASH_ALL ||| SIGHASH_FORKID < 256 ∧
    (le32 (((0 <<< 8) ||| (SIGHASH_ALL ||| SIGHASH_FORKID)) % 2 ^ 32)).head?
      = some (SIGHASH_ALL ||| SIGHASH_FORKID) :=
  ⟨by decide,
    (bip143_digest demoEnv demoStart forkInput (SIGHASH_ALL ||| SIGHASH_FORKID) 0
      (by decide)).2.1⟩

theorem compile_input_script_sig_core (env : Env) (s : State) (i : TxInputType) :
    (compile_input_script_sig env s i).2.1.core = s.core := by
  simp only [compile_input_script_sig]
  split_ifs <;> rfl

/-- The step of `case STAGE_REQUEST_4_INPUT` on the fields of `Core`. -/
theorem txack_request_4_input_core (env : Env) (s : State) (tx : TransactionType) :
    (txack_request_4_input env s tx).signing = false ∨
    (txack_request_4_input env s tx).core =
      { s.core with
        signing_stage := if s.idx2 < dec32 s.inputs_count then Stage.STAGE_REQUEST_4_INPUT
                         else Stage.STAGE_REQUEST_4_OUTPUT,
        idx2 := if s.idx2 < dec32 s.inputs_count then s.idx2 + 1 else 0,
        input := if s.idx2 = s.idx1 then tx.inputs else s.input,
        transaction_current :=
          (if s.idx2 = 0 then commit_header s.inputs_count s.outputs_count s.version s.lock_time
           else s.transaction_current) ++ env.bytes_TxInputType tx.inputs } := by
  have hc := fun t : State => core_fields (compile_input_script_sig_core env t tx.inputs)
  simp only [State.core] at hc
  have e0 : (s.idx2 = 0) = True ∨ (s.idx2 = 0) = False := by
    by_cases h : s.idx2 = 0
    · exact Or.inl (eq_true h)
    · exact Or.inr (eq_false h)
  have e1 : (s.idx2 = s.idx1) = True ∨ (s.idx2 = s.idx1) = False := by
    by_cases h : s.idx2 = s.idx1
    · exact Or.inl (eq_true h)
    · exact Or.inr (eq_false h)
  have e3 : (s.idx2 < dec32 s.inputs_count) = True ∨ (s.idx2 < dec32 s.inputs_count) = False := by
    by_cases h : s.idx2 < dec32 s.inputs_count
    · exact Or.inl (eq_true h)
    · exact Or.inr (eq_false h)
  rcases e0 with e0 | e0 <;> rcases e1 with e1 | e1 <;> rcases e3 with e3 | e3 <;>
    simp only [txack_request_4_input, hc, e0, e1, e3, if_true, if_false] <;>
    split_ifs <;>
    first
      | exact Or.inl (fail_abort_signing _ _ _)
      | (right
         simp only [send_req_4_input, send_req_4_output, msg_write, State.core, hc])

/-- The step of `case STAGE_REQUEST_4_OUTPUT`: the session ends with a plain failure, or
the next output of the sweep is requested, or the end of the inner sweep is reached in a
state `T` that differs from `s` in the commit hash, the serialiser `ti`, `bin_output`, the
exchange error and the log. -/
theorem txack_request_4_output_cases (env : Env) (s : State) (tx : TransactionType)
    (hresp : s.resp.has_serialized = false) :
    ((txack_request_4_output env s tx).signing = false ∧
      Extends Event.plain s.log (txack_request_4_output env s tx).log) ∨
    (s.idx2 < dec32 s.outputs_count ∧
      Extends Event.plain s.log (txack_request_4_output env s tx).log ∧
      (txack_request_4_output env s tx).core =
        { s.core with
          signing_stage := Stage.STAGE_REQUEST_4_OUTPUT,
          idx2 := s.idx2 + 1,
          transaction_current := s.transaction_current
            ++ env.bytes_TxOutputBinType (phase2_output env s tx) }) ∨
    (¬ s.idx2 < dec32 s.outputs_count ∧
      ∃ T : State,
        txack_request_4_output env s tx = txack_finish_inner_sweep env T ∧
        T.log = s.log ++ [Event.policy_compile_output tx.outputs false] ∧
        T.core = { s.core with
          transaction_current := s.transaction_current
            ++ env.bytes_TxOutputBinType (phase2_output env s tx) } ∧
        T.resp = s.resp ∧ T.input = s.input ∧ T.privkey = s.privkey ∧
        T.pubkey = s.pubkey ∧ T.to_tx = s.to_tx ∧ T.node = s.node ∧
        T.hash_prevouts = s.hash_prevouts ∧ T.hash_sequence = s.hash_sequence ∧
        T.hash_outputs = s.hash_outputs) := by
  unfold txack_request_4_output
  by_cases h1 : (run_policy_compile_output env s tx.outputs false).1 ≤ env.TXOUT_COMPILE_ERROR
  · left
    simp only [if_pos h1]
    refine ⟨co_error_abort_signing _ _ _, ?_⟩
    refine extends_trans ?_ (co_error_abort_log env _ _)
    simp [run_policy_compile_output, Extends, Event.plain]
  · simp only [if_neg h1]
    by_cases h2 : (tx_serialize_output_hash env
        (run_policy_compile_output env s tx.outputs false).2.ti
        (run_policy_compile_output env s tx.outputs false).2.bin_output).1 = 0
    · left
      simp only [if_pos h2]
      refine ⟨fail_abort_signing _ _ _, ?_⟩
      refine extends_trans ?_ (fail_abort_log _ _ _ (by decide))
      simp [run_policy_compile_output, Extends, Event.plain]
    · simp only [if_neg h2]
      by_cases h3 : s.idx2 < dec32 s.outputs_count
      · right; left
        have h3' : (run_policy_compile_output env s tx.outputs false).2.idx2
            < dec32 (run_policy_compile_output env s tx.outputs false).2.outputs_count := h3
        simp only [if_pos h3']
        refine ⟨h3, ?_, ?_⟩
        · simp [run_policy_compile_output, send_req_4_output, msg_write, Extends, Event.plain,
            hresp]
        · simp [run_policy_compile_output, send_req_4_output, msg_write, State.core,
            phase2_output]
      · right; right
        have h3' : ¬ (run_policy_compile_output env s tx.outputs false).2.idx2
            < dec32 (run_policy_compile_output env s tx.outputs false).2.outputs_count := h3
        simp only [if_neg h3']
        exact ⟨h3, _, rfl, rfl, rfl, rfl, rfl, rfl, rfl, rfl, rfl, rfl, rfl, rfl⟩

/-- The tail of the inner sweep: the session ends with a plain failure, or exactly one
`TxRequest` is written, which carries the signature with `signature_index = idx1` and the
serialized input, and asks for the next input to sign or for the first output to
serialise. -/
theorem txack_sign_input_cases (env : Env) (s : State) (sighash : Nat) :
    ((txack_sign_input env s sighash).signing = false ∧
      Extends Event.plain s.log (txack_sign_input env s sighash).log) ∨
    (∃ r : TxRequest,
      (txack_sign_input env s sighash).log = s.log ++ [Event.tx_request r] ∧
      r.has_serialized = true ∧ r.serialized.has_signature = true ∧
      r.serialized.has_signature_index = true ∧ r.serialized.signature_index = s.idx1 ∧
      r.serialized.signature
        = env.ecdsa_sig_to_der (env.ecdsa_sign_digest s.privkey (env.tx_hash_final s.ti false)) ∧
      r.serialized.has_serialized_tx = true ∧
      r.serialized.serialized_tx
        = (env.tx_serialize_input s.to_tx (txack_sign_input env s sighash).input).1 ∧
      r.request_type = (if s.idx1 < dec32 s.inputs_count then RequestType.TXINPUT
                        else RequestType.TXOUTPUT) ∧
      r.request_index = 0 ∧
      (txack_sign_input env s sighash).core =
        { s.core with
          signing_stage := if s.idx1 < dec32 s.inputs_count then Stage.STAGE_REQUEST_4_INPUT
                           else Stage.STAGE_REQUEST_5_OUTPUT,
          idx1 := if s.idx1 < dec32 s.inputs_count then s.idx1 + 1 else 0,
          idx2 := if s.idx1 < dec32 s.inputs_count then 0 else s.idx2,
          input := (txack_sign_input env s sighash).input }) := by
  have e3 : (s.idx1 < dec32 s.inputs_count) = True ∨ (s.idx1 < dec32 s.inputs_count) = False := by
    by_cases h : s.idx1 < dec32 s.inputs_count
    · exact Or.inl (eq_true h)
    · exact Or.inr (eq_false h)
  rcases e3 with e3 | e3 <;>
    simp only [txack_sign_input, e3, if_true, if_false] <;>
    split_ifs <;>
    first
      | (left
         exact ⟨fail_abort_signing _ _ _, fail_abort_log _ _ _ (by decide)⟩)
      | (right
         simp [send_req_4_input, send_req_5_output, msg_write, State.core])

theorem signing_hash_bip143_congr (env : Env) (s t : State) (i : TxInputType) (a b : Nat)
    (h1 : t.version = s.version) (h2 : t.hash_prevouts = s.hash_prevouts)
    (h3 : t.hash_sequence = s.hash_sequence) (h4 : t.hash_outputs = s.hash_outputs)
    (h5 : t.lock_time = s.lock_time) :
    signing_hash_bip143 env t i a b = signing_hash_bip143 env s i a b := by
  simp only [signing_hash_bip143, bip143_preimage, h1, h2, h3, h4, h5]

theorem compile_input_script_sig_frame (env : Env) (s : State) (i : TxInputType) :
    (compile_input_script_sig env s i).2.1.version = s.version ∧
    (compile_input_script_sig env s i).2.1.hash_prevouts = s.hash_prevouts ∧
    (compile_input_script_sig env s i).2.1.hash_sequence = s.hash_sequence ∧
    (compile_input_script_sig env s i).2.1.hash_outputs = s.hash_outputs ∧
    (compile_input_script_sig env s i).2.1.lock_time = s.lock_time ∧
    (compile_input_script_sig env s i).2.1.hash_check = s.hash_check ∧
    (compile_input_script_sig env s i).2.1.coin = s.coin ∧
    (compile_input_script_sig env s i).2.1.log = s.log ∧
    (compile_input_script_sig env s i).2.1.signing = s.signing := by
  simp only [compile_input_script_sig]
  split_ifs <;> simp

/-- The end of the inner sweep for a coin without fork-id: the recomputed commit hash is
compared with `hash_check`; on a difference the commit-hash failure is sent and the
session ends, otherwise the input is signed. -/
theorem txack_finish_inner_sweep_legacy (env : Env) (T : State)
    (hfork : T.coin.has_forkid = false) :
    (memcmp32_ne (env.sha256 T.transaction_current) T.hash_check = true ∧
      (txack_finish_inner_sweep env T).log =
        T.log ++ Event.failure FailureType.Failure_Other
            "Transaction has changed during signing"
          :: (if T.signing then [Event.go_home] else []) ∧
      (txack_finish_inner_sweep env T).signing = false) ∨
    (memcmp32_ne (env.sha256 T.transaction_current) T.hash_check = false ∧
      txack_finish_inner_sweep env T =
        txack_sign_input env { T with hash := env.sha256 T.transaction_current }
          SIGHASH_ALL) := by
  unfold txack_finish_inner_sweep
  simp only [hfork, Bool.false_eq_true, if_false]
  by_cases h : memcmp32_ne (env.sha256 T.transaction_current) T.hash_check = true
  · left
    rw [if_pos h]
    exact ⟨h, fail_abort_log_eq _ _ _, fail_abort_signing _ _ _⟩
  · right
    rw [if_neg h]
    exact ⟨by simpa using h, rfl⟩

/-- A signature leaves the end of the inner sweep only if the value compared with
`hash_check` equals it in its first 32 bytes. -/
theorem txack_finish_inner_sweep_signature (env : Env) (T : State)
    (hsig : ∃ e ∈ new_events T (txack_finish_inner_sweep env T), Event.has_signature e = true) :
    memcmp32_ne (sweep_digest env T) T.hash_check = false := by
  obtain ⟨e, he, hs⟩ := hsig
  have nosig : ∀ (code : FailureType) (text : String) (t : State),
      e ∈ new_events T (fail_abort code text t) → t.log = T.log → False := by
    intro code text t hmem ht
    have hl := fail_abort_log_eq code text t
    rw [ht] at hl
    rw [new_events_of_append hl] at hmem
    simp only [List.mem_cons] at hmem
    rcases hmem with rfl | hmem
    · simp [Event.has_signature] at hs
    · split_ifs at hmem
      · simp only [List.mem_singleton] at hmem
        subst hmem
        simp [Event.has_signature] at hs
      · simp at hmem
  obtain ⟨c1, c2, c3, c4, c5, c6, c7, c8, c9⟩ := compile_input_script_sig_frame env T T.input
  by_cases hfork : T.coin.has_forkid = true
  · have hd : sweep_digest env T = signing_hash_bip143 env T
        (compile_input_script_sig env T T.input).2.2 (SIGHASH_ALL ||| SIGHASH_FORKID)
        T.coin.forkid := by
      simp only [sweep_digest, hfork, if_true]
    rw [hd]
    unfold txack_finish_inner_sweep at he
    simp only [hfork, if_true] at he
    split_ifs at he with h1 h2 h3 h4
    · exact (nosig _ _ _ he c8).elim
    · exact (nosig _ _ _ he c8).elim
    · exact (nosig _ _ _ he c8).elim
    · exact (nosig _ _ _ he c8).elim
    · simp only [signing_hash_bip143, bip143_preimage, c1, c2, c3, c4, c5, c6, c7] at h4 ⊢
      simpa using h4
  · have hf : T.coin.has_forkid = false := by simpa using hfork
    have hd : sweep_digest env T = env.sha256 T.transaction_current := by
      simp only [sweep_digest, hf, Bool.false_eq_true, if_false]
    rw [hd]
    rcases txack_finish_inner_sweep_legacy env T hf with ⟨-, hlog, -⟩ | ⟨h, -⟩
    · rw [new_events_of_append hlog] at he
      simp only [List.mem_cons] at he
      rcases he with rfl | he
      · simp [Event.has_signature] at hs
      · split_ifs at he
        · simp only [List.mem_singleton] at he
          subst he
          simp [Event.has_signature] at hs
        · simp at he
    · exact h

/-- The step of `case STAGE_REQUEST_5_OUTPUT` of a live session. Either the output does
not compile and the session ends; or the output is serialised into the outbound
transaction and sent in a `TxRequest` that has no signature and asks for the next output
(`TXOUTPUT`, index `idx1 + 1`), when `idx1 < outputs_count - 1`; or it is sent in the
`TXFINISHED` request, and the session ends. -/
theorem signing_txack_5_output_cases (env : Env) (s : State) (tx : TransactionType)
    (hlive : s.signing = true) (hstage : s.signing_stage = Stage.STAGE_REQUEST_5_OUTPUT) :
    ((env.run_policy_compile_output s.coin s.root tx.outputs false).1
        ≤ env.TXOUT_COMPILE_ERROR ∧
      (signing_txack env s tx).signing = false ∧
      Extends Event.plain s.log (signing_txack env s tx).log) ∨
    (env.TXOUT_COMPILE_ERROR < (env.run_policy_compile_output s.coin s.root tx.outputs false).1 ∧
      ∃ r : TxRequest,
        r.has_serialized = true ∧ r.serialized.has_serialized_tx = true ∧
        r.serialized.serialized_tx
          = (env.tx_serialize_output s.to_tx (phase2_output env s tx)).1 ∧
        r.serialized.has_signature = false ∧ r.has_request_type = true ∧
        ((s.idx1 < dec32 s.outputs_count ∧
          new_events s (signing_txack env s tx)
            = [Event.policy_compile_output tx.outputs false, Event.tx_request r] ∧
          r.request_type = RequestType.TXOUTPUT ∧ r.has_details = true ∧
          r.has_request_index = true ∧ r.request_index = s.idx1 + 1 ∧
          (signing_txack env s tx).core = { s.core with idx1 := s.idx1 + 1 } ∧
          (signing_txack env s tx).to_tx
            = { s.to_tx with
                book := (env.tx_serialize_output s.to_tx (phase2_output env s tx)).2 }) ∨
         (¬ s.idx1 < dec32 s.outputs_count ∧
          new_events s (signing_txack env s tx)
            = [Event.policy_compile_output tx.outputs false, Event.tx_request r,
               Event.go_home] ∧
          r.request_type = RequestType.TXFINISHED ∧
          (signing_txack env s tx).signing = false))) := by
  rw [signing_txack_at_5_output env s tx hlive hstage]
  unfold txack_request_5_output
  by_cases h1 : (env.run_policy_compile_output s.coin s.root tx.outputs false).1
      ≤ env.TXOUT_COMPILE_ERROR
  · left
    have h1' : (run_policy_compile_output env { s with resp := TxRequest.zero }
        tx.outputs false).1 ≤ env.TXOUT_COMPILE_ERROR := h1
    simp only [if_pos h1']
    refine ⟨h1, co_error_abort_signing _ _ _, ?_⟩
    refine extends_trans ?_ (co_error_abort_log env _ _)
    simp [run_policy_compile_output, Extends, Event.plain]
  · right
    have h1' : ¬ (run_policy_compile_output env { s with resp := TxRequest.zero }
        tx.outputs false).1 ≤ env.TXOUT_COMPILE_ERROR := h1
    simp only [if_neg h1']
    refine ⟨not_le.1 h1, ?_⟩
    by_cases h2 : s.idx1 < dec32 s.outputs_count
    · have h2' : (run_policy_compile_output env { s with resp := TxRequest.zero }
          tx.outputs false).2.idx1
          < dec32 (run_policy_compile_output env { s with resp := TxRequest.zero }
              tx.outputs false).2.outputs_count := h2
      simp only [if_pos h2']
      refine ⟨{ TxRequest.zero with
          has_serialized := true,
          serialized := { TxRequest.zero.serialized with
            has_serialized_tx := true,
            serialized_tx := (env.tx_serialize_output s.to_tx (phase2_output env s tx)).1 },
          has_request_type := true, request_type := RequestType.TXOUTPUT,
          has_details := true, has_request_index := true, request_index := s.idx1 + 1 },
        rfl, rfl, rfl, rfl, rfl, Or.inl ⟨h2, ?_, rfl, rfl, rfl, rfl, ?_, ?_⟩⟩
      · apply new_events_of_append
        simp [run_policy_compile_output, send_req_5_output, msg_write, TxRequest.zero,
          phase2_output]
      · simp [run_policy_compile_output, send_req_5_output, msg_write, State.core, hstage]
      · simp [run_policy_compile_output, send_req_5_output, msg_write, phase2_output]
    · have h2' : ¬ (run_policy_compile_output env { s with resp := TxRequest.zero }
          tx.outputs false).2.idx1
          < dec32 (run_policy_compile_output env { s with resp := TxRequest.zero }
              tx.outputs false).2.outputs_count := h2
      simp only [if_neg h2']
      refine ⟨{ TxRequest.zero with
          has_serialized := true,
          serialized := { TxRequest.zero.serialized with
            has_serialized_tx := true,
            serialized_tx := (env.tx_serialize_output s.to_tx (phase2_output env s tx)).1 },
          has_request_type := true, request_type := RequestType.TXFINISHED },
        rfl, rfl, rfl, rfl, rfl, Or.inr ⟨h2, ?_, rfl, ?_⟩⟩
      · apply new_events_of_append
        simp [run_policy_compile_output, send_req_finished, msg_write, TxRequest.zero,
          phase2_output, signing_abort, go_home, hlive]
      · simp [run_policy_compile_output, send_req_finished, msg_write, signing_abort, go_home,
          hlive]

theorem raw_frame_refl (s : State) : raw_frame s s := rfl

theorem raw_frame_trans {a b c : State} (h1 : raw_frame a b) (h2 : raw_frame b c) :
    raw_frame a c := by
  unfold raw_frame at *
  rw [h2, h1]

theorem raw_frame_of_core {s t : State} (h : t.core = s.core) : raw_frame s t := by
  unfold raw_frame
  have := core_fields h
  obtain ⟨-, -, -, -, -, -, -, -, -, -, f11, -, -, -, -, f16, f17, -⟩ := this
  rw [h, f11, f16, f17]

theorem store_ptr_core (s : State) (b : Nat) : (store_ptr s b).core = s.core := by
  simp only [store_ptr]
  split <;> (try split_ifs) <;> rfl

theorem push_var_int_core (s : State) (b : Nat) : (push_var_int s b).core = s.core := by
  simp only [push_var_int]
  split_ifs <;> rfl

/-- The parser stages before the lock time keep `Core` but for `to_spend` and the
announced lengths. -/
theorem parsing_raw_frame (s : State) (b : Nat) :
    raw_frame s (parsing_version s b) ∧ raw_frame s (parsing_input_count s b) ∧
    raw_frame s (parsing_inputs s b) ∧ raw_frame s (parsing_output_count s b) ∧
    raw_frame s (parsing_outputs_value s b) ∧ raw_frame s (parsing_outputs s b) := by
  have hs := core_fields (store_ptr_core s b)
  have hp := core_fields (push_var_int_core s b)
  simp only [State.core] at hs hp
  refine ⟨?_, ?_, ?_, ?_, ?_, ?_⟩
  · simp only [parsing_version, reset_parsing_buffer, raw_frame]
    split_ifs <;> simp [State.core, hs]
  · simp only [parsing_input_count, reset_parsing_buffer, raw_frame]
    split_ifs <;> simp [State.core, hp]
  · simp only [parsing_inputs, reset_parsing_buffer, raw_frame]
    split_ifs <;> simp [State.core, hp]
  · simp only [parsing_output_count, reset_parsing_buffer, raw_frame]
    split_ifs <;> simp [State.core, hp]
  · simp only [parsing_outputs_value, reset_parsing_buffer, raw_frame]
    split_ifs <;> simp [State.core, hs]
  · simp only [parsing_outputs, reset_parsing_buffer, raw_frame]
    split_ifs <;> simp [State.core, hp]

theorem hash_raw_byte_core (s : State) (b : Nat) : (hash_raw_byte s b).core = s.core := rfl

/-- The lock-time stage: the parse goes on, or the session ends on a prevhash failure, or
the next input or the first output is requested. -/
theorem parsing_locktime_core (env : Env) (s : State) (b : Nat) :
    ((parsing_locktime env s b).2 = false ∧ (parsing_locktime env s b).1.core = s.core) ∨
    ((parsing_locktime env s b).2 = true ∧
      ((parsing_locktime env s b).1.signing = false ∨
       (s.idx1 < dec32 s.inputs_count ∧
        (parsing_locktime env s b).1.core =
          { s.core with signing_stage := Stage.STAGE_REQUEST_1_INPUT, idx1 := s.idx1 + 1 }) ∨
       (¬ s.idx1 < dec32 s.inputs_count ∧
        (parsing_locktime env s b).1.core =
          { s.core with signing_stage := Stage.STAGE_REQUEST_3_OUTPUT, idx1 := 0 }))) := by
  have hs := core_fields (store_ptr_core s b)
  obtain ⟨-, -, -, -, -, -, -, f8⟩ := store_ptr_frame s b
  simp only [State.core] at hs
  have e3 : (s.idx1 < dec32 s.inputs_count) = True ∨ (s.idx1 < dec32 s.inputs_count) = False := by
    by_cases h : s.idx1 < dec32 s.inputs_count
    · exact Or.inl (eq_true h)
    · exact Or.inr (eq_false h)
  have e0 : (s.state_pos ≥ 0) = True ∨ (s.state_pos ≥ 0) = False := by
    by_cases h : s.state_pos ≥ 0
    · exact Or.inl (eq_true h)
    · exact Or.inr (eq_false h)
  rcases e0 with e0 | e0 <;> rcases e3 with e3 | e3 <;>
    simp only [parsing_locktime, hash_raw_byte, e0, if_true, if_false, hs, f8, e3] <;>
    split_ifs <;>
    simp [State.core, hs, send_req_1_input, send_req_3_output, msg_write, signing_abort,
      go_home, fsm_sendFailure, e3] <;>
    (try split_ifs) <;> simp_all

/-- One byte of raw input, on the fields of `Core`. -/
theorem parse_raw_byte_core (env : Env) (s : State) (b : Nat) :
    ((parse_raw_byte env s b).2 = false ∧ raw_frame s (parse_raw_byte env s b).1) ∨
    ((parse_raw_byte env s b).2 = true ∧
      ((parse_raw_byte env s b).1.signing = false ∨
       (s.idx1 < dec32 s.inputs_count ∧
        (parse_raw_byte env s b).1.core =
          { s.core with signing_stage := Stage.STAGE_REQUEST_1_INPUT, idx1 := s.idx1 + 1 }) ∨
       (¬ s.idx1 < dec32 s.inputs_count ∧
        (parse_raw_byte env s b).1.core =
          { s.core with signing_stage := Stage.STAGE_REQUEST_3_OUTPUT, idx1 := 0 }))) := by
  have hh : ∀ t : State, raw_frame t (hash_raw_byte t b) := fun t => raw_frame_refl t
  have pre : ∀ t : State, raw_frame s t → raw_frame s (hash_raw_byte t b) :=
    fun t h => raw_frame_trans h (hh t)
  cases hst : s.raw_tx_status
  case PARSING_LOCKTIME =>
    rw [parse_raw_byte_at_locktime env s b hst]
    rcases parsing_locktime_core env { s with state_pos := s.state_pos - 1 } b with
      ⟨h1, h2⟩ | ⟨h1, h2⟩
    · left
      simp only [h1, Bool.false_eq_true, if_false]
      exact ⟨trivial, pre _ (raw_frame_of_core h2)⟩
    · right
      simp only [h1, if_true]
      exact ⟨trivial, h2⟩
  all_goals left
  all_goals simp only [parse_raw_byte, hst]
  · refine ⟨trivial, pre _ (raw_frame_trans ?_ (parsing_raw_frame _ b).1)⟩
    simp [raw_frame, State.core]
  · exact ⟨trivial, pre _ (raw_frame_trans (raw_frame_of_core rfl) (parsing_raw_frame _ b).1)⟩
  · exact ⟨trivial, pre _ (raw_frame_trans (raw_frame_of_core rfl) (parsing_raw_frame _ b).2.1)⟩
  · exact ⟨trivial, pre _ (raw_frame_trans (raw_frame_of_core rfl)
      (parsing_raw_frame _ b).2.2.1)⟩
  · exact ⟨trivial, pre _ (raw_frame_trans (raw_frame_of_core rfl)
      (parsing_raw_frame _ b).2.2.2.1)⟩
  · exact ⟨trivial, pre _ (raw_frame_trans (raw_frame_of_core rfl)
      (parsing_raw_frame _ b).2.2.2.2.1)⟩
  · exact ⟨trivial, pre _ (raw_frame_trans (raw_frame_of_core rfl)
      (parsing_raw_frame _ b).2.2.2.2.2)⟩

/-- A raw message, on the fields of `Core`: the parse goes on, or the session is not
live afterwards, or the previous transaction is complete and verified and the next input
or the first output is requested. -/
theorem parse_raw_txack_core (env : Env) (msg : Bytes) :
    ∀ s : State,
      raw_frame s (parse_raw_txack env s msg) ∨
      (parse_raw_txack env s msg).signing = false ∨
      (s.idx1 < dec32 s.inputs_count ∧
        (parse_raw_txack env s msg).core =
          { s.core with
            signing_stage := Stage.STAGE_REQUEST_1_INPUT, idx1 := s.idx1 + 1,
            to_spend := (parse_raw_txack env s msg).to_spend,
            prev_inputs_len := (parse_raw_txack env s msg).transaction_previous.inputs_len,
            prev_outputs_len := (parse_raw_txack env s msg).transaction_previous.outputs_len }) ∨
      (¬ s.idx1 < dec32 s.inputs_count ∧
        (parse_raw_txack env s msg).core =
          { s.core with
            signing_stage := Stage.STAGE_REQUEST_3_OUTPUT, idx1 := 0,
            to_spend := (parse_raw_txack env s msg).to_spend,
            prev_inputs_len := (parse_raw_txack env s msg).transaction_previous.inputs_len,
            prev_outputs_len := (parse_raw_txack env s msg).transaction_previous.outputs_len }) := by
  induction msg with
  | nil => intro s; exact Or.inl (raw_frame_refl s)
  | cons b rest ih =>
      intro s
      rw [parse_raw_txack]
      rcases parse_raw_byte_core env s b with ⟨h1, h2⟩ | ⟨h1, h2⟩
      · simp only [h1, Bool.false_eq_true, if_false]
        have hf := core_fields h2
        obtain ⟨-, -, f3, -, f5, -⟩ := hf
        dsimp only [State.core] at f3 f5
        rcases ih (parse_raw_byte env s b).1 with h | h | ⟨h3, h⟩ | ⟨h3, h⟩
        · exact Or.inl (raw_frame_trans h2 h)
        · exact Or.inr (Or.inl h)
        · right; right; left
          rw [f3, f5] at h3
          refine ⟨h3, ?_⟩
          unfold raw_frame at h2
          rw [h, h2, f3]
        · right; right; right
          rw [f3, f5] at h3
          refine ⟨h3, ?_⟩
          unfold raw_frame at h2
          rw [h, h2]
      · simp only [h1, if_true]
        rcases h2 with h | ⟨h3, h⟩ | ⟨h3, h⟩
        · exact Or.inr (Or.inl h)
        · right; right; left
          refine ⟨h3, ?_⟩
          have hf := core_fields h
          obtain ⟨-, -, -, -, -, -, -, -, -, -, f11, -, -, -, -, f16, f17, -⟩ := hf
          rw [h, f11, f16, f17]
        · right; right; right
          refine ⟨h3, ?_⟩
          have hf := core_fields h
          obtain ⟨-, -, -, -, -, -, -, -, -, -, f11, -, -, -, -, f16, f17, -⟩ := hf
          rw [h, f11, f16, f17]

theorem signing_txack_core_4_input (env : Env) (s : State) (tx : TransactionType)
    (hlive : s.signing = true) (hstage : s.signing_stage = Stage.STAGE_REQUEST_4_INPUT) :
    (signing_txack env s tx).signing = false ∨
    (signing_txack env s tx).core =
      { s.core with
        signing_stage := if s.idx2 < dec32 s.inputs_count then Stage.STAGE_REQUEST_4_INPUT
                         else Stage.STAGE_REQUEST_4_OUTPUT,
        idx2 := if s.idx2 < dec32 s.inputs_count then s.idx2 + 1 else 0,
        input := if s.idx2 = s.idx1 then tx.inputs else s.input,
        transaction_current :=
          (if s.idx2 = 0 then commit_header s.inputs_count s.outputs_count s.version s.lock_time
           else s.transaction_current) ++ env.bytes_TxInputType tx.inputs } := by
  rw [signing_txack_at_4_input env s tx hlive hstage]
  exact txack_request_4_input_core env { s with resp := TxRequest.zero } tx

/-- The last output of phase 1 that passes the gate, on the fields of `Core`. -/
theorem signing_txack_core_3_output_last (env : Env) (s : State) (tx : TransactionType)
    (hlive : s.signing = true) (hstage : s.signing_stage = Stage.STAGE_REQUEST_3_OUTPUT)
    (hl : ¬ s.idx1 < dec32 s.outputs_count) :
    (signing_txack env s tx).signing = false ∨
    (signing_txack env s tx).core =
      { s.core with
        signing_stage := Stage.STAGE_REQUEST_4_INPUT,
        idx1 := 0, idx2 := 0,
        spending := add64 s.spending tx.outputs.amount,
        change_spend := (signing_txack env s tx).change_spend,
        transaction_current := s.transaction_current ++ phase1_output_bytes env s tx,
        hash_check := env.sha256 (s.transaction_current ++ phase1_output_bytes env s tx) } := by
  rcases txack_request_3_output_cases env { s with resp := TxRequest.zero } tx with
    ⟨hd, -⟩ | ⟨b, hb, hone, hco⟩
  · rw [signing_txack_at_3_output env s tx hlive hstage]
    exact Or.inl hd
  · have hb' : output_is_change env s tx.outputs = Except.ok b := by
      rw [← output_is_change_resp env s tx.outputs TxRequest.zero]; exact hb
    obtain ⟨sp, -, -, hcore, heq⟩ := signing_txack_gate_of env s tx b hlive hstage hl hb' hone hco
    rw [heq, phase1_output_bytes_of env s tx b hb']
    rcases txack_confirmation_gate_core env sp with hd | ⟨-, hg⟩
    · exact Or.inl hd
    · right
      have h5 := core_fields hg
      obtain ⟨-, -, -, -, -, -, -, -, -, -, -, -, f13, -⟩ := h5
      have h6 := core_fields hcore
      obtain ⟨-, -, -, -, -, -, -, -, -, -, -, -, -, -, g15, -⟩ := h6
      dsimp only [State.core] at g15
      rw [f13, hg, g15, hcore]

/-- The end of the inner sweep, on the fields of `Core`. -/
theorem txack_finish_inner_sweep_core (env : Env) (T : State) :
    (txack_finish_inner_sweep env T).signing = false ∨
    (txack_finish_inner_sweep env T).core =
      { T.core with
        signing_stage := if T.idx1 < dec32 T.inputs_count then Stage.STAGE_REQUEST_4_INPUT
                         else Stage.STAGE_REQUEST_5_OUTPUT,
        idx1 := if T.idx1 < dec32 T.inputs_count then T.idx1 + 1 else 0,
        idx2 := if T.idx1 < dec32 T.inputs_count then 0 else T.idx2,
        input := (txack_finish_inner_sweep env T).input,
        to_spend := (txack_finish_inner_sweep env T).to_spend } := by
  have key : ∀ (S : State) (sighash : Nat),
      S.core = { T.core with input := S.input, to_spend := S.to_spend } →
      (txack_sign_input env S sighash).signing = false ∨
      (txack_sign_input env S sighash).core =
        { T.core with
          signing_stage := if T.idx1 < dec32 T.inputs_count then Stage.STAGE_REQUEST_4_INPUT
                           else Stage.STAGE_REQUEST_5_OUTPUT,
          idx1 := if T.idx1 < dec32 T.inputs_count then T.idx1 + 1 else 0,
          idx2 := if T.idx1 < dec32 T.inputs_count then 0 else T.idx2,
          input := (txack_sign_input env S sighash).input,
          to_spend := (txack_sign_input env S sighash).to_spend } := by
    intro S sighash hS
    rcases txack_sign_input_cases env S sighash with ⟨hd, -⟩ | ⟨r, -, -, -, -, -, -, -, -, -, -, hc⟩
    · exact Or.inl hd
    · right
      obtain ⟨-, -, g3, g4, g5, -⟩ := core_fields hS
      dsimp only [State.core] at g3 g4 g5
      obtain ⟨-, -, -, -, -, -, -, -, -, -, f11, -⟩ := core_fields hc
      dsimp only [State.core] at f11
      rw [f11, hc, g3, g4, g5, hS]
  have rule : ∀ P : State → Prop,
      (∀ code text t, P (fail_abort code text t)) →
      (∀ S sighash, S.core = { T.core with input := S.input, to_spend := S.to_spend } →
        P (txack_sign_input env S sighash)) →
      P (txack_finish_inner_sweep env T) := by
    intro P hfail hsign
    have hcf := core_fields (compile_input_script_sig_core env T T.input)
    simp only [State.core] at hcf
    simp only [txack_finish_inner_sweep]
    split_ifs
    all_goals first
      | apply hfail
      | (apply hsign
         simp only [State.core, Core.mk.injEq, hcf, and_self])
  exact rule (fun R => R.signing = false ∨ R.core =
      { T.core with
        signing_stage := if T.idx1 < dec32 T.inputs_count then Stage.STAGE_REQUEST_4_INPUT
                         else Stage.STAGE_REQUEST_5_OUTPUT,
        idx1 := if T.idx1 < dec32 T.inputs_count then T.idx1 + 1 else 0,
        idx2 := if T.idx1 < dec32 T.inputs_count then 0 else T.idx2,
        input := R.input,
        to_spend := R.to_spend })
    (fun _ _ _ => Or.inl (fail_abort_signing _ _ _)) key

/-- The step of `case STAGE_REQUEST_4_OUTPUT` of a live session, on the fields of
`Core`. -/
theorem signing_txack_core_4_output (env : Env) (s : State) (tx : TransactionType)
    (hlive : s.signing = true) (hstage : s.signing_stage = Stage.STAGE_REQUEST_4_OUTPUT) :
    (signing_txack env s tx).signing = false ∨
    (s.idx2 < dec32 s.outputs_count ∧
      (signing_txack env s tx).core =
        { s.core with
          idx2 := s.idx2 + 1,
          transaction_current := s.transaction_current
            ++ env.bytes_TxOutputBinType (phase2_output env s tx) }) ∨
    (¬ s.idx2 < dec32 s.outputs_count ∧
      (signing_txack env s tx).core =
        { s.core with
          signing_stage := if s.idx1 < dec32 s.inputs_count then Stage.STAGE_REQUEST_4_INPUT
                           else Stage.STAGE_REQUEST_5_OUTPUT,
          idx1 := if s.idx1 < dec32 s.inputs_count then s.idx1 + 1 else 0,
          idx2 := if s.idx1 < dec32 s.inputs_count then 0 else s.idx2,
          input := (signing_txack env s tx).input,
          to_spend := (signing_txack env s tx).to_spend,
          transaction_current := s.transaction_current
            ++ env.bytes_TxOutputBinType (phase2_output env s tx) }) := by
  rw [signing_txack_at_4_output env s tx hlive hstage]
  rcases txack_request_4_output_cases env { s with resp := TxRequest.zero } tx rfl with
    ⟨hd, -⟩ | ⟨h1, -, hc⟩ | ⟨h1, T, heq, -, hT, -⟩
  · exact Or.inl hd
  · right; left
    refine ⟨h1, ?_⟩
    rw [hc]
    simp only [State.core, Core.mk.injEq, hstage, and_self, true_and, and_true]
    rfl
  · rw [heq]
    rcases txack_finish_inner_sweep_core env T with hd | hc
    · exact Or.inl hd
    · right; right
      refine ⟨h1, ?_⟩
      obtain ⟨-, -, f3, f4, f5, -⟩ := core_fields hT
      dsimp only [State.core] at f3 f4 f5
      rw [hc, f3, f4, f5, hT]
      rfl

/-- The step of `case STAGE_REQUEST_5_OUTPUT` of a live session, on the fields of
`Core`. -/
theorem signing_txack_core_5_output (env : Env) (s : State) (tx : TransactionType)
    (hlive : s.signing = true) (hstage : s.signing_stage = Stage.STAGE_REQUEST_5_OUTPUT) :
    (signing_txack env s tx).signing = false ∨
    (s.idx1 < dec32 s.outputs_count ∧
      (signing_txack env s tx).core = { s.core with idx1 := s.idx1 + 1 }) := by
  rcases signing_txack_5_output_cases env s tx hlive hstage with
    ⟨-, hd, -⟩ | ⟨-, r, -, -, -, -, -, ⟨h, -, -, -, -, -, hc, -⟩ | ⟨-, -, -, hd⟩⟩
  · exact Or.inl hd
  · exact Or.inr ⟨h, hc⟩
  · exact Or.inl hd

theorem handle_dead (env : Env) (s : State) (msg : HostMsg) (h : s.signing = false) :
    (handle env s msg).signing = false := by
  cases msg with
  | txack tx =>
      rw [handle, signing_txack_dead env s tx h]
      exact h
  | raw b => exact (parse_raw_txack_log env b s).2 h

/-- Every message keeps the invariant `Core.in_range` of a live session. -/
theorem handle_in_range (env : Env) (n m : Nat) (hn1 : 1 ≤ n) (hn : n < 2 ^ 32)
    (hm1 : 1 ≤ m) (hm : m < 2 ^ 32) (s : State) (msg : HostMsg)
    (hinv : s.signing = true → s.core.in_range n m)
    (hlive' : (handle env s msg).signing = true) :
    (handle env s msg).core.in_range n m := by
  have hlive : s.signing = true := by
    cases h : s.signing
    · rw [handle_dead env s msg h] at hlive'
      exact absurd hlive' (by simp)
    · rfl
  obtain ⟨hic, hoc, hidx⟩ := hinv hlive
  dsimp only [State.core] at hic hoc hidx
  have dn : ∀ j, j < dec32 s.inputs_count ↔ j + 1 < n := by
    intro j; rw [hic]; exact dec32_lt n j hn1 hn
  have dm : ∀ j, j < dec32 s.outputs_count ↔ j + 1 < m := by
    intro j; rw [hoc]; exact dec32_lt m j hm1 hm
  have live_ne : ∀ {P : Prop}, (handle env s msg).signing = false → P := by
    intro P h
    rw [h] at hlive'
    exact absurd hlive' (by simp)
  cases msg with
  | raw b =>
      rw [handle] at hlive' live_ne ⊢
      rcases parse_raw_txack_core env b s with h | h | ⟨h1, h⟩ | ⟨h1, h⟩
      · unfold raw_frame at h
        rw [h]
        exact ⟨hic, hoc, hidx⟩
      · exact live_ne h
      · rw [h]
        refine ⟨hic, hoc, ?_⟩
        have := (dn _).1 h1
        simp [Stage.is_input_stage]
        exact this
      · rw [h]
        refine ⟨hic, hoc, ?_⟩
        simp [Stage.is_input_stage]
        omega
  | txack tx =>
      rw [handle] at hlive' live_ne ⊢
      cases hst : s.signing_stage
      all_goals rw [hst] at hidx
      all_goals simp only [Stage.is_input_stage, if_true, Bool.false_eq_true, if_false] at hidx
      · rcases signing_txack_core_1_input env s tx hlive hst with h | h
        · exact live_ne h
        · rw [h]
          exact ⟨hic, hoc, by simpa [Stage.is_input_stage] using hidx⟩
      · rw [signing_txack_core_2_prev_meta env s tx hlive hst]
        exact ⟨hic, hoc, by simpa [Stage.is_input_stage] using hidx⟩
      · rcases signing_txack_core_2_prev_input env s tx hlive hst with h | h
        · exact live_ne h
        · rw [h]
          refine ⟨hic, hoc, ?_⟩
          dsimp only [State.core]
          split_ifs <;> first
            | (simpa [Stage.is_input_stage] using hidx)
            | (simp [Stage.is_input_stage] at *)
      · rcases signing_txack_core_2_prev_output env s tx hlive hst with h | h
        · exact live_ne h
        · by_cases h1 : s.idx2 < dec32 s.transaction_previous.outputs_len
          · rw [if_pos h1] at h
            rw [h]
            exact ⟨hic, hoc, by simpa [Stage.is_input_stage] using hidx⟩
          · rw [if_neg h1] at h
            by_cases h2 : s.idx1 < dec32 s.inputs_count
            · rw [if_pos h2] at h
              rw [h]
              exact ⟨hic, hoc, by simpa [Stage.is_input_stage] using (dn _).1 h2⟩
            · rw [if_neg h2] at h
              rw [h]
              exact ⟨hic, hoc, by simpa [Stage.is_input_stage] using hm1⟩
      · by_cases hnl : s.idx1 < dec32 s.outputs_count
        · rcases signing_txack_core_3_output_next env s tx hlive hst hnl with h | h
          · exact live_ne h
          · rw [h]
            exact ⟨hic, hoc, by simpa [Stage.is_input_stage, State.core, hst] using (dm _).1 hnl⟩
        · rcases signing_txack_core_3_output_last env s tx hlive hst hnl with h | h
          · exact live_ne h
          · rw [h]
            exact ⟨hic, hoc, by simpa [Stage.is_input_stage] using hn1⟩
      · rcases signing_txack_core_4_input env s tx hlive hst with h | h
        · exact live_ne h
        · rw [h]
          refine ⟨hic, hoc, ?_⟩
          dsimp only [State.core]
          split_ifs <;> first
            | (simpa [Stage.is_input_stage] using hidx)
            | (simp [Stage.is_input_stage] at *)
      · rcases signing_txack_core_4_output env s tx hlive hst with h | ⟨-, h⟩ | ⟨-, h⟩
        · exact live_ne h
        · rw [h]
          exact ⟨hic, hoc, by simpa [Stage.is_input_stage, State.core, hst] using hidx⟩
        · by_cases h2 : s.idx1 < dec32 s.inputs_count
          · simp only [if_pos h2] at h
            rw [h]
            exact ⟨hic, hoc, by simpa [Stage.is_input_stage] using (dn _).1 h2⟩
          · simp only [if_neg h2] at h
            rw [h]
            exact ⟨hic, hoc, by simpa [Stage.is_input_stage] using hm1⟩
      · rcases signing_txack_core_5_output env s tx hlive hst with h | ⟨h1, h⟩
        · exact live_ne h
        · rw [h]
          exact ⟨hic, hoc, by simpa [Stage.is_input_stage, State.core, hst] using (dm _).1 h1⟩

theorem run_in_range (env : Env) (n m : Nat) (hn1 : 1 ≤ n) (hn : n < 2 ^ 32)
    (hm1 : 1 ≤ m) (hm : m < 2 ^ 32) (msgs : List HostMsg) :
    ∀ s : State, (s.signing = true → s.core.in_range n m) →
      (run env s msgs).signing = true → (run env s msgs).core.in_range n m := by
  induction msgs with
  | nil => intro s h hl; exact h hl
  | cons msg rest ih =>
      intro s h hl
      rw [run] at hl ⊢
      exact ih (handle env s msg)
        (fun h2 => handle_in_range env n m hn1 hn hm1 hm s msg h h2) hl

/-- C13, for counts from 1 to `2 ^ 32 - 1`. After `signing_init` and any sequence of host
messages, structured or raw, a live session has the counts it was started with, and
`idx1 < inputs_count` in the stages `REQUEST_1_INPUT`, `REQUEST_2_PREV_META`,
`REQUEST_2_PREV_INPUT`, `REQUEST_2_PREV_OUTPUT`, `REQUEST_4_INPUT` and `REQUEST_4_OUTPUT`,
`idx1 < outputs_count` in the stages `REQUEST_3_OUTPUT` and `REQUEST_5_OUTPUT`. -/
theorem idx1_stays_in_range (env : Env) (n m : Nat) (coin : CoinType) (root : HDNode)
    (version lock_time : Nat) (s0 : State) (msgs : List HostMsg)
    (hn1 : 1 ≤ n) (hn : n < 2 ^ 32) (hm1 : 1 ≤ m) (hm : m < 2 ^ 32) :
    idx1_in_range (run env (signing_init n m coin root version lock_time s0) msgs) ∧
    ((run env (signing_init n m coin root version lock_time s0) msgs).signing = true →
      (run env (signing_init n m coin root version lock_time s0) msgs).inputs_count = n ∧
      (run env (signing_init n m coin root version lock_time s0) msgs).outputs_count = m) := by
  have h0 : (signing_init n m coin root version lock_time s0).signing = true →
      (signing_init n m coin root version lock_time s0).core.in_range n m := by
    intro _
    rw [signing_init_core]
    exact ⟨rfl, rfl, by simpa [Stage.is_input_stage] using hn1⟩
  have key := run_in_range env n m hn1 hn hm1 hm msgs _ h0
  constructor
  · intro hl
    obtain ⟨a, b, c⟩ := key hl
    dsimp only [State.core] at a b c
    rw [a, b]
    exact c
  · intro hl
    obtain ⟨a, b, -⟩ := key hl
    exact ⟨a, b⟩

set_option maxRecDepth 100000 in
/-- C13, at a session: the session `reentrySession`, of one input and one output, with a
raw previous transaction before and after the gate. -/
theorem idx1_stays_in_range_witness :
    (run demoEnv (signing_init 1 1 demoCoin demoRoot 1 0 State.boot) reentrySession).signing
      = true ∧
    idx1_in_range
      (run demoEnv (signing_init 1 1 demoCoin demoRoot 1 0 State.boot) reentrySession) :=
  ⟨by decide,
    (idx1_stays_in_range demoEnv 1 1 demoCoin demoRoot 1 0 State.boot reentrySession
      (by decide) (by decide) (by decide) (by decide)).1⟩

/-- C13, as stated for any counts, fails: after `signing_init` with `inputs_count = 0` the
session is live in stage `REQUEST_1_INPUT` with `idx1 = 0`, which is not below
`inputs_count`. -/
theorem idx1_out_of_range_without_inputs :
    (signing_init 0 1 demoCoin demoRoot 1 0 State.boot).signing = true ∧
    (signing_init 0 1 demoCoin demoRoot 1 0 State.boot).signing_stage
      = Stage.STAGE_REQUEST_1_INPUT ∧
    (signing_init 0 1 demoCoin demoRoot 1 0 State.boot).idx1 = 0 ∧
    (signing_init 0 1 demoCoin demoRoot 1 0 State.boot).inputs_count = 0 ∧
    ¬ idx1_in_range (signing_init 0 1 demoCoin demoRoot 1 0 State.boot) := by
  refine ⟨rfl, rfl, rfl, rfl, ?_⟩
  intro h
  have := h rfl
  simp [signing_init, send_req_1_input, msg_write, Stage.is_input_stage] at this

theorem plain_no_signature (e : Event) (h : Event.plain e = true) :
    Event.has_signature e = false := by
  cases e <;> simp_all [Event.plain, Event.has_signature]

theorem no_signature_of_plain {base log : List Event} (h : Extends Event.plain base log)
    {s t : State} (hs : s.log = base) (ht : t.log = log) :
    ¬ ∃ e ∈ new_events s t, Event.has_signature e = true := by
  obtain ⟨L, hL, hp⟩ := h
  rintro ⟨e, he, hsig⟩
  rw [new_events_of_append (by rw [ht, hs, hL])] at he
  have := plain_no_signature e (hp e he)
  rw [this] at hsig
  exact absurd hsig (by simp)

theorem compile_input_script_sig_congr (env : Env) (s t : State) (i : TxInputType)
    (h1 : t.multisig_fp_mismatch = s.multisig_fp_mismatch) (h2 : t.multisig_fp = s.multisig_fp)
    (h3 : t.root = s.root) (h4 : t.coin = s.coin) :
    (compile_input_script_sig env t i).1 = (compile_input_script_sig env s i).1 ∧
    (compile_input_script_sig env t i).2.2 = (compile_input_script_sig env s i).2.2 := by
  simp only [compile_input_script_sig, h1, h2, h3, h4]
  split_ifs <;> simp

/-- A `TxRequest` with a signature is written only in stage `REQUEST_4_OUTPUT` of a live
session. -/
theorem signature_only_in_4_output (env : Env) (s : State) (tx : TransactionType)
    (hsig : ∃ e ∈ new_events s (signing_txack env s tx), Event.has_signature e = true) :
    s.signing = true ∧ s.signing_stage = Stage.STAGE_REQUEST_4_OUTPUT := by
  by_cases hlive : s.signing = true
  swap
  · exfalso
    obtain ⟨e, he, hs⟩ := hsig
    rw [new_events_of_append
      (by rw [signing_txack_dead env s tx (by simpa using hlive)])] at he
    simp only [List.mem_cons, List.mem_singleton, List.not_mem_nil, or_false] at he
    rcases he with rfl | rfl <;> simp [Event.has_signature] at hs
  refine ⟨hlive, ?_⟩
  have hz : ({ s with resp := TxRequest.zero } : State).resp.has_serialized = false := rfl
  by_contra hne
  cases hstage : s.signing_stage with
  | STAGE_REQUEST_4_OUTPUT => exact hne hstage
  | STAGE_REQUEST_1_INPUT =>
      refine no_signature_of_plain ?_ rfl rfl hsig
      rw [signing_txack_at_1_input env s tx hlive hstage]
      exact txack_request_1_input_log env { s with resp := TxRequest.zero } tx hz
  | STAGE_REQUEST_2_PREV_META =>
      refine no_signature_of_plain ?_ rfl rfl hsig
      rw [signing_txack_at_2_prev_meta env s tx hlive hstage]
      exact txack_request_2_prev_meta_log { s with resp := TxRequest.zero } tx hz
  | STAGE_REQUEST_2_PREV_INPUT =>
      refine no_signature_of_plain ?_ rfl rfl hsig
      rw [signing_txack_at_2_prev_input env s tx hlive hstage]
      exact txack_request_2_prev_input_log env { s with resp := TxRequest.zero } tx hz
  | STAGE_REQUEST_2_PREV_OUTPUT =>
      refine no_signature_of_plain ?_ rfl rfl hsig
      rw [signing_txack_at_2_prev_output env s tx hlive hstage]
      exact txack_request_2_prev_output_log env { s with resp := TxRequest.zero } tx hz
  | STAGE_REQUEST_4_INPUT =>
      refine no_signature_of_plain ?_ rfl rfl hsig
      rw [signing_txack_at_4_input env s tx hlive hstage]
      exact txack_request_4_input_log env { s with resp := TxRequest.zero } tx hz
  | STAGE_REQUEST_5_OUTPUT =>
      obtain ⟨e, he, hs⟩ := hsig
      rcases signing_txack_5_output_cases env s tx hlive hstage with
        ⟨-, -, hp⟩ | ⟨-, r, -, -, -, hr, -, ⟨-, hev, -⟩ | ⟨-, hev, -⟩⟩
      · exact no_signature_of_plain hp rfl rfl ⟨e, he, hs⟩
      · rw [hev] at he
        simp only [List.mem_cons, List.mem_singleton, List.not_mem_nil, or_false] at he
        rcases he with rfl | rfl <;> simp [Event.has_signature, hr] at hs
      · rw [hev] at he
        simp only [List.mem_cons, List.mem_singleton, List.not_mem_nil, or_false] at he
        rcases he with rfl | rfl | rfl <;> simp [Event.has_signature, hr] at hs
  | STAGE_REQUEST_3_OUTPUT =>
      obtain ⟨e, he, hs⟩ := hsig
      rw [signing_txack_at_3_output env s tx hlive hstage] at he
      rcases txack_request_3_output_cases env { s with resp := TxRequest.zero } tx with
        hdead | ⟨b, hb, hone, hco⟩
      · exact no_signature_of_plain hdead.2 rfl rfl ⟨e, he, hs⟩
      · obtain ⟨sp, hlog, hresp, hcore, heq⟩ :=
          txack_request_3_output_ok env { s with resp := TxRequest.zero } tx b hb hone hco
        dsimp only at hlog hresp heq
        rw [heq] at he
        by_cases hlt : s.idx1 < dec32 s.outputs_count
        · rw [if_pos hlt] at he
          have hl : (send_req_3_output { sp with idx1 := s.idx1 + 1 }).log
              = s.log ++ [Event.policy_compile_output tx.outputs (!b),
                  Event.tx_request { sp.resp with
                    has_request_type := true, request_type := RequestType.TXOUTPUT,
                    has_details := true, has_request_index := true,
                    request_index := s.idx1 + 1 }] := by
            simp [send_req_3_output, msg_write, hlog]
          rw [new_events_of_append hl] at he
          simp only [List.mem_cons, List.mem_singleton, List.not_mem_nil, or_false] at he
          rcases he with rfl | rfl
          · simp [Event.has_signature] at hs
          · simp [Event.has_signature, hresp, TxRequest.zero] at hs
        · rw [if_neg hlt] at he
          have hsl : sp.signing = true := by
            have := congrArg Core.signing hcore
            simpa [State.core, hlive] using this
          obtain ⟨L, hL, hcases⟩ := txack_confirmation_gate_log env sp hsl (by rw [hresp]; rfl)
          rw [new_events_of_append (by rw [hL, hlog, List.append_assoc])] at he
          simp only [List.singleton_append, List.mem_cons] at he
          rcases he with rfl | he
          · simp [Event.has_signature] at hs
          · rcases hcases with ⟨-, rfl⟩ | ⟨-, -, T, rfl, hT⟩ | ⟨-, -, hL'⟩
            · simp only [List.mem_cons, List.mem_singleton, List.not_mem_nil, or_false] at he
              rcases he with rfl | rfl <;> simp [Event.has_signature] at hs
            · rcases List.mem_cons.1 he with rfl | h
              · simp [Event.has_signature] at hs
              · rw [(hT _ h).2.2.2] at hs
                exact absurd hs (by simp)
            · rw [(hL' _ he).2.2.2] at hs
              exact absurd hs (by simp)

/-- A `TxRequest` with a signature is written only by the last output of an inner sweep,
and only when the value it makes the device compare with `hash_check` equals `hash_check`
in its 32 bytes. -/
theorem signature_needs_equal_digest (env : Env) (s : State) (tx : TransactionType)
    (hsig : ∃ e ∈ new_events s (signing_txack env s tx), Event.has_signature e = true) :
    s.signing = true ∧ s.signing_stage = Stage.STAGE_REQUEST_4_OUTPUT ∧
    ¬ s.idx2 < dec32 s.outputs_count ∧
    memcmp32_ne (phase2_digest env s tx) s.hash_check = false := by
  obtain ⟨hlive, hstage⟩ := signature_only_in_4_output env s tx hsig
  refine ⟨hlive, hstage, ?_⟩
  rw [signing_txack_at_4_output env s tx hlive hstage] at hsig
  rcases txack_request_4_output_cases env { s with resp := TxRequest.zero } tx rfl with
    ⟨-, hp⟩ | ⟨-, hp, -⟩ | ⟨h1, T, heq, hlog, hT, -, hin, -, -, -, -, hp1, hp2, hp3⟩
  · exact (no_signature_of_plain hp rfl rfl hsig).elim
  · exact (no_signature_of_plain hp rfl rfl hsig).elim
  · refine ⟨h1, ?_⟩
    dsimp only at hlog hin hp1 hp2 hp3
    obtain ⟨e, he, hs⟩ := hsig
    rw [heq] at he
    obtain ⟨L, hL, -⟩ := txack_finish_inner_sweep_log env T
    have hnew : new_events s (txack_finish_inner_sweep env T)
        = Event.policy_compile_output tx.outputs false :: L := by
      apply new_events_of_append
      rw [hL, hlog, List.append_assoc]
      rfl
    rw [hnew] at he
    have he' : e ∈ new_events T (txack_finish_inner_sweep env T) := by
      rw [new_events_of_append hL]
      rcases List.mem_cons.1 he with rfl | h
      · simp [Event.has_signature] at hs
      · exact h
    have key := txack_finish_inner_sweep_signature env T ⟨e, he', hs⟩
    obtain ⟨-, -, -, -, -, -, f7, f8, f9, f10, -, -, -, -, f15, -, -, f18, -, f20, f21⟩ :=
      core_fields hT
    dsimp only [State.core] at f7 f8 f9 f10 f15 f18 f20 f21
    have hd : sweep_digest env T = phase2_digest env s tx := by
      unfold sweep_digest phase2_digest
      rw [f7, f15, hin,
        (compile_input_script_sig_congr env s T s.input f20 f21 f8 f7).2,
        signing_hash_bip143_congr env s T _ _ _ f9 hp1 hp2 hp3 f10]
      rfl
    rw [hd, f18] at key
    exact key

theorem in_phase_2_core (s : State) : in_phase_2 s = s.core.in_phase_2 := rfl

theorem in_phase_2_dead (s : State) (h : s.signing = false) : in_phase_2 s = false := by
  simp [in_phase_2, h]

/-- The last output of phase 1, when the session is still live after it: the call reached
the gate and the user confirmed; `hash_check` holds the commit hash of phase 1. -/
theorem signing_txack_3_output_last_live (env : Env) (s : State) (tx : TransactionType)
    (hlive : s.signing = true) (hstage : s.signing_stage = Stage.STAGE_REQUEST_3_OUTPUT)
    (hl : ¬ s.idx1 < dec32 s.outputs_count)
    (hlive' : (signing_txack env s tx).signing = true) :
    reaches_gate env s tx ∧
    (signing_txack env s tx).signing_stage = Stage.STAGE_REQUEST_4_INPUT ∧
    (signing_txack env s tx).hash_check
      = env.sha256 (s.transaction_current ++ phase1_output_bytes env s tx) := by
  rcases txack_request_3_output_cases env { s with resp := TxRequest.zero } tx with
    ⟨hd, -⟩ | ⟨b, hb, hone, hco⟩
  · rw [signing_txack_at_3_output env s tx hlive hstage] at hlive'
    rw [hd] at hlive'
    exact absurd hlive' (by simp)
  · have hb' : output_is_change env s tx.outputs = Except.ok b := by
      rw [← output_is_change_resp env s tx.outputs TxRequest.zero]; exact hb
    obtain ⟨sp, -, -, hcore, heq⟩ := signing_txack_gate_of env s tx b hlive hstage hl hb' hone hco
    rw [heq] at hlive' ⊢
    rw [phase1_output_bytes_of env s tx b hb']
    obtain ⟨-, -, -, -, -, -, -, -, -, -, g11, g12, -, -, g15, -⟩ := core_fields hcore
    dsimp only [State.core] at g11 g12 g15
    rcases txack_confirmation_gate_core env sp with hd | ⟨hfunds, hg⟩
    · rw [hd] at hlive'
      exact absurd hlive' (by simp)
    · obtain ⟨-, f2, -, -, -, -, -, -, -, -, -, -, -, -, -, -, -, f18, -⟩ := core_fields hg
      dsimp only [State.core] at f2 f18
      rw [g11, g12] at hfunds
      refine ⟨⟨hlive, hstage, hl, ⟨b, hb', hone, hco⟩, hfunds⟩, f2, ?_⟩
      rw [f18, g15]

/-- A message that takes a state outside phase 2 into phase 2 is the last output of phase
1 passing the gate. -/
theorem enters_phase_2_at_gate (env : Env) (s : State) (msg : HostMsg)
    (h0 : in_phase_2 s = false) (h1 : in_phase_2 (handle env s msg) = true) :
    ∃ tx, msg = HostMsg.txack tx ∧ reaches_gate env s tx ∧
      (handle env s msg).hash_check
        = env.sha256 (s.transaction_current ++ phase1_output_bytes env s tx) := by
  have hlive' : (handle env s msg).signing = true := by
    simp only [in_phase_2, Bool.and_eq_true] at h1
    exact h1.1
  have hlive : s.signing = true := by
    cases h : s.signing
    · rw [handle_dead env s msg h] at hlive'
      exact absurd hlive' (by simp)
    · rfl
  have dead_ne : ∀ {P : Prop}, (handle env s msg).signing = false → P := by
    intro P h
    rw [h] at hlive'
    exact absurd hlive' (by simp)
  rw [in_phase_2_core] at h0 h1
  cases msg with
  | raw b =>
      exfalso
      rw [handle] at h1 dead_ne
      rcases parse_raw_txack_core env b s with h | h | ⟨-, h⟩ | ⟨-, h⟩
      · unfold raw_frame at h
        rw [h] at h1
        have h2 : s.core.in_phase_2 = true := h1
        rw [h0] at h2
        exact absurd h2 (by simp)
      · exact dead_ne h
      · rw [h] at h1
        simp [Core.in_phase_2] at h1
      · rw [h] at h1
        simp [Core.in_phase_2] at h1
  | txack tx =>
      rw [handle] at h1 dead_ne hlive' ⊢
      cases hst : s.signing_stage
      · exfalso
        rcases signing_txack_core_1_input env s tx hlive hst with h | h
        · exact dead_ne h
        · rw [h] at h1; simp [Core.in_phase_2] at h1
      · exfalso
        rw [signing_txack_core_2_prev_meta env s tx hlive hst] at h1
        simp [Core.in_phase_2] at h1
      · exfalso
        rcases signing_txack_core_2_prev_input env s tx hlive hst with h | h
        · exact dead_ne h
        · rw [h] at h1
          dsimp only [Core.in_phase_2] at h1
          split_ifs at h1 <;> simp at h1
      · exfalso
        rcases signing_txack_core_2_prev_output env s tx hlive hst with h | h
        · exact dead_ne h
        · rw [h] at h1
          split_ifs at h1 <;> simp [Core.in_phase_2] at h1
      · by_cases hnl : s.idx1 < dec32 s.outputs_count
        · exfalso
          rcases signing_txack_core_3_output_next env s tx hlive hst hnl with h | h
          · exact dead_ne h
          · rw [h] at h1
            simp [Core.in_phase_2, State.core, hst] at h1
        · obtain ⟨a, -, c⟩ := signing_txack_3_output_last_live env s tx hlive hst hnl hlive'
          exact ⟨tx, rfl, a, c⟩
      · exfalso; simp [Core.in_phase_2, State.core, hst, hlive] at h0
      · exfalso; simp [Core.in_phase_2, State.core, hst, hlive] at h0
      · exfalso; simp [Core.in_phase_2, State.core, hst, hlive] at h0

/-- A message that leaves the session in phase 2 does not change `hash_check`. -/
theorem phase_2_keeps_hash_check (env : Env) (s : State) (msg : HostMsg)
    (h0 : in_phase_2 s = true) (h1 : in_phase_2 (handle env s msg) = true) :
    (handle env s msg).hash_check = s.hash_check := by
  have hlive' : (handle env s msg).signing = true := by
    simp only [in_phase_2, Bool.and_eq_true] at h1
    exact h1.1
  have hlive : s.signing = true := by
    simp only [in_phase_2, Bool.and_eq_true] at h0
    exact h0.1
  have dead_ne : ∀ {P : Prop}, (handle env s msg).signing = false → P := by
    intro P h
    rw [h] at hlive'
    exact absurd hlive' (by simp)
  have of_core : ∀ {t : State} {c : Core}, t.core = c → c.hash_check = s.hash_check →
      t.hash_check = s.hash_check := by
    intro t c h hc
    have := congrArg Core.hash_check h
    exact this.trans hc
  cases msg with
  | raw b =>
      rw [handle] at h1 dead_ne ⊢
      rw [in_phase_2_core] at h1
      rcases parse_raw_txack_core env b s with h | h | ⟨-, h⟩ | ⟨-, h⟩
      · unfold raw_frame at h
        exact of_core h rfl
      · exact dead_ne h
      · rw [h] at h1
        simp [Core.in_phase_2] at h1
      · rw [h] at h1
        simp [Core.in_phase_2] at h1
  | txack tx =>
      rw [handle] at h1 dead_ne hlive' ⊢
      have hst : s.signing_stage = Stage.STAGE_REQUEST_4_INPUT ∨
          s.signing_stage = Stage.STAGE_REQUEST_4_OUTPUT ∨
          s.signing_stage = Stage.STAGE_REQUEST_5_OUTPUT := by
        simp only [in_phase_2, Bool.and_eq_true, Bool.or_eq_true, decide_eq_true_eq] at h0
        rcases h0.2 with (h | h) | h
        · exact Or.inl h
        · exact Or.inr (Or.inl h)
        · exact Or.inr (Or.inr h)
      rcases hst with hst | hst | hst
      · rcases signing_txack_core_4_input env s tx hlive hst with h | h
        · exact dead_ne h
        · exact of_core h rfl
      · rcases signing_txack_core_4_output env s tx hlive hst with h | ⟨-, h⟩ | ⟨-, h⟩
        · exact dead_ne h
        · exact of_core h rfl
        · exact of_core h rfl
      · rcases signing_txack_core_5_output env s tx hlive hst with h | ⟨-, h⟩
        · exact dead_ne h
        · exact of_core h rfl

theorem run_append (env : Env) (s : State) (a b : List HostMsg) :
    run env s (a ++ b) = run env (run env s a) b := by
  induction a generalizing s with
  | nil => rfl
  | cons m a ih => simp [run, ih]

/-- Whenever a session is in phase 2, `hash_check` holds the commit hash finalized by the
latest passage of the gate: the run splits into messages `pre`, the `TxAck` that reached
the gate, and messages `post` during which the session stayed in phase 2. -/
theorem hash_check_is_gate_hash (env : Env) (s1 : State) (h0 : in_phase_2 s1 = false)
    (msgs : List HostMsg) :
    in_phase_2 (run env s1 msgs) = true →
    ∃ pre tx post, msgs = pre ++ HostMsg.txack tx :: post ∧
      reaches_gate env (run env s1 pre) tx ∧
      (run env s1 msgs).hash_check
        = env.sha256 ((run env s1 pre).transaction_current
            ++ phase1_output_bytes env (run env s1 pre) tx) ∧
      ∀ k, in_phase_2 (run env s1 (pre ++ HostMsg.txack tx :: post.take k)) = true := by
  induction msgs using List.reverseRecOn with
  | nil =>
      intro h
      rw [run, h0] at h
      exact absurd h (by simp)
  | append_singleton msgs x ih =>
      intro h1
      have hrun : run env s1 (msgs ++ [x]) = handle env (run env s1 msgs) x := by
        rw [run_append]; rfl
      rw [hrun] at h1 ⊢
      by_cases hS : in_phase_2 (run env s1 msgs) = true
      · obtain ⟨pre, tx, post, hm, hg, hh, hk⟩ := ih hS
        refine ⟨pre, tx, post ++ [x], by rw [hm]; simp, hg, ?_, ?_⟩
        · rw [phase_2_keeps_hash_check env _ x hS h1, hh]
        · intro k
          by_cases hkl : k ≤ post.length
          · rw [List.take_append_of_le_length hkl]
            exact hk k
          · have e : (post ++ [x]).take k = post ++ [x] := by
              apply List.take_of_length_le
              simp only [List.length_append, List.length_singleton]
              omega
            rw [e]
            have e2 : pre ++ HostMsg.txack tx :: (post ++ [x]) = msgs ++ [x] := by
              rw [hm]; simp
            rw [e2, hrun]
            exact h1
      · have hS' : in_phase_2 (run env s1 msgs) = false := by simpa using hS
        obtain ⟨tx, hx, hg, hh⟩ := enters_phase_2_at_gate env _ x hS' h1
        subst hx
        refine ⟨msgs, tx, [], rfl, hg, hh, ?_⟩
        intro k
        simp only [List.take_nil]
        rw [hrun]
        exact h1

/-- C12. A `TxRequest` with a signature is written only by `signing_txack`, only for the
last output of an inner sweep in stage `REQUEST_4_OUTPUT`, and only if the 32-byte value
computed there, the BIP-143 digest for a fork-id coin and otherwise the recomputed commit
hash, equals `hash_check` byte for byte; `parse_raw_txack` writes none. After
`signing_init` and any sequence of host messages, whenever the session is in phase 2,
`hash_check` holds the commit hash finalized on the last `REQUEST_3_OUTPUT` of phase 1: the
run splits into messages `pre`, the `TxAck` that reached the gate, where `hash_check` was
finalized from the commit hash of phase 1, and messages `post` during which the session
stayed in phase 2. -/
theorem signature_only_with_equal_digest :
    (∀ (env : Env) (s : State) (tx : TransactionType),
      (∃ e ∈ new_events s (signing_txack env s tx), Event.has_signature e = true) →
      s.signing = true ∧ s.signing_stage = Stage.STAGE_REQUEST_4_OUTPUT ∧
      ¬ s.idx2 < dec32 s.outputs_count ∧
      memcmp32_ne (phase2_digest env s tx) s.hash_check = false) ∧
    (∀ (env : Env) (s : State) (msg : Bytes),
      ∀ e ∈ new_events s (parse_raw_txack env s msg), Event.has_signature e = false) ∧
    (∀ (env : Env) (n m : Nat) (coin : CoinType) (root : HDNode) (version lock_time : Nat)
        (s0 : State) (msgs : List HostMsg),
      in_phase_2 (run env (signing_init n m coin root version lock_time s0) msgs) = true →
      ∃ pre tx post, msgs = pre ++ HostMsg.txack tx :: post ∧
        reaches_gate env (run env (signing_init n m coin root version lock_time s0) pre) tx ∧
        (run env (signing_init n m coin root version lock_time s0) msgs).hash_check
          = env.sha256
              ((run env (signing_init n m coin root version lock_time s0) pre).transaction_current
                ++ phase1_output_bytes env
                    (run env (signing_init n m coin root version lock_time s0) pre) tx) ∧
        ∀ k, in_phase_2 (run env (signing_init n m coin root version lock_time s0)
              (pre ++ HostMsg.txack tx :: post.take k)) = true) := by
  refine ⟨signature_needs_equal_digest, ?_, ?_⟩
  · intro env s msg e he
    obtain ⟨⟨L, hL, hp⟩, -⟩ := parse_raw_txack_log env msg s
    rw [new_events_of_append hL] at he
    exact plain_no_signature e (hp e he)
  · intro env n m coin root v lt s0 msgs
    exact hash_check_is_gate_hash env (signing_init n m coin root v lt s0) rfl msgs

set_option maxRecDepth 100000 in
/-- C12, at a state: the last message of the inner sweep of a session of one input and one
output; the signature is written and the recomputed commit hash equals `hash_check`. -/
theorem signature_only_with_equal_digest_witness :
    (∃ e ∈ new_events sweepOutputState
        (signing_txack exchangeEnv sweepOutputState (ackOutput (spendOutput 9000))),
      Event.has_signature e = true) ∧
    memcmp32_ne (phase2_digest exchangeEnv sweepOutputState (ackOutput (spendOutput 9000)))
      sweepOutputState.hash_check = false :=
  ⟨by decide,
    (signature_only_with_equal_digest.1 exchangeEnv sweepOutputState
      (ackOutput (spendOutput 9000)) (by decide)).2.2.2⟩

theorem dead_step_plain (env : Env) (s : State) (tx : TransactionType)
    (h : s.signing = false) :
    Extends Event.plain s.log (signing_txack env s tx).log ∧
    (signing_txack env s tx).signing = false := by
  rw [signing_txack_dead env s tx h]
  exact ⟨extends_of_append (by simp [Event.plain]), h⟩

theorem run_txacks_dead_plain (env : Env) (msgs : List TransactionType) :
    ∀ s : State, s.signing = false →
      Extends Event.plain s.log (run_txacks env s msgs).log := by
  induction msgs with
  | nil => intro s _; exact extends_refl _ _
  | cons tx rest ih =>
      intro s h
      rw [run_txacks]
      obtain ⟨h1, h2⟩ := dead_step_plain env s tx h
      exact extends_trans h1 (ih _ h2)

theorem phase2_output_congr (env : Env) (s t : State) (tx : TransactionType)
    (h1 : t.coin = s.coin) (h2 : t.root = s.root) :
    phase2_output env t tx = phase2_output env s tx := by
  simp only [phase2_output, h1, h2]

/-- The inputs of an inner sweep, from input `idx2` to the last one: unless the session
has ended, the commit hash has been started afresh with the header, when the sweep began
here, and fed the inputs, and the outputs of the sweep are due. -/
theorem run_sweep_inputs (env : Env) (ins : List TransactionType) :
    ∀ s : State, s.signing = true → s.signing_stage = Stage.STAGE_REQUEST_4_INPUT →
      1 ≤ ins.length → s.idx2 + ins.length = s.inputs_count → s.inputs_count < 2 ^ 32 →
      Extends Event.plain s.log (run_txacks env s ins).log ∧
      ((run_txacks env s ins).signing = false ∨
       (run_txacks env s ins).core =
        { s.core with
          signing_stage := Stage.STAGE_REQUEST_4_OUTPUT,
          idx2 := 0,
          input := (run_txacks env s ins).input,
          transaction_current :=
            (if s.idx2 = 0 then
               commit_header s.inputs_count s.outputs_count s.version s.lock_time
             else s.transaction_current)
              ++ ins.flatMap (fun t => env.bytes_TxInputType t.inputs) }) := by
  induction ins with
  | nil => intro s _ _ h; simp at h
  | cons tx rest ih =>
      intro s hlive hstage _ hlen hlt
      rw [run_txacks]
      simp only [List.length_cons] at hlen
      have h1 : 1 ≤ s.inputs_count := by omega
      have hplain : Extends Event.plain s.log (signing_txack env s tx).log := by
        rw [signing_txack_at_4_input env s tx hlive hstage]
        exact txack_request_4_input_log env { s with resp := TxRequest.zero } tx rfl
      rcases signing_txack_core_4_input env s tx hlive hstage with hd | hc
      · exact ⟨extends_trans hplain (run_txacks_dead_plain env rest _ hd),
          Or.inl (run_txacks_dead_signing env rest _ hd)⟩
      · obtain ⟨f1, f2, f3, f4, f5, f6, f7, f8, f9, f10, f11, f12, f13, f14, f15, f16, f17,
          f18, f19, f20, f21⟩ := core_fields hc
        dsimp only [State.core] at f1 f2 f3 f4 f5 f6 f7 f8 f9 f10 f11
        dsimp only [State.core] at f12 f13 f14 f15 f16 f17 f18 f19 f20 f21
        cases rest with
        | nil =>
            have hnl : ¬ s.idx2 < dec32 s.inputs_count := by
              rw [dec32_lt _ _ h1 hlt]; simp at hlen; omega
            rw [if_neg hnl] at f2 f4
            refine ⟨by rw [run_txacks_nil]; exact hplain, Or.inr ?_⟩
            rw [run_txacks_nil]
            simp only [State.core, Core.mk.injEq]
            simp [f1, f2, f3, f4, f5, f6, f7, f8, f9, f10, f11, f12, f13, f15, f16, f17, f18,
              f19, f20, f21]
        | cons tx2 rest2 =>
            have hnl : s.idx2 < dec32 s.inputs_count := by
              rw [dec32_lt _ _ h1 hlt]; simp at hlen; omega
            rw [if_pos hnl] at f2 f4
            obtain ⟨hp2, hr⟩ := ih (signing_txack env s tx) (f1.trans hlive) f2 (by simp)
              (by rw [f4, f5]; simp at hlen ⊢; omega) (by rw [f5]; exact hlt)
            refine ⟨extends_trans hplain hp2, ?_⟩
            rcases hr with hd | hc2
            · exact Or.inl hd
            · right
              rw [hc2, hc, f4, f5, f6, f9, f10, f15]
              simp [if_pos hnl]

/-- The outputs of an inner sweep before the last one: unless the session has ended, the
commit hash has been fed the outputs as the policy module compiles them without
confirmation. -/
theorem run_sweep_outputs (env : Env) (outs : List TransactionType) :
    ∀ s : State, s.signing = true → s.signing_stage = Stage.STAGE_REQUEST_4_OUTPUT →
      s.idx2 + outs.length + 1 = s.outputs_count → s.outputs_count < 2 ^ 32 →
      Extends Event.plain s.log (run_txacks env s outs).log ∧
      ((run_txacks env s outs).signing = false ∨
       (run_txacks env s outs).core =
        { s.core with
          idx2 := s.idx2 + outs.length,
          transaction_current := s.transaction_current
            ++ outs.flatMap (fun t => env.bytes_TxOutputBinType (phase2_output env s t)) }) := by
  induction outs with
  | nil =>
      intro s _ _ _ _
      rw [run_txacks_nil]
      exact ⟨extends_refl _ _, Or.inr (by simp [State.core])⟩
  | cons tx rest ih =>
      intro s hlive hstage hlen hlt
      rw [run_txacks]
      simp only [List.length_cons] at hlen
      have h1 : 1 ≤ s.outputs_count := by omega
      have hnl : s.idx2 < dec32 s.outputs_count := by
        rw [dec32_lt _ _ h1 hlt]; omega
      have hat := signing_txack_at_4_output env s tx hlive hstage
      rcases txack_request_4_output_cases env { s with resp := TxRequest.zero } tx rfl with
        ⟨hd, hp⟩ | ⟨-, hp, hc⟩ | ⟨h, -⟩
      · rw [← hat] at hd hp
        exact ⟨extends_trans hp (run_txacks_dead_plain env rest _ hd),
          Or.inl (run_txacks_dead_signing env rest _ hd)⟩
      · rw [← hat] at hp hc
        obtain ⟨f1, f2, f3, f4, f5, f6, f7, f8, f9, f10, f11, f12, f13, f14, f15, f16, f17,
          f18, f19, f20, f21⟩ := core_fields hc
        dsimp only [State.core] at f1 f2 f3 f4 f5 f6 f7 f8 f9 f10 f11
        dsimp only [State.core] at f12 f13 f14 f15 f16 f17 f18 f19 f20 f21
        obtain ⟨hp2, hr⟩ := ih (signing_txack env s tx) (f1.trans hlive) f2
          (by rw [f4, f6]; omega) (by rw [f6]; exact hlt)
        refine ⟨extends_trans hp hp2, ?_⟩
        rcases hr with hd | hc2
        · exact Or.inl hd
        · right
          have hb : phase2_output env (signing_txack env s tx) = phase2_output env s :=
            funext fun x => phase2_output_congr env s _ x f7 f8
          have hb0 : phase2_output env { s with resp := TxRequest.zero } tx
              = phase2_output env s tx := rfl
          rw [hc2, hc, f4, f15, hb, hb0]
          simp [State.core, Nat.add_assoc, Nat.add_comm 1 rest.length]
          exact hstage.symm
      · exact absurd hnl h

theorem same_session_refl (s : State) : same_session s s :=
  ⟨rfl, rfl, rfl, rfl, rfl, rfl, rfl⟩

theorem same_session_trans {a b c : State} (h1 : same_session a b) (h2 : same_session b c) :
    same_session a c := by
  obtain ⟨a1, a2, a3, a4, a5, a6, a7⟩ := h1
  obtain ⟨b1, b2, b3, b4, b5, b6, b7⟩ := h2
  exact ⟨b1.trans a1, b2.trans a2, b3.trans a3, b4.trans a4, b5.trans a5, b6.trans a6,
    b7.trans a7⟩

theorem same_session_of_core {s t : State} {c : Core} (h : t.core = c)
    (h1 : c.inputs_count = s.inputs_count) (h2 : c.outputs_count = s.outputs_count)
    (h3 : c.coin = s.coin) (h4 : c.root = s.root) (h5 : c.version = s.version)
    (h6 : c.lock_time = s.lock_time) (h7 : c.hash_check = s.hash_check) :
    same_session s t := by
  obtain ⟨-, -, -, -, f5, f6, f7, f8, f9, f10, -, -, -, -, -, -, -, f18, -⟩ := core_fields h
  exact ⟨f5.trans h1, f6.trans h2, f7.trans h3, f8.trans h4, f9.trans h5, f10.trans h6,
    f18.trans h7⟩

/-- A structured message received in phase 2 ends the session or leaves it in phase 2,
with the values of `same_session` untouched. -/
theorem phase_2_step_same (env : Env) (s : State) (tx : TransactionType)
    (h0 : in_phase_2 s = true) (h1 : (signing_txack env s tx).signing = true) :
    in_phase_2 (signing_txack env s tx) = true ∧ same_session s (signing_txack env s tx) := by
  have hlive : s.signing = true := by
    simp only [in_phase_2, Bool.and_eq_true] at h0
    exact h0.1
  have dead_ne : ∀ {P : Prop}, (signing_txack env s tx).signing = false → P := by
    intro P h
    rw [h] at h1
    exact absurd h1 (by simp)
  have hst : s.signing_stage = Stage.STAGE_REQUEST_4_INPUT ∨
      s.signing_stage = Stage.STAGE_REQUEST_4_OUTPUT ∨
      s.signing_stage = Stage.STAGE_REQUEST_5_OUTPUT := by
    simp only [in_phase_2, Bool.and_eq_true, Bool.or_eq_true, decide_eq_true_eq] at h0
    rcases h0.2 with (h | h) | h
    · exact Or.inl h
    · exact Or.inr (Or.inl h)
    · exact Or.inr (Or.inr h)
  have fin : ∀ {c : Core}, (signing_txack env s tx).core = c →
      (c.signing_stage = Stage.STAGE_REQUEST_4_INPUT ∨
        c.signing_stage = Stage.STAGE_REQUEST_4_OUTPUT ∨
        c.signing_stage = Stage.STAGE_REQUEST_5_OUTPUT) →
      in_phase_2 (signing_txack env s tx) = true := by
    intro c h hs
    obtain ⟨-, f2, -⟩ := core_fields h
    simp only [in_phase_2, h1, Bool.true_and, Bool.or_eq_true, decide_eq_true_eq]
    rw [f2]
    rcases hs with h | h | h
    · exact Or.inl (Or.inl h)
    · exact Or.inl (Or.inr h)
    · exact Or.inr h
  rcases hst with hst | hst | hst
  · rcases signing_txack_core_4_input env s tx hlive hst with h | h
    · exact dead_ne h
    · refine ⟨fin h ?_, same_session_of_core h rfl rfl rfl rfl rfl rfl rfl⟩
      dsimp only
      split_ifs
      · exact Or.inl rfl
      · exact Or.inr (Or.inl rfl)
  · rcases signing_txack_core_4_output env s tx hlive hst with h | ⟨-, h⟩ | ⟨-, h⟩
    · exact dead_ne h
    · exact ⟨fin h (Or.inr (Or.inl hst)), same_session_of_core h rfl rfl rfl rfl rfl rfl rfl⟩
    · refine ⟨fin h ?_, same_session_of_core h rfl rfl rfl rfl rfl rfl rfl⟩
      dsimp only
      split_ifs
      · exact Or.inl rfl
      · exact Or.inr (Or.inr rfl)
  · rcases signing_txack_core_5_output env s tx hlive hst with h | ⟨-, h⟩
    · exact dead_ne h
    · exact ⟨fin h (Or.inr (Or.inr hst)), same_session_of_core h rfl rfl rfl rfl rfl rfl rfl⟩

/-- Structured messages received in phase 2: if the session is still live after them, it
is in phase 2 and the values of `same_session` are untouched. -/
theorem phase_2_run_same (env : Env) (msgs : List TransactionType) :
    ∀ s : State, in_phase_2 s = true → (run_txacks env s msgs).signing = true →
      in_phase_2 (run_txacks env s msgs) = true ∧ same_session s (run_txacks env s msgs) := by
  induction msgs with
  | nil => intro s h _; exact ⟨h, same_session_refl s⟩
  | cons tx rest ih =>
      intro s h0 h1
      rw [run_txacks] at h1 ⊢
      have hl : (signing_txack env s tx).signing = true := by
        cases h : (signing_txack env s tx).signing
        · rw [run_txacks_dead_signing env rest _ h] at h1
          exact absurd h1 (by simp)
        · rfl
      obtain ⟨a, b⟩ := phase_2_step_same env s tx h0 hl
      obtain ⟨c, d⟩ := ih _ a h1
      exact ⟨c, same_session_trans b d⟩

theorem plain_not_changed (e : Event) (h : Event.plain e = true) : Event.not_changed e = true := by
  cases e <;> simp_all [Event.plain, Event.not_changed]

theorem phase1_output_bytes_of_some (env : Env) (s : State) (tx : TransactionType)
    (o : TxOutputBinType) (h : phase1_output env s tx = some o) :
    phase1_output_bytes env s tx = env.bytes_TxOutputBinType o := by
  unfold phase1_output at h
  unfold phase1_output_bytes
  cases hb : output_is_change env s tx.outputs with
  | error t => rw [hb] at h; simp at h
  | ok b =>
      rw [hb] at h
      simp only [Option.some.injEq] at h
      simp only [h]

theorem same_outputs_same_bytes (env : Env) (P : State) :
    ∀ (outs outs2 : List TransactionType),
      outs2.map (fun t => some (phase2_output env P t)) = outs.map (phase1_output env P) →
      outs.flatMap (phase1_output_bytes env P)
        = outs2.flatMap (fun t => env.bytes_TxOutputBinType (phase2_output env P t)) := by
  intro outs
  induction outs with
  | nil =>
      intro outs2 h
      cases outs2 with
      | nil => rfl
      | cons a b => simp at h
  | cons t rest ih =>
      intro outs2 h
      cases outs2 with
      | nil => simp at h
      | cons a b =>
          simp only [List.map_cons, List.cons.injEq] at h
          simp only [List.flatMap_cons]
          rw [ih b h.2, phase1_output_bytes_of_some env P t _ h.1.symm]

theorem same_inputs_same_bytes (env : Env) (blocks : List InputBlock) :
    ∀ (ins : List TransactionType),
      ins.map (fun t => t.inputs) = blocks.map (fun b => b.input.inputs) →
      input_bytes env blocks = ins.flatMap (fun t => env.bytes_TxInputType t.inputs) := by
  induction blocks with
  | nil =>
      intro ins h
      cases ins with
      | nil => rfl
      | cons a b => simp at h
  | cons t rest ih =>
      intro ins h
      cases ins with
      | nil => simp at h
      | cons a b =>
          simp only [List.map_cons, List.cons.injEq] at h
          have := ih b h.2
          simp only [input_bytes] at this ⊢
          simp only [List.flatMap_cons]
          rw [this, h.1]

/-- The state in which an inner sweep starts, in a structured session: it is in phase 2,
the values given to `signing_init` are in place, and `hash_check` is the digest of what
phase 1 fed to the commit hash. -/
theorem sweep_start_facts (env : Env) (blocks : List InputBlock) (outs : List TransactionType)
    (last : TransactionType) (coin : CoinType) (root : HDNode) (version lock_time : Nat)
    (s0 : State) (mid : List TransactionType)
    (hb : 1 ≤ blocks.length) (hbl : blocks.length < 2 ^ 32) (hol : outs.length + 1 < 2 ^ 32)
    (hwf : ∀ b ∈ blocks, b.well_formed = true)
    (hS : (sweep_start env blocks outs last coin root version lock_time s0 mid).signing = true) :
    in_phase_2 (sweep_start env blocks outs last coin root version lock_time s0 mid) = true ∧
    (sweep_start env blocks outs last coin root version lock_time s0 mid).inputs_count
      = blocks.length ∧
    (sweep_start env blocks outs last coin root version lock_time s0 mid).outputs_count
      = outs.length + 1 ∧
    (sweep_start env blocks outs last coin root version lock_time s0 mid).coin = coin ∧
    (sweep_start env blocks outs last coin root version lock_time s0 mid).root = root ∧
    (sweep_start env blocks outs last coin root version lock_time s0 mid).version = version ∧
    (sweep_start env blocks outs last coin root version lock_time s0 mid).lock_time
      = lock_time ∧
    (sweep_start env blocks outs last coin root version lock_time s0 mid).hash_check
      = env.sha256 (phase1_commit env blocks (outs ++ [last])
          (phase1_state env blocks outs coin root version lock_time s0)) ∧
    (phase1_state env blocks outs coin root version lock_time s0).inputs_count
      = blocks.length ∧
    (phase1_state env blocks outs coin root version lock_time s0).outputs_count
      = outs.length + 1 ∧
    (phase1_state env blocks outs coin root version lock_time s0).coin = coin ∧
    (phase1_state env blocks outs coin root version lock_time s0).root = root ∧
    (phase1_state env blocks outs coin root version lock_time s0).version = version ∧
    (phase1_state env blocks outs coin root version lock_time s0).lock_time = lock_time := by
  unfold sweep_start at hS ⊢
  rw [run_txacks] at hS ⊢
  have hG : (signing_txack env (phase1_state env blocks outs coin root version lock_time s0)
      last).signing = true := by
    cases h : (signing_txack env (phase1_state env blocks outs coin root version lock_time s0)
      last).signing
    · rw [run_txacks_dead_signing env mid _ h] at hS
      exact absurd hS (by simp)
    · rfl
  rcases run_phase1 env blocks outs coin root version lock_time s0 hb hbl hol hwf with
    hd | ⟨p1, p2, p3, p4, p5, p6, p7, p8, p9, -, -, p12⟩
  · rw [signing_txack_dead env _ last hd] at hG
    rw [hd] at hG
    exact absurd hG (by simp)
  have hl : ¬ (phase1_state env blocks outs coin root version lock_time s0).idx1
      < dec32 (phase1_state env blocks outs coin root version lock_time s0).outputs_count := by
    rw [p3, p5, dec32_lt _ _ (by omega) hol]; omega
  rcases signing_txack_core_3_output_last env _ last p1 p2 hl with hd | hc
  · rw [hd] at hG
    exact absurd hG (by simp)
  obtain ⟨f1, f2, f3, f4, f5, f6, f7, f8, f9, f10, -, -, -, -, -, -, -, f18, -⟩ := core_fields hc
  dsimp only [State.core] at f1 f2 f3 f4 f5 f6 f7 f8 f9 f10 f18
  have hph : in_phase_2 (signing_txack env
      (phase1_state env blocks outs coin root version lock_time s0) last) = true := by
    simp [in_phase_2, hG, f2]
  obtain ⟨q1, q2, q3, q4, q5, q6, q7, q8⟩ := phase_2_run_same env mid _ hph hS
  refine ⟨q1, q2.trans (f5.trans p4), q3.trans (f6.trans p5), q4.trans (f7.trans p6),
    q5.trans (f8.trans p7), q6.trans (f9.trans p8), q7.trans (f10.trans p9), ?_,
    p4, p5, p6, p7, p8, p9⟩
  rw [q8, f18, p12, phase1_commit, p4, p5, p8, p9]
  simp [List.flatMap_append, List.append_assoc]

/-- An inner sweep up to its last output: the `inputs_count` inputs and the outputs but
one log plain events only, and unless the session has ended, the last output of the sweep
is due and the commit hash has been fed the header, the inputs and the outputs so far. -/
theorem sweep_to_last_output (env : Env) (S : State) (ins outs : List TransactionType)
    (hlive : S.signing = true) (hstage : S.signing_stage = Stage.STAGE_REQUEST_4_INPUT)
    (hidx : S.idx2 = 0) (hn : ins.length = S.inputs_count) (hn1 : 1 ≤ S.inputs_count)
    (hnlt : S.inputs_count < 2 ^ 32) (hm : outs.length + 1 = S.outputs_count)
    (hmlt : S.outputs_count < 2 ^ 32) :
    Extends Event.plain S.log (run_txacks env S (ins ++ outs)).log ∧
    ((run_txacks env S (ins ++ outs)).signing = false ∨
      ((run_txacks env S (ins ++ outs)).signing = true ∧
       (run_txacks env S (ins ++ outs)).signing_stage = Stage.STAGE_REQUEST_4_OUTPUT ∧
       ¬ (run_txacks env S (ins ++ outs)).idx2
          < dec32 (run_txacks env S (ins ++ outs)).outputs_count ∧
       same_session S (run_txacks env S (ins ++ outs)) ∧
       (run_txacks env S (ins ++ outs)).idx1 = S.idx1 ∧
       (run_txacks env S (ins ++ outs)).transaction_current = sweep_commit env S ins outs)) := by
  rw [run_txacks_append]
  obtain ⟨hp1, hr1⟩ := run_sweep_inputs env ins S hlive hstage (by omega)
    (by rw [hidx, hn]; omega) hnlt
  rcases hr1 with hd | hc
  · exact ⟨extends_trans hp1 (run_txacks_dead_plain env outs _ hd),
      Or.inl (run_txacks_dead_signing env outs _ hd)⟩
  obtain ⟨f1, f2, f3, f4, f5, f6, f7, f8, f9, f10, -, -, -, -, f15, -, -, f18, -⟩ :=
    core_fields hc
  dsimp only [State.core] at f1 f2 f3 f4 f5 f6 f7 f8 f9 f10 f15 f18
  obtain ⟨hp2, hr2⟩ := run_sweep_outputs env outs (run_txacks env S ins) (f1.trans hlive) f2
    (by rw [f4, f6]; omega) (by rw [f6]; exact hmlt)
  refine ⟨extends_trans hp1 hp2, ?_⟩
  rcases hr2 with hd | hc2
  · exact Or.inl hd
  right
  obtain ⟨g1, g2, g3, g4, g5, g6, g7, g8, g9, g10, -, -, -, -, g15, -, -, g18, -⟩ :=
    core_fields hc2
  dsimp only [State.core] at g1 g2 g3 g4 g5 g6 g7 g8 g9 g10 g15 g18
  refine ⟨g1.trans (f1.trans hlive), g2.trans f2, ?_,
    ⟨g5.trans f5, g6.trans f6, g7.trans f7, g8.trans f8, g9.trans f9, g10.trans f10,
      g18.trans f18⟩, g3.trans f3, ?_⟩
  · rw [g4, g6, f4, f6, dec32_lt _ _ (by omega) hmlt]; omega
  · rw [g15, f15, if_pos hidx, sweep_commit]
    have hb : phase2_output env (run_txacks env S ins) = phase2_output env S :=
      funext fun x => phase2_output_congr env S _ x f7 f8
    simp [List.flatMap_append, hb]

/-- The last output of an inner sweep when the policy module compiles it and the
serialiser accepts it: the call ends in `txack_finish_inner_sweep`, entered in a state
`T` whose commit hash has been fed the compiled output. -/
theorem txack_request_4_output_last (env : Env) (s : State) (tx : TransactionType)
    (hcomp : env.TXOUT_COMPILE_ERROR
      < (env.run_policy_compile_output s.coin s.root tx.outputs false).1)
    (hser : (env.tx_serialize_output_hash s.ti (phase2_output env s tx)).1 ≠ 0)
    (hlast : ¬ s.idx2 < dec32 s.outputs_count) :
    ∃ T : State,
      txack_request_4_output env s tx = txack_finish_inner_sweep env T ∧
      T.log = s.log ++ [Event.policy_compile_output tx.outputs false] ∧
      T.core = { s.core with
        transaction_current := s.transaction_current
          ++ env.bytes_TxOutputBinType (phase2_output env s tx) } := by
  unfold txack_request_4_output
  have h1 : ¬ (run_policy_compile_output env s tx.outputs false).1 ≤ env.TXOUT_COMPILE_ERROR := by
    simpa [run_policy_compile_output] using hcomp
  have h2 : ¬ (tx_serialize_output_hash env
      (run_policy_compile_output env s tx.outputs false).2.ti
      (run_policy_compile_output env s tx.outputs false).2.bin_output).1 = 0 := hser
  have h3 : ¬ (run_policy_compile_output env s tx.outputs false).2.idx2
      < dec32 (run_policy_compile_output env s tx.outputs false).2.outputs_count := hlast
  simp only [if_neg h1, if_neg h2, if_neg h3]
  exact ⟨_, rfl, rfl, rfl⟩

theorem extends_new_events {P : Event → Bool} {s t : State} (h : Extends P s.log t.log) :
    ∀ e ∈ new_events s t, P e = true := by
  obtain ⟨L, hL, hp⟩ := h
  rw [new_events_of_append hL]
  exact hp

theorem memcmp32_ne_self (a : Bytes) : memcmp32_ne a a = false := by
  simp [memcmp32_ne]

/-- The last output of an inner sweep, for a coin without fork-id, when the recomputed
commit hash equals `hash_check` in its 32 bytes: the failure "Transaction has changed
during signing" is not sent. -/
theorem last_output_equal (env : Env) (L : State) (tx : TransactionType)
    (hlive : L.signing = true) (hstage : L.signing_stage = Stage.STAGE_REQUEST_4_OUTPUT)
    (hfork : L.coin.has_forkid = false)
    (heq : memcmp32_ne (env.sha256 (L.transaction_current
        ++ env.bytes_TxOutputBinType (phase2_output env L tx))) L.hash_check = false) :
    Extends Event.not_changed L.log (signing_txack env L tx).log := by
  rw [signing_txack_at_4_output env L tx hlive hstage]
  rcases txack_request_4_output_cases env { L with resp := TxRequest.zero } tx rfl with
    ⟨-, hp⟩ | ⟨-, hp, -⟩ | ⟨-, T, hT, hlog, hcore, -⟩
  · exact extends_mono plain_not_changed hp
  · exact extends_mono plain_not_changed hp
  · obtain ⟨-, -, -, -, -, -, f7, -, -, -, -, -, -, -, f15, -, -, f18, -⟩ := core_fields hcore
    dsimp only [State.core] at f7 f15 f18
    have h1 : Extends Event.not_changed L.log T.log := by
      rw [hlog]
      exact extends_of_append (by simp [Event.not_changed])
    rw [hT]
    refine extends_trans h1 ?_
    rcases txack_finish_inner_sweep_legacy env T (by rw [f7]; exact hfork) with
      ⟨hne, -, -⟩ | ⟨-, hs⟩
    · rw [f15, f18] at hne
      have : phase2_output env { L with resp := TxRequest.zero } tx = phase2_output env L tx :=
        rfl
      rw [this, heq] at hne
      exact absurd hne (by simp)
    · rw [hs]
      rcases txack_sign_input_cases env { T with hash := env.sha256 T.transaction_current }
        SIGHASH_ALL with ⟨-, hp⟩ | ⟨r, hl, -⟩
      · exact extends_mono plain_not_changed hp
      · rw [hl]
        exact extends_of_append (by simp [Event.not_changed])

/-- The last output of an inner sweep, for a coin without fork-id, when it compiles and
serialises and the recomputed commit hash differs from `hash_check` in its 32 bytes: the
failure "Transaction has changed during signing" is sent and the session ends. -/
theorem last_output_changed (env : Env) (L : State) (tx : TransactionType)
    (hlive : L.signing = true) (hstage : L.signing_stage = Stage.STAGE_REQUEST_4_OUTPUT)
    (hfork : L.coin.has_forkid = false)
    (hlast : ¬ L.idx2 < dec32 L.outputs_count)
    (hcomp : env.TXOUT_COMPILE_ERROR
      < (env.run_policy_compile_output L.coin L.root tx.outputs false).1)
    (hser : (env.tx_serialize_output_hash L.ti (phase2_output env L tx)).1 ≠ 0)
    (hne : memcmp32_ne (env.sha256 (L.transaction_current
        ++ env.bytes_TxOutputBinType (phase2_output env L tx))) L.hash_check = true) :
    (signing_txack env L tx).log =
      L.log ++ [Event.policy_compile_output tx.outputs false,
       Event.failure FailureType.Failure_Other "Transaction has changed during signing",
       Event.go_home] ∧
    (signing_txack env L tx).signing = false := by
  rw [signing_txack_at_4_output env L tx hlive hstage]
  obtain ⟨T, hT, hlog, hcore⟩ :=
    txack_request_4_output_last env { L with resp := TxRequest.zero } tx hcomp hser hlast
  obtain ⟨f1, -, -, -, -, -, f7, -, -, -, -, -, -, -, f15, -, -, f18, -⟩ := core_fields hcore
  dsimp only [State.core] at f1 f7 f15 f18
  rw [hT]
  rcases txack_finish_inner_sweep_legacy env T (by rw [f7]; exact hfork) with
    ⟨-, hl, hd⟩ | ⟨he, -⟩
  · refine ⟨?_, hd⟩
    rw [hl, hlog, f1, hlive]
    simp
  · rw [f15, f18] at he
    have : phase2_output env { L with resp := TxRequest.zero } tx = phase2_output env L tx :=
      rfl
    rw [this, hne] at he
    exact absurd he (by simp)

/-- C8. A structured session of a coin without fork-id: `signing_init`, the blocks of the
inputs, the outputs `outs` and `last` (phase 1, state `P` when `last` arrives), then any
messages `mid` after which an inner sweep starts (state `S`: live, stage
`REQUEST_4_INPUT`, `idx2 = 0`, for whatever outer input `idx1`). If the sweep delivers the
input structures of phase 1 and outputs for which the policy module compiles the binary
outputs of phase 1, in the same order, then, when the last output of the sweep is due
(state `L`) in a live session, the commit hash recomputed over the sweep and that output
is `hash_check`, and none of the events of the sweep is the failure "Transaction has
changed during signing". -/
theorem unchanged_sweep_passes (env : Env) (blocks : List InputBlock)
    (outs : List TransactionType) (last : TransactionType) (coin : CoinType) (root : HDNode)
    (version lock_time : Nat) (s0 : State) (mid ins2 outs2 : List TransactionType)
    (last2 : TransactionType) (P S L : State)
    (hP : P = phase1_state env blocks outs coin root version lock_time s0)
    (hS : S = run_txacks env P (last :: mid))
    (hL : L = run_txacks env S (ins2 ++ outs2))
    (hb : 1 ≤ blocks.length) (hbl : blocks.length < 2 ^ 32) (hol : outs.length + 1 < 2 ^ 32)
    (hwf : ∀ b ∈ blocks, b.well_formed = true)
    (hfork : coin.has_forkid = false)
    (hlive : S.signing = true) (hstage : S.signing_stage = Stage.STAGE_REQUEST_4_INPUT)
    (hidx : S.idx2 = 0)
    (hins : ins2.map (fun t => t.inputs) = blocks.map (fun b => b.input.inputs))
    (houts : outs2.map (fun t => some (phase2_output env P t)) = outs.map (phase1_output env P))
    (hlast : phase1_output env P last = some (phase2_output env P last2)) :
    (L.signing = true →
      env.sha256 (L.transaction_current
        ++ env.bytes_TxOutputBinType (phase2_output env L last2)) = L.hash_check) ∧
    (∀ e ∈ new_events S (signing_txack env L last2), ∀ code : FailureType,
      e ≠ Event.failure code "Transaction has changed during signing") := by
  subst hP hS hL
  obtain ⟨-, s2, s3, s4, s5, s6, s7, s8, p4, p5, p6, p7, p8, p9⟩ :=
    sweep_start_facts env blocks outs last coin root version lock_time s0 mid hb hbl hol hwf
      hlive
  unfold sweep_start at s2 s3 s4 s5 s6 s7 s8
  have hlen_in : ins2.length = blocks.length := by
    have := congrArg List.length hins
    simpa using this
  have hlen_out : outs2.length = outs.length := by
    have := congrArg List.length houts
    simpa using this
  obtain ⟨hp, hr⟩ := sweep_to_last_output env _ ins2 outs2 hlive hstage hidx
    (by rw [s2]; exact hlen_in) (by rw [s2]; exact hb) (by rw [s2]; exact hbl)
    (by rw [s3, hlen_out]) (by rw [s3]; exact hol)
  have key : (run_txacks env (run_txacks env (phase1_state env blocks outs coin root version
        lock_time s0) (last :: mid)) (ins2 ++ outs2)).signing = true →
      env.sha256 ((run_txacks env (run_txacks env (phase1_state env blocks outs coin root
        version lock_time s0) (last :: mid)) (ins2 ++ outs2)).transaction_current
        ++ env.bytes_TxOutputBinType (phase2_output env (run_txacks env (run_txacks env
          (phase1_state env blocks outs coin root version lock_time s0) (last :: mid))
          (ins2 ++ outs2)) last2))
      = (run_txacks env (run_txacks env (phase1_state env blocks outs coin root version
        lock_time s0) (last :: mid)) (ins2 ++ outs2)).hash_check := by
    intro hl
    rcases hr with hd | ⟨-, -, -, ⟨-, -, q3, q4, -, -, q7⟩, -, htc⟩
    · rw [hd] at hl
      exact absurd hl (by simp)
    · rw [htc, q7, s8, sweep_commit, phase1_commit, s2, s3, s6, s7, p4, p5, p8, p9,
        same_inputs_same_bytes env blocks ins2 hins, List.flatMap_append,
        same_outputs_same_bytes env _ outs outs2 houts]
      have e1 : phase2_output env (run_txacks env (run_txacks env (phase1_state env blocks outs
          coin root version lock_time s0) (last :: mid)) (ins2 ++ outs2))
          = phase2_output env (phase1_state env blocks outs coin root version lock_time s0) :=
        funext fun x => phase2_output_congr env _ _ x (by rw [q3, s4, p6]) (by rw [q4, s5, p7])
      have e2 : phase2_output env (run_txacks env (phase1_state env blocks outs
          coin root version lock_time s0) (last :: mid))
          = phase2_output env (phase1_state env blocks outs coin root version lock_time s0) :=
        funext fun x => phase2_output_congr env _ _ x (by rw [s4, p6]) (by rw [s5, p7])
      rw [e1, e2]
      simp [phase1_output_bytes_of_some env _ last _ hlast, List.append_assoc]
  refine ⟨key, ?_⟩
  have hext : Extends Event.not_changed
      (run_txacks env (phase1_state env blocks outs coin root version lock_time s0)
        (last :: mid)).log
      (signing_txack env (run_txacks env (run_txacks env (phase1_state env blocks outs coin
        root version lock_time s0) (last :: mid)) (ins2 ++ outs2)) last2).log := by
    refine extends_trans (extends_mono plain_not_changed hp) ?_
    rcases hr with hd | ⟨hl, hst, -, ⟨-, -, q3, -⟩, -, -⟩
    · exact extends_mono plain_not_changed (dead_step_plain env _ last2 hd).1
    · refine last_output_equal env _ last2 hl hst (by rw [q3, s4]; exact hfork) ?_
      rw [key hl]
      exact memcmp32_ne_self _
  intro e he code hc
  have := extends_new_events hext e he
  rw [hc] at this
  simp [Event.not_changed] at this

/-- C9. A structured session of a coin without fork-id, as in `unchanged_sweep_passes`,
with a digest that is injective on its 32 bytes. An inner sweep starts in state `S` and
reaches its last output live (state `L`), the policy module compiles that output and the
serialiser accepts it. If the bytes committed by the sweep differ from the bytes committed
in phase 1, then the last output of the sweep makes the device call the policy module,
send `Failure_Other` "Transaction has changed during signing" and return to the home
screen; the session has ended, and no event of the sweep is a `TxRequest` with a
signature. -/
theorem changed_sweep_fails (env : Env) (blocks : List InputBlock)
    (outs : List TransactionType) (last : TransactionType) (coin : CoinType) (root : HDNode)
    (version lock_time : Nat) (s0 : State) (mid ins2 outs2 : List TransactionType)
    (last2 : TransactionType) (P S L : State)
    (hP : P = phase1_state env blocks outs coin root version lock_time s0)
    (hS : S = run_txacks env P (last :: mid))
    (hL : L = run_txacks env S (ins2 ++ outs2))
    (hb : 1 ≤ blocks.length) (hbl : blocks.length < 2 ^ 32) (hol : outs.length + 1 < 2 ^ 32)
    (hwf : ∀ b ∈ blocks, b.well_formed = true)
    (hfork : coin.has_forkid = false)
    (hinj : ∀ a b : Bytes, (env.sha256 a).take 32 = (env.sha256 b).take 32 → a = b)
    (hlive : S.signing = true) (hstage : S.signing_stage = Stage.STAGE_REQUEST_4_INPUT)
    (hidx : S.idx2 = 0)
    (hlen_in : ins2.length = blocks.length) (hlen_out : outs2.length = outs.length)
    (hLlive : L.signing = true)
    (hcomp : env.TXOUT_COMPILE_ERROR
      < (env.run_policy_compile_output coin root last2.outputs false).1)
    (hser : (env.tx_serialize_output_hash L.ti (phase2_output env L last2)).1 ≠ 0)
    (hdiff : sweep_commit env S ins2 (outs2 ++ [last2])
      ≠ phase1_commit env blocks (outs ++ [last]) P) :
    new_events L (signing_txack env L last2) =
      [Event.policy_compile_output last2.outputs false,
       Event.failure FailureType.Failure_Other "Transaction has changed during signing",
       Event.go_home] ∧
    (signing_txack env L last2).signing = false ∧
    (∀ e ∈ new_events S (signing_txack env L last2), Event.has_signature e = false) := by
  subst hP hS hL
  obtain ⟨-, s2, s3, s4, s5, s6, s7, s8, p4, p5, p6, p7, p8, p9⟩ :=
    sweep_start_facts env blocks outs last coin root version lock_time s0 mid hb hbl hol hwf
      hlive
  unfold sweep_start at s2 s3 s4 s5 s6 s7 s8
  obtain ⟨hp, hr⟩ := sweep_to_last_output env _ ins2 outs2 hlive hstage hidx
    (by rw [s2]; exact hlen_in) (by rw [s2]; exact hb) (by rw [s2]; exact hbl)
    (by rw [s3, hlen_out]) (by rw [s3]; exact hol)
  rcases hr with hd | ⟨-, hst, hlast, ⟨-, -, q3, q4, -, -, q7⟩, -, htc⟩
  · rw [hd] at hLlive
    exact absurd hLlive (by simp)
  have e1 : phase2_output env (run_txacks env (run_txacks env (phase1_state env blocks outs
      coin root version lock_time s0) (last :: mid)) (ins2 ++ outs2))
      = phase2_output env (run_txacks env (phase1_state env blocks outs
      coin root version lock_time s0) (last :: mid)) :=
    funext fun x => phase2_output_congr env _ _ x q3 q4
  have hne : memcmp32_ne (env.sha256 ((run_txacks env (run_txacks env (phase1_state env blocks
      outs coin root version lock_time s0) (last :: mid)) (ins2 ++ outs2)).transaction_current
      ++ env.bytes_TxOutputBinType (phase2_output env (run_txacks env (run_txacks env
        (phase1_state env blocks outs coin root version lock_time s0) (last :: mid))
        (ins2 ++ outs2)) last2)))
      (run_txacks env (run_txacks env (phase1_state env blocks outs coin root version
        lock_time s0) (last :: mid)) (ins2 ++ outs2)).hash_check = true := by
    rw [q7, s8, htc, e1]
    simp only [memcmp32_ne, decide_eq_true_eq]
    intro h
    apply hdiff
    rw [← hinj _ _ h]
    simp [sweep_commit, List.flatMap_append, List.append_assoc]
  obtain ⟨hlog, hdead⟩ := last_output_changed env _ last2 hLlive hst
    (by rw [q3, s4]; exact hfork) hlast (by rw [q3, q4, s4, s5]; exact hcomp) hser hne
  refine ⟨new_events_of_append hlog, hdead, ?_⟩
  obtain ⟨A, hA, hpA⟩ := hp
  have hnew : new_events (run_txacks env (phase1_state env blocks outs coin root version
      lock_time s0) (last :: mid)) (signing_txack env (run_txacks env (run_txacks env
        (phase1_state env blocks outs coin root version lock_time s0) (last :: mid))
        (ins2 ++ outs2)) last2)
      = A ++ [Event.policy_compile_output last2.outputs false,
       Event.failure FailureType.Failure_Other "Transaction has changed during signing",
       Event.go_home] := by
    apply new_events_of_append
    rw [hlog, hA, List.append_assoc]
  rw [hnew]
  intro e he
  rcases List.mem_append.1 he with h | h
  · exact plain_no_signature e (hpA e h)
  · simp only [List.mem_cons, List.mem_singleton, List.not_mem_nil, or_false] at h
    rcases h with rfl | rfl | rfl <;> rfl

theorem injectiveEnv_injective (a b : Bytes)
    (h : (injectiveEnv.sha256 a).take 32 = (injectiveEnv.sha256 b).take 32) : a = b := by
  simp only [injectiveEnv, List.take_succ_cons, List.take_nil, List.cons.injEq, and_true] at h
  exact Encodable.encode_injective h

set_option maxRecDepth 100000 in
/-- C8, at a session of two inputs and two outputs, in the inner sweep for the second
input: the first sweep has been answered with a signature, the second sweep repeats the
inputs and outputs of phase 1. -/
theorem unchanged_sweep_passes_witness :
    (run_txacks demoEnv (phase1_state demoEnv twoBlocks [ackOutput (spendOutput 5000)]
        demoCoin demoRoot 1 0 State.boot)
      (ackOutput (changeOutput 4000) :: (sweepAcks ++ [ackOutput (changeOutput 4000)]))).idx1
      = 1 ∧
    (run_txacks demoEnv
      (run_txacks demoEnv (phase1_state demoEnv twoBlocks [ackOutput (spendOutput 5000)]
          demoCoin demoRoot 1 0 State.boot)
        (ackOutput (changeOutput 4000) :: (sweepAcks ++ [ackOutput (changeOutput 4000)])))
      ([ackInput zeroInput, ackInput zeroInput] ++ [ackOutput (spendOutput 5000)])).signing
      = true ∧
    ∀ e ∈ new_events
        (run_txacks demoEnv (phase1_state demoEnv twoBlocks [ackOutput (spendOutput 5000)]
            demoCoin demoRoot 1 0 State.boot)
          (ackOutput (changeOutput 4000) :: (sweepAcks ++ [ackOutput (changeOutput 4000)])))
        (signing_txack demoEnv
          (run_txacks demoEnv
            (run_txacks demoEnv (phase1_state demoEnv twoBlocks [ackOutput (spendOutput 5000)]
                demoCoin demoRoot 1 0 State.boot)
              (ackOutput (changeOutput 4000) ::
                (sweepAcks ++ [ackOutput (changeOutput 4000)])))
            ([ackInput zeroInput, ackInput zeroInput] ++ [ackOutput (spendOutput 5000)]))
          (ackOutput (changeOutput 4000))),
      ∀ code : FailureType,
        e ≠ Event.failure code "Transaction has changed during signing" :=
  ⟨by decide, by decide,
    (unchanged_sweep_passes demoEnv twoBlocks [ackOutput (spendOutput 5000)]
      (ackOutput (changeOutput 4000)) demoCoin demoRoot 1 0 State.boot
      (sweepAcks ++ [ackOutput (changeOutput 4000)])
      [ackInput zeroInput, ackInput zeroInput] [ackOutput (spendOutput 5000)]
      (ackOutput (changeOutput 4000)) _ _ _ rfl rfl rfl
      (by decide) (by decide) (by decide) (by decide) (by decide) (by decide) (by decide)
      (by decide) (by decide) (by decide) (by decide)).2⟩

set_option maxRecDepth 100000 in
/-- C9, at scenario S4 with an injective digest: one input worth 10000, outputs of 5000
and 4000; in the inner sweep the host sends the second output with amount 4001. -/
theorem changed_sweep_fails_witness :
    (run_txacks injectiveEnv
      (run_txacks injectiveEnv
        (phase1_state injectiveEnv [demoBlock 10000] [ackOutput (spendOutput 5000)]
          demoCoin demoRoot 1 0 State.boot)
        [ackOutput (changeOutput 4000)])
      ([ackInput zeroInput] ++ [ackOutput (spendOutput 5000)])).signing = true ∧
    new_events
      (run_txacks injectiveEnv
        (run_txacks injectiveEnv
          (phase1_state injectiveEnv [demoBlock 10000] [ackOutput (spendOutput 5000)]
            demoCoin demoRoot 1 0 State.boot)
          [ackOutput (changeOutput 4000)])
        ([ackInput zeroInput] ++ [ackOutput (spendOutput 5000)]))
      (signing_txack injectiveEnv
        (run_txacks injectiveEnv
          (run_txacks injectiveEnv
            (phase1_state injectiveEnv [demoBlock 10000] [ackOutput (spendOutput 5000)]
              demoCoin demoRoot 1 0 State.boot)
            [ackOutput (changeOutput 4000)])
          ([ackInput zeroInput] ++ [ackOutput (spendOutput 5000)]))
        (ackOutput (changeOutput 4001))) =
      [Event.policy_compile_output (changeOutput 4001) false,
       Event.failure FailureType.Failure_Other "Transaction has changed during signing",
       Event.go_home] :=
  ⟨by decide,
    (changed_sweep_fails injectiveEnv [demoBlock 10000] [ackOutput (spendOutput 5000)]
      (ackOutput (changeOutput 4000)) demoCoin demoRoot 1 0 State.boot []
      [ackInput zeroInput] [ackOutput (spendOutput 5000)]
      (ackOutput (changeOutput 4001)) _ _ _ rfl rfl rfl
      (by decide) (by decide) (by decide) (by decide) (by decide) injectiveEnv_injective
      (by decide) (by decide) (by decide) (by decide) (by decide) (by decide) (by decide)
      (by decide) (by decide)).1⟩

theorem sig_indices_append (A B : List Event) :
    sig_indices (A ++ B) = sig_indices A ++ sig_indices B := by
  simp [sig_indices]

theorem output_chunks_append (A B : List Event) :
    output_chunks (A ++ B) = output_chunks A ++ output_chunks B := by
  simp [output_chunks]

theorem plain_quiet (e : Event) (h : Event.plain e = true) : Event.quiet e = true := by
  cases e <;> simp_all [Event.plain, Event.quiet]

theorem quiet_tally (L : List Event) (h : ∀ e ∈ L, Event.quiet e = true) :
    sig_indices L = [] ∧ output_chunks L = [] := by
  constructor
  · simp only [sig_indices, List.filterMap_eq_nil_iff]
    intro e he
    have := h e he
    cases e <;> simp_all [Event.quiet, Event.signature_index]
  · simp only [output_chunks, List.filterMap_eq_nil_iff]
    intro e he
    have := h e he
    cases e <;> simp_all [Event.quiet, Event.output_chunk]

theorem expected_of_phase_1 (s : State) (hlive : s.signing = true) (h : in_phase_2 s = false) :
    expected_signatures s = [] ∧ expected_outputs s = 0 := by
  cases hst : s.signing_stage <;>
    simp_all [in_phase_2, expected_signatures, expected_outputs]

theorem expected_of_stage_idx1 {s t : State} (h1 : t.signing_stage = s.signing_stage)
    (h2 : t.idx1 = s.idx1) (h3 : t.inputs_count = s.inputs_count) :
    expected_signatures t = expected_signatures s ∧ expected_outputs t = expected_outputs s := by
  simp only [expected_signatures, expected_outputs, h1, h2, h3, and_self]

/-- The confirmation gate writes no piece of the outbound transaction. -/
theorem txack_confirmation_gate_quiet (env : Env) (s : State)
    (hresp : s.resp.has_serialized = false) :
    Extends Event.quiet s.log (txack_confirmation_gate env s).log := by
  simp only [txack_confirmation_gate, fail_abort, signing_abort, go_home, fsm_sendFailure,
    send_req_4_input, msg_write]
  split_ifs <;> simp [Extends, Event.quiet, hresp]

/-- A structured message received in phase 1 makes the device write no piece of the
outbound transaction. -/
theorem phase_1_step_quiet (env : Env) (s : State) (tx : TransactionType)
    (hlive : s.signing = true) (h0 : in_phase_2 s = false) :
    Extends Event.quiet s.log (signing_txack env s tx).log := by
  have hz : ({ s with resp := TxRequest.zero } : State).resp.has_serialized = false := rfl
  cases hstage : s.signing_stage with
  | STAGE_REQUEST_1_INPUT =>
      rw [signing_txack_at_1_input env s tx hlive hstage]
      exact extends_mono plain_quiet
        (txack_request_1_input_log env { s with resp := TxRequest.zero } tx hz)
  | STAGE_REQUEST_2_PREV_META =>
      rw [signing_txack_at_2_prev_meta env s tx hlive hstage]
      exact extends_mono plain_quiet
        (txack_request_2_prev_meta_log { s with resp := TxRequest.zero } tx hz)
  | STAGE_REQUEST_2_PREV_INPUT =>
      rw [signing_txack_at_2_prev_input env s tx hlive hstage]
      exact extends_mono plain_quiet
        (txack_request_2_prev_input_log env { s with resp := TxRequest.zero } tx hz)
  | STAGE_REQUEST_2_PREV_OUTPUT =>
      rw [signing_txack_at_2_prev_output env s tx hlive hstage]
      exact extends_mono plain_quiet
        (txack_request_2_prev_output_log env { s with resp := TxRequest.zero } tx hz)
  | STAGE_REQUEST_3_OUTPUT =>
      rw [signing_txack_at_3_output env s tx hlive hstage]
      rcases txack_request_3_output_cases env { s with resp := TxRequest.zero } tx with
        hdead | ⟨b, hb, hone, hco⟩
      · exact extends_mono plain_quiet hdead.2
      · obtain ⟨sp, hlog, hresp, -, heq⟩ :=
          txack_request_3_output_ok env { s with resp := TxRequest.zero } tx b hb hone hco
        dsimp only at hlog hresp heq
        have h1 : Extends Event.quiet s.log sp.log := by
          rw [hlog]
          exact extends_of_append (by simp [Event.quiet])
        rw [heq]
        refine extends_trans h1 ?_
        split_ifs
        · simp [send_req_3_output, msg_write, Extends, Event.quiet, hresp, TxRequest.zero]
        · exact txack_confirmation_gate_quiet env sp (by rw [hresp]; rfl)
  | STAGE_REQUEST_4_INPUT => simp [in_phase_2, hlive, hstage] at h0
  | STAGE_REQUEST_4_OUTPUT => simp [in_phase_2, hlive, hstage] at h0
  | STAGE_REQUEST_5_OUTPUT => simp [in_phase_2, hlive, hstage] at h0

theorem compile_input_script_sig_input (env : Env) (s : State) (i : TxInputType) :
    (compile_input_script_sig env s i).2.2
      = { i with script_sig := (compile_input_script_sig env s i).2.2.script_sig } ∧
    (compile_input_script_sig env s i).2.1.to_tx = s.to_tx ∧
    (compile_input_script_sig env s i).2.1.idx1 = s.idx1 := by
  simp only [compile_input_script_sig]
  split_ifs <;> simp

theorem fail_abort_frame (code : FailureType) (text : String) (s : State) :
    (fail_abort code text s).input = s.input ∧ (fail_abort code text s).to_tx = s.to_tx := by
  simp only [fail_abort, signing_abort, go_home, fsm_sendFailure]
  split_ifs <;> simp

/-- The input record after `txack_sign_input`: the retained input with its script, and
for a multisig input its signature slots, filled in. -/
theorem txack_sign_input_input (env : Env) (s : State) (sighash : Nat) :
    (txack_sign_input env s sighash).input
      = { s.input with
          script_sig := (txack_sign_input env s sighash).input.script_sig,
          multisig := (txack_sign_input env s sighash).input.multisig } := by
  simp only [txack_sign_input]
  split_ifs <;>
    simp [fail_abort, signing_abort, go_home, fsm_sendFailure, send_req_4_input,
      send_req_5_output, msg_write] <;>
    split_ifs <;> simp

/-- The end of the inner sweep, for either kind of coin: the session ends and nothing of
the outbound transaction is written, or `txack_sign_input` is reached in a state `U` that
differs from the state `T` at most in `node`, `hash`, `to_spend` and the script of the
retained input. -/
theorem txack_finish_inner_sweep_cases (env : Env) (T : State) :
    ((txack_finish_inner_sweep env T).signing = false ∧
      Extends Event.quiet T.log (txack_finish_inner_sweep env T).log) ∨
    (∃ (U : State) (sighash : Nat),
      txack_finish_inner_sweep env T = txack_sign_input env U sighash ∧
      U.log = T.log ∧ U.to_tx = T.to_tx ∧ U.resp = T.resp ∧
      U.input = { T.input with script_sig := U.input.script_sig } ∧
      U.core = { T.core with input := U.input, to_spend := U.to_spend }) := by
  obtain ⟨c1, c2, c3⟩ := compile_input_script_sig_input env T T.input
  obtain ⟨d1, d2, d3⟩ := compile_input_script_sig_log env T T.input
  have dc := compile_input_script_sig_core env T T.input
  have quiet_fail : ∀ (code : FailureType) (text : String) (t : State), t.log = T.log →
      (fail_abort code text t).signing = false ∧
      Extends Event.quiet T.log (fail_abort code text t).log := by
    intro code text t ht
    refine ⟨fail_abort_signing _ _ _, ?_⟩
    rw [fail_abort_log_eq, ht]
    refine extends_of_append ?_
    intro e he
    simp only [List.mem_cons] at he
    rcases he with rfl | he
    · rfl
    · split_ifs at he
      · simp only [List.mem_singleton] at he
        subst he; rfl
      · simp at he
  by_cases hfork : T.coin.has_forkid = true
  · unfold txack_finish_inner_sweep
    simp only [hfork, if_true]
    split_ifs
    · exact Or.inl (quiet_fail _ _ _ d1)
    · exact Or.inl (quiet_fail _ _ _ d1)
    · exact Or.inl (quiet_fail _ _ _ d1)
    · exact Or.inl (quiet_fail _ _ _ d1)
    · right
      refine ⟨_, _, rfl, d1, c2, d2, ?_, ?_⟩
      · dsimp only
        rw [c1]
      · have := core_fields dc
        obtain ⟨f1, f2, f3, f4, f5, f6, f7, f8, f9, f10, f11, f12, f13, f14, f15, f16, f17, f18,
          f19, f20, f21⟩ := this
        simp only [State.core, Core.mk.injEq]
        dsimp only [State.core] at f1 f2 f3 f4 f5 f6 f7 f8 f9 f10 f11
        dsimp only [State.core] at f12 f13 f14 f15 f16 f17 f18 f19 f20 f21
        exact ⟨f1, f2, f3, f4, f5, f6, f7, f8, f9, f10, trivial, f12, f13, trivial, f15, f16,
          f17, f18, f19, f20, f21⟩
  · have hf : T.coin.has_forkid = false := by simpa using hfork
    unfold txack_finish_inner_sweep
    simp only [hf, Bool.false_eq_true, if_false]
    split_ifs
    · exact Or.inl (quiet_fail _ _ _ rfl)
    · right
      exact ⟨_, _, rfl, rfl, rfl, rfl, rfl, rfl⟩

/-- The step of `case STAGE_REQUEST_4_OUTPUT` of a live session, in full. Either nothing
of the outbound transaction is written, and the session has ended or the next output of
the sweep is due; or the output was the last of the sweep and the device has written the
policy call and one `TxRequest`, which carries the signature with
`signature_index = idx1` and the serialization of the retained input, its script filled
in, and it asks for the next input to sign or for the first output to serialise. -/
theorem signing_txack_4_output_full (env : Env) (s : State) (tx : TransactionType)
    (hlive : s.signing = true) (hstage : s.signing_stage = Stage.STAGE_REQUEST_4_OUTPUT) :
    (Extends Event.quiet s.log (signing_txack env s tx).log ∧
      ((signing_txack env s tx).signing = false ∨
       (s.idx2 < dec32 s.outputs_count ∧
        (signing_txack env s tx).core =
          { s.core with
            idx2 := s.idx2 + 1,
            transaction_current := s.transaction_current
              ++ env.bytes_TxOutputBinType (phase2_output env s tx) }))) ∨
    (¬ s.idx2 < dec32 s.outputs_count ∧
      ∃ r : TxRequest,
        (signing_txack env s tx).log
          = s.log ++ [Event.policy_compile_output tx.outputs false, Event.tx_request r] ∧
        r.has_serialized = true ∧ r.serialized.has_signature = true ∧
        r.serialized.has_signature_index = true ∧ r.serialized.signature_index = s.idx1 ∧
        r.serialized.has_serialized_tx = true ∧
        r.serialized.serialized_tx
          = (env.tx_serialize_input s.to_tx (signing_txack env s tx).input).1 ∧
        r.request_type = (if s.idx1 < dec32 s.inputs_count then RequestType.TXINPUT
                          else RequestType.TXOUTPUT) ∧
        r.request_index = 0 ∧
        (signing_txack env s tx).input
          = { s.input with
              script_sig := (signing_txack env s tx).input.script_sig,
              multisig := (signing_txack env s tx).input.multisig } ∧
        (signing_txack env s tx).core =
          { s.core with
            signing_stage := if s.idx1 < dec32 s.inputs_count then Stage.STAGE_REQUEST_4_INPUT
                             else Stage.STAGE_REQUEST_5_OUTPUT,
            idx1 := if s.idx1 < dec32 s.inputs_count then s.idx1 + 1 else 0,
            idx2 := if s.idx1 < dec32 s.inputs_count then 0 else s.idx2,
            input := (signing_txack env s tx).input,
            to_spend := (signing_txack env s tx).to_spend,
            transaction_current := s.transaction_current
              ++ env.bytes_TxOutputBinType (phase2_output env s tx) }) := by
  rw [signing_txack_at_4_output env s tx hlive hstage]
  rcases txack_request_4_output_cases env { s with resp := TxRequest.zero } tx rfl with
    ⟨hd, hp⟩ | ⟨hlt, hp, hc⟩ | ⟨hlast, T, hT, hlog, hcore, -, hin, -, -, hto, -⟩
  · exact Or.inl ⟨extends_mono plain_quiet hp, Or.inl hd⟩
  · refine Or.inl ⟨extends_mono plain_quiet hp, Or.inr ⟨hlt, ?_⟩⟩
    rw [hc]
    simp [State.core, hstage]
    rfl
  · dsimp only at hlog hin hto
    have h1 : Extends Event.quiet s.log T.log := by
      rw [hlog]
      exact extends_of_append (by simp [Event.quiet])
    rw [hT]
    rcases txack_finish_inner_sweep_cases env T with ⟨hd, hq⟩ | ⟨U, sighash, hU, ul, ut, -, ui, uc⟩
    · exact Or.inl ⟨extends_trans h1 hq, Or.inl hd⟩
    · rw [hU]
      rcases txack_sign_input_cases env U sighash with
        ⟨hd, hp⟩ | ⟨r, rl, r1, r2, r3, r4, -, r6, r7, r8, r9, rc⟩
      · refine Or.inl ⟨extends_trans h1 ?_, Or.inl hd⟩
        rw [← ul]
        exact extends_mono plain_quiet hp
      · right
        obtain ⟨-, -, f3, f4, f5, -⟩ := core_fields uc
        obtain ⟨-, -, g3, g4, g5, -⟩ := core_fields hcore
        obtain ⟨-, -, -, -, -, -, -, -, -, -, k11, -⟩ := core_fields rc
        dsimp only [State.core] at f3 f4 f5 g3 g4 g5 k11
        have e4 : U.idx2 = s.idx2 := f4.trans g4
        have e3 : U.idx1 = s.idx1 := f3.trans g3
        have e5 : U.inputs_count = s.inputs_count := f5.trans g5
        have hinp := txack_sign_input_input env U sighash
        refine ⟨hlast, r, ?_, r1, r2, r3, r4.trans e3, r6, ?_, ?_, r9, ?_, ?_⟩
        · rw [rl, ul, hlog]
          simp
        · rw [r7, ut, hto]
        · rw [r8, e3, e5]
        · rw [hinp, ui, hin]
        · rw [rc, uc, hcore, e3, e5]
          simp [State.core]
          exact ⟨by rw [e4], k11.symm, rfl⟩

theorem run_dead_signing (env : Env) (msgs : List HostMsg) :
    ∀ s : State, s.signing = false → (run env s msgs).signing = false := by
  induction msgs with
  | nil => intro s h; exact h
  | cons m rest ih =>
      intro s h
      rw [run]
      exact ih _ (handle_dead env s m h)

theorem log_of_step (env : Env) (s : State) (tx : TransactionType) :
    (signing_txack env s tx).log = s.log ++ new_events s (signing_txack env s tx) := by
  obtain ⟨L, hL, -⟩ := signing_txack_fee_prompts env s tx
  rw [new_events_of_append hL, hL]

/-- One structured message in a live session whose `idx1` is in range: if the session is
still live afterwards, the signature indices and the number of serialized outputs that its
state stands for have grown by exactly what the device has written. -/
theorem step_tally (env : Env) (n m : Nat) (hn1 : 1 ≤ n) (hn : n < 2 ^ 32) (s : State) (tx : TransactionType)
    (hlive : s.signing = true) (hr : s.core.in_range n m)
    (hF : (signing_txack env s tx).signing = true) :
    ∃ A, (signing_txack env s tx).log = s.log ++ A ∧
      expected_signatures (signing_txack env s tx) = expected_signatures s ++ sig_indices A ∧
      expected_outputs (signing_txack env s tx)
        = expected_outputs s + (output_chunks A).length := by
  obtain ⟨hic, hoc, hidx⟩ := hr
  dsimp only [State.core] at hic hoc hidx
  have dead_ne : ∀ {P : Prop}, (signing_txack env s tx).signing = false → P := by
    intro P h
    rw [h] at hF
    exact absurd hF (by simp)
  have of_quiet : Extends Event.quiet s.log (signing_txack env s tx).log →
      expected_signatures (signing_txack env s tx) = expected_signatures s →
      expected_outputs (signing_txack env s tx) = expected_outputs s →
      ∃ A, (signing_txack env s tx).log = s.log ++ A ∧
        expected_signatures (signing_txack env s tx) = expected_signatures s ++ sig_indices A ∧
        expected_outputs (signing_txack env s tx)
          = expected_outputs s + (output_chunks A).length := by
    rintro ⟨A, hA, hq⟩ h1 h2
    obtain ⟨q1, q2⟩ := quiet_tally A hq
    exact ⟨A, hA, by rw [q1, h1]; simp, by rw [q2, h2]; simp⟩
  by_cases hph : in_phase_2 s = true
  swap
  · have h0 : in_phase_2 s = false := by simpa using hph
    obtain ⟨e1, e2⟩ := expected_of_phase_1 s hlive h0
    refine of_quiet (phase_1_step_quiet env s tx hlive h0) ?_ ?_
    all_goals
      by_cases hph2 : in_phase_2 (signing_txack env s tx) = true
      · obtain ⟨tx2, htx, ⟨-, hst, hl, -⟩, -⟩ :=
          enters_phase_2_at_gate env s (HostMsg.txack tx) h0 hph2
        rcases signing_txack_core_3_output_last env s tx hlive hst hl with hd | hc
        · exact dead_ne hd
        · obtain ⟨-, f2, f3, -⟩ := core_fields hc
          dsimp only at f2 f3
          first
            | rw [e1]; simp [expected_signatures, f2, f3]
            | rw [e2]; simp [expected_outputs, f2]
      · first
          | rw [e1, (expected_of_phase_1 _ hF (by simpa using hph2)).1]
          | rw [e2, (expected_of_phase_1 _ hF (by simpa using hph2)).2]
  · have hst : s.signing_stage = Stage.STAGE_REQUEST_4_INPUT ∨
        s.signing_stage = Stage.STAGE_REQUEST_4_OUTPUT ∨
        s.signing_stage = Stage.STAGE_REQUEST_5_OUTPUT := by
      simp only [in_phase_2, Bool.and_eq_true, Bool.or_eq_true, decide_eq_true_eq] at hph
      rcases hph.2 with (h | h) | h
      · exact Or.inl h
      · exact Or.inr (Or.inl h)
      · exact Or.inr (Or.inr h)
    rcases hst with hst | hst | hst
    · -- an input of the inner sweep
      have hp : Extends Event.quiet s.log (signing_txack env s tx).log := by
        rw [signing_txack_at_4_input env s tx hlive hst]
        exact extends_mono plain_quiet
          (txack_request_4_input_log env { s with resp := TxRequest.zero } tx rfl)
      rcases signing_txack_core_4_input env s tx hlive hst with hd | hc
      · exact dead_ne hd
      · obtain ⟨-, f2, f3, -⟩ := core_fields hc
        dsimp only [State.core] at f2 f3
        refine of_quiet hp ?_ ?_
        · simp only [expected_signatures, f2, f3, hst]
          split_ifs <;> rfl
        · simp only [expected_outputs, f2, hst]
          split_ifs <;> rfl
    · -- an output of the inner sweep
      rcases signing_txack_4_output_full env s tx hlive hst with
        ⟨hq, hd | ⟨-, hc⟩⟩ | ⟨-, r, hlog, r1, r2, -, r4, -, -, -, -, -, hc⟩
      · exact dead_ne hd
      · obtain ⟨-, f2, f3, -, f5, -⟩ := core_fields hc
        dsimp only [State.core] at f2 f3 f5
        obtain ⟨a, b⟩ := expected_of_stage_idx1 f2 f3 f5
        exact of_quiet hq a b
      · obtain ⟨-, f2, f3, -, f5, -⟩ := core_fields hc
        dsimp only [State.core] at f2 f3 f5
        have hin : s.idx1 < n := by
          simpa [hst, Stage.is_input_stage] using hidx
        have dn : s.idx1 < dec32 s.inputs_count ↔ s.idx1 + 1 < n := by
          rw [hic]; exact dec32_lt _ _ hn1 hn
        refine ⟨_, hlog, ?_, ?_⟩
        · have hs : sig_indices [Event.policy_compile_output tx.outputs false,
              Event.tx_request r] = [s.idx1] := by
            simp [sig_indices, Event.signature_index, r1, r2, r4]
          rw [hs]
          by_cases hlt : s.idx1 < dec32 s.inputs_count
          · rw [if_pos hlt] at f2 f3
            simp only [expected_signatures, f2, f3, hst]
            exact List.range_succ _
          · rw [if_neg hlt] at f2 f3
            have : s.idx1 + 1 = n := by
              have := dn.not.1 hlt
              omega
            simp only [expected_signatures, f2, f5, hic, hst]
            rw [← this]
            exact List.range_succ _
        · have ho : output_chunks [Event.policy_compile_output tx.outputs false,
              Event.tx_request r] = [] := by
            simp [output_chunks, Event.output_chunk, r1, r2]
          rw [ho]
          by_cases hlt : s.idx1 < dec32 s.inputs_count
          · rw [if_pos hlt] at f2
            simp [expected_outputs, f2, hst]
          · rw [if_neg hlt] at f2 f3
            simp [expected_outputs, f2, f3, hst]
    · -- an output of stage 5
      rcases signing_txack_5_output_cases env s tx hlive hst with
        ⟨-, hd, -⟩ | ⟨-, r, r1, r2, -, r4, -, ⟨-, hev, -, -, -, -, hc, -⟩ | ⟨-, -, -, hd⟩⟩
      · exact dead_ne hd
      · obtain ⟨-, f2, f3, -, f5, -⟩ := core_fields hc
        dsimp only [State.core] at f2 f3 f5
        refine ⟨_, log_of_step env s tx, ?_, ?_⟩
        · rw [hev]
          have hs : sig_indices [Event.policy_compile_output tx.outputs false,
              Event.tx_request r] = [] := by
            simp [sig_indices, Event.signature_index, r4]
          rw [hs]
          simp [expected_signatures, f2, f5, hst]
        · rw [hev]
          have ho : output_chunks [Event.policy_compile_output tx.outputs false,
              Event.tx_request r] = [r.serialized.serialized_tx] := by
            simp [output_chunks, Event.output_chunk, r1, r2, r4]
          rw [ho]
          simp [expected_outputs, f2, f3, hst]
      · exact dead_ne hd

/-- A session that receives no raw bytes during phase 2: as long as it is live, the
signature indices written since the state `s` are those that the state reached stands for
beyond those of `s`, and so for the number of serialized outputs. -/
theorem run_tally (env : Env) (n m : Nat) (hn1 : 1 ≤ n) (hn : n < 2 ^ 32)
    (hm1 : 1 ≤ m) (hm : m < 2 ^ 32) (msgs : List HostMsg) :
    ∀ s : State, (s.signing = true → s.core.in_range n m) →
      raw_only_before_gate env s msgs = true →
      (run env s msgs).signing = true →
      ∃ A, (run env s msgs).log = s.log ++ A ∧
        expected_signatures (run env s msgs) = expected_signatures s ++ sig_indices A ∧
        expected_outputs (run env s msgs) = expected_outputs s + (output_chunks A).length := by
  induction msgs with
  | nil =>
      intro s _ _ _
      exact ⟨[], by simp [run], by simp [run, sig_indices], by simp [run, output_chunks]⟩
  | cons msg rest ih =>
      intro s hr hraw hF
      rw [run] at hF ⊢
      have hl1 : (handle env s msg).signing = true := by
        cases h : (handle env s msg).signing
        · rw [run_dead_signing env rest _ h] at hF
          exact absurd hF (by simp)
        · rfl
      have hlive : s.signing = true := by
        cases h : s.signing
        · rw [handle_dead env s msg h] at hl1
          exact absurd hl1 (by simp)
        · rfl
      have hr1 := handle_in_range env n m hn1 hn hm1 hm s msg hr hl1
      have hraw1 : raw_only_before_gate env (handle env s msg) rest = true := by
        cases msg with
        | txack tx => simpa [raw_only_before_gate, handle] using hraw
        | raw b =>
            simp only [raw_only_before_gate, Bool.and_eq_true] at hraw
            exact hraw.2
      obtain ⟨B, hB, hb1, hb2⟩ := ih (handle env s msg) (fun _ => hr1) hraw1 hF
      have step : ∃ A, (handle env s msg).log = s.log ++ A ∧
          expected_signatures (handle env s msg) = expected_signatures s ++ sig_indices A ∧
          expected_outputs (handle env s msg)
            = expected_outputs s + (output_chunks A).length := by
        cases msg with
        | txack tx => exact step_tally env n m hn1 hn s tx hlive (hr hlive) hl1
        | raw b =>
            simp only [raw_only_before_gate, Bool.and_eq_true, Bool.not_eq_true'] at hraw
            have h0 := hraw.1
            obtain ⟨⟨A, hA, hp⟩, -⟩ := parse_raw_txack_log env b s
            obtain ⟨q1, q2⟩ := quiet_tally A (fun e he => plain_quiet e (hp e he))
            have h2 : in_phase_2 (handle env s (HostMsg.raw b)) = false := by
              cases h : in_phase_2 (handle env s (HostMsg.raw b))
              · rfl
              · obtain ⟨tx, htx, -⟩ := enters_phase_2_at_gate env s (HostMsg.raw b) h0 h
                exact absurd htx (by simp)
            obtain ⟨e1, e2⟩ := expected_of_phase_1 s hlive h0
            obtain ⟨e3, e4⟩ := expected_of_phase_1 _ hl1 h2
            exact ⟨A, hA, by rw [e1, e3, q1]; rfl, by rw [e2, e4, q2]; rfl⟩
      obtain ⟨A, hA, ha1, ha2⟩ := step
      refine ⟨A ++ B, by rw [hB, hA, List.append_assoc], ?_, ?_⟩
      · rw [hb1, ha1, sig_indices_append, List.append_assoc]
      · rw [hb2, ha2, output_chunks_append, List.length_append, Nat.add_assoc]

/-- The step that sends `TXFINISHED`, at the end of a session that has received no raw
bytes during phase 2: the signature indices written since `signing_init` are `0` to
`inputs_count - 1` in order, and `outputs_count` serialized outputs have been written. -/
theorem finished_tally (env : Env) (n m : Nat) (coin : CoinType) (root : HDNode)
    (version lock_time : Nat) (s0 : State) (msgs : List HostMsg) (tx : TransactionType)
    (hn1 : 1 ≤ n) (hn : n < 2 ^ 32) (hm1 : 1 ≤ m) (hm : m < 2 ^ 32)
    (hraw : raw_only_before_gate env (signing_init n m coin root version lock_time s0) msgs
      = true)
    (hlive : (run env (signing_init n m coin root version lock_time s0) msgs).signing = true)
    (hstage : (run env (signing_init n m coin root version lock_time s0) msgs).signing_stage
      = Stage.STAGE_REQUEST_5_OUTPUT)
    (hlast : ¬ (run env (signing_init n m coin root version lock_time s0) msgs).idx1
      < dec32 (run env (signing_init n m coin root version lock_time s0) msgs).outputs_count)
    (hcomp : env.TXOUT_COMPILE_ERROR
      < (env.run_policy_compile_output
          (run env (signing_init n m coin root version lock_time s0) msgs).coin
          (run env (signing_init n m coin root version lock_time s0) msgs).root
          tx.outputs false).1) :
    sig_indices (new_events (signing_init n m coin root version lock_time s0)
      (signing_txack env (run env (signing_init n m coin root version lock_time s0) msgs) tx))
      = List.range n ∧
    (output_chunks (new_events (signing_init n m coin root version lock_time s0)
      (signing_txack env (run env (signing_init n m coin root version lock_time s0) msgs)
        tx))).length = m := by
  have h0 : (signing_init n m coin root version lock_time s0).signing = true →
      (signing_init n m coin root version lock_time s0).core.in_range n m := by
    intro _
    rw [signing_init_core]
    exact ⟨rfl, rfl, by simpa [Stage.is_input_stage] using hn1⟩
  obtain ⟨A, hA, a1, a2⟩ := run_tally env n m hn1 hn hm1 hm msgs _ h0 hraw hlive
  obtain ⟨hic, hoc, hidx⟩ := run_in_range env n m hn1 hn hm1 hm msgs _ h0 hlive
  dsimp only [State.core] at hic hoc hidx
  have e1 : expected_signatures (signing_init n m coin root version lock_time s0) = [] := rfl
  have e2 : expected_outputs (signing_init n m coin root version lock_time s0) = 0 := rfl
  rw [e1, List.nil_append] at a1
  rw [e2, Nat.zero_add] at a2
  simp only [expected_signatures, hstage, hic] at a1
  simp only [expected_outputs, hstage] at a2
  have hidx' : (run env (signing_init n m coin root version lock_time s0) msgs).idx1 < m := by
    simpa [hstage, Stage.is_input_stage] using hidx
  have hm' : (run env (signing_init n m coin root version lock_time s0) msgs).idx1 + 1 = m := by
    rw [hoc, dec32_lt _ _ hm1 hm] at hlast
    omega
  rcases signing_txack_5_output_cases env _ tx hlive hstage with
    ⟨hle, -, -⟩ | ⟨-, r, r1, r2, -, r4, -, ⟨hlt, -⟩ | ⟨-, hev, -, -⟩⟩
  · exact absurd hcomp (not_lt.2 hle)
  · exact absurd hlt hlast
  · have hlog := log_of_step env (run env (signing_init n m coin root version lock_time s0)
      msgs) tx
    rw [hev, hA, List.append_assoc] at hlog
    rw [new_events_of_append hlog, sig_indices_append, output_chunks_append, ← a1,
      List.length_append, ← a2]
    constructor
    · simp [sig_indices, Event.signature_index, r4]
    · simp [output_chunks, Event.output_chunk, r1, r2, r4]
      exact hm'

/-- What a `TxRequest` with a signature carries, and which call writes it. -/
theorem signature_request_facts (env : Env) (s : State) (tx : TransactionType) (r : TxRequest)
    (hmem : Event.tx_request r ∈ new_events s (signing_txack env s tx))
    (h1 : r.has_serialized = true) (h2 : r.serialized.has_signature = true) :
    s.signing = true ∧ s.signing_stage = Stage.STAGE_REQUEST_4_OUTPUT ∧
    ¬ s.idx2 < dec32 s.outputs_count ∧
    r.serialized.has_signature_index = true ∧ r.serialized.signature_index = s.idx1 ∧
    r.serialized.has_serialized_tx = true ∧
    r.serialized.serialized_tx
      = (env.tx_serialize_input s.to_tx (signing_txack env s tx).input).1 ∧
    (signing_txack env s tx).input
      = { s.input with
          script_sig := (signing_txack env s tx).input.script_sig,
          multisig := (signing_txack env s tx).input.multisig } ∧
    r.request_type = (if s.idx1 < dec32 s.inputs_count then RequestType.TXINPUT
                      else RequestType.TXOUTPUT) ∧
    (signing_txack env s tx).signing_stage
      = (if s.idx1 < dec32 s.inputs_count then Stage.STAGE_REQUEST_4_INPUT
         else Stage.STAGE_REQUEST_5_OUTPUT) := by
  obtain ⟨hlive, hstage⟩ := signature_only_in_4_output env s tx
    ⟨_, hmem, by simp [Event.has_signature, h1, h2]⟩
  rcases signing_txack_4_output_full env s tx hlive hstage with
    ⟨hq, -⟩ | ⟨hlast, r', hlog, r1, r2, r3, r4, r5, r6, r7, -, hin, hc⟩
  · have := extends_new_events hq _ hmem
    simp [Event.quiet, h1] at this
  · rw [new_events_of_append hlog] at hmem
    simp only [List.mem_cons, List.mem_singleton, List.not_mem_nil, or_false,
      Event.tx_request.injEq, reduceCtorEq, false_or] at hmem
    subst hmem
    obtain ⟨-, f2, -⟩ := core_fields hc
    dsimp only [State.core] at f2
    exact ⟨hlive, hstage, hlast, r3, r4, r5, r6, hin, r7, f2⟩

/-- A session that receives no raw bytes during phase 2, from `signing_init` on: as long as
it is live, the signature indices and the serialized outputs written are those that its
state stands for. -/
theorem session_tally (env : Env) (n m : Nat) (coin : CoinType) (root : HDNode)
    (version lock_time : Nat) (s0 : State) (msgs : List HostMsg)
    (hn1 : 1 ≤ n) (hn : n < 2 ^ 32) (hm1 : 1 ≤ m) (hm : m < 2 ^ 32)
    (hraw : raw_only_before_gate env (signing_init n m coin root version lock_time s0) msgs
      = true)
    (hlive : (run env (signing_init n m coin root version lock_time s0) msgs).signing = true) :
    sig_indices (new_events (signing_init n m coin root version lock_time s0)
        (run env (signing_init n m coin root version lock_time s0) msgs))
      = expected_signatures (run env (signing_init n m coin root version lock_time s0) msgs) ∧
    (output_chunks (new_events (signing_init n m coin root version lock_time s0)
        (run env (signing_init n m coin root version lock_time s0) msgs))).length
      = expected_outputs (run env (signing_init n m coin root version lock_time s0) msgs) := by
  have h0 : (signing_init n m coin root version lock_time s0).signing = true →
      (signing_init n m coin root version lock_time s0).core.in_range n m := by
    intro _
    rw [signing_init_core]
    exact ⟨rfl, rfl, by simpa [Stage.is_input_stage] using hn1⟩
  obtain ⟨A, hA, a1, a2⟩ := run_tally env n m hn1 hn hm1 hm msgs _ h0 hraw hlive
  have e1 : expected_signatures (signing_init n m coin root version lock_time s0) = [] := rfl
  have e2 : expected_outputs (signing_init n m coin root version lock_time s0) = 0 := rfl
  rw [new_events_of_append hA, a1, a2, e1, e2, Nat.zero_add]
  exact ⟨rfl, rfl⟩

set_option maxRecDepth 100000 in
/-- C19. (1) A `TxRequest` with a signature is written only by the call that receives the
last output of an inner sweep in a live session; it has `signature_index = idx1`, it
carries the serialization of the retained input, that is the input of the sweep at index
`idx1` with its script (for a multisig input also its signature slots) filled in, and it
asks for the next input to sign or, after the last input, for the first output of stage
`REQUEST_5_OUTPUT`: the last signature travels in the request that opens that stage.
(2) In a session, `signing_init` for counts from 1 to `2 ^ 32 - 1` followed by host
messages that deliver no raw bytes during phase 2, the signature indices written so far
are those below `idx1` during the sweeps and all of `0 .. inputs_count - 1` in stage
`REQUEST_5_OUTPUT`, in order; and when the call that sends `TXFINISHED` has returned, they
are exactly `0 .. inputs_count - 1`. (3) In `signTwiceSession`, a session of one input in
which raw bytes are delivered during phase 2, the device sends `TXFINISHED` after two
requests with a signature, both with `signature_index = 0`; before the second, the bytes
committed by the sweep are byte for byte those behind `hash_check`. -/
theorem signatures_in_index_order :
    (∀ (env : Env) (s : State) (tx : TransactionType) (r : TxRequest),
      Event.tx_request r ∈ new_events s (signing_txack env s tx) →
      r.has_serialized = true → r.serialized.has_signature = true →
      s.signing = true ∧ s.signing_stage = Stage.STAGE_REQUEST_4_OUTPUT ∧
      ¬ s.idx2 < dec32 s.outputs_count ∧
      r.serialized.has_signature_index = true ∧ r.serialized.signature_index = s.idx1 ∧
      r.serialized.has_serialized_tx = true ∧
      r.serialized.serialized_tx
        = (env.tx_serialize_input s.to_tx (signing_txack env s tx).input).1 ∧
      (signing_txack env s tx).input
        = { s.input with
            script_sig := (signing_txack env s tx).input.script_sig,
            multisig := (signing_txack env s tx).input.multisig } ∧
      r.request_type = (if s.idx1 < dec32 s.inputs_count then RequestType.TXINPUT
                        else RequestType.TXOUTPUT) ∧
      (signing_txack env s tx).signing_stage
        = (if s.idx1 < dec32 s.inputs_count then Stage.STAGE_REQUEST_4_INPUT
           else Stage.STAGE_REQUEST_5_OUTPUT)) ∧
    (∀ (env : Env) (n m : Nat) (coin : CoinType) (root : HDNode) (version lock_time : Nat)
        (s0 : State) (msgs : List HostMsg),
      1 ≤ n → n < 2 ^ 32 → 1 ≤ m → m < 2 ^ 32 →
      raw_only_before_gate env (signing_init n m coin root version lock_time s0) msgs = true →
      (run env (signing_init n m coin root version lock_time s0) msgs).signing = true →
      sig_indices (new_events (signing_init n m coin root version lock_time s0)
          (run env (signing_init n m coin root version lock_time s0) msgs))
        = expected_signatures (run env (signing_init n m coin root version lock_time s0) msgs)) ∧
    (∀ (env : Env) (n m : Nat) (coin : CoinType) (root : HDNode) (version lock_time : Nat)
        (s0 : State) (msgs : List HostMsg) (tx : TransactionType),
      1 ≤ n → n < 2 ^ 32 → 1 ≤ m → m < 2 ^ 32 →
      raw_only_before_gate env (signing_init n m coin root version lock_time s0) msgs = true →
      (run env (signing_init n m coin root version lock_time s0) msgs).signing = true →
      (run env (signing_init n m coin root version lock_time s0) msgs).signing_stage
        = Stage.STAGE_REQUEST_5_OUTPUT →
      ¬ (run env (signing_init n m coin root version lock_time s0) msgs).idx1
        < dec32 (run env (signing_init n m coin root version lock_time s0) msgs).outputs_count →
      env.TXOUT_COMPILE_ERROR
        < (env.run_policy_compile_output
            (run env (signing_init n m coin root version lock_time s0) msgs).coin
            (run env (signing_init n m coin root version lock_time s0) msgs).root
            tx.outputs false).1 →
      sig_indices (new_events (signing_init n m coin root version lock_time s0)
        (signing_txack env (run env (signing_init n m coin root version lock_time s0) msgs)
          tx)) = List.range n) ∧
    demoStart.inputs_count = 1 ∧
    (run demoEnv demoStart signTwiceSession).signing = false ∧
    (new_events demoStart (run demoEnv demoStart signTwiceSession)).any Event.is_finished
      = true ∧
    sig_indices (new_events demoStart (run demoEnv demoStart signTwiceSession)) = [0, 0] ∧
    (run demoEnv demoStart (signTwiceSession.take 11)).hash_check
      = demoEnv.sha256
          ((run demoEnv demoStart (signTwiceSession.take 11)).transaction_current
            ++ demoEnv.bytes_TxOutputBinType
                (phase2_output demoEnv (run demoEnv demoStart (signTwiceSession.take 11))
                  (ackOutput (spendOutput 100)))) :=
  ⟨signature_request_facts,
    fun env n m coin root version lock_time s0 msgs hn1 hn hm1 hm hraw hlive =>
      (session_tally env n m coin root version lock_time s0 msgs hn1 hn hm1 hm hraw hlive).1,
    fun env n m coin root version lock_time s0 msgs tx hn1 hn hm1 hm hraw hlive hstage hlast
        hcomp =>
      (finished_tally env n m coin root version lock_time s0 msgs tx hn1 hn hm1 hm hraw hlive
        hstage hlast hcomp).1,
    by decide, by decide, by decide, by decide, by decide⟩

set_option maxRecDepth 100000 in
/-- C19, at a structured session of two inputs and two outputs: when the call that sends
`TXFINISHED` has returned, the signature indices written are 0 and 1, in this order. -/
theorem signatures_in_index_order_witness :
    (run demoEnv (signing_init 2 2 demoCoin demoRoot 1 0 State.boot) twoInputSession).signing
      = true ∧
    (run demoEnv (signing_init 2 2 demoCoin demoRoot 1 0 State.boot)
      twoInputSession).signing_stage = Stage.STAGE_REQUEST_5_OUTPUT ∧
    sig_indices (new_events (signing_init 2 2 demoCoin demoRoot 1 0 State.boot)
      (signing_txack demoEnv
        (run demoEnv (signing_init 2 2 demoCoin demoRoot 1 0 State.boot) twoInputSession)
        (ackOutput (changeOutput 4000)))) = List.range 2 :=
  ⟨by decide, by decide,
    signatures_in_index_order.2.2.1 demoEnv 2 2 demoCoin demoRoot 1 0 State.boot
      twoInputSession (ackOutput (changeOutput 4000)) (by decide) (by decide) (by decide)
      (by decide) (by decide) (by decide) (by decide) (by decide) (by decide)⟩

/-- The step of `case STAGE_REQUEST_5_OUTPUT` when the output compiles, and what follows
the end of the session. -/
theorem stage_5_step (env : Env) (s : State) (tx : TransactionType) :
    s.signing = true → s.signing_stage = Stage.STAGE_REQUEST_5_OUTPUT →
    env.TXOUT_COMPILE_ERROR
      < (env.run_policy_compile_output s.coin s.root tx.outputs false).1 →
    ∃ r : TxRequest,
      r.has_serialized = true ∧ r.serialized.has_serialized_tx = true ∧
      r.serialized.serialized_tx
        = (env.tx_serialize_output s.to_tx (phase2_output env s tx)).1 ∧
      r.serialized.has_signature = false ∧
      ((s.idx1 < dec32 s.outputs_count ∧
        new_events s (signing_txack env s tx)
          = [Event.policy_compile_output tx.outputs false, Event.tx_request r] ∧
        r.request_type = RequestType.TXOUTPUT ∧ r.has_request_index = true ∧
        r.request_index = s.idx1 + 1 ∧
        (signing_txack env s tx).signing = true ∧
        (signing_txack env s tx).signing_stage = Stage.STAGE_REQUEST_5_OUTPUT ∧
        (signing_txack env s tx).idx1 = s.idx1 + 1) ∨
       (¬ s.idx1 < dec32 s.outputs_count ∧
        new_events s (signing_txack env s tx)
          = [Event.policy_compile_output tx.outputs false, Event.tx_request r,
             Event.go_home] ∧
        r.request_type = RequestType.TXFINISHED ∧
        (signing_txack env s tx).signing = false ∧
        ∀ tx2 : TransactionType,
          new_events (signing_txack env s tx)
              (signing_txack env (signing_txack env s tx) tx2)
            = [Event.failure FailureType.Failure_UnexpectedMessage "Not in Signing mode",
               Event.go_home])) := by
  intro hlive hstage hcomp
  rcases signing_txack_5_output_cases env s tx hlive hstage with
    ⟨hle, -, -⟩ | ⟨-, r, r1, r2, r3, r4, -, ⟨hlt, hev, t1, -, t3, t4, hc, -⟩ |
      ⟨hl, hev, t1, hd⟩⟩
  · exact absurd hcomp (not_lt.2 hle)
  · obtain ⟨f1, f2, f3, -⟩ := core_fields hc
    dsimp only [State.core] at f1 f2 f3
    exact ⟨r, r1, r2, r3, r4, Or.inl ⟨hlt, hev, t1, t3, t4, f1.trans hlive,
      f2.trans hstage, f3⟩⟩
  · refine ⟨r, r1, r2, r3, r4, Or.inr ⟨hl, hev, t1, hd, ?_⟩⟩
    intro tx2
    apply new_events_of_append
    rw [signing_txack_dead env _ tx2 hd]

set_option maxRecDepth 100000 in
/-- C20. (1) In stage `REQUEST_5_OUTPUT` of a live session, when the policy module
compiles the output received: the device writes the policy call and one `TxRequest`
without signature that carries the serialization of that output; if
`idx1 < outputs_count - 1` the request is of type `TXOUTPUT` for index `idx1 + 1` and the
session stays in the stage with `idx1 + 1`; otherwise it is of type `TXFINISHED`, the
device returns to the home screen, the session has ended, and every later structured
`TxAck` is answered with `Failure_UnexpectedMessage` "Not in Signing mode" and nothing
else. (2) In a session, `signing_init` for counts from 1 to `2 ^ 32 - 1` followed by host
messages that deliver no raw bytes during phase 2, the number of serialized outputs written
so far is zero before stage `REQUEST_5_OUTPUT` and `idx1` in it, and it is `outputs_count`
when the call that sends `TXFINISHED` has returned. (3) In `serializeAgainSession`, a
session of two outputs in which raw bytes are delivered during phase 2, the device sends
`TXFINISHED` after three serialized outputs: output 0, output 0 again, output 1. (4) After
the `TXFINISHED` of `signTwiceSession`, the raw previous transaction is not answered with
a failure: `parse_raw_txack` parses it and writes a `TxRequest`. -/
theorem outputs_in_index_order :
    (∀ (env : Env) (s : State) (tx : TransactionType),
      s.signing = true → s.signing_stage = Stage.STAGE_REQUEST_5_OUTPUT →
      env.TXOUT_COMPILE_ERROR
        < (env.run_policy_compile_output s.coin s.root tx.outputs false).1 →
      ∃ r : TxRequest,
        r.has_serialized = true ∧ r.serialized.has_serialized_tx = true ∧
        r.serialized.serialized_tx
          = (env.tx_serialize_output s.to_tx (phase2_output env s tx)).1 ∧
        r.serialized.has_signature = false ∧
        ((s.idx1 < dec32 s.outputs_count ∧
          new_events s (signing_txack env s tx)
            = [Event.policy_compile_output tx.outputs false, Event.tx_request r] ∧
          r.request_type = RequestType.TXOUTPUT ∧ r.has_request_index = true ∧
          r.request_index = s.idx1 + 1 ∧
          (signing_txack env s tx).signing = true ∧
          (signing_txack env s tx).signing_stage = Stage.STAGE_REQUEST_5_OUTPUT ∧
          (signing_txack env s tx).idx1 = s.idx1 + 1) ∨
         (¬ s.idx1 < dec32 s.outputs_count ∧
          new_events s (signing_txack env s tx)
            = [Event.policy_compile_output tx.outputs false, Event.tx_request r,
               Event.go_home] ∧
          r.request_type = RequestType.TXFINISHED ∧
          (signing_txack env s tx).signing = false ∧
          ∀ tx2 : TransactionType,
            new_events (signing_txack env s tx)
                (signing_txack env (signing_txack env s tx) tx2)
              = [Event.failure FailureType.Failure_UnexpectedMessage "Not in Signing mode",
                 Event.go_home]))) ∧
    (∀ (env : Env) (n m : Nat) (coin : CoinType) (root : HDNode) (version lock_time : Nat)
        (s0 : State) (msgs : List HostMsg),
      1 ≤ n → n < 2 ^ 32 → 1 ≤ m → m < 2 ^ 32 →
      raw_only_before_gate env (signing_init n m coin root version lock_time s0) msgs = true →
      (run env (signing_init n m coin root version lock_time s0) msgs).signing = true →
      (output_chunks (new_events (signing_init n m coin root version lock_time s0)
          (run env (signing_init n m coin root version lock_time s0) msgs))).length
        = expected_outputs (run env (signing_init n m coin root version lock_time s0) msgs)) ∧
    (∀ (env : Env) (n m : Nat) (coin : CoinType) (root : HDNode) (version lock_time : Nat)
        (s0 : State) (msgs : List HostMsg) (tx : TransactionType),
      1 ≤ n → n < 2 ^ 32 → 1 ≤ m → m < 2 ^ 32 →
      raw_only_before_gate env (signing_init n m coin root version lock_time s0) msgs = true →
      (run env (signing_init n m coin root version lock_time s0) msgs).signing = true →
      (run env (signing_init n m coin root version lock_time s0) msgs).signing_stage
        = Stage.STAGE_REQUEST_5_OUTPUT →
      ¬ (run env (signing_init n m coin root version lock_time s0) msgs).idx1
        < dec32 (run env (signing_init n m coin root version lock_time s0) msgs).outputs_count →
      env.TXOUT_COMPILE_ERROR
        < (env.run_policy_compile_output
            (run env (signing_init n m coin root version lock_time s0) msgs).coin
            (run env (signing_init n m coin root version lock_time s0) msgs).root
            tx.outputs false).1 →
      (output_chunks (new_events (signing_init n m coin root version lock_time s0)
        (signing_txack env (run env (signing_init n m coin root version lock_time s0) msgs)
          tx))).length = m) ∧
    twoOutputStart.outputs_count = 2 ∧
    (run demoEnv twoOutputStart serializeAgainSession).signing = false ∧
    (new_events twoOutputStart (run demoEnv twoOutputStart serializeAgainSession)).any
      Event.is_finished = true ∧
    output_chunks (new_events twoOutputStart (run demoEnv twoOutputStart serializeAgainSession))
      = [(demoEnv.tx_serialize_output twoOutputStart.to_tx
            { amount := 100, script_pubkey := [49, 65] }).1,
         (demoEnv.tx_serialize_output twoOutputStart.to_tx
            { amount := 100, script_pubkey := [49, 65] }).1,
         (demoEnv.tx_serialize_output twoOutputStart.to_tx
            { amount := 200, script_pubkey := [49, 65] }).1] ∧
    (run demoEnv demoStart signTwiceSession).signing = false ∧
    (new_events (run demoEnv demoStart signTwiceSession)
      (parse_raw_txack demoEnv (run demoEnv demoStart signTwiceSession) richRawTx)).any
      Event.is_failure = false ∧
    (new_events (run demoEnv demoStart signTwiceSession)
      (parse_raw_txack demoEnv (run demoEnv demoStart signTwiceSession) richRawTx)).any
      Event.is_tx_request = true :=
  ⟨stage_5_step,
    fun env n m coin root version lock_time s0 msgs hn1 hn hm1 hm hraw hlive =>
      (session_tally env n m coin root version lock_time s0 msgs hn1 hn hm1 hm hraw hlive).2,
    fun env n m coin root version lock_time s0 msgs tx hn1 hn hm1 hm hraw hlive hstage hlast
        hcomp =>
      (finished_tally env n m coin root version lock_time s0 msgs tx hn1 hn hm1 hm hraw hlive
        hstage hlast hcomp).2,
    by decide, by decide, by decide, by decide, by decide, by decide, by decide⟩

set_option maxRecDepth 100000 in
/-- C20, at a structured session of two inputs and two outputs: when the call that sends
`TXFINISHED` has returned, two serialized outputs have been written. -/
theorem outputs_in_index_order_witness :
    (run demoEnv (signing_init 2 2 demoCoin demoRoot 1 0 State.boot) twoInputSession).idx1
      = 1 ∧
    (output_chunks (new_events (signing_init 2 2 demoCoin demoRoot 1 0 State.boot)
      (signing_txack demoEnv
        (run demoEnv (signing_init 2 2 demoCoin demoRoot 1 0 State.boot) twoInputSession)
        (ackOutput (changeOutput 4000))))).length = 2 :=
  ⟨by decide,
    outputs_in_index_order.2.2.1 demoEnv 2 2 demoCoin demoRoot 1 0 State.boot
      twoInputSession (ackOutput (changeOutput 4000)) (by decide) (by decide) (by decide)
      (by decide) (by decide) (by decide) (by decide) (by decide) (by decide)⟩

theorem compile_input_script_sig_amount (env : Env) (s : State) (i : TxInputType) :
    (compile_input_script_sig env s i).2.2.has_amount = i.has_amount ∧
    (compile_input_script_sig env s i).2.2.amount = i.amount ∧
    (compile_input_script_sig env s i).2.1.to_spend = s.to_spend ∧
    (compile_input_script_sig env s i).2.1.log = s.log ∧
    (compile_input_script_sig env s i).2.1.signing = s.signing := by
  simp only [compile_input_script_sig]
  split_ifs <;> simp

theorem fail_abort_to_spend (code : FailureType) (text : String) (s : State) :
    (fail_abort code text s).to_spend = s.to_spend := by
  simp only [fail_abort, signing_abort, go_home, fsm_sendFailure]
  split_ifs <;> rfl

theorem txack_sign_input_to_spend (env : Env) (s : State) (sighash : Nat) :
    (txack_sign_input env s sighash).to_spend = s.to_spend := by
  simp only [txack_sign_input]
  split_ifs <;>
    simp [fail_abort_to_spend, send_req_4_input, send_req_5_output, msg_write]

/-- The end of the inner sweep for a fork-id coin whose retained input compiles: the two
amount checks and the subtraction. -/
theorem txack_finish_inner_sweep_forkid (env : Env) (T : State)
    (hfork : T.coin.has_forkid = true)
    (hc : (compile_input_script_sig env T T.input).1 = true) :
    (T.input.has_amount = false →
      (txack_finish_inner_sweep env T).log =
        T.log ++ Event.failure FailureType.Failure_Other
            "Data Error: SIGHASH_FORKID input without amount"
          :: (if T.signing then [Event.go_home] else []) ∧
      (txack_finish_inner_sweep env T).signing = false ∧
      (txack_finish_inner_sweep env T).to_spend = T.to_spend) ∧
    (T.input.has_amount = true → T.to_spend < T.input.amount →
      (txack_finish_inner_sweep env T).log =
        T.log ++ Event.failure FailureType.Failure_Other
            "Data Error: Transaction has changed during signing"
          :: (if T.signing then [Event.go_home] else []) ∧
      (txack_finish_inner_sweep env T).signing = false ∧
      (txack_finish_inner_sweep env T).to_spend = T.to_spend) ∧
    (T.input.has_amount = true → T.input.amount ≤ T.to_spend →
      (txack_finish_inner_sweep env T).to_spend = T.to_spend - T.input.amount) := by
  obtain ⟨a1, a2, a3, a4, a5⟩ := compile_input_script_sig_amount env T T.input
  unfold txack_finish_inner_sweep
  simp only [hfork, if_true, hc, Bool.not_true, Bool.false_eq_true, if_false, a1, a2, a3]
  refine ⟨?_, ?_, ?_⟩
  · intro h
    simp only [h, Bool.not_false, if_true]
    refine ⟨?_, fail_abort_signing _ _ _, ?_⟩
    · rw [fail_abort_log_eq]
      simp only [a4, a5]
    · rw [fail_abort_to_spend]
  · intro h hlt
    have hgt : T.input.amount > T.to_spend := hlt
    simp only [h, Bool.not_true, Bool.false_eq_true, if_false, if_pos hgt]
    refine ⟨?_, fail_abort_signing _ _ _, ?_⟩
    · rw [fail_abort_log_eq]
      simp only [a4, a5]
    · rw [fail_abort_to_spend]
  · intro h hle
    have hgt : ¬ T.input.amount > T.to_spend := not_lt.2 hle
    simp only [h, Bool.not_true, Bool.false_eq_true, if_false, if_neg hgt]
    split_ifs
    · rw [fail_abort_to_spend]
    · rw [txack_sign_input_to_spend]

/-- C21. The last output of an inner sweep in a live session of a fork-id coin, when the
policy module compiles the output, the serialiser accepts it and
`compile_input_script_sig` succeeds on the retained input. If the input carries no amount,
the device logs the policy call, `Failure_Other` "Data Error: SIGHASH_FORKID input without
amount" and the return to the home screen, and the session has ended. If its amount
exceeds `to_spend`, the same with "Data Error: Transaction has changed during signing". In
both cases nothing else is written, so no signature, and `to_spend` is untouched.
Otherwise `to_spend` has been decreased by exactly `input.amount`, which does not exceed
it, whatever follows (the digest comparison, the signature). -/
theorem forkid_amount_checks (env : Env) (s : State) (tx : TransactionType)
    (hlive : s.signing = true) (hstage : s.signing_stage = Stage.STAGE_REQUEST_4_OUTPUT)
    (hlast : ¬ s.idx2 < dec32 s.outputs_count)
    (hcomp : env.TXOUT_COMPILE_ERROR
      < (env.run_policy_compile_output s.coin s.root tx.outputs false).1)
    (hser : (env.tx_serialize_output_hash s.ti (phase2_output env s tx)).1 ≠ 0)
    (hfork : s.coin.has_forkid = true)
    (hscript : (compile_input_script_sig env s s.input).1 = true) :
    (s.input.has_amount = false →
      new_events s (signing_txack env s tx) =
        [Event.policy_compile_output tx.outputs false,
         Event.failure FailureType.Failure_Other
           "Data Error: SIGHASH_FORKID input without amount",
         Event.go_home] ∧
      (signing_txack env s tx).signing = false ∧
      (signing_txack env s tx).to_spend = s.to_spend) ∧
    (s.input.has_amount = true → s.to_spend < s.input.amount →
      new_events s (signing_txack env s tx) =
        [Event.policy_compile_output tx.outputs false,
         Event.failure FailureType.Failure_Other
           "Data Error: Transaction has changed during signing",
         Event.go_home] ∧
      (signing_txack env s tx).signing = false ∧
      (signing_txack env s tx).to_spend = s.to_spend) ∧
    (s.input.has_amount = true → s.input.amount ≤ s.to_spend →
      (signing_txack env s tx).to_spend + s.input.amount = s.to_spend) := by
  rw [signing_txack_at_4_output env s tx hlive hstage]
  obtain ⟨T, hT, hlog, hcore⟩ :=
    txack_request_4_output_last env { s with resp := TxRequest.zero } tx hcomp hser hlast
  obtain ⟨f1, -, -, -, -, -, f7, f8, -, -, f11, -, -, f14, -, -, -, -, -, f20, f21⟩ :=
    core_fields hcore
  dsimp only [State.core] at f1 f7 f8 f11 f14 f20 f21
  dsimp only at hlog
  have hc : (compile_input_script_sig env T T.input).1 = true := by
    rw [f14, (compile_input_script_sig_congr env s T s.input f20 f21 f8 f7).1]
    exact hscript
  obtain ⟨h1, h2, h3⟩ := txack_finish_inner_sweep_forkid env T (by rw [f7]; exact hfork) hc
  rw [hT]
  rw [f14, f11] at h1 h2 h3
  refine ⟨?_, ?_, ?_⟩
  · intro h
    obtain ⟨a, b, c⟩ := h1 h
    refine ⟨?_, b, c⟩
    apply new_events_of_append
    rw [a, hlog, f1, hlive]
    simp
  · intro h hlt
    obtain ⟨a, b, c⟩ := h2 h hlt
    refine ⟨?_, b, c⟩
    apply new_events_of_append
    rw [a, hlog, f1, hlive]
    simp
  · intro h hle
    rw [h3 h hle]
    exact Nat.sub_add_cancel hle

set_option maxRecDepth 100000 in
/-- C21, at scenario S3: the input carries its amount, 200000, which is all of
`to_spend`; after the last output of the sweep `to_spend` is zero. -/
theorem forkid_amount_checks_witness :
    forkSweepState.to_spend = 200000 ∧ forkSweepState.input.amount = 200000 ∧
    (signing_txack flatEnv forkSweepState (ackOutput (spendOutput 199000))).to_spend + 200000
      = 200000 :=
  ⟨by decide, by decide,
    (forkid_amount_checks flatEnv forkSweepState (ackOutput (spendOutput 199000))
      (by decide) (by decide) (by decide) (by decide) (by decide) (by decide)
      (by decide)).2.2 (by decide) (by decide)⟩

theorem compile_fails_early_result (env : Env) (s : State) (i : TxInputType)
    (h : compile_fails_early env s i) :
    (compile_input_script_sig env s i).1 = false ∧
    (compile_input_script_sig env s i).2.2 = i := by
  unfold compile_fails_early at h
  simp only [compile_input_script_sig]
  rcases h with ⟨h1, h2⟩ | h
  · have hcond : (!s.multisig_fp_mismatch &&
        (decide (i.script_type ≠ InputScriptType.SPENDMULTISIG)
          || decide ((env.cryptoMultisigFingerprint i.multisig).1 = 0)
          || memcmp32_ne s.multisig_fp (env.cryptoMultisigFingerprint i.multisig).2)) = true := by
      rcases h2 with h2 | h2 | h2 <;> simp [h1, h2]
    rw [if_pos hcond]
    exact ⟨rfl, rfl⟩
  · split_ifs
    · exact ⟨rfl, rfl⟩
    · exact ⟨rfl, rfl⟩

theorem compile_input_script_sig_node_congr (env : Env) (s t : State) (i : TxInputType)
    (h1 : t.multisig_fp_mismatch = s.multisig_fp_mismatch) (h2 : t.multisig_fp = s.multisig_fp)
    (h3 : t.root = s.root) (h4 : t.coin = s.coin) (h5 : t.node = s.node) :
    (compile_input_script_sig env t i).2.1.node = (compile_input_script_sig env s i).2.1.node := by
  simp only [compile_input_script_sig, h1, h2, h3, h4]
  split_ifs <;> simp [h5]

theorem txack_request_4_input_own_eq (env : Env) (s : State) (tx : TransactionType)
    (hown : s.idx2 = s.idx1) :
    txack_request_4_input env s tx =
      if (compile_input_script_sig env (sweep_input_state env s tx) tx.inputs).2.2.script_sig.length
          = 0 then
        fail_abort FailureType.Failure_Other "Failed to compile input"
          (compile_input_script_sig env (sweep_input_state env s tx) tx.inputs).2.1
      else if (tx_serialize_input_hash env (sweep_keyed_state env s tx).ti
          (compile_input_script_sig env (sweep_input_state env s tx) tx.inputs).2.2).1 = 0 then
        fail_abort FailureType.Failure_Other "Failed to serialize input"
          { sweep_keyed_state env s tx with
            ti := (tx_serialize_input_hash env (sweep_keyed_state env s tx).ti
              (compile_input_script_sig env (sweep_input_state env s tx) tx.inputs).2.2).2 }
      else if s.idx2 < dec32 s.inputs_count then
        send_req_4_input
          { sweep_keyed_state env s tx with
            ti := (tx_serialize_input_hash env (sweep_keyed_state env s tx).ti
              (compile_input_script_sig env (sweep_input_state env s tx) tx.inputs).2.2).2,
            idx2 := s.idx2 + 1 }
      else
        send_req_4_output
          { sweep_keyed_state env s tx with
            ti := (tx_serialize_input_hash env (sweep_keyed_state env s tx).ti
              (compile_input_script_sig env (sweep_input_state env s tx) tx.inputs).2.2).2,
            idx2 := 0 } := by
  have hc := compile_input_script_sig_core env (sweep_input_state env s tx) tx.inputs
  obtain ⟨-, -, -, f4, f5, -⟩ := core_fields hc
  have f4' : (compile_input_script_sig env (sweep_input_state env s tx) tx.inputs).2.1.idx2
      = s.idx2 := f4
  have f5' : (compile_input_script_sig env (sweep_input_state env s tx) tx.inputs).2.1.inputs_count
      = s.inputs_count := f5
  unfold txack_request_4_input
  simp only [hown, if_true]
  rw [hown] at f4'
  unfold sweep_keyed_state sweep_input_state sweep_ti at *
  simp only [hown] at *
  split_ifs <;> simp_all

theorem compile_input_script_sig_keeps (env : Env) (t : State) (i : TxInputType) :
    (compile_input_script_sig env t i).2.1.privkey = t.privkey ∧
    (compile_input_script_sig env t i).2.1.pubkey = t.pubkey ∧
    (compile_input_script_sig env t i).2.1.ti = t.ti ∧
    (compile_input_script_sig env t i).2.1.log = t.log ∧
    (compile_input_script_sig env t i).2.1.signing = t.signing ∧
    (compile_input_script_sig env t i).2.1.resp = t.resp := by
  simp only [compile_input_script_sig]
  split_ifs <;> simp

theorem compile_input_script_sig_ok (env : Env) (s : State) (i : TxInputType)
    (h : (compile_input_script_sig env s i).1 = true) :
    (compile_input_script_sig env s i).2.2 = { i with script_sig := compiled_script env s i } ∧
    compiled_script env s i ≠ [] := by
  simp only [compile_input_script_sig, compiled_script] at h ⊢
  split_ifs at h ⊢ <;> simp_all [List.length_pos]

theorem fail_abort_keys (code : FailureType) (text : String) (s : State) :
    (fail_abort code text s).privkey = s.privkey ∧ (fail_abort code text s).pubkey = s.pubkey ∧
    (fail_abort code text s).ti = s.ti := by
  simp only [fail_abort, signing_abort, go_home, fsm_sendFailure]
  split_ifs <;> exact ⟨rfl, rfl, rfl⟩

theorem send_req_4_input_keys (s : State) :
    (send_req_4_input s).privkey = s.privkey ∧ (send_req_4_input s).pubkey = s.pubkey ∧
    (send_req_4_input s).ti = s.ti ∧ (send_req_4_input s).signing = s.signing ∧
    ∃ r : TxRequest, (send_req_4_input s).log = s.log ++ [Event.tx_request r] :=
  ⟨rfl, rfl, rfl, rfl, _, rfl⟩

theorem send_req_4_output_keys (s : State) :
    (send_req_4_output s).privkey = s.privkey ∧ (send_req_4_output s).pubkey = s.pubkey ∧
    (send_req_4_output s).ti = s.ti ∧ (send_req_4_output s).signing = s.signing ∧
    ∃ r : TxRequest, (send_req_4_output s).log = s.log ++ [Event.tx_request r] :=
  ⟨rfl, rfl, rfl, rfl, _, rfl⟩

theorem sweep_input_state_compile (env : Env) (s : State) (tx : TransactionType) :
    (compile_input_script_sig env (sweep_input_state env s tx) tx.inputs).1
      = (compile_input_script_sig env s tx.inputs).1 ∧
    (compile_input_script_sig env (sweep_input_state env s tx) tx.inputs).2.2
      = (compile_input_script_sig env s tx.inputs).2.2 ∧
    (compile_input_script_sig env (sweep_input_state env s tx) tx.inputs).2.1.node
      = (compile_input_script_sig env s tx.inputs).2.1.node :=
  ⟨(compile_input_script_sig_congr env s (sweep_input_state env s tx) tx.inputs
      rfl rfl rfl rfl).1,
    (compile_input_script_sig_congr env s (sweep_input_state env s tx) tx.inputs
      rfl rfl rfl rfl).2,
    compile_input_script_sig_node_congr env s (sweep_input_state env s tx) tx.inputs
      rfl rfl rfl rfl rfl⟩

/-- The body of `case STAGE_REQUEST_4_INPUT` for the input to be signed, `idx2 = idx1`,
when the input record holds no script after `compile_input_script_sig`: the session ends
with "Failed to compile input", the keys are not copied and the serialiser is not fed. -/
theorem txack_request_4_input_own_empty (env : Env) (s : State) (tx : TransactionType)
    (hown : s.idx2 = s.idx1)
    (h : (compile_input_script_sig env s tx.inputs).2.2.script_sig = []) :
    (txack_request_4_input env s tx).log =
      s.log ++ Event.failure FailureType.Failure_Other "Failed to compile input"
        :: (if s.signing then [Event.go_home] else []) ∧
    (txack_request_4_input env s tx).signing = false ∧
    (txack_request_4_input env s tx).privkey
      = (if s.idx2 = 0 then List.replicate 32 0 else s.privkey) ∧
    (txack_request_4_input env s tx).pubkey
      = (if s.idx2 = 0 then List.replicate 33 0 else s.pubkey) ∧
    (txack_request_4_input env s tx).ti = sweep_ti s := by
  obtain ⟨-, e2, -⟩ := sweep_input_state_compile env s tx
  obtain ⟨k1, k2, k3, k4, k5, -⟩ :=
    compile_input_script_sig_keeps env (sweep_input_state env s tx) tx.inputs
  have h0 : (compile_input_script_sig env (sweep_input_state env s tx)
      tx.inputs).2.2.script_sig.length = 0 := by
    rw [e2, h]; rfl
  rw [txack_request_4_input_own_eq env s tx hown, if_pos h0]
  obtain ⟨a1, a2, a3⟩ := fail_abort_keys FailureType.Failure_Other "Failed to compile input"
    (compile_input_script_sig env (sweep_input_state env s tx) tx.inputs).2.1
  refine ⟨?_, fail_abort_signing _ _ _, a1.trans k1, a2.trans k2, a3.trans k3⟩
  rw [fail_abort_log_eq, k4, k5]
  rfl

/-- The body of `case STAGE_REQUEST_4_INPUT` for the input to be signed, `idx2 = idx1`,
when the input record holds a script after `compile_input_script_sig`, whatever that call
returned: the keys are copied from `node`, and the serialiser is fed the record. -/
theorem txack_request_4_input_own_script (env : Env) (s : State) (tx : TransactionType)
    (hown : s.idx2 = s.idx1)
    (h : (compile_input_script_sig env s tx.inputs).2.2.script_sig ≠ []) :
    (txack_request_4_input env s tx).privkey
      = (compile_input_script_sig env s tx.inputs).2.1.node.private_key.take 32 ∧
    (txack_request_4_input env s tx).pubkey
      = (compile_input_script_sig env s tx.inputs).2.1.node.public_key.take 33 ∧
    (txack_request_4_input env s tx).ti
      = (tx_serialize_input_hash env (sweep_ti s)
          (compile_input_script_sig env s tx.inputs).2.2).2 ∧
    ((tx_serialize_input_hash env (sweep_ti s)
          (compile_input_script_sig env s tx.inputs).2.2).1 ≠ 0 →
      (txack_request_4_input env s tx).signing = s.signing ∧
      ∃ r : TxRequest,
        (txack_request_4_input env s tx).log = s.log ++ [Event.tx_request r]) := by
  obtain ⟨-, e2, e3⟩ := sweep_input_state_compile env s tx
  obtain ⟨-, -, k3, k4, k5, -⟩ :=
    compile_input_script_sig_keeps env (sweep_input_state env s tx) tx.inputs
  have kt : (sweep_keyed_state env s tx).ti = sweep_ti s := k3
  have h0 : ¬ (compile_input_script_sig env (sweep_input_state env s tx)
      tx.inputs).2.2.script_sig.length = 0 := by
    rw [e2, List.length_eq_zero]; exact h
  have p1 : (sweep_keyed_state env s tx).privkey
      = (compile_input_script_sig env s tx.inputs).2.1.node.private_key.take 32 := by
    rw [← e3]; rfl
  have p2 : (sweep_keyed_state env s tx).pubkey
      = (compile_input_script_sig env s tx.inputs).2.1.node.public_key.take 33 := by
    rw [← e3]; rfl
  have p4 : (sweep_keyed_state env s tx).log = s.log := k4
  have p5 : (sweep_keyed_state env s tx).signing = s.signing := k5
  rw [txack_request_4_input_own_eq env s tx hown, if_neg h0, e2, kt]
  by_cases hser : (tx_serialize_input_hash env (sweep_ti s)
      (compile_input_script_sig env s tx.inputs).2.2).1 = 0
  · rw [if_pos hser]
    obtain ⟨a1, a2, a3⟩ := fail_abort_keys FailureType.Failure_Other "Failed to serialize input"
      { sweep_keyed_state env s tx with
        ti := (tx_serialize_input_hash env (sweep_ti s)
          (compile_input_script_sig env s tx.inputs).2.2).2 }
    exact ⟨a1.trans p1, a2.trans p2, a3, fun hne => absurd hser hne⟩
  · rw [if_neg hser]
    by_cases hmore : s.idx2 < dec32 s.inputs_count
    · rw [if_pos hmore]
      obtain ⟨a1, a2, a3, a4, r, a5⟩ := send_req_4_input_keys
        { sweep_keyed_state env s tx with
          ti := (tx_serialize_input_hash env (sweep_ti s)
            (compile_input_script_sig env s tx.inputs).2.2).2,
          idx2 := s.idx2 + 1 }
      exact ⟨a1.trans p1, a2.trans p2, a3, fun _ => ⟨a4.trans p5, r, by rw [a5]; exact congrArg (· ++ _) p4⟩⟩
    · rw [if_neg hmore]
      obtain ⟨a1, a2, a3, a4, r, a5⟩ := send_req_4_output_keys
        { sweep_keyed_state env s tx with
          ti := (tx_serialize_input_hash env (sweep_ti s)
            (compile_input_script_sig env s tx.inputs).2.2).2,
          idx2 := 0 }
      exact ⟨a1.trans p1, a2.trans p2, a3, fun _ => ⟨a4.trans p5, r, by rw [a5]; exact congrArg (· ++ _) p4⟩⟩

/-- The body of `case STAGE_REQUEST_4_INPUT` for an input that is not the one to be
signed: the serialiser is fed the input with an empty script. -/
theorem txack_request_4_input_other (env : Env) (s : State) (tx : TransactionType)
    (hother : s.idx2 ≠ s.idx1) :
    (txack_request_4_input env s tx).ti
      = (tx_serialize_input_hash env (sweep_ti s) { tx.inputs with script_sig := [] }).2 := by
  unfold txack_request_4_input sweep_ti
  simp only [hother, if_false]
  split_ifs <;>
    first
    | exact (fail_abort_keys _ _ _).2.2
    | exact (send_req_4_input_keys _).2.2.1

theorem new_events_append (s t : State) (L : List Event) (h : t.log = s.log ++ L) :
    new_events s t = L := by
  unfold new_events
  rw [h, List.drop_left]

/-- C22: in stage `REQUEST_4_INPUT` with `idx2 = idx1` the return value of
`compile_input_script_sig` is not looked at, only the size of the script in the input
record. When the compilation fails early (fingerprint check or key derivation) the record
still holds the script the host sent. With an empty host script the device sends
`Failure_Other` "Failed to compile input", ends the session and leaves `privkey` and
`pubkey` as the start of the sweep left them. With a non-empty host script (and a
serialiser that accepts the input) no failure is sent, the session stays live, and the keys
are copied from `node` as the failed compilation left it. In `noKeyEnv`, where every
derivation fails, the session of `noKeyGateState` answers the input of the sweep with a
request, copies the private key of the root node, and goes on to emit a signature. -/
theorem failed_compile_with_host_script (env : Env) (s : State) (tx : TransactionType)
    (hlive : s.signing = true) (hstage : s.signing_stage = Stage.STAGE_REQUEST_4_INPUT)
    (hown : s.idx2 = s.idx1) (hfail : compile_fails_early env s tx.inputs) :
    (tx.inputs.script_sig = [] →
      new_events s (signing_txack env s tx)
        = [Event.failure FailureType.Failure_Other "Failed to compile input", Event.go_home] ∧
      (signing_txack env s tx).signing = false ∧
      (signing_txack env s tx).privkey
        = (if s.idx2 = 0 then List.replicate 32 0 else s.privkey) ∧
      (signing_txack env s tx).pubkey
        = (if s.idx2 = 0 then List.replicate 33 0 else s.pubkey)) ∧
    (tx.inputs.script_sig ≠ [] →
      (tx_serialize_input_hash env (sweep_ti s) tx.inputs).1 ≠ 0 →
      (signing_txack env s tx).signing = true ∧
      (∃ r : TxRequest, new_events s (signing_txack env s tx) = [Event.tx_request r]) ∧
      (signing_txack env s tx).privkey
        = (compile_input_script_sig env s tx.inputs).2.1.node.private_key.take 32 ∧
      (signing_txack env s tx).pubkey
        = (compile_input_script_sig env s tx.inputs).2.1.node.public_key.take 33) ∧
    (noKeyGateState.signing = true ∧
      noKeyGateState.signing_stage = Stage.STAGE_REQUEST_4_INPUT ∧
      noKeyGateState.idx2 = noKeyGateState.idx1 ∧
      compile_fails_early noKeyEnv noKeyGateState hostScriptInput ∧
      (signing_txack noKeyEnv noKeyGateState (ackInput hostScriptInput)).signing = true ∧
      (new_events noKeyGateState
          (signing_txack noKeyEnv noKeyGateState (ackInput hostScriptInput))).all
        (fun e => !Event.is_failure e) = true ∧
      (signing_txack noKeyEnv noKeyGateState (ackInput hostScriptInput)).privkey
        = demoRoot.private_key.take 32 ∧
      sig_indices (new_events noKeyGateState
          (run_txacks noKeyEnv noKeyGateState
            [ackInput hostScriptInput, ackOutput (spendOutput 9000)])) = [0]) := by
  have e1 := signing_txack_at_4_input env s tx hlive hstage
  have c2 : (compile_input_script_sig env { s with resp := TxRequest.zero } tx.inputs).2.2
      = tx.inputs :=
    ((compile_input_script_sig_congr env s { s with resp := TxRequest.zero } tx.inputs
      rfl rfl rfl rfl).2).trans (compile_fails_early_result env s tx.inputs hfail).2
  have c3 : (compile_input_script_sig env { s with resp := TxRequest.zero } tx.inputs).2.1.node
      = (compile_input_script_sig env s tx.inputs).2.1.node :=
    compile_input_script_sig_node_congr env s { s with resp := TxRequest.zero } tx.inputs
      rfl rfl rfl rfl rfl
  refine ⟨?_, ?_, ?_⟩
  · intro hempty
    obtain ⟨a1, a2, a3, a4, -⟩ :=
      txack_request_4_input_own_empty env { s with resp := TxRequest.zero } tx hown
        (by rw [c2]; exact hempty)
    rw [e1]
    refine ⟨new_events_append _ _ _ ?_, a2, a3, a4⟩
    rw [a1]
    simp only [hlive, if_true]
  · intro hscript hser
    obtain ⟨a1, a2, -, a4⟩ :=
      txack_request_4_input_own_script env { s with resp := TxRequest.zero } tx hown
        (by rw [c2]; exact hscript)
    rw [c2] at a4
    obtain ⟨b1, r, b2⟩ := a4 hser
    rw [e1]
    exact ⟨b1.trans hlive, ⟨r, new_events_append _ _ _ b2⟩, a1.trans (by rw [c3]),
      a2.trans (by rw [c3])⟩
  · exact ⟨by decide, by decide, by decide, Or.inr (by decide), by decide, by decide, by decide,
      by decide⟩

/-- Witness for C22. -/
theorem failed_compile_with_host_script_witness :
    new_events noKeyGateState (signing_txack noKeyEnv noKeyGateState (ackInput zeroInput))
      = [Event.failure FailureType.Failure_Other "Failed to compile input", Event.go_home] ∧
    (signing_txack noKeyEnv noKeyGateState (ackInput hostScriptInput)).signing = true ∧
    (signing_txack noKeyEnv noKeyGateState (ackInput hostScriptInput)).privkey
      = List.replicate 32 1 :=
  ⟨((failed_compile_with_host_script noKeyEnv noKeyGateState (ackInput zeroInput)
      (by decide) (by decide) (by decide) (Or.inr (by decide))).1 (by decide)).1,
   ((failed_compile_with_host_script noKeyEnv noKeyGateState (ackInput hostScriptInput)
      (by decide) (by decide) (by decide) (Or.inr (by decide))).2.1
        (by decide) (by decide)).1,
   by decide⟩

/-- C27: in stage `REQUEST_4_INPUT` of a live session, an input that is not the one to be
signed (`idx2 ≠ idx1`) is fed to the serialiser `ti` with an empty script, whatever script
the host sent. For `idx2 = idx1`: when `compile_input_script_sig` succeeds the input is fed
with the compiled script, which is not empty; when the input record holds no script after
the call the session ends with "Failed to compile input" and `ti` is not fed. But when the
compilation fails early (fingerprint check or key derivation), the record still holds the
script the host sent, and if that is not empty the input is fed to `ti` with the host's
script and, the serialiser accepting it, the session stays live. In the session of
`multisigGateState` the input `forgedMultisigInput`, whose fingerprint differs from the one
of phase 1, is fed to `ti` with the host's script `[7, 7]`, where the compiled script would
be `[174, 6]`. -/
theorem sweep_input_scripts (env : Env) (s : State) (tx : TransactionType)
    (hlive : s.signing = true) (hstage : s.signing_stage = Stage.STAGE_REQUEST_4_INPUT) :
    (s.idx2 ≠ s.idx1 →
      (signing_txack env s tx).ti
        = (tx_serialize_input_hash env (sweep_ti s) { tx.inputs with script_sig := [] }).2) ∧
    (s.idx2 = s.idx1 → (compile_input_script_sig env s tx.inputs).1 = true →
      compiled_script env s tx.inputs ≠ [] ∧
      (signing_txack env s tx).ti
        = (tx_serialize_input_hash env (sweep_ti s)
            { tx.inputs with script_sig := compiled_script env s tx.inputs }).2) ∧
    (s.idx2 = s.idx1 → (compile_input_script_sig env s tx.inputs).2.2.script_sig = [] →
      new_events s (signing_txack env s tx)
        = [Event.failure FailureType.Failure_Other "Failed to compile input", Event.go_home] ∧
      (signing_txack env s tx).signing = false ∧
      (signing_txack env s tx).ti = sweep_ti s) ∧
    (s.idx2 = s.idx1 → compile_fails_early env s tx.inputs → tx.inputs.script_sig ≠ [] →
      (signing_txack env s tx).ti = (tx_serialize_input_hash env (sweep_ti s) tx.inputs).2 ∧
      ((tx_serialize_input_hash env (sweep_ti s) tx.inputs).1 ≠ 0 →
        (signing_txack env s tx).signing = true ∧
        ∃ r : TxRequest, new_events s (signing_txack env s tx) = [Event.tx_request r])) ∧
    (multisigGateState.signing = true ∧
      multisigGateState.signing_stage = Stage.STAGE_REQUEST_4_INPUT ∧
      multisigGateState.idx2 = multisigGateState.idx1 ∧
      (compile_input_script_sig demoEnv multisigGateState forgedMultisigInput).1 = false ∧
      compiled_script demoEnv multisigGateState forgedMultisigInput = [174, 6] ∧
      (signing_txack demoEnv multisigGateState (ackInput forgedMultisigInput)).signing = true ∧
      (new_events multisigGateState
          (signing_txack demoEnv multisigGateState (ackInput forgedMultisigInput))).all
        (fun e => !Event.is_failure e) = true ∧
      (signing_txack demoEnv multisigGateState (ackInput forgedMultisigInput)).ti.ctx
        = List.replicate 32 0 ++ [0, 0, 0, 0] ++ [7, 7]) := by
  have e1 := signing_txack_at_4_input env s tx hlive hstage
  have c1 := compile_input_script_sig_congr env s { s with resp := TxRequest.zero } tx.inputs
    rfl rfl rfl rfl
  refine ⟨?_, ?_, ?_, ?_, ?_⟩
  · intro hother
    rw [e1]
    exact txack_request_4_input_other env { s with resp := TxRequest.zero } tx hother
  · intro hown hok
    obtain ⟨o1, o2⟩ := compile_input_script_sig_ok env s tx.inputs hok
    obtain ⟨-, -, a3, -⟩ :=
      txack_request_4_input_own_script env { s with resp := TxRequest.zero } tx hown
        (by rw [c1.2, o1]; exact o2)
    rw [c1.2, o1] at a3
    rw [e1]
    exact ⟨o2, a3⟩
  · intro hown hempty
    obtain ⟨a1, a2, -, -, a5⟩ :=
      txack_request_4_input_own_empty env { s with resp := TxRequest.zero } tx hown
        (by rw [c1.2]; exact hempty)
    rw [e1]
    refine ⟨new_events_append _ _ _ ?_, a2, a5⟩
    rw [a1]
    simp only [hlive, if_true]
  · intro hown hfail hscript
    have c2 := (compile_fails_early_result env s tx.inputs hfail).2
    obtain ⟨-, -, a3, a4⟩ :=
      txack_request_4_input_own_script env { s with resp := TxRequest.zero } tx hown
        (by rw [c1.2, c2]; exact hscript)
    rw [c1.2, c2] at a3 a4
    rw [e1]
    refine ⟨a3, fun hser => ?_⟩
    obtain ⟨b1, r, b2⟩ := a4 hser
    exact ⟨b1.trans hlive, r, new_events_append _ _ _ b2⟩
  · exact ⟨by decide, by decide, by decide, by decide, by decide, by decide, by decide,
      by decide⟩

/-- Witness for C27. -/
theorem sweep_input_scripts_witness :
    compiled_script demoEnv multisigGateState (multisigInput [5]) ≠ [] ∧
    (signing_txack demoEnv multisigGateState
        (ackInput { multisigInput [5] with script_sig := [7, 7] })).ti
      = (tx_serialize_input_hash demoEnv (sweep_ti multisigGateState)
          { multisigInput [5] with script_sig := [174, 5] }).2 :=
  (sweep_input_scripts demoEnv multisigGateState
    (ackInput { multisigInput [5] with script_sig := [7, 7] }) (by decide) (by decide)).2.1
    (by decide) (by decide)

theorem fail_abort_fp (code : FailureType) (text : String) (s : State) :
    (fail_abort code text s).multisig_fp_mismatch = s.multisig_fp_mismatch ∧
    (fail_abort code text s).multisig_fp_set = s.multisig_fp_set ∧
    (fail_abort code text s).multisig_fp = s.multisig_fp := by
  simp only [fail_abort, signing_abort, go_home, fsm_sendFailure]
  split_ifs <;> exact ⟨rfl, rfl, rfl⟩

theorem signing_abort_fp (s : State) :
    (signing_abort s).multisig_fp_mismatch = s.multisig_fp_mismatch ∧
    (signing_abort s).multisig_fp_set = s.multisig_fp_set ∧
    (signing_abort s).multisig_fp = s.multisig_fp := by
  simp only [signing_abort, go_home]
  split_ifs <;> exact ⟨rfl, rfl, rfl⟩

theorem send_fsm_co_error_message_fp (env : Env) (e : Int) (s : State) :
    (send_fsm_co_error_message env e s).multisig_fp_mismatch = s.multisig_fp_mismatch ∧
    (send_fsm_co_error_message env e s).multisig_fp_set = s.multisig_fp_set ∧
    (send_fsm_co_error_message env e s).multisig_fp = s.multisig_fp := by
  simp only [send_fsm_co_error_message, fsm_sendFailure]
  split_ifs <;> (try split) <;> exact ⟨rfl, rfl, rfl⟩

theorem input_multisig_fp_mono (env : Env) (s : State) (i : TxInputType)
    (h : s.multisig_fp_mismatch = true) :
    (input_multisig_fp env s i).2.multisig_fp_mismatch = true := by
  simp only [input_multisig_fp]
  split_ifs <;> first | exact h | rfl

/-- The multisig bookkeeping after `case STAGE_REQUEST_1_INPUT` is the one that
`input_multisig_fp` leaves, and the session is over if that reported an error. -/
theorem txack_request_1_input_fp (env : Env) (s : State) (tx : TransactionType) :
    (txack_request_1_input env s tx).multisig_fp_mismatch
      = (input_multisig_fp env s tx.inputs).2.multisig_fp_mismatch ∧
    (txack_request_1_input env s tx).multisig_fp_set
      = (input_multisig_fp env s tx.inputs).2.multisig_fp_set ∧
    (txack_request_1_input env s tx).multisig_fp
      = (input_multisig_fp env s tx.inputs).2.multisig_fp ∧
    ((txack_request_1_input env s tx).signing = true →
      (input_multisig_fp env s tx.inputs).1 = true) := by
  simp only [txack_request_1_input]
  split_ifs with h
  · refine ⟨(fail_abort_fp _ _ _).1, (fail_abort_fp _ _ _).2.1, (fail_abort_fp _ _ _).2.2, ?_⟩
    intro hl
    rw [fail_abort_signing] at hl
    cases hl
  · exact ⟨rfl, rfl, rfl, fun _ => by simpa using h⟩

theorem txack_request_1_input_mono (env : Env) (s : State) (tx : TransactionType)
    (h : s.multisig_fp_mismatch = true) :
    (txack_request_1_input env s tx).multisig_fp_mismatch = true :=
  (txack_request_1_input_fp env s tx).1.trans (input_multisig_fp_mono env s tx.inputs h)

theorem txack_request_2_prev_input_fp (env : Env) (s : State) (tx : TransactionType) :
    (txack_request_2_prev_input env s tx).multisig_fp_mismatch = s.multisig_fp_mismatch ∧
    (txack_request_2_prev_input env s tx).multisig_fp_set = s.multisig_fp_set ∧
    (txack_request_2_prev_input env s tx).multisig_fp = s.multisig_fp := by
  simp only [txack_request_2_prev_input]
  split_ifs <;> simp only [fail_abort_fp, send_req_2_prev_input, send_req_2_prev_output,
    msg_write, and_self]

theorem txack_request_2_prev_output_fp (env : Env) (s : State) (tx : TransactionType) :
    (txack_request_2_prev_output env s tx).multisig_fp_mismatch = s.multisig_fp_mismatch ∧
    (txack_request_2_prev_output env s tx).multisig_fp_set = s.multisig_fp_set ∧
    (txack_request_2_prev_output env s tx).multisig_fp = s.multisig_fp := by
  simp only [txack_request_2_prev_output]
  split_ifs <;> simp only [fail_abort_fp, send_req_2_prev_output, send_req_1_input,
    send_req_3_output, msg_write, and_self]

theorem txack_confirmation_gate_fp (env : Env) (s : State) :
    (txack_confirmation_gate env s).multisig_fp_mismatch = s.multisig_fp_mismatch ∧
    (txack_confirmation_gate env s).multisig_fp_set = s.multisig_fp_set ∧
    (txack_confirmation_gate env s).multisig_fp = s.multisig_fp := by
  simp only [txack_confirmation_gate]
  split_ifs <;> simp only [fail_abort_fp, send_req_4_input, msg_write, and_self]

theorem txack_request_3_output_fp (env : Env) (s : State) (tx : TransactionType) :
    (txack_request_3_output env s tx).multisig_fp_mismatch = s.multisig_fp_mismatch ∧
    (txack_request_3_output env s tx).multisig_fp_set = s.multisig_fp_set ∧
    (txack_request_3_output env s tx).multisig_fp = s.multisig_fp := by
  simp only [txack_request_3_output]
  split
  · exact fail_abort_fp _ _ _
  · split_ifs <;>
      simp only [fail_abort_fp, signing_abort_fp, send_fsm_co_error_message_fp,
        txack_confirmation_gate_fp, run_policy_compile_output, send_req_3_output, msg_write,
        and_self]

theorem compile_input_script_sig_fp (env : Env) (s : State) (i : TxInputType) :
    (compile_input_script_sig env s i).2.1.multisig_fp_mismatch = s.multisig_fp_mismatch ∧
    (compile_input_script_sig env s i).2.1.multisig_fp_set = s.multisig_fp_set ∧
    (compile_input_script_sig env s i).2.1.multisig_fp = s.multisig_fp := by
  simp only [compile_input_script_sig]
  split_ifs <;> exact ⟨rfl, rfl, rfl⟩

theorem txack_request_4_input_fp (env : Env) (s : State) (tx : TransactionType) :
    (txack_request_4_input env s tx).multisig_fp_mismatch = s.multisig_fp_mismatch ∧
    (txack_request_4_input env s tx).multisig_fp_set = s.multisig_fp_set ∧
    (txack_request_4_input env s tx).multisig_fp = s.multisig_fp := by
  simp only [txack_request_4_input]
  split_ifs <;>
    simp only [fail_abort_fp, compile_input_script_sig_fp, send_req_4_input,
      send_req_4_output, msg_write, and_self]

theorem txack_sign_input_fp (env : Env) (s : State) (sighash : Nat) :
    (txack_sign_input env s sighash).multisig_fp_mismatch = s.multisig_fp_mismatch ∧
    (txack_sign_input env s sighash).multisig_fp_set = s.multisig_fp_set ∧
    (txack_sign_input env s sighash).multisig_fp = s.multisig_fp := by
  simp only [txack_sign_input]
  split_ifs <;>
    simp only [fail_abort_fp, send_req_4_input, send_req_5_output, msg_write, and_self]

theorem txack_finish_inner_sweep_fp (env : Env) (s : State) :
    (txack_finish_inner_sweep env s).multisig_fp_mismatch = s.multisig_fp_mismatch ∧
    (txack_finish_inner_sweep env s).multisig_fp_set = s.multisig_fp_set ∧
    (txack_finish_inner_sweep env s).multisig_fp = s.multisig_fp := by
  simp only [txack_finish_inner_sweep]
  split_ifs <;>
    simp only [fail_abort_fp, txack_sign_input_fp, compile_input_script_sig_fp, and_self]

theorem txack_request_4_output_fp (env : Env) (s : State) (tx : TransactionType) :
    (txack_request_4_output env s tx).multisig_fp_mismatch = s.multisig_fp_mismatch ∧
    (txack_request_4_output env s tx).multisig_fp_set = s.multisig_fp_set ∧
    (txack_request_4_output env s tx).multisig_fp = s.multisig_fp := by
  simp only [txack_request_4_output]
  split_ifs <;>
    simp only [fail_abort_fp, signing_abort_fp, send_fsm_co_error_message_fp,
      txack_finish_inner_sweep_fp, run_policy_compile_output, send_req_4_output, msg_write,
      and_self]

theorem txack_request_5_output_fp (env : Env) (s : State) (tx : TransactionType) :
    (txack_request_5_output env s tx).multisig_fp_mismatch = s.multisig_fp_mismatch ∧
    (txack_request_5_output env s tx).multisig_fp_set = s.multisig_fp_set ∧
    (txack_request_5_output env s tx).multisig_fp = s.multisig_fp := by
  simp only [txack_request_5_output]
  split_ifs <;>
    simp only [signing_abort_fp, send_fsm_co_error_message_fp, run_policy_compile_output,
      send_req_5_output, send_req_finished, msg_write, and_self]

/-- Outside stage `REQUEST_1_INPUT` of a live session, a call of `signing_txack` leaves
the multisig bookkeeping as it was, whether it ends the session or not. -/
theorem signing_txack_fp (env : Env) (s : State) (tx : TransactionType)
    (h : ¬ (s.signing = true ∧ s.signing_stage = Stage.STAGE_REQUEST_1_INPUT)) :
    (signing_txack env s tx).multisig_fp_mismatch = s.multisig_fp_mismatch ∧
    (signing_txack env s tx).multisig_fp_set = s.multisig_fp_set ∧
    (signing_txack env s tx).multisig_fp = s.multisig_fp := by
  unfold signing_txack
  split_ifs with hl
  · exact ⟨rfl, rfl, rfl⟩
  · split
    · rename_i hst
      exact absurd ⟨by simpa using hl, hst⟩ h
    · exact ⟨rfl, rfl, rfl⟩
    · exact txack_request_2_prev_input_fp env _ tx
    · exact txack_request_2_prev_output_fp env _ tx
    · exact txack_request_3_output_fp env _ tx
    · exact txack_request_4_input_fp env _ tx
    · exact txack_request_4_output_fp env _ tx
    · exact txack_request_5_output_fp env _ tx

/-- A call of `signing_txack` never clears `multisig_fp_mismatch`. -/
theorem signing_txack_mismatch_mono (env : Env) (s : State) (tx : TransactionType)
    (h : s.multisig_fp_mismatch = true) :
    (signing_txack env s tx).multisig_fp_mismatch = true := by
  by_cases h1 : s.signing = true ∧ s.signing_stage = Stage.STAGE_REQUEST_1_INPUT
  · rw [signing_txack_at_1_input env s tx h1.1 h1.2]
    exact txack_request_1_input_mono env _ tx h
  · exact (signing_txack_fp env s tx h1).1.trans h

theorem store_ptr_fp (s : State) (b : Nat) :
    (store_ptr s b).multisig_fp_mismatch = s.multisig_fp_mismatch ∧
    (store_ptr s b).multisig_fp_set = s.multisig_fp_set ∧
    (store_ptr s b).multisig_fp = s.multisig_fp := by
  simp only [store_ptr]
  split <;> (try split_ifs) <;> exact ⟨rfl, rfl, rfl⟩

theorem push_var_int_fp (s : State) (b : Nat) :
    (push_var_int s b).multisig_fp_mismatch = s.multisig_fp_mismatch ∧
    (push_var_int s b).multisig_fp_set = s.multisig_fp_set ∧
    (push_var_int s b).multisig_fp = s.multisig_fp := by
  simp only [push_var_int]
  split_ifs <;> exact ⟨rfl, rfl, rfl⟩

theorem parse_raw_byte_fp (env : Env) (s : State) (b : Nat) :
    (parse_raw_byte env s b).1.multisig_fp_mismatch = s.multisig_fp_mismatch ∧
    (parse_raw_byte env s b).1.multisig_fp_set = s.multisig_fp_set ∧
    (parse_raw_byte env s b).1.multisig_fp = s.multisig_fp := by
  simp only [parse_raw_byte, parsing_version, parsing_input_count, parsing_inputs,
    parsing_output_count, parsing_outputs_value, parsing_outputs, parsing_locktime,
    reset_parsing_buffer, hash_raw_byte]
  split <;> split_ifs <;>
    simp only [store_ptr_fp, push_var_int_fp, signing_abort_fp,
      fsm_sendFailure, send_req_1_input, send_req_3_output, msg_write, and_self]

/-- A call of `parse_raw_txack` leaves the multisig bookkeeping as it was. -/
theorem parse_raw_txack_fp (env : Env) (msg : Bytes) :
    ∀ s : State,
      (parse_raw_txack env s msg).multisig_fp_mismatch = s.multisig_fp_mismatch ∧
      (parse_raw_txack env s msg).multisig_fp_set = s.multisig_fp_set ∧
      (parse_raw_txack env s msg).multisig_fp = s.multisig_fp := by
  induction msg with
  | nil => intro s; exact ⟨rfl, rfl, rfl⟩
  | cons b rest ih =>
    intro s
    obtain ⟨a1, a2, a3⟩ := parse_raw_byte_fp env s b
    rw [parse_raw_txack]
    split_ifs
    · exact ⟨a1, a2, a3⟩
    · obtain ⟨b1, b2, b3⟩ := ih (parse_raw_byte env s b).1
      exact ⟨b1.trans a1, b2.trans a2, b3.trans a3⟩

theorem handle_mismatch_mono (env : Env) (s : State) (m : HostMsg)
    (h : s.multisig_fp_mismatch = true) : (handle env s m).multisig_fp_mismatch = true := by
  cases m with
  | txack tx => exact signing_txack_mismatch_mono env s tx h
  | raw msg => exact (parse_raw_txack_fp env msg s).1.trans h

theorem run_mismatch_mono (env : Env) (msgs : List HostMsg) :
    ∀ s : State, s.multisig_fp_mismatch = true →
      (run env s msgs).multisig_fp_mismatch = true := by
  induction msgs with
  | nil => intro s h; exact h
  | cons m rest ih =>
    intro s h
    rw [run]
    exact ih _ (handle_mismatch_mono env s m h)

/-- C24: `multisig_fp_mismatch` is monotonic. Once it is true, it is true after every call
of `signing_txack` and of `parse_raw_txack`, in whatever stage and whether the call ends the
session or not, and so after every sequence of host messages; `signing_init` clears it. -/
theorem multisig_fp_mismatch_monotonic (env : Env) (s : State)
    (h : s.multisig_fp_mismatch = true) :
    (∀ tx : TransactionType, (signing_txack env s tx).multisig_fp_mismatch = true) ∧
    (∀ msg : Bytes, (parse_raw_txack env s msg).multisig_fp_mismatch = true) ∧
    (∀ msgs : List HostMsg, (run env s msgs).multisig_fp_mismatch = true) ∧
    (∀ (n m : Nat) (coin : CoinType) (root : HDNode) (v lt : Nat),
      (signing_init n m coin root v lt s).multisig_fp_mismatch = false) :=
  ⟨fun tx => signing_txack_mismatch_mono env s tx h,
    fun msg => (parse_raw_txack_fp env msg s).1.trans h,
    fun msgs => run_mismatch_mono env msgs s h, fun _ _ _ _ _ _ => rfl⟩

/-- Witness for C24: after the first input of `demoStart`, which is not a multisig input,
the flag is set, and it is still set after the messages of `rawSession` and
`reentrySession`. -/
theorem multisig_fp_mismatch_monotonic_witness :
    (signing_txack demoEnv demoStart (ackInput zeroInput)).multisig_fp_mismatch = true ∧
    (run demoEnv (signing_txack demoEnv demoStart (ackInput zeroInput))
      (rawSession ++ reentrySession)).multisig_fp_mismatch = true :=
  ⟨by decide,
   (multisig_fp_mismatch_monotonic demoEnv (signing_txack demoEnv demoStart (ackInput zeroInput))
      (by decide)).2.2.1 _⟩

/-- When the call on `a` returns from inside the loop, bytes after `a` in the same message
are not looked at. -/
theorem parse_raw_txack_completed (env : Env) (a b : Bytes) :
    ∀ s : State, reaches_completion env s a = true →
      parse_raw_txack env s (a ++ b) = parse_raw_txack env s a := by
  induction a with
  | nil => intro s h; cases h
  | cons x rest ih =>
    intro s h
    rw [List.cons_append, parse_raw_txack, parse_raw_txack]
    by_cases hx : (parse_raw_byte env s x).2 = true
    · rw [if_pos hx, if_pos hx]
    · rw [if_neg hx, if_neg hx]
      rw [reaches_completion] at h
      have hx' : (parse_raw_byte env s x).2 = false := by simpa using hx
      rw [hx', Bool.false_or] at h
      exact ih _ h

/-- C30: if the call of `parse_raw_txack` on `a` does not reach locktime completion, one
call on `a ++ b` leaves the same module state as a call on `a` followed by a call on `b`:
the parser variables, `to_spend`, the bytes fed to the hash context of the previous
transaction and the messages sent are fields of that state. -/
theorem parse_raw_txack_append (env : Env) (a b : Bytes) (s : State)
    (h : reaches_completion env s a = false) :
    parse_raw_txack env s (a ++ b) = parse_raw_txack env (parse_raw_txack env s a) b := by
  induction a generalizing s with
  | nil => rfl
  | cons x rest ih =>
    rw [reaches_completion, Bool.or_eq_false_iff] at h
    rw [List.cons_append, parse_raw_txack, parse_raw_txack]
    have hx : ¬ (parse_raw_byte env s x).2 = true := by rw [h.1]; decide
    rw [if_neg hx, if_neg hx]
    exact ih _ h.2

/-- Witness for C30: the previous transaction `richRawTx` cut after its tenth byte. -/
theorem parse_raw_txack_append_witness :
    reaches_completion demoEnv richInputState (richRawTx.take 10) = false ∧
    parse_raw_txack demoEnv richInputState (richRawTx.take 10 ++ richRawTx.drop 10)
      = parse_raw_txack demoEnv (parse_raw_txack demoEnv richInputState (richRawTx.take 10))
          (richRawTx.drop 10) :=
  ⟨by decide, parse_raw_txack_append demoEnv _ _ richInputState (by decide)⟩

theorem txack_request_1_input_to_spend (env : Env) (s : State) (tx : TransactionType) :
    (txack_request_1_input env s tx).to_spend = s.to_spend := by
  have e : (input_multisig_fp env s tx.inputs).2.to_spend = s.to_spend := by
    simp only [input_multisig_fp]
    split_ifs <;> rfl
  simp only [txack_request_1_input]
  split_ifs <;> simp only [fail_abort_to_spend, send_req_2_prev_meta, msg_write, e]

theorem txack_request_2_prev_input_to_spend (env : Env) (s : State) (tx : TransactionType) :
    (txack_request_2_prev_input env s tx).to_spend = s.to_spend := by
  simp only [txack_request_2_prev_input]
  split_ifs <;> simp only [fail_abort_to_spend, send_req_2_prev_input, send_req_2_prev_output,
    msg_write]

/-- A call of `signing_txack` in stage `REQUEST_1_INPUT`, `REQUEST_2_PREV_META` or
`REQUEST_2_PREV_INPUT`, or without a session, leaves `to_spend` as it was. -/
theorem signing_txack_to_spend (env : Env) (s : State) (tx : TransactionType)
    (h : s.signing = false ∨ s.signing_stage = Stage.STAGE_REQUEST_1_INPUT ∨
      s.signing_stage = Stage.STAGE_REQUEST_2_PREV_META ∨
      s.signing_stage = Stage.STAGE_REQUEST_2_PREV_INPUT) :
    (signing_txack env s tx).to_spend = s.to_spend := by
  by_cases hlive : s.signing = true
  · rcases h with h | h | h | h
    · rw [hlive] at h; cases h
    · rw [signing_txack_at_1_input env s tx hlive h]
      exact txack_request_1_input_to_spend env _ tx
    · rw [signing_txack_at_2_prev_meta env s tx hlive h]
      rfl
    · rw [signing_txack_at_2_prev_input env s tx hlive h]
      exact txack_request_2_prev_input_to_spend env _ tx
  · rw [signing_txack_dead env s tx (by simpa using hlive)]

/-- One output of a previous transaction that the serialiser accepts: `to_spend` grows by
its amount exactly if its index is the input's `prev_index`, whatever the verdict on the
hash of the previous transaction is; and if it is not the last output, the next one is
due. -/
theorem prev_output_step (env : Env) (s : State) (tx : TransactionType)
    (hlive : s.signing = true) (hstage : s.signing_stage = Stage.STAGE_REQUEST_2_PREV_OUTPUT)
    (hser : (tx_serialize_output_hash env s.transaction_previous tx.bin_outputs).1 ≠ 0) :
    (signing_txack env s tx).to_spend
      = (if s.idx2 = s.input.prev_index then add64 s.to_spend tx.bin_outputs.amount
         else s.to_spend) ∧
    (s.idx2 < dec32 s.transaction_previous.outputs_len →
      (signing_txack env s tx).signing = true ∧
      (signing_txack env s tx).signing_stage = Stage.STAGE_REQUEST_2_PREV_OUTPUT ∧
      (signing_txack env s tx).idx2 = s.idx2 + 1 ∧
      (signing_txack env s tx).input = s.input ∧
      (signing_txack env s tx).transaction_previous
        = (tx_serialize_output_hash env s.transaction_previous tx.bin_outputs).2) := by
  rw [signing_txack_at_2_prev_output env s tx hlive hstage]
  have hser' : ¬ (tx_serialize_output_hash env
      ({ s with resp := TxRequest.zero } : State).transaction_previous tx.bin_outputs).1 = 0 :=
    hser
  constructor
  · simp only [txack_request_2_prev_output, if_neg hser']
    split_ifs <;>
      simp only [fail_abort_to_spend, send_req_2_prev_output, send_req_1_input,
        send_req_3_output, msg_write, if_true, if_false, *]
  · intro hmore
    have hmore' : (tx_serialize_output_hash env s.transaction_previous tx.bin_outputs).2.outputs_len
        = s.transaction_previous.outputs_len := rfl
    simp only [txack_request_2_prev_output, if_neg hser', hmore', if_pos hmore]
    exact ⟨hlive, rfl, rfl, rfl, rfl⟩

theorem spend_ref_last (t k j : Nat) (tx : TransactionType) :
    spend_ref t (if j ≤ k then [tx][k - j]? else none)
      = if j = k then add64 t tx.bin_outputs.amount else t := by
  by_cases he : j = k
  · simp [he, spend_ref]
  · by_cases hle : j ≤ k
    · have : k - j = (k - j - 1) + 1 := by omega
      rw [if_pos hle, if_neg he, this]
      simp [spend_ref]
    · simp [hle, he, spend_ref]

theorem spend_ref_cons (t k j : Nat) (tx : TransactionType) (rest : List TransactionType) :
    spend_ref (if j = k then add64 t tx.bin_outputs.amount else t)
        (if j + 1 ≤ k then rest[k - (j + 1)]? else none)
      = spend_ref t (if j ≤ k then (tx :: rest)[k - j]? else none) := by
  by_cases he : j = k
  · simp [he, spend_ref]
  · by_cases hle : j ≤ k
    · have e1 : k - j = (k - (j + 1)) + 1 := by omega
      have e2 : j + 1 ≤ k := by omega
      rw [if_neg he, if_pos hle, if_pos e2, e1, List.getElem?_cons_succ]
    · have e2 : ¬ j + 1 ≤ k := by omega
      rw [if_neg he, if_neg hle, if_neg e2]

/-- The outputs of one previous transaction, each accepted by the serialiser: `to_spend`
has grown by the amount of the output at the input's `prev_index`, if there is one,
whatever the verdict on the hash of the previous transaction is. -/
theorem run_prev_outputs_to_spend (env : Env) (outs : List TransactionType) :
    ∀ s : State, s.signing = true → s.signing_stage = Stage.STAGE_REQUEST_2_PREV_OUTPUT →
      1 ≤ outs.length → s.idx2 + outs.length = s.transaction_previous.outputs_len →
      s.transaction_previous.outputs_len < 2 ^ 32 →
      prev_outputs_serialized env s.transaction_previous outs = true →
      (run_txacks env s outs).to_spend =
        spend_ref s.to_spend
          (if s.idx2 ≤ s.input.prev_index then outs[s.input.prev_index - s.idx2]? else none) := by
  induction outs with
  | nil => intro s _ _ h; simp at h
  | cons tx rest ih =>
    intro s hlive hstage _ hlen hlt hser
    rw [prev_outputs_serialized, Bool.and_eq_true, decide_eq_true_eq] at hser
    obtain ⟨h1, h2⟩ := prev_output_step env s tx hlive hstage hser.1
    rw [run_txacks]
    simp only [List.length_cons] at hlen
    have hone : 1 ≤ s.transaction_previous.outputs_len := by omega
    cases rest with
    | nil =>
      rw [run_txacks_nil, h1, spend_ref_last]
    | cons tx2 rest2 =>
      have hp : s.idx2 < dec32 s.transaction_previous.outputs_len := by
        rw [dec32_lt _ _ hone hlt]; simp at hlen; omega
      obtain ⟨g1, g2, g3, g4, g5⟩ := h2 hp
      have hl : (signing_txack env s tx).transaction_previous.outputs_len
          = s.transaction_previous.outputs_len := by rw [g5]; rfl
      rw [ih (signing_txack env s tx) g1 g2 (by simp)
        (by rw [g3, hl]; simp at hlen ⊢; omega) (by rw [hl]; exact hlt)
        (by rw [g5]; exact hser.2), h1, g3, g4]
      exact spend_ref_cons _ _ _ _ _

/-- C25: one complete structured sweep of the `m ≥ 1` outputs of a previous transaction,
each accepted by the serialiser, from `idx2 = 0`: `to_spend` becomes
`(to_spend + amount) mod 2 ^ 64` for the amount of the output of index `prev_index`, when
`prev_index < m` (first and second conjunct), and is unchanged when `prev_index ≥ m` (third
conjunct), whatever the verdict on the hash of the previous transaction; and a call of
`signing_txack` in stage `REQUEST_1_INPUT`, `REQUEST_2_PREV_META` or
`REQUEST_2_PREV_INPUT` leaves `to_spend` unchanged. -/
theorem prev_sweep_to_spend (env : Env) (s : State) (outs : List TransactionType)
    (hlive : s.signing = true) (hstage : s.signing_stage = Stage.STAGE_REQUEST_2_PREV_OUTPUT)
    (hidx : s.idx2 = 0) (hm : 1 ≤ outs.length)
    (hlen : s.transaction_previous.outputs_len = outs.length) (hlt : outs.length < 2 ^ 32)
    (hser : prev_outputs_serialized env s.transaction_previous outs = true) :
    (∀ h : s.input.prev_index < outs.length,
      (run_txacks env s outs).to_spend
        = (s.to_spend + (outs.get ⟨s.input.prev_index, h⟩).bin_outputs.amount) % 2 ^ 64) ∧
    (∀ (tx : TransactionType),
      outs[s.input.prev_index]? = some tx →
      (run_txacks env s outs).to_spend = add64 s.to_spend tx.bin_outputs.amount) ∧
    (outs.length ≤ s.input.prev_index → (run_txacks env s outs).to_spend = s.to_spend) ∧
    (∀ (t : State) (tx : TransactionType),
      t.signing_stage = Stage.STAGE_REQUEST_1_INPUT ∨
        t.signing_stage = Stage.STAGE_REQUEST_2_PREV_META ∨
        t.signing_stage = Stage.STAGE_REQUEST_2_PREV_INPUT →
      (signing_txack env t tx).to_spend = t.to_spend) := by
  have key := run_prev_outputs_to_spend env outs s hlive hstage hm
    (by rw [hidx, hlen]; omega) (by rw [hlen]; exact hlt) hser
  rw [hidx, if_pos (Nat.zero_le _), Nat.sub_zero] at key
  refine ⟨?_, ?_, ?_, fun t tx h => signing_txack_to_spend env t tx (Or.inr h)⟩
  · intro h
    rw [key, List.getElem?_eq_getElem h]
    rfl
  · intro tx h
    rw [key, h]
    rfl
  · intro h
    rw [key, List.getElem?_eq_none h]
    rfl

/-- Witness for C25: the one output, worth 10000, of the previous transaction of
`prevOutputState`. -/
theorem prev_sweep_to_spend_witness :
    prevOutputState.to_spend = 0 ∧ prevOutputState.input.prev_index = 0 ∧
    (run_txacks demoEnv prevOutputState [ackBinOutput 10000 [81]]).to_spend = 10000 :=
  ⟨by decide, by decide,
   ((prev_sweep_to_spend demoEnv prevOutputState [ackBinOutput 10000 [81]] (by decide)
      (by decide) (by decide) (by decide) (by decide) (by decide) (by decide)).2.1
        (ackBinOutput 10000 [81]) (by decide)).trans (by decide)⟩

theorem fail_abort_sums (code : FailureType) (text : String) (s : State) :
    (fail_abort code text s).spending = s.spending ∧
    (fail_abort code text s).change_spend = s.change_spend ∧
    (fail_abort code text s).transaction_current = s.transaction_current ∧
    (fail_abort code text s).bin_output = s.bin_output ∧
    (fail_abort code text s).hashers0 = s.hashers0 := by
  simp only [fail_abort, signing_abort, go_home, fsm_sendFailure]
  split_ifs <;> exact ⟨rfl, rfl, rfl, rfl, rfl⟩

/-- C29: in stage `REQUEST_3_OUTPUT`, an output with an explicit address type for which
`check_valid_output_address` fails, and which does not take the multisig branch of the
change test (script type multisig, multisig info, `multisig_fp_set` and no mismatch), makes
the device send `Failure_Other` "Invalid output address type" and end the session; the
policy module is not called and `spending`, `change_spend`, the commit hash and the
hasher of the outputs are as before. The check fails exactly for `SPEND` without address,
`TRANSFER` or `CHANGE` with an empty path, `EXCHANGE` without exchange type, and any other
value. -/
theorem invalid_output_address_type (env : Env) (s : State) (tx : TransactionType)
    (hlive : s.signing = true) (hstage : s.signing_stage = Stage.STAGE_REQUEST_3_OUTPUT)
    (hexplicit : tx.outputs.has_address_type = true)
    (hinvalid : check_valid_output_address tx.outputs = false)
    (hbranch : ¬ (tx.outputs.script_type = OutputScriptType.PAYTOMULTISIG ∧
      tx.outputs.has_multisig = true ∧ s.multisig_fp_set = true ∧
      s.multisig_fp_mismatch = false)) :
    new_events s (signing_txack env s tx)
      = [Event.failure FailureType.Failure_Other "Invalid output address type",
         Event.go_home] ∧
    (signing_txack env s tx).signing = false ∧
    (signing_txack env s tx).spending = s.spending ∧
    (signing_txack env s tx).change_spend = s.change_spend ∧
    (signing_txack env s tx).transaction_current = s.transaction_current ∧
    (signing_txack env s tx).hashers0 = s.hashers0 ∧
    (check_valid_output_address tx.outputs = false ↔
      (tx.outputs.address_type = OutputAddressType.SPEND ∧ tx.outputs.has_address = false) ∨
      (tx.outputs.address_type = OutputAddressType.TRANSFER ∧ tx.outputs.address_n_count = 0) ∨
      (tx.outputs.address_type = OutputAddressType.CHANGE ∧ tx.outputs.address_n_count = 0) ∨
      (tx.outputs.address_type = OutputAddressType.EXCHANGE ∧
        tx.outputs.has_exchange_type = false) ∨
      ∃ v, tx.outputs.address_type = OutputAddressType.other v) := by
  have hc : output_is_change env { s with resp := TxRequest.zero } tx.outputs
      = Except.error "Invalid output address type" := by
    have hb : ¬ (tx.outputs.script_type = OutputScriptType.PAYTOMULTISIG ∧
      tx.outputs.has_multisig = true ∧
      ({ s with resp := TxRequest.zero } : State).multisig_fp_set = true ∧
      ({ s with resp := TxRequest.zero } : State).multisig_fp_mismatch = false) := hbranch
    simp only [output_is_change, if_neg hb, hexplicit, hinvalid, if_true]
  have e : signing_txack env s tx
      = fail_abort FailureType.Failure_Other "Invalid output address type"
          { s with resp := TxRequest.zero } := by
    rw [signing_txack_at_3_output env s tx hlive hstage]
    simp only [txack_request_3_output, hc]
  obtain ⟨a1, a2, a3, -, a5⟩ := fail_abort_sums FailureType.Failure_Other
    "Invalid output address type" { s with resp := TxRequest.zero }
  rw [e]
  refine ⟨new_events_of_append ?_, fail_abort_signing _ _ _, a1, a2, a3, a5, ?_⟩
  · rw [fail_abort_log_eq]
    simp only [hlive, if_true]
  · simp only [check_valid_output_address]
    cases tx.outputs.address_type <;> simp

/-- Witness for C29: an output of type `CHANGE` without a path, in `multisigOutputState`. -/
theorem invalid_output_address_type_witness :
    new_events multisigOutputState
        (signing_txack demoEnv multisigOutputState
          (ackOutput { zeroOutput with has_address_type := true,
                                       address_type := OutputAddressType.CHANGE }))
      = [Event.failure FailureType.Failure_Other "Invalid output address type",
         Event.go_home] :=
  (invalid_output_address_type demoEnv multisigOutputState
    (ackOutput { zeroOutput with has_address_type := true,
                                 address_type := OutputAddressType.CHANGE })
    (by decide) (by decide) (by decide) (by decide) (by decide)).1

/-- Counterexample for C29: in a session whose inputs share a multisig fingerprint, the
multisig output `badTypeOutput`, whose explicit address type `SPEND` is invalid for want of
an address, is not rejected: the policy module compiles it, it is added to `spending`, and
the session passes the confirmation gate. -/
theorem invalid_address_type_not_checked :
    multisigOutputState.signing = true ∧
    multisigOutputState.signing_stage = Stage.STAGE_REQUEST_3_OUTPUT ∧
    badTypeOutput.has_address_type = true ∧
    check_valid_output_address badTypeOutput = false ∧
    (new_events multisigOutputState
        (signing_txack demoEnv multisigOutputState (ackOutput badTypeOutput))).all
      (fun e => !Event.is_failure e) = true ∧
    Event.policy_compile_output badTypeOutput true
      ∈ new_events multisigOutputState
          (signing_txack demoEnv multisigOutputState (ackOutput badTypeOutput)) ∧
    (signing_txack demoEnv multisigOutputState (ackOutput badTypeOutput)).signing = true ∧
    (signing_txack demoEnv multisigOutputState (ackOutput badTypeOutput)).signing_stage
      = Stage.STAGE_REQUEST_4_INPUT ∧
    (signing_txack demoEnv multisigOutputState (ackOutput badTypeOutput)).spending = 9000 := by
  decide

theorem store_ptr_digests (s : State) (b : Nat) :
    (store_ptr s b).hash_prevouts = s.hash_prevouts ∧
    (store_ptr s b).hash_sequence = s.hash_sequence ∧
    (store_ptr s b).hash_outputs = s.hash_outputs ∧
    (store_ptr s b).hash_check = s.hash_check ∧
    (store_ptr s b).hashers0 = s.hashers0 ∧
    (store_ptr s b).hashers1 = s.hashers1 ∧
    (store_ptr s b).hashers2 = s.hashers2 ∧
    (store_ptr s b).idx2 = s.idx2 := by
  simp only [store_ptr]
  split <;> (try split_ifs) <;> exact ⟨rfl, rfl, rfl, rfl, rfl, rfl, rfl, rfl⟩

theorem push_var_int_digests (s : State) (b : Nat) :
    (push_var_int s b).hash_prevouts = s.hash_prevouts ∧
    (push_var_int s b).hash_sequence = s.hash_sequence ∧
    (push_var_int s b).hash_outputs = s.hash_outputs ∧
    (push_var_int s b).hash_check = s.hash_check ∧
    (push_var_int s b).hashers0 = s.hashers0 ∧
    (push_var_int s b).hashers1 = s.hashers1 ∧
    (push_var_int s b).hashers2 = s.hashers2 ∧
    (push_var_int s b).idx2 = s.idx2 := by
  simp only [push_var_int]
  split_ifs <;> exact ⟨rfl, rfl, rfl, rfl, rfl, rfl, rfl, rfl⟩

theorem signing_abort_digests (s : State) :
    (signing_abort s).hash_prevouts = s.hash_prevouts ∧
    (signing_abort s).hash_sequence = s.hash_sequence ∧
    (signing_abort s).hash_outputs = s.hash_outputs ∧
    (signing_abort s).hash_check = s.hash_check ∧
    (signing_abort s).hashers0 = s.hashers0 ∧
    (signing_abort s).hashers1 = s.hashers1 ∧
    (signing_abort s).hashers2 = s.hashers2 ∧
    (signing_abort s).idx2 = s.idx2 := by
  simp only [signing_abort, go_home]
  split_ifs <;> exact ⟨rfl, rfl, rfl, rfl, rfl, rfl, rfl, rfl⟩

theorem parse_raw_byte_digests (env : Env) (s : State) (b : Nat) :
    (parse_raw_byte env s b).1.hash_prevouts = s.hash_prevouts ∧
    (parse_raw_byte env s b).1.hash_sequence = s.hash_sequence ∧
    (parse_raw_byte env s b).1.hash_outputs = s.hash_outputs ∧
    (parse_raw_byte env s b).1.hash_check = s.hash_check ∧
    (parse_raw_byte env s b).1.hashers0 = s.hashers0 ∧
    (parse_raw_byte env s b).1.hashers1 = s.hashers1 ∧
    (parse_raw_byte env s b).1.hashers2 = s.hashers2 ∧
    (parse_raw_byte env s b).1.idx2 = s.idx2 := by
  simp only [parse_raw_byte, parsing_version, parsing_input_count, parsing_inputs,
    parsing_output_count, parsing_outputs_value, parsing_outputs, parsing_locktime,
    reset_parsing_buffer, hash_raw_byte]
  split <;> split_ifs <;>
    simp only [store_ptr_digests, push_var_int_digests, signing_abort_digests,
      fsm_sendFailure, send_req_1_input, send_req_3_output, msg_write, and_self]

/-- The raw path never writes the BIP-143 digests, `hash_check`, the three running
hashers or `idx2`. -/
theorem parse_raw_txack_digests (env : Env) (msg : Bytes) :
    ∀ s : State,
      (parse_raw_txack env s msg).hash_prevouts = s.hash_prevouts ∧
      (parse_raw_txack env s msg).hash_sequence = s.hash_sequence ∧
      (parse_raw_txack env s msg).hash_outputs = s.hash_outputs ∧
      (parse_raw_txack env s msg).hash_check = s.hash_check ∧
      (parse_raw_txack env s msg).hashers0 = s.hashers0 ∧
      (parse_raw_txack env s msg).hashers1 = s.hashers1 ∧
      (parse_raw_txack env s msg).hashers2 = s.hashers2 ∧
      (parse_raw_txack env s msg).idx2 = s.idx2 := by
  induction msg with
  | nil => intro s; exact ⟨rfl, rfl, rfl, rfl, rfl, rfl, rfl, rfl⟩
  | cons b rest ih =>
    intro s
    obtain ⟨a1, a2, a3, a4, a5, a6, a7, a8⟩ := parse_raw_byte_digests env s b
    rw [parse_raw_txack]
    split_ifs
    · exact ⟨a1, a2, a3, a4, a5, a6, a7, a8⟩
    · obtain ⟨b1, b2, b3, b4, b5, b6, b7, b8⟩ := ih (parse_raw_byte env s b).1
      exact ⟨b1.trans a1, b2.trans a2, b3.trans a3, b4.trans a4, b5.trans a5, b6.trans a6,
        b7.trans a7, b8.trans a8⟩

/-- The message that completes the raw previous transaction of the last input: the
session is over, or the first output is requested and `idx1` is reset. -/
theorem parse_raw_txack_completion_stage (env : Env) (msg : Bytes) :
    ∀ s : State, reaches_completion env s msg = true → ¬ s.idx1 < dec32 s.inputs_count →
      (parse_raw_txack env s msg).signing = false ∨
      ((parse_raw_txack env s msg).signing_stage = Stage.STAGE_REQUEST_3_OUTPUT ∧
        (parse_raw_txack env s msg).idx1 = 0) := by
  induction msg with
  | nil => intro s h; cases h
  | cons b rest ih =>
    intro s h hlast
    rw [parse_raw_txack]
    rcases parse_raw_byte_core env s b with ⟨h1, h2⟩ | ⟨h1, h2⟩
    · rw [reaches_completion, h1, Bool.false_or] at h
      have hne : ¬ (parse_raw_byte env s b).2 = true := by rw [h1]; decide
      rw [if_neg hne]
      obtain ⟨-, -, f3, -, f5, -⟩ := core_fields h2
      dsimp only [State.core] at f3 f5
      exact ih _ h (by rw [f3, f5]; exact hlast)
    · rw [if_pos h1]
      rcases h2 with h2 | ⟨h2, -⟩ | ⟨-, h2⟩
      · exact Or.inl h2
      · exact absurd h2 hlast
      · obtain ⟨-, f2, f3, -⟩ := core_fields h2
        dsimp only [State.core] at f2 f3
        exact Or.inr ⟨f2, f3⟩

/-- The last output of the previous transaction of the last input, in structured mode,
when the hash of the previous transaction is the one the input names. -/
theorem txack_request_2_prev_output_final (env : Env) (s : State) (tx : TransactionType)
    (hser : (tx_serialize_output_hash env s.transaction_previous tx.bin_outputs).1 ≠ 0)
    (hlast : ¬ s.idx2 < dec32 s.transaction_previous.outputs_len)
    (hhash : memcmp32_ne
      (env.tx_hash_final (tx_serialize_output_hash env s.transaction_previous tx.bin_outputs).2
        true) s.input.prev_hash = false)
    (hlastin : ¬ s.idx1 < dec32 s.inputs_count) :
    spec_inputs_finalized env s (txack_request_2_prev_output env s tx) ∧
    (txack_request_2_prev_output env s tx).hash_check = env.sha256 s.hashers2 ∧
    (txack_request_2_prev_output env s tx).idx2 = 0 ∧
    (txack_request_2_prev_output env s tx).signing = s.signing := by
  have hser' : ¬ (tx_serialize_output_hash env s.transaction_previous tx.bin_outputs).1 = 0 :=
    hser
  have hlast' : ¬ s.idx2
      < dec32 (tx_serialize_output_hash env s.transaction_previous tx.bin_outputs).2.outputs_len :=
    hlast
  have hhash' : ¬ memcmp32_ne
      (env.tx_hash_final (tx_serialize_output_hash env s.transaction_previous tx.bin_outputs).2
        true) s.input.prev_hash = true := by
    rw [hhash]; decide
  simp only [txack_request_2_prev_output, if_neg hser', if_neg hlast', if_neg hhash',
    if_neg hlastin, spec_inputs_finalized]
  exact ⟨⟨rfl, rfl, rfl, rfl, rfl⟩, rfl, rfl, rfl⟩

/-- C28: when the previous transaction of the last current input is verified in
structured mode, the first output is requested, `idx1` is reset, `hash_prevouts` and
`hash_sequence` hold the double SHA-256 of the accumulated prevouts and sequences and the
hasher of the outputs is fresh (`spec_inputs_finalized`). When it is verified from raw
bytes, the first output is requested and `idx1` is reset, but `hash_prevouts`,
`hash_sequence` and the hasher of the outputs are left as they were, so that the state
agrees with `spec_inputs_finalized` only if they happened to hold those values before. For
the same previous transaction of `richInput`, delivered raw (`rawRichState`) and
structured (`structuredRichState`), the two states differ: after the raw delivery the
hasher of the outputs still holds the prevout of the input, `hash_prevouts` is what it was
at power-up, and `hash_outputs` at the confirmation gate covers the prevout. -/
theorem inputs_finalized_only_structured (env : Env) (s : State) :
    (∀ tx : TransactionType,
      s.signing = true → s.signing_stage = Stage.STAGE_REQUEST_2_PREV_OUTPUT →
      (tx_serialize_output_hash env s.transaction_previous tx.bin_outputs).1 ≠ 0 →
      ¬ s.idx2 < dec32 s.transaction_previous.outputs_len →
      memcmp32_ne
        (env.tx_hash_final
          (tx_serialize_output_hash env s.transaction_previous tx.bin_outputs).2 true)
        s.input.prev_hash = false →
      ¬ s.idx1 < dec32 s.inputs_count →
      (signing_txack env s tx).signing = true ∧
      spec_inputs_finalized env s (signing_txack env s tx)) ∧
    (∀ msg : Bytes,
      reaches_completion env s msg = true → ¬ s.idx1 < dec32 s.inputs_count →
      (parse_raw_txack env s msg).signing = true →
      (parse_raw_txack env s msg).signing_stage = Stage.STAGE_REQUEST_3_OUTPUT ∧
      (parse_raw_txack env s msg).idx1 = 0 ∧
      (parse_raw_txack env s msg).hash_prevouts = s.hash_prevouts ∧
      (parse_raw_txack env s msg).hash_sequence = s.hash_sequence ∧
      (parse_raw_txack env s msg).hashers0 = s.hashers0 ∧
      (spec_inputs_finalized env s (parse_raw_txack env s msg) ↔
        s.hash_prevouts = env.sha256 ((env.sha256 s.hashers0).take 32) ∧
        s.hash_sequence = env.sha256 ((env.sha256 s.hashers1).take 32) ∧
        s.hashers0 = [])) ∧
    (reaches_completion demoEnv richInputState richRawTx = true ∧
      rawRichState.signing = true ∧ structuredRichState.signing = true ∧
      rawRichState.signing_stage = Stage.STAGE_REQUEST_3_OUTPUT ∧
      structuredRichState.signing_stage = Stage.STAGE_REQUEST_3_OUTPUT ∧
      rawRichState.input = structuredRichState.input ∧
      rawRichState.to_spend = structuredRichState.to_spend ∧
      structuredRichState.hashers0 = [] ∧
      rawRichState.hashers0 = richRawTx.take 32 ++ [0, 0, 0, 0] ∧
      structuredRichState.hash_prevouts = richRawTx.take 32 ∧
      rawRichState.hash_prevouts = State.boot.hash_prevouts ∧
      ¬ spec_inputs_finalized demoEnv richInputState rawRichState ∧
      (signing_txack demoEnv structuredRichState (ackOutput (spendOutput 100))).hash_outputs
        = [100, 0, 0, 0, 0, 0, 0, 0, 49, 65] ∧
      (signing_txack demoEnv rawRichState (ackOutput (spendOutput 100))).hash_outputs
        = richRawTx.take 32) := by
  refine ⟨?_, ?_, ?_⟩
  · intro tx hlive hstage hser hlast hhash hlastin
    rw [signing_txack_at_2_prev_output env s tx hlive hstage]
    obtain ⟨a1, -, -, a4⟩ :=
      txack_request_2_prev_output_final env { s with resp := TxRequest.zero } tx hser hlast
        hhash hlastin
    exact ⟨a4.trans hlive, a1⟩
  · intro msg hdone hlastin hlive
    obtain ⟨d1, d2, -, -, d5, -⟩ := parse_raw_txack_digests env msg s
    rcases parse_raw_txack_completion_stage env msg s hdone hlastin with hd | ⟨h1, h2⟩
    · rw [hlive] at hd; cases hd
    · refine ⟨h1, h2, d1, d2, d5, ?_⟩
      unfold spec_inputs_finalized
      rw [d1, d2, d5]
      exact ⟨fun h => ⟨h.2.2.1, h.2.2.2.1, h.2.2.2.2⟩, fun h => ⟨h1, h2, h.1, h.2.1, h.2.2⟩⟩
  · exact ⟨by decide, by decide, by decide, by decide, by decide, by decide, by decide,
      by decide, by decide, by decide, by decide, by decide, by decide, by decide⟩

/-- Witness for C28: the last message of `structuredRichAcks`. -/
theorem inputs_finalized_only_structured_witness :
    spec_inputs_finalized demoEnv (run_txacks demoEnv demoStart structuredRichAcks.dropLast)
      (signing_txack demoEnv (run_txacks demoEnv demoStart structuredRichAcks.dropLast)
        (ackBinOutput 1000000 [81])) ∧
    rawRichState.hashers0 = richInputState.hashers0 :=
  ⟨((inputs_finalized_only_structured demoEnv
      (run_txacks demoEnv demoStart structuredRichAcks.dropLast)).1
      (ackBinOutput 1000000 [81]) (by decide) (by decide) (by decide) (by decide) (by decide)
      (by decide)).2,
   ((inputs_finalized_only_structured demoEnv richInputState).2.1 richRawTx (by decide)
      (by decide) (by decide)).2.2.2.2.1⟩

theorem input_multisig_fp_ok (env : Env) (s : State) (i : TxInputType)
    (h1 : (input_multisig_fp env s i).1 = true)
    (h2 : (input_multisig_fp env s i).2.multisig_fp_mismatch = false) :
    s.multisig_fp_mismatch = false ∧
    (s.multisig_fp_set = true →
      (input_multisig_fp env s i).2.multisig_fp_set = true ∧
      (input_multisig_fp env s i).2.multisig_fp = s.multisig_fp) ∧
    shares_fingerprint env (input_multisig_fp env s i).2 i := by
  unfold shares_fingerprint
  simp only [input_multisig_fp] at h1 h2 ⊢
  split_ifs at h1 h2 ⊢ <;> simp_all [memcmp32_ne_self]

theorem shares_fingerprint_congr (env : Env) (s t : State) (i : TxInputType)
    (h1 : s.multisig_fp_set = true → t.multisig_fp_set = true ∧ t.multisig_fp = s.multisig_fp)
    (h : shares_fingerprint env s i) : shares_fingerprint env t i := by
  refine ⟨h.1, fun hm => ?_⟩
  obtain ⟨a1, a2, a3⟩ := h.2 hm
  obtain ⟨b1, b2⟩ := h1 a1
  exact ⟨b1, a2, by rw [b2]; exact a3⟩

/-- One input of the current transaction in stage `REQUEST_1_INPUT`, after which the
session is live and no mismatch is recorded. -/
theorem signing_txack_1_input_fp (env : Env) (s : State) (tx : TransactionType)
    (hlive : s.signing = true) (hstage : s.signing_stage = Stage.STAGE_REQUEST_1_INPUT)
    (h1 : (signing_txack env s tx).signing = true)
    (h2 : (signing_txack env s tx).multisig_fp_mismatch = false) :
    s.multisig_fp_mismatch = false ∧
    (s.multisig_fp_set = true →
      (signing_txack env s tx).multisig_fp_set = true ∧
      (signing_txack env s tx).multisig_fp = s.multisig_fp) ∧
    shares_fingerprint env (signing_txack env s tx) tx.inputs := by
  rw [signing_txack_at_1_input env s tx hlive hstage] at h1 h2 ⊢
  obtain ⟨a1, a2, a3, a4⟩ := txack_request_1_input_fp env { s with resp := TxRequest.zero } tx
  obtain ⟨b1, b2, b3⟩ :=
    input_multisig_fp_ok env { s with resp := TxRequest.zero } tx.inputs (a4 h1) (a1 ▸ h2)
  refine ⟨b1, fun h => ?_, ?_⟩
  · obtain ⟨c1, c2⟩ := b2 h
    exact ⟨a2.trans c1, a3.trans c2⟩
  · refine ⟨b3.1, fun hm => ?_⟩
    obtain ⟨d1, d2, d3⟩ := b3.2 hm
    exact ⟨a2.trans d1, d2, by rw [a3]; exact d3⟩

/-- In a run that ends in a live session without a recorded mismatch, the inputs received
in stage `REQUEST_1_INPUT` are multisig inputs, and those that carry multisig info share
the stored fingerprint. -/
theorem run_shares_fingerprint (env : Env) (msgs : List HostMsg) :
    ∀ (s : State) (L : List TxInputType),
      (s.multisig_fp_mismatch = false → ∀ i ∈ L, shares_fingerprint env s i) →
      (run env s msgs).signing = true → (run env s msgs).multisig_fp_mismatch = false →
      ∀ i ∈ L ++ stage1_inputs env s msgs, shares_fingerprint env (run env s msgs) i := by
  induction msgs with
  | nil =>
    intro s L hL _ hm i hi
    rw [stage1_inputs, List.append_nil] at hi
    exact hL hm i hi
  | cons m rest ih =>
    intro s L hL hlive hm
    have hs1 : (handle env s m).signing = true := by
      by_contra hd
      have := run_dead_signing env rest (handle env s m) (by simpa using hd)
      rw [run] at hlive
      rw [hlive] at this
      cases this
    have hm1 : (handle env s m).multisig_fp_mismatch = false := by
      by_contra hd
      have := run_mismatch_mono env rest (handle env s m) (by simpa using hd)
      rw [run] at hm
      rw [hm] at this
      cases this
    cases m with
    | raw msg =>
      obtain ⟨a1, a2, a3⟩ := parse_raw_txack_fp env msg s
      rw [run, stage1_inputs]
      refine ih (parse_raw_txack env s msg) L ?_ hlive hm
      intro _ i hi
      exact shares_fingerprint_congr env s _ i (fun h => ⟨a2.trans h, a3⟩)
        (hL (a1 ▸ hm1) i hi)
    | txack tx =>
      rw [run, stage1_inputs]
      by_cases h1 : s.signing = true ∧ s.signing_stage = Stage.STAGE_REQUEST_1_INPUT
      · rw [if_pos h1, ← List.append_assoc]
        obtain ⟨b1, b2, b3⟩ := signing_txack_1_input_fp env s tx h1.1 h1.2 hs1 hm1
        refine ih (signing_txack env s tx) (L ++ [tx.inputs]) ?_ hlive hm
        intro _ i hi
        rcases List.mem_append.1 hi with hi | hi
        · exact shares_fingerprint_congr env s _ i b2 (hL b1 i hi)
        · rw [List.mem_singleton] at hi
          rw [hi]
          exact b3
      · rw [if_neg h1, List.nil_append]
        obtain ⟨a1, a2, a3⟩ := signing_txack_fp env s tx h1
        refine ih (signing_txack env s tx) L ?_ hlive hm
        intro _ i hi
        exact shares_fingerprint_congr env s _ i (fun h => ⟨a2.trans h, a3⟩)
          (hL (a1 ▸ hm1) i hi)

/-- C23: in every session, whenever the session is live and `multisig_fp_mismatch` is
clear, every input of the current transaction received in stage `REQUEST_1_INPUT` had
script type `SPENDMULTISIG`, and those that carried multisig info had a fingerprint equal
to `multisig_fp`. But an input of type `SPENDMULTISIG` need not have carried multisig
info: in the session `bareMultisigSession` the second input carries none, and at the end of
the input sweep `multisig_fp_set` is true and `multisig_fp_mismatch` is false, so that a
multisig output with the fingerprint of the first input is classified as change. -/
theorem multisig_change_condition (env : Env) (n m : Nat) (coin : CoinType) (root : HDNode)
    (v lt : Nat) (s0 : State) (msgs : List HostMsg)
    (hlive : (run env (signing_init n m coin root v lt s0) msgs).signing = true)
    (hmm : (run env (signing_init n m coin root v lt s0) msgs).multisig_fp_mismatch = false) :
    (∀ i ∈ stage1_inputs env (signing_init n m coin root v lt s0) msgs,
      i.script_type = InputScriptType.SPENDMULTISIG ∧
      (i.has_multisig = true →
        (run env (signing_init n m coin root v lt s0) msgs).multisig_fp_set = true ∧
        (env.cryptoMultisigFingerprint i.multisig).1 ≠ 0 ∧
        memcmp32_ne (run env (signing_init n m coin root v lt s0) msgs).multisig_fp
          (env.cryptoMultisigFingerprint i.multisig).2 = false)) ∧
    ((run demoEnv bareMultisigStart bareMultisigSession).signing = true ∧
      (run demoEnv bareMultisigStart bareMultisigSession).signing_stage
        = Stage.STAGE_REQUEST_3_OUTPUT ∧
      (run demoEnv bareMultisigStart bareMultisigSession).multisig_fp_set = true ∧
      (run demoEnv bareMultisigStart bareMultisigSession).multisig_fp_mismatch = false ∧
      stage1_inputs demoEnv bareMultisigStart bareMultisigSession
        = [multisigInput [5], bareMultisigInput] ∧
      bareMultisigInput.has_multisig = false ∧
      output_is_change demoEnv (run demoEnv bareMultisigStart bareMultisigSession)
        (multisigOutput 9000) = Except.ok true) :=
  ⟨fun i hi =>
    run_shares_fingerprint env msgs (signing_init n m coin root v lt s0) []
      (fun _ _ h => absurd h (List.not_mem_nil _)) hlive hmm i
      (by rw [List.nil_append]; exact hi),
   by decide, by decide, by decide, by decide, by decide, by decide, rfl⟩

/-- Witness for C23: the session of one multisig input up to the output. -/
theorem multisig_change_condition_witness :
    (multisigInput [5]).script_type = InputScriptType.SPENDMULTISIG ∧
    memcmp32_ne multisigOutputState.multisig_fp
      (demoEnv.cryptoMultisigFingerprint (multisigInput [5]).multisig).2 = false :=
  ⟨((multisig_change_condition demoEnv 1 1 demoCoin demoRoot 1 0 State.boot
      ([ackInput (multisigInput [5]), ackMeta 1 1 1 0, ackInput zeroInput,
        ackBinOutput 10000 [81]].map HostMsg.txack) (by decide) (by decide)).1
      (multisigInput [5]) (by decide)).1,
   by decide⟩

theorem store_ptr_view (s : State) (b : Nat) :
    (store_ptr s b).parser = view_store_ptr s.parser b := by
  simp only [store_ptr, view_store_ptr, State.parser]
  cases s.ptr <;> dsimp only <;> split_ifs <;> rfl

theorem push_var_int_view (s : State) (b : Nat) :
    (push_var_int s b).parser = view_push_var_int s.parser b := by
  simp only [push_var_int, view_push_var_int, State.parser]
  split_ifs <;> rfl

theorem store_ptr_state_pos (s : State) (b : Nat) : (store_ptr s b).state_pos = s.state_pos :=
  (store_ptr_frame s b).2.2.2.2.2.2.2

theorem parsing_version_view (s : State) (b : Nat) :
    (parsing_version s b).parser = view_version s.parser b := by
  simp only [parsing_version, view_version, ← store_ptr_view]
  generalize store_ptr s b = t
  simp only [State.parser, reset_parsing_buffer, view_reset]
  split_ifs <;> rfl

theorem parsing_input_count_view (s : State) (b : Nat) :
    (parsing_input_count s b).parser = view_input_count s.parser b := by
  simp only [parsing_input_count, view_input_count, ← push_var_int_view]
  generalize push_var_int s b = t
  simp only [State.parser, reset_parsing_buffer, view_reset]
  split_ifs <;> rfl

theorem parsing_inputs_view (s : State) (b : Nat) :
    (parsing_inputs s b).parser = view_inputs s.parser b := by
  simp only [parsing_inputs, view_inputs, ← push_var_int_view]
  generalize push_var_int s b = t
  simp only [State.parser, reset_parsing_buffer, view_reset]
  split_ifs <;> rfl

theorem parsing_output_count_view (s : State) (b : Nat) :
    (parsing_output_count s b).parser = view_output_count s.parser b := by
  simp only [parsing_output_count, view_output_count, ← push_var_int_view]
  generalize push_var_int s b = t
  simp only [State.parser, reset_parsing_buffer, view_reset]
  split_ifs <;> rfl

theorem parsing_outputs_value_view (s : State) (b : Nat) :
    (parsing_outputs_value s b).parser = view_outputs_value s.parser b := by
  simp only [parsing_outputs_value, view_outputs_value, ← store_ptr_view]
  generalize store_ptr s b = t
  simp only [State.parser, reset_parsing_buffer, view_reset]
  split_ifs <;> rfl

theorem parsing_outputs_view (s : State) (b : Nat) :
    (parsing_outputs s b).parser = view_outputs s.parser b := by
  simp only [parsing_outputs, view_outputs, ← push_var_int_view]
  generalize push_var_int s b = t
  simp only [State.parser, reset_parsing_buffer, view_reset]
  split_ifs <;> with_reducible rfl

theorem signing_abort_view (s : State) : (signing_abort s).parser = s.parser := by
  simp only [signing_abort, go_home]
  split_ifs <;> rfl

theorem parsing_locktime_view (env : Env) (s : State) (b : Nat) :
    (parsing_locktime env s b).1.parser = (view_locktime s.parser b).1 ∧
    (parsing_locktime env s b).2 = (view_locktime s.parser b).2 := by
  have key : ∀ t : State,
      ((if t.state_pos < 1 then
          (if memcmp32_ne
                (hash_raw_byte { t with raw_tx_status := RawTxStatus.NOT_PARSING,
                                        resp := TxRequest.zero } b |> fun u =>
                  ({ u with hash := env.tx_hash_final u.transaction_previous true } : State)).hash
                t.input.prev_hash then
              (signing_abort (fsm_sendFailure FailureType.Failure_Other
                "Encountered invalid prevhash"
                (hash_raw_byte { t with raw_tx_status := RawTxStatus.NOT_PARSING,
                                        resp := TxRequest.zero } b |> fun u =>
                  ({ u with hash := env.tx_hash_final u.transaction_previous true } : State))),
                true)
            else if t.idx1 < dec32 t.inputs_count then
              (send_req_1_input
                { (hash_raw_byte { t with raw_tx_status := RawTxStatus.NOT_PARSING,
                                          resp := TxRequest.zero } b |> fun u =>
                    ({ u with hash := env.tx_hash_final u.transaction_previous true } : State))
                  with idx1 := t.idx1 + 1 }, true)
            else
              (send_req_3_output
                { (hash_raw_byte { t with raw_tx_status := RawTxStatus.NOT_PARSING,
                                          resp := TxRequest.zero } b |> fun u =>
                    ({ u with hash := env.tx_hash_final u.transaction_previous true } : State))
                  with idx1 := 0 }, true))
        else (t, false)) : State × Bool).1.parser
        = (if t.parser.state_pos < 1 then
            (({ t.parser with status := RawTxStatus.NOT_PARSING } : ParserView), true)
           else (t.parser, false)).1 ∧
      ((if t.state_pos < 1 then
          (if memcmp32_ne
                (hash_raw_byte { t with raw_tx_status := RawTxStatus.NOT_PARSING,
                                        resp := TxRequest.zero } b |> fun u =>
                  ({ u with hash := env.tx_hash_final u.transaction_previous true } : State)).hash
                t.input.prev_hash then
              (signing_abort (fsm_sendFailure FailureType.Failure_Other
                "Encountered invalid prevhash"
                (hash_raw_byte { t with raw_tx_status := RawTxStatus.NOT_PARSING,
                                        resp := TxRequest.zero } b |> fun u =>
                  ({ u with hash := env.tx_hash_final u.transaction_previous true } : State))),
                true)
            else if t.idx1 < dec32 t.inputs_count then
              (send_req_1_input
                { (hash_raw_byte { t with raw_tx_status := RawTxStatus.NOT_PARSING,
                                          resp := TxRequest.zero } b |> fun u =>
                    ({ u with hash := env.tx_hash_final u.transaction_previous true } : State))
                  with idx1 := t.idx1 + 1 }, true)
            else
              (send_req_3_output
                { (hash_raw_byte { t with raw_tx_status := RawTxStatus.NOT_PARSING,
                                          resp := TxRequest.zero } b |> fun u =>
                    ({ u with hash := env.tx_hash_final u.transaction_previous true } : State))
                  with idx1 := 0 }, true))
        else (t, false)) : State × Bool).2
        = (if t.parser.state_pos < 1 then
            (({ t.parser with status := RawTxStatus.NOT_PARSING } : ParserView), true)
           else (t.parser, false)).2 := by
    intro t
    have hp : t.parser.state_pos = t.state_pos := rfl
    rw [hp]
    by_cases h1 : t.state_pos < 1
    · rw [if_pos h1, if_pos h1]
      split_ifs
      · exact ⟨signing_abort_view _, rfl⟩
      · exact ⟨rfl, rfl⟩
      · exact ⟨rfl, rfl⟩
    · rw [if_neg h1, if_neg h1]
      exact ⟨rfl, rfl⟩
  have e := store_ptr_view s b
  by_cases h0 : s.state_pos ≥ 0
  · have h0' : s.parser.state_pos ≥ 0 := h0
    simp only [parsing_locktime, view_locktime, if_pos h0, if_pos h0', ← e]
    exact key (store_ptr s b)
  · have h0' : ¬ s.parser.state_pos ≥ 0 := h0
    simp only [parsing_locktime, view_locktime, if_neg h0, if_neg h0']
    exact key s

theorem hash_raw_byte_view (s : State) (b : Nat) : (hash_raw_byte s b).parser = s.parser :=
  rfl

theorem view_parse_raw_byte_locktime (v : ParserView) (b : Nat)
    (h : v.status = RawTxStatus.PARSING_LOCKTIME) :
    view_parse_raw_byte v b = view_locktime { v with state_pos := v.state_pos - 1 } b := by
  unfold view_parse_raw_byte
  simp only [h]

/-- One byte: the view after `parse_raw_byte` is the one computed on the view before it. -/
theorem parse_raw_byte_view (env : Env) (s : State) (b : Nat) :
    (parse_raw_byte env s b).1.parser = (view_parse_raw_byte s.parser b).1 ∧
    (parse_raw_byte env s b).2 = (view_parse_raw_byte s.parser b).2 := by
  have hv : ({ s.parser with state_pos := s.parser.state_pos - 1 } : ParserView)
      = ({ s with state_pos := s.state_pos - 1 } : State).parser := rfl
  have hs : s.parser.status = s.raw_tx_status := rfl
  cases hst : s.raw_tx_status
  case NOT_PARSING =>
    have hn : ({ s.parser with
          state_pos := 4, inputs_len := 0, outputs_len := 0,
          status := RawTxStatus.PARSING_VERSION, ptr := PtrTarget.version, ptr_off := 0 }
          : ParserView)
        = ({ s with transaction_previous := tx_init 0 0 0 0 false, state_pos := 4,
                    raw_tx_status := RawTxStatus.PARSING_VERSION,
                    ptr := PtrTarget.version, ptr_off := 0 } : State).parser := rfl
    simp only [parse_raw_byte, view_parse_raw_byte, hs, hst]
    refine ⟨?_, trivial⟩
    rw [hash_raw_byte_view, parsing_version_view]
    rfl
  case PARSING_VERSION =>
    simp only [parse_raw_byte, view_parse_raw_byte, hs, hst, hv]
    exact ⟨(hash_raw_byte_view _ b).trans (parsing_version_view _ b), trivial⟩
  case PARSING_INPUT_COUNT =>
    simp only [parse_raw_byte, view_parse_raw_byte, hs, hst, hv]
    exact ⟨(hash_raw_byte_view _ b).trans (parsing_input_count_view _ b), trivial⟩
  case PARSING_INPUTS =>
    simp only [parse_raw_byte, view_parse_raw_byte, hs, hst, hv]
    exact ⟨(hash_raw_byte_view _ b).trans (parsing_inputs_view _ b), trivial⟩
  case PARSING_OUTPUT_COUNT =>
    simp only [parse_raw_byte, view_parse_raw_byte, hs, hst, hv]
    exact ⟨(hash_raw_byte_view _ b).trans (parsing_output_count_view _ b), trivial⟩
  case PARSING_OUTPUTS_VALUE =>
    simp only [parse_raw_byte, view_parse_raw_byte, hs, hst, hv]
    exact ⟨(hash_raw_byte_view _ b).trans (parsing_outputs_value_view _ b), trivial⟩
  case PARSING_OUTPUTS =>
    simp only [parse_raw_byte, view_parse_raw_byte, hs, hst, hv]
    exact ⟨(hash_raw_byte_view _ b).trans (parsing_outputs_view _ b), trivial⟩
  case PARSING_LOCKTIME =>
    obtain ⟨l1, l2⟩ := parsing_locktime_view env { s with state_pos := s.state_pos - 1 } b
    rw [parse_raw_byte_at_locktime env s b hst, view_parse_raw_byte_locktime s.parser b hst,
      hv]
    by_cases h : (parsing_locktime env { s with state_pos := s.state_pos - 1 } b).2 = true
    · rw [if_pos h]
      exact ⟨l1, l2⟩
    · rw [if_neg h]
      refine ⟨(hash_raw_byte_view _ b).trans l1, ?_⟩
      rw [← l2]
      simpa using h

/-- A raw message: the view after `parse_raw_txack` is the one computed on the view before
it. -/
theorem parse_raw_txack_view (env : Env) (msg : Bytes) :
    ∀ s : State, (parse_raw_txack env s msg).parser = view_parse_raw_txack s.parser msg := by
  induction msg with
  | nil => intro s; rfl
  | cons b rest ih =>
    intro s
    obtain ⟨h1, h2⟩ := parse_raw_byte_view env s b
    rw [parse_raw_txack, view_parse_raw_txack, ← h2]
    split_ifs
    · exact h1
    · rw [ih, h1]

theorem steps_nil (v : ParserView) : Steps v [] v := ⟨trivial, rfl⟩

theorem steps_cons {v w : ParserView} {b : Nat} {rest : Bytes}
    (h1 : view_parse_raw_byte v b = (view_step v b, false))
    (h2 : Steps (view_step v b) rest w) : Steps v (b :: rest) w := by
  refine ⟨⟨?_, h2.1⟩, h2.2⟩
  rw [h1]

theorem steps_one {v w : ParserView} {b : Nat} (h : view_parse_raw_byte v b = (w, false)) :
    Steps v [b] w := by
  have hw : view_step v b = w := by rw [view_step, h]
  refine ⟨⟨by rw [h], trivial⟩, ?_⟩
  simp [view_feed, hw]

theorem steps_append {u v w : ParserView} {a b : Bytes}
    (h1 : Steps u a v) (h2 : Steps v b w) : Steps u (a ++ b) w := by
  induction a generalizing u with
  | nil =>
    obtain ⟨-, e⟩ := h1
    simp only [view_feed, List.foldl_nil] at e
    rw [List.nil_append, e]
    exact h2
  | cons x rest ih =>
    obtain ⟨⟨q1, q2⟩, e⟩ := h1
    have : Steps (view_step u x) rest v := ⟨q2, by simpa [view_feed] using e⟩
    have h3 := ih this
    exact ⟨⟨q1, h3.1⟩, by simpa [view_feed] using h3.2⟩

theorem view_quiet_append (v : ParserView) (a b : Bytes) :
    view_quiet v (a ++ b) ↔ view_quiet v a ∧ view_quiet (view_feed v a) b := by
  induction a generalizing v with
  | nil => simp [view_quiet, view_feed]
  | cons x rest ih =>
    rw [List.cons_append, view_quiet, view_quiet, ih]
    simp only [view_feed, List.foldl_cons, and_assoc]

theorem view_parse_quiet (v : ParserView) (bytes : Bytes) (h : view_quiet v bytes) :
    view_parse_raw_txack v bytes = view_feed v bytes := by
  induction bytes generalizing v with
  | nil => rfl
  | cons b rest ih =>
    rw [view_parse_raw_txack]
    simp only [h.1, Bool.false_eq_true, if_false]
    exact ih _ h.2

theorem view_parse_quiet_last (v : ParserView) (bytes : Bytes) (b : Nat)
    (h : view_quiet v bytes) :
    view_parse_raw_txack v (bytes ++ [b]) = view_step (view_feed v bytes) b := by
  induction bytes generalizing v with
  | nil =>
    simp only [List.nil_append, view_parse_raw_txack, view_feed, List.foldl_nil, view_step]
    split_ifs <;> rfl
  | cons x rest ih =>
    rw [List.cons_append, view_parse_raw_txack]
    simp only [h.1, Bool.false_eq_true, if_false]
    exact ih _ h.2

/-- The chunks of a byte string in which only the last byte may end a call: the view after
the calls on the chunks is the view after the bytes. -/
theorem view_parse_chunks (chunks : List Bytes) :
    ∀ (v : ParserView) (init : Bytes) (b : Nat), chunks.flatten = init ++ [b] →
      view_quiet v init →
      chunks.foldl view_parse_raw_txack v = view_step (view_feed v init) b := by
  induction chunks with
  | nil =>
    intro v init b h
    simp at h
  | cons c rest ih =>
    intro v init b h hq
    rw [List.flatten_cons] at h
    rw [List.foldl_cons]
    by_cases hr : rest.flatten = []
    · rw [hr, List.append_nil] at h
      have hrest : ∀ (w : ParserView), rest.foldl view_parse_raw_txack w = w := by
        have hall : ∀ x ∈ rest, x = [] := by
          intro x hx
          exact List.flatten_eq_nil_iff.1 hr x hx
        clear ih h hr
        induction rest with
        | nil => intro w; rfl
        | cons y ys ihy =>
          intro w
          rw [List.foldl_cons, hall y (List.mem_cons_self _ _)]
          exact ihy (fun x hx => hall x (List.mem_cons_of_mem _ hx)) w
      rw [hrest, h]
      exact view_parse_quiet_last v init b hq
    · obtain ⟨init2, b2, h2⟩ : ∃ i2 b2, rest.flatten = i2 ++ [b2] :=
        ⟨rest.flatten.dropLast, rest.flatten.getLast hr,
          (List.dropLast_append_getLast hr).symm⟩
      rw [h2, ← List.append_assoc] at h
      have hi : init = c ++ init2 := List.append_inj_left' h.symm rfl
      have hb : b = b2 := by
        have := List.append_inj_right' h.symm rfl
        simpa using this
      subst hi
      rw [view_quiet_append] at hq
      rw [view_parse_quiet v c hq.1, ih (view_feed v c) init2 b2 h2 hq.2, hb]
      simp [view_feed]

theorem varint_input_count (v : ParserView) (bytes : Bytes) (n : Nat)
    (hst : v.status = RawTxStatus.PARSING_INPUT_COUNT)
    (hbuf : v.buf = List.replicate VAR_INT_BUFFER 0) (hidx : v.buf_index = 0)
    (h : Varint bytes n) :
    Steps v bytes { v with status := RawTxStatus.PARSING_INPUTS, state_pos := 36, seen := 0,
                           inputs_len := n } := by
  obtain ⟨status, state_pos, ptr, ptr_off, buf, buf_index, seen, script_len, cov, inputs_len,
    outputs_len, to_spend, prev_index⟩ := v
  simp only at hst hbuf hidx
  subst hst hbuf hidx
  cases h with
  | one _ h0 =>
    have m0 : n % 256 = n := Nat.mod_eq_of_lt (by omega)
    refine ⟨?_, ?_⟩ <;>
      simp [view_quiet, view_feed, view_step, view_parse_raw_byte, view_input_count,
        view_output_count, view_inputs, view_outputs, view_push_var_int, view_reset,
        deser_length, VAR_INT_BUFFER, List.replicate, m0, h0]
  | three b1 b2 h1 h2 =>
    have m1 : b1 % 256 = b1 := Nat.mod_eq_of_lt h1
    have m2 : b2 % 256 = b2 := Nat.mod_eq_of_lt h2
    refine ⟨?_, ?_⟩ <;>
      simp [view_quiet, view_feed, view_step, view_parse_raw_byte, view_input_count,
        view_output_count, view_inputs, view_outputs, view_push_var_int, view_reset,
        deser_length, VAR_INT_BUFFER, List.replicate, m1, m2]
  | five b1 b2 b3 b4 h1 h2 h3 h4 =>
    have m1 : b1 % 256 = b1 := Nat.mod_eq_of_lt h1
    have m2 : b2 % 256 = b2 := Nat.mod_eq_of_lt h2
    have m3 : b3 % 256 = b3 := Nat.mod_eq_of_lt h3
    have m4 : b4 % 256 = b4 := Nat.mod_eq_of_lt h4
    refine ⟨?_, ?_⟩ <;>
      simp [view_quiet, view_feed, view_step, view_parse_raw_byte, view_input_count,
        view_output_count, view_inputs, view_outputs, view_push_var_int, view_reset,
        deser_length, VAR_INT_BUFFER, List.replicate, m1, m2, m3, m4]

theorem varint_output_count (v : ParserView) (bytes : Bytes) (n : Nat)
    (hst : v.status = RawTxStatus.PARSING_OUTPUT_COUNT)
    (hbuf : v.buf = List.replicate VAR_INT_BUFFER 0) (hidx : v.buf_index = 0)
    (h : Varint bytes n) :
    Steps v bytes { v with status := RawTxStatus.PARSING_OUTPUTS_VALUE, state_pos := 8,
                           seen := 0, current_output_val := 0,
                           ptr := PtrTarget.current_output_val, ptr_off := 0,
                           outputs_len := n } := by
  obtain ⟨status, state_pos, ptr, ptr_off, buf, buf_index, seen, script_len, cov, inputs_len,
    outputs_len, to_spend, prev_index⟩ := v
  simp only at hst hbuf hidx
  subst hst hbuf hidx
  cases h with
  | one _ h0 =>
    have m0 : n % 256 = n := Nat.mod_eq_of_lt (by omega)
    refine ⟨?_, ?_⟩ <;>
      simp [view_quiet, view_feed, view_step, view_parse_raw_byte, view_input_count,
        view_output_count, view_inputs, view_outputs, view_push_var_int, view_reset,
        deser_length, VAR_INT_BUFFER, List.replicate, m0, h0]
  | three b1 b2 h1 h2 =>
    have m1 : b1 % 256 = b1 := Nat.mod_eq_of_lt h1
    have m2 : b2 % 256 = b2 := Nat.mod_eq_of_lt h2
    refine ⟨?_, ?_⟩ <;>
      simp [view_quiet, view_feed, view_step, view_parse_raw_byte, view_input_count,
        view_output_count, view_inputs, view_outputs, view_push_var_int, view_reset,
        deser_length, VAR_INT_BUFFER, List.replicate, m1, m2]
  | five b1 b2 b3 b4 h1 h2 h3 h4 =>
    have m1 : b1 % 256 = b1 := Nat.mod_eq_of_lt h1
    have m2 : b2 % 256 = b2 := Nat.mod_eq_of_lt h2
    have m3 : b3 % 256 = b3 := Nat.mod_eq_of_lt h3
    have m4 : b4 % 256 = b4 := Nat.mod_eq_of_lt h4
    refine ⟨?_, ?_⟩ <;>
      simp [view_quiet, view_feed, view_step, view_parse_raw_byte, view_input_count,
        view_output_count, view_inputs, view_outputs, view_push_var_int, view_reset,
        deser_length, VAR_INT_BUFFER, List.replicate, m1, m2, m3, m4]

theorem varint_inputs (v : ParserView) (bytes : Bytes) (n : Nat)
    (hst : v.status = RawTxStatus.PARSING_INPUTS) (hpos : v.state_pos = 0)
    (hseen : v.seen < v.inputs_len)
    (hbuf : v.buf = List.replicate VAR_INT_BUFFER 0) (hidx : v.buf_index = 0)
    (h : Varint bytes n) :
    Steps v bytes { v with seen := v.seen + 1, script_len := 0,
                           state_pos := if v.seen + 1 < v.inputs_len then toInt32 (n + 4 + 36)
                                        else toInt32 (n + 3) } := by
  obtain ⟨status, state_pos, ptr, ptr_off, buf, buf_index, seen, script_len, cov, inputs_len,
    outputs_len, to_spend, prev_index⟩ := v
  simp only at hst hpos hseen hbuf hidx
  subst hst hpos hbuf hidx
  cases h with
  | one _ h0 =>
    have m0 : n % 256 = n := Nat.mod_eq_of_lt (by omega)
    refine ⟨?_, ?_⟩ <;>
      simp [view_quiet, view_feed, view_step, view_parse_raw_byte, view_input_count,
        view_output_count, view_inputs, view_outputs, view_push_var_int, view_reset,
        deser_length, VAR_INT_BUFFER, List.replicate, m0, h0, hseen]
  | three b1 b2 h1 h2 =>
    have m1 : b1 % 256 = b1 := Nat.mod_eq_of_lt h1
    have m2 : b2 % 256 = b2 := Nat.mod_eq_of_lt h2
    refine ⟨?_, ?_⟩ <;>
      simp [view_quiet, view_feed, view_step, view_parse_raw_byte, view_input_count,
        view_output_count, view_inputs, view_outputs, view_push_var_int, view_reset,
        deser_length, VAR_INT_BUFFER, List.replicate, m1, m2, hseen]
  | five b1 b2 b3 b4 h1 h2 h3 h4 =>
    have m1 : b1 % 256 = b1 := Nat.mod_eq_of_lt h1
    have m2 : b2 % 256 = b2 := Nat.mod_eq_of_lt h2
    have m3 : b3 % 256 = b3 := Nat.mod_eq_of_lt h3
    have m4 : b4 % 256 = b4 := Nat.mod_eq_of_lt h4
    refine ⟨?_, ?_⟩ <;>
      simp [view_quiet, view_feed, view_step, view_parse_raw_byte, view_input_count,
        view_output_count, view_inputs, view_outputs, view_push_var_int, view_reset,
        deser_length, VAR_INT_BUFFER, List.replicate, m1, m2, m3, m4, hseen]

theorem varint_outputs (v : ParserView) (bytes : Bytes) (n : Nat)
    (hst : v.status = RawTxStatus.PARSING_OUTPUTS) (hpos : v.state_pos = 0)
    (hseen : v.seen < v.outputs_len)
    (hbuf : v.buf = List.replicate VAR_INT_BUFFER 0) (hidx : v.buf_index = 0)
    (h : Varint bytes n) :
    ∃ (B : Bytes) (I : Nat),
      Steps v bytes
        (if v.seen + 1 < v.outputs_len then
          { v with buf := B, buf_index := I, script_len := n, seen := v.seen + 1,
                   current_output_val := 0, ptr := PtrTarget.current_output_val, ptr_off := 0,
                   status := RawTxStatus.PARSING_OUTPUTS_VALUE,
                   state_pos := toInt32 (n + 8) }
        else
          { v with buf := B, buf_index := I, script_len := n, seen := v.seen + 1,
                   state_pos := toInt32 (n + (2 ^ 32 - 1)) }) := by
  obtain ⟨status, state_pos, ptr, ptr_off, buf, buf_index, seen, script_len, cov, inputs_len,
    outputs_len, to_spend, prev_index⟩ := v
  simp only at hst hpos hseen hbuf hidx
  subst hst hpos hbuf hidx
  cases h with
  | one _ h0 =>
    have m0 : n % 256 = n := Nat.mod_eq_of_lt (by omega)
    refine ⟨[n, 0, 0, 0, 0, 0, 0, 0, 0], 1, ?_, ?_⟩ <;>
      simp [view_quiet, view_feed, view_step, view_parse_raw_byte, view_input_count,
        view_output_count, view_inputs, view_outputs, view_push_var_int, view_reset,
        deser_length, VAR_INT_BUFFER, List.replicate, m0, h0, hseen]
  | three b1 b2 h1 h2 =>
    have m1 : b1 % 256 = b1 := Nat.mod_eq_of_lt h1
    have m2 : b2 % 256 = b2 := Nat.mod_eq_of_lt h2
    refine ⟨[253, b1, b2, 0, 0, 0, 0, 0, 0], 3, ?_, ?_⟩ <;>
      simp [view_quiet, view_feed, view_step, view_parse_raw_byte, view_input_count,
        view_output_count, view_inputs, view_outputs, view_push_var_int, view_reset,
        deser_length, VAR_INT_BUFFER, List.replicate, m1, m2, hseen]
  | five b1 b2 b3 b4 h1 h2 h3 h4 =>
    have m1 : b1 % 256 = b1 := Nat.mod_eq_of_lt h1
    have m2 : b2 % 256 = b2 := Nat.mod_eq_of_lt h2
    have m3 : b3 % 256 = b3 := Nat.mod_eq_of_lt h3
    have m4 : b4 % 256 = b4 := Nat.mod_eq_of_lt h4
    refine ⟨[254, b1, b2, b3, b4, 0, 0, 0, 0], 5, ?_, ?_⟩ <;>
      simp [view_quiet, view_feed, view_step, view_parse_raw_byte, view_input_count,
        view_output_count, view_inputs, view_outputs, view_push_var_int, view_reset,
        deser_length, VAR_INT_BUFFER, List.replicate, m1, m2, m3, m4, hseen]

theorem toInt32_small (x : Nat) (h : x < 2 ^ 31) : toInt32 x = (x : Int) := by
  unfold toInt32
  have h1 : x % 2 ^ 32 = x := Nat.mod_eq_of_lt (by omega)
  rw [h1, if_pos h]

theorem toInt32_pred (n : Nat) (h : n ≤ 2 ^ 31) : toInt32 (n + (2 ^ 32 - 1)) = (n : Int) - 1 := by
  unfold toInt32
  rcases Nat.eq_zero_or_pos n with h0 | h0
  · subst h0
    norm_num
  · have h1 : (n + (2 ^ 32 - 1)) % 2 ^ 32 = n - 1 := by omega
    rw [h1, if_pos (by omega)]
    omega

theorem view_eta (v : ParserView) : ({ v with state_pos := v.state_pos - 0 } : ParserView) = v := by
  cases v
  simp

theorem skip_inputs (bytes : Bytes) :
    ∀ v : ParserView, v.status = RawTxStatus.PARSING_INPUTS →
      (bytes.length : Int) ≤ v.state_pos →
      Steps v bytes { v with state_pos := v.state_pos - bytes.length } := by
  induction bytes with
  | nil =>
    intro v _ _
    simp only [List.length_nil, Nat.cast_zero, view_eta]
    exact steps_nil v
  | cons b rest ih =>
    intro v hst hp
    simp only [List.length_cons, Nat.cast_add, Nat.cast_one] at hp ⊢
    have h1 : ¬ (v.state_pos - 1 < 0) := by omega
    have e : view_parse_raw_byte v b = ({ v with state_pos := v.state_pos - 1 }, false) := by
      simp [view_parse_raw_byte, hst, view_inputs, h1]
    have e2 : view_step v b = { v with state_pos := v.state_pos - 1 } := by
      rw [view_step, e]
    refine steps_cons (by rw [e2]; exact e) ?_
    rw [e2]
    have := ih { v with state_pos := v.state_pos - 1 } hst (by simp only; omega)
    simp only at this
    have e3 : v.state_pos - 1 - (rest.length : Int) = v.state_pos - ((rest.length : Int) + 1) := by
      omega
    rw [e3] at this
    exact this

theorem skip_outputs_value (bytes : Bytes) :
    ∀ v : ParserView, v.status = RawTxStatus.PARSING_OUTPUTS_VALUE →
      (bytes.length : Int) + 8 ≤ v.state_pos →
      Steps v bytes { v with state_pos := v.state_pos - bytes.length } := by
  induction bytes with
  | nil =>
    intro v _ _
    simp only [List.length_nil, Nat.cast_zero, view_eta]
    exact steps_nil v
  | cons b rest ih =>
    intro v hst hp
    simp only [List.length_cons, Nat.cast_add, Nat.cast_one] at hp ⊢
    have h1 : ¬ (v.state_pos - 1 < 8) := by omega
    have e : view_parse_raw_byte v b = ({ v with state_pos := v.state_pos - 1 }, false) := by
      simp [view_parse_raw_byte, hst, view_outputs_value, h1]
    have e2 : view_step v b = { v with state_pos := v.state_pos - 1 } := by
      rw [view_step, e]
    refine steps_cons (by rw [e2]; exact e) ?_
    rw [e2]
    have := ih { v with state_pos := v.state_pos - 1 } hst (by simp only; omega)
    simp only at this
    have e3 : v.state_pos - 1 - (rest.length : Int) = v.state_pos - ((rest.length : Int) + 1) := by
      omega
    rw [e3] at this
    exact this

theorem skip_outputs (bytes : Bytes) :
    ∀ v : ParserView, v.status = RawTxStatus.PARSING_OUTPUTS →
      (bytes.length : Int) ≤ v.state_pos →
      Steps v bytes { v with state_pos := v.state_pos - bytes.length } := by
  induction bytes with
  | nil =>
    intro v _ _
    simp only [List.length_nil, Nat.cast_zero, view_eta]
    exact steps_nil v
  | cons b rest ih =>
    intro v hst hp
    simp only [List.length_cons, Nat.cast_add, Nat.cast_one] at hp ⊢
    have h1 : ¬ (v.state_pos - 1 < 0) := by omega
    have e : view_parse_raw_byte v b = ({ v with state_pos := v.state_pos - 1 }, false) := by
      simp [view_parse_raw_byte, hst, view_outputs, h1]
    have e2 : view_step v b = { v with state_pos := v.state_pos - 1 } := by
      rw [view_step, e]
    refine steps_cons (by rw [e2]; exact e) ?_
    rw [e2]
    have := ih { v with state_pos := v.state_pos - 1 } hst (by simp only; omega)
    simp only at this
    have e3 : v.state_pos - 1 - (rest.length : Int) = v.state_pos - ((rest.length : Int) + 1) := by
      omega
    rw [e3] at this
    exact this

theorem inputs_to_output_count (v : ParserView) (b : Nat)
    (hst : v.status = RawTxStatus.PARSING_INPUTS) (hpos : v.state_pos ≤ 0)
    (hseen : ¬ v.seen < v.inputs_len) :
    Steps v [b] { v with state_pos := v.state_pos - 1,
                         status := RawTxStatus.PARSING_OUTPUT_COUNT } := by
  have h1 : v.state_pos - 1 < 0 := by omega
  exact steps_one (by simp [view_parse_raw_byte, hst, view_inputs, h1, hseen])

theorem outputs_to_locktime (v : ParserView) (b : Nat)
    (hst : v.status = RawTxStatus.PARSING_OUTPUTS) (hpos : v.state_pos ≤ 0)
    (hseen : ¬ v.seen < v.outputs_len) :
    Steps v [b] (view_reset { v with status := RawTxStatus.PARSING_LOCKTIME, state_pos := 4,
                                     ptr := PtrTarget.lock_time, ptr_off := 0 }) := by
  have h1 : v.state_pos - 1 < 0 := by omega
  exact steps_one (by simp [view_parse_raw_byte, hst, view_outputs, h1, hseen])

theorem view_store_ptr_frame (v : ParserView) (b : Nat) :
    (view_store_ptr v b).status = v.status ∧ (view_store_ptr v b).state_pos = v.state_pos ∧
    (view_store_ptr v b).to_spend = v.to_spend ∧
    (view_store_ptr v b).prev_index = v.prev_index := by
  simp only [view_store_ptr]
  cases v.ptr <;> dsimp only <;> (try split_ifs) <;> exact ⟨rfl, rfl, rfl, rfl⟩

/-- Bytes of the lock time before its last: the parser stays in `PARSING_LOCKTIME`. -/
theorem skip_locktime (bytes : Bytes) :
    ∀ v : ParserView, v.status = RawTxStatus.PARSING_LOCKTIME →
      (bytes.length : Int) + 1 ≤ v.state_pos →
      ∃ w, Steps v bytes w ∧ w.status = RawTxStatus.PARSING_LOCKTIME ∧
        w.to_spend = v.to_spend ∧ w.state_pos = v.state_pos - bytes.length := by
  induction bytes with
  | nil =>
    intro v hst _
    exact ⟨v, steps_nil v, hst, rfl, by simp⟩
  | cons b rest ih =>
    intro v hst hp
    simp only [List.length_cons, Nat.cast_add, Nat.cast_one] at hp ⊢
    obtain ⟨f1, f2, f3, -⟩ := view_store_ptr_frame { v with state_pos := v.state_pos - 1 } b
    simp only at f1 f2 f3
    have h0 : v.state_pos - 1 ≥ 0 := by omega
    have h1 : ¬ (v.state_pos - 1 < 1) := by omega
    have e : view_parse_raw_byte v b
        = (view_store_ptr { v with state_pos := v.state_pos - 1 } b, false) := by
      rw [view_parse_raw_byte_locktime v b hst]
      simp only [view_locktime, ge_iff_le, h0, if_true, f2, h1, if_false]
    have e2 : view_step v b = view_store_ptr { v with state_pos := v.state_pos - 1 } b := by
      rw [view_step, e]
    obtain ⟨w, s1, s2, s3, s4⟩ :=
      ih (view_store_ptr { v with state_pos := v.state_pos - 1 } b) (f1.trans hst)
        (by rw [f2]; omega)
    refine ⟨w, steps_cons (by rw [e2]; exact e) (by rw [e2]; exact s1), s2, s3.trans f3, ?_⟩
    rw [s4, f2]
    omega

/-- A byte in `PARSING_LOCKTIME`, the last one included, does not change `to_spend`. -/
theorem locktime_step_to_spend (v : ParserView) (b : Nat)
    (hst : v.status = RawTxStatus.PARSING_LOCKTIME) :
    (view_step v b).to_spend = v.to_spend := by
  obtain ⟨-, -, f3, -⟩ := view_store_ptr_frame { v with state_pos := v.state_pos - 1 } b
  rw [view_step, view_parse_raw_byte_locktime v b hst]
  simp only [view_locktime]
  split_ifs <;> first | exact f3 | rfl

/-- The four bytes of the version. -/
theorem version_bytes (v : ParserView) (bytes : Bytes)
    (hst : v.status = RawTxStatus.NOT_PARSING) (hlen : bytes.length = 4) :
    ∃ w, Steps v bytes w ∧ w.status = RawTxStatus.PARSING_INPUT_COUNT ∧
      w.buf = List.replicate VAR_INT_BUFFER 0 ∧ w.buf_index = 0 ∧
      w.to_spend = v.to_spend ∧ w.prev_index = v.prev_index := by
  obtain ⟨status, state_pos, ptr, ptr_off, buf, buf_index, seen, script_len, cov, inputs_len,
    outputs_len, to_spend, prev_index⟩ := v
  simp only at hst
  subst hst
  match bytes, hlen with
  | [b0, b1, b2, b3], _ =>
    refine ⟨_, ⟨?_, rfl⟩, ?_, ?_, ?_, ?_, ?_⟩ <;>
      simp [view_quiet, view_feed, view_step, view_parse_raw_byte, view_version,
        view_store_ptr, view_reset]

theorem setByte_fresh (v k b : Nat) (hv : v < 256 ^ k) (hb : b < 256) :
    setByte v k b = v + b * 256 ^ k ∧ v + b * 256 ^ k < 256 ^ (k + 1) := by
  unfold setByte
  have h1 : v / 256 ^ k = 0 := Nat.div_eq_of_lt hv
  rw [h1, Nat.mod_eq_of_lt hb]
  constructor
  · simp
  · have : b * 256 ^ k ≤ 255 * 256 ^ k := Nat.mul_le_mul_right _ (by omega)
    rw [pow_succ]
    omega

theorem le_value_append (a : Bytes) (x : Nat) :
    le_value (a ++ [x]) = le_value a + x * 256 ^ a.length := by
  induction a with
  | nil => simp [le_value]
  | cons y ys ihy =>
    rw [List.cons_append, le_value, le_value, ihy, List.length_cons, pow_succ]
    ring

theorem value_store_step (v : ParserView) (b : Nat)
    (hst : v.status = RawTxStatus.PARSING_OUTPUTS_VALUE)
    (hptr : v.ptr = PtrTarget.current_output_val) (hoff : v.ptr_off < 8)
    (hpos : 2 ≤ v.state_pos) (hpos8 : v.state_pos ≤ 8)
    (hcov : v.current_output_val < 256 ^ v.ptr_off) (hb : b < 256) :
    view_parse_raw_byte v b
      = ({ v with state_pos := v.state_pos - 1, ptr_off := v.ptr_off + 1,
                  current_output_val := v.current_output_val + b * 256 ^ v.ptr_off }, false) := by
  obtain ⟨e, -⟩ := setByte_fresh v.current_output_val v.ptr_off b hcov hb
  have h1 : v.state_pos - 1 < 8 := by omega
  have h2 : ¬ (v.state_pos - 1 < 1) := by omega
  simp [view_parse_raw_byte, hst, view_outputs_value, view_store_ptr, hptr, hoff, h1, h2, e]

theorem value_last_step (v : ParserView) (b : Nat)
    (hst : v.status = RawTxStatus.PARSING_OUTPUTS_VALUE)
    (hptr : v.ptr = PtrTarget.current_output_val) (hoff : v.ptr_off < 8)
    (hpos : v.state_pos = 1)
    (hcov : v.current_output_val < 256 ^ v.ptr_off) (hb : b < 256) :
    view_parse_raw_byte v b
      = (view_reset { v with
            state_pos := 0, ptr_off := v.ptr_off + 1,
            current_output_val := v.current_output_val + b * 256 ^ v.ptr_off,
            status := RawTxStatus.PARSING_OUTPUTS, script_len := 0,
            to_spend := if v.seen = v.prev_index then
                          add64 v.to_spend (v.current_output_val + b * 256 ^ v.ptr_off)
                        else v.to_spend }, false) := by
  obtain ⟨e, -⟩ := setByte_fresh v.current_output_val v.ptr_off b hcov hb
  simp only [view_parse_raw_byte, hst, view_outputs_value, view_store_ptr, hptr, hoff, hpos, e]
  norm_num
  split_ifs <;> rfl

/-- The first bytes of the value of an output, up to seven. -/
theorem value_head_bytes (bytes : Bytes) :
    ∀ v : ParserView, v.status = RawTxStatus.PARSING_OUTPUTS_VALUE →
      v.ptr = PtrTarget.current_output_val → v.ptr_off + bytes.length ≤ 7 →
      v.state_pos = 8 - (v.ptr_off : Int) → v.current_output_val < 256 ^ v.ptr_off →
      (∀ b ∈ bytes, b < 256) →
      Steps v bytes
        { v with state_pos := v.state_pos - bytes.length,
                 ptr_off := v.ptr_off + bytes.length,
                 current_output_val := v.current_output_val + 256 ^ v.ptr_off * le_value bytes } ∧
      v.current_output_val + 256 ^ v.ptr_off * le_value bytes
        < 256 ^ (v.ptr_off + bytes.length) := by
  induction bytes with
  | nil =>
    intro v _ _ _ _ hcov _
    refine ⟨?_, by simpa [le_value] using hcov⟩
    have : ({ v with state_pos := v.state_pos - ((([] : Bytes).length : Nat) : Int),
                     ptr_off := v.ptr_off + ([] : Bytes).length,
                     current_output_val := v.current_output_val
                       + 256 ^ v.ptr_off * le_value [] } : ParserView) = v := by
      cases v
      simp [le_value]
    rw [this]
    exact steps_nil v
  | cons b rest ih =>
    intro v hst hptr hlen hpos hcov hb
    simp only [List.length_cons] at hlen
    have hb0 : b < 256 := hb b (List.mem_cons_self _ _)
    obtain ⟨-, hlt⟩ := setByte_fresh v.current_output_val v.ptr_off b hcov hb0
    have e := value_store_step v b hst hptr (by omega) (by omega) (by omega) hcov hb0
    have e2 : view_step v b
        = { v with state_pos := v.state_pos - 1, ptr_off := v.ptr_off + 1,
                   current_output_val := v.current_output_val + b * 256 ^ v.ptr_off } := by
      rw [view_step, e]
    obtain ⟨i1, i2⟩ := ih
      { v with state_pos := v.state_pos - 1, ptr_off := v.ptr_off + 1,
               current_output_val := v.current_output_val + b * 256 ^ v.ptr_off }
      hst hptr (by simp only; omega) (by simp only; push_cast; omega) hlt
      (fun x hx => hb x (List.mem_cons_of_mem _ hx))
    simp only at i1 i2
    have ev : v.current_output_val + b * 256 ^ v.ptr_off + 256 ^ (v.ptr_off + 1) * le_value rest
        = v.current_output_val + 256 ^ v.ptr_off * le_value (b :: rest) := by
      simp only [le_value, pow_succ]
      ring
    have ep : v.state_pos - 1 - (rest.length : Int)
        = v.state_pos - (((b :: rest).length : Nat) : Int) := by
      simp only [List.length_cons]
      push_cast
      omega
    have eo : v.ptr_off + 1 + rest.length = v.ptr_off + (b :: rest).length := by
      simp only [List.length_cons]
      omega
    rw [ev, ep, eo] at i1
    rw [ev, eo] at i2
    exact ⟨steps_cons (by rw [e2]; exact e) (by rw [e2]; exact i1), i2⟩

/-- The eight bytes of the value of an output: `to_spend` grows by the value if the
output is the one at `prev_index`. -/
theorem value_bytes (v : ParserView) (bytes : Bytes)
    (hst : v.status = RawTxStatus.PARSING_OUTPUTS_VALUE) (hpos : v.state_pos = 8)
    (hptr : v.ptr = PtrTarget.current_output_val) (hoff : v.ptr_off = 0)
    (hcov : v.current_output_val = 0) (hlen : bytes.length = 8)
    (hb : ∀ b ∈ bytes, b < 256) :
    Steps v bytes
      (view_reset { v with state_pos := 0, ptr_off := 8, current_output_val := le_value bytes,
                           status := RawTxStatus.PARSING_OUTPUTS, script_len := 0,
                           to_spend := if v.seen = v.prev_index then
                                         add64 v.to_spend (le_value bytes)
                                       else v.to_spend }) := by
  have hne : bytes ≠ [] := by
    intro h
    rw [h] at hlen
    cases hlen
  have hsplit := List.dropLast_append_getLast hne
  have hl7 : bytes.dropLast.length = 7 := by
    rw [List.length_dropLast, hlen]
  obtain ⟨p1, p2⟩ := value_head_bytes bytes.dropLast v hst hptr (by rw [hoff, hl7])
    (by rw [hpos, hoff]; norm_num) (by rw [hcov, hoff]; norm_num)
    (fun b hb1 => hb b (List.mem_of_mem_dropLast hb1))
  rw [hl7, hoff, hcov, hpos] at p1
  rw [hl7, hoff, hcov] at p2
  have hlast : bytes.getLast hne < 256 := hb _ (List.getLast_mem hne)
  have e := value_last_step
    { v with state_pos := 8 - ((7 : Nat) : Int), ptr_off := 0 + 7,
             current_output_val := 0 + 256 ^ 0 * le_value bytes.dropLast }
    (bytes.getLast hne) hst hptr (by simp only; omega) (by simp only; norm_num)
    (by simp only; exact p2) hlast
  have hval : 0 + 256 ^ 0 * le_value bytes.dropLast + bytes.getLast hne * 256 ^ (0 + 7)
      = le_value bytes := by
    conv_rhs => rw [← hsplit, le_value_append, hl7]
    norm_num
  simp only at e
  rw [hval] at e
  have hfin := steps_append p1 (steps_one e)
  rw [hsplit] at hfin
  have hw : (view_reset
      { v with state_pos := 0, ptr_off := 0 + 7 + 1, current_output_val := le_value bytes,
               status := RawTxStatus.PARSING_OUTPUTS, script_len := 0,
               to_spend := if v.seen = v.prev_index then add64 v.to_spend (le_value bytes)
                           else v.to_spend })
      = (view_reset
      { v with state_pos := 0, ptr_off := 8, current_output_val := le_value bytes,
               status := RawTxStatus.PARSING_OUTPUTS, script_len := 0,
               to_spend := if v.seen = v.prev_index then add64 v.to_spend (le_value bytes)
                           else v.to_spend }) := rfl
  rw [← hw]
  exact hfin

/-- The inputs of a raw transaction that are still to come. -/
theorem inputs_loop (ins : List RawInput) :
    ∀ v : ParserView, v.status = RawTxStatus.PARSING_INPUTS → v.state_pos = 36 →
      v.seen + ins.length = v.inputs_len → 1 ≤ ins.length →
      v.buf = List.replicate VAR_INT_BUFFER 0 → v.buf_index = 0 →
      (∀ i ∈ ins, i.well_formed ∧ i.script.length + 40 < 2 ^ 31) →
      ∃ w, Steps v (ins.flatMap RawInput.bytes) w ∧
        w.status = RawTxStatus.PARSING_OUTPUT_COUNT ∧
        w.buf = List.replicate VAR_INT_BUFFER 0 ∧ w.buf_index = 0 ∧
        w.to_spend = v.to_spend ∧ w.prev_index = v.prev_index := by
  induction ins with
  | nil => intro v _ _ _ h; simp at h
  | cons i rest ih =>
    intro v hst hpos hseen _ hbuf hidx hall
    obtain ⟨⟨w1, w2, w3⟩, hbound⟩ := hall i (List.mem_cons_self _ _)
    simp only [List.length_cons] at hseen
    -- the outpoint
    have s1 := skip_inputs i.outpoint v hst (by rw [w1, hpos]; norm_num)
    rw [w1, hpos] at s1
    -- the varint
    have s2 := varint_inputs { v with state_pos := 36 - ((36 : Nat) : Int) } i.script_len
      i.script.length hst (by simp) (by simp only; omega) hbuf hidx w2
    simp only at s2
    have s12 := steps_append s1 s2
    by_cases hlast : v.seen + 1 < v.inputs_len
    · -- another input follows
      rw [if_pos hlast, toInt32_small _ (by omega)] at s12
      have s3 := skip_inputs (i.script ++ i.sequence)
        { v with state_pos := ((i.script.length + 4 + 36 : Nat) : Int), seen := v.seen + 1,
                 script_len := 0 }
        hst (by simp only [List.length_append, w3]; push_cast; omega)
      simp only [List.length_append, w3] at s3
      have s123 := steps_append s12 s3
      have hrest : 1 ≤ rest.length := by omega
      obtain ⟨w, r1, r2, r3, r4, r5, r6⟩ := ih
        { v with state_pos := ((i.script.length + 4 + 36 : Nat) : Int)
                   - ((i.script.length + 4 : Nat) : Int),
                 seen := v.seen + 1, script_len := 0 }
        hst (by simp only; push_cast; omega) (by simp only; omega) hrest hbuf hidx
        (fun j hj => hall j (List.mem_cons_of_mem _ hj))
      refine ⟨w, ?_, r2, r3, r4, r5, r6⟩
      have := steps_append s123 r1
      simpa [List.flatMap_cons, RawInput.bytes, List.append_assoc] using this
    · -- the last input
      have hrest : rest = [] := by
        cases rest with
        | nil => rfl
        | cons _ _ => simp only [List.length_cons] at hseen; omega
      subst hrest
      rw [if_neg hlast, toInt32_small _ (by omega)] at s12
      have hne : i.sequence ≠ [] := by
        intro h; rw [h] at w3; cases w3
      have hsplit := List.dropLast_append_getLast hne
      have hl3 : i.sequence.dropLast.length = 3 := by rw [List.length_dropLast, w3]
      have s3 := skip_inputs (i.script ++ i.sequence.dropLast)
        { v with state_pos := ((i.script.length + 3 : Nat) : Int), seen := v.seen + 1,
                 script_len := 0 }
        hst (by simp only [List.length_append, hl3]; push_cast; omega)
      simp only [List.length_append, hl3] at s3
      have s4 := inputs_to_output_count
        { v with state_pos := ((i.script.length + 3 : Nat) : Int)
                   - ((i.script.length + 3 : Nat) : Int),
                 seen := v.seen + 1, script_len := 0 }
        (i.sequence.getLast hne) hst (by simp only; omega) (by simp only; omega)
      have s1234 := steps_append (steps_append s12 s3) s4
      have e : [i].flatMap RawInput.bytes
          = i.outpoint ++ i.script_len ++ (i.script ++ i.sequence.dropLast)
              ++ [i.sequence.getLast hne] := by
        simp only [List.flatMap_cons, List.flatMap_nil, List.append_nil, RawInput.bytes,
          List.append_assoc]
        rw [hsplit]
      rw [e]
      exact ⟨_, s1234, rfl, hbuf, hidx, rfl, rfl⟩

theorem raw_spend_cons (t k j : Nat) (o : RawOutput) (rest : List RawOutput) :
    raw_spend (if j = k then add64 t (le_value o.value) else t)
        (if j + 1 ≤ k then rest[k - (j + 1)]? else none)
      = raw_spend t (if j ≤ k then (o :: rest)[k - j]? else none) := by
  by_cases he : j = k
  · simp [he, raw_spend]
  · by_cases hle : j ≤ k
    · have e1 : k - j = (k - (j + 1)) + 1 := by omega
      have e2 : j + 1 ≤ k := by omega
      rw [if_neg he, if_pos hle, if_pos e2, e1, List.getElem?_cons_succ]
    · have e2 : ¬ j + 1 ≤ k := by omega
      rw [if_neg he, if_neg hle, if_neg e2]

/-- The outputs of a raw transaction that are still to come: `to_spend` grows by the
value of the output at `prev_index`, if it is among them, and the parser is left where the
lock time begins. -/
theorem outputs_loop (outs : List RawOutput) :
    ∀ v : ParserView, v.status = RawTxStatus.PARSING_OUTPUTS_VALUE → v.state_pos = 8 →
      v.ptr = PtrTarget.current_output_val → v.ptr_off = 0 → v.current_output_val = 0 →
      v.seen + outs.length = v.outputs_len → 1 ≤ outs.length →
      (∀ o ∈ outs, o.well_formed ∧ o.script.length + 40 < 2 ^ 31) →
      ∃ w, Steps v (outs.flatMap RawOutput.bytes) w ∧
        ((w.status = RawTxStatus.PARSING_LOCKTIME ∧ w.state_pos = 4) ∨
         (w.status = RawTxStatus.PARSING_OUTPUTS ∧ w.state_pos = -1 ∧
           ¬ w.seen < w.outputs_len)) ∧
        w.to_spend = raw_spend v.to_spend
          (if v.seen ≤ v.prev_index then outs[v.prev_index - v.seen]? else none) := by
  induction outs with
  | nil => intro v _ _ _ _ _ _ h; simp at h
  | cons o rest ih =>
    intro v hst hpos hptr hoff hcov hseen _ hall
    obtain ⟨⟨w1, w2, w3⟩, hbound⟩ := hall o (List.mem_cons_self _ _)
    simp only [List.length_cons] at hseen
    -- the value
    have s1 := value_bytes v o.value hst hpos hptr hoff hcov w1 w2
    -- the varint
    obtain ⟨B, I, s2⟩ := varint_outputs
      (view_reset { v with state_pos := 0, ptr_off := 8, current_output_val := le_value o.value,
                           status := RawTxStatus.PARSING_OUTPUTS, script_len := 0,
                           to_spend := if v.seen = v.prev_index then
                                         add64 v.to_spend (le_value o.value)
                                       else v.to_spend })
      o.script_len o.script.length rfl rfl (by simp only [view_reset]; omega) rfl rfl w3
    simp only [view_reset] at s1 s2
    have s12 := steps_append s1 s2
    by_cases hlast : v.seen + 1 < v.outputs_len
    · -- another output follows
      rw [if_pos hlast, toInt32_small _ (by omega)] at s12
      have s3 := skip_outputs_value o.script
        { v with state_pos := ((o.script.length + 8 : Nat) : Int), ptr_off := 0,
                 current_output_val := 0, status := RawTxStatus.PARSING_OUTPUTS_VALUE,
                 script_len := o.script.length,
                 to_spend := if v.seen = v.prev_index then add64 v.to_spend (le_value o.value)
                             else v.to_spend,
                 buf := B, buf_index := I, seen := v.seen + 1,
                 ptr := PtrTarget.current_output_val }
        rfl (by simp only; push_cast; omega)
      have s123 := steps_append s12 s3
      have hrest : 1 ≤ rest.length := by omega
      obtain ⟨w, r1, r2, r3⟩ := ih
        { v with state_pos := ((o.script.length + 8 : Nat) : Int) - (o.script.length : Int),
                 ptr_off := 0,
                 current_output_val := 0, status := RawTxStatus.PARSING_OUTPUTS_VALUE,
                 script_len := o.script.length,
                 to_spend := if v.seen = v.prev_index then add64 v.to_spend (le_value o.value)
                             else v.to_spend,
                 buf := B, buf_index := I, seen := v.seen + 1,
                 ptr := PtrTarget.current_output_val }
        rfl (by simp only; push_cast; omega) rfl rfl rfl (by simp only; omega) hrest
        (fun j hj => hall j (List.mem_cons_of_mem _ hj))
      simp only at r3
      rw [raw_spend_cons] at r3
      refine ⟨w, ?_, r2, r3⟩
      have := steps_append s123 r1
      simpa [List.flatMap_cons, RawOutput.bytes, List.append_assoc] using this
    · -- the last output
      have hrest : rest = [] := by
        cases rest with
        | nil => rfl
        | cons _ _ => simp only [List.length_cons] at hseen; omega
      subst hrest
      rw [if_neg hlast, toInt32_pred _ (by omega)] at s12
      have hts : (if v.seen = v.prev_index then add64 v.to_spend (le_value o.value)
            else v.to_spend)
          = raw_spend v.to_spend
              (if v.seen ≤ v.prev_index then [o][v.prev_index - v.seen]? else none) := by
        by_cases he : v.seen = v.prev_index
        · simp [he, raw_spend]
        · by_cases hle : v.seen ≤ v.prev_index
          · have : v.prev_index - v.seen = (v.prev_index - v.seen - 1) + 1 := by omega
            rw [if_neg he, if_pos hle, this]
            simp [raw_spend]
          · simp [hle, he, raw_spend]
      by_cases hempty : o.script = []
      · -- its script is empty
        have e : [o].flatMap RawOutput.bytes = o.value ++ o.script_len := by
          simp [List.flatMap_cons, RawOutput.bytes, hempty]
        rw [e]
        refine ⟨_, s12, Or.inr ⟨rfl, ?_, ?_⟩, hts⟩
        · simp [hempty]
        · simp only
          omega
      · have hsplit := List.dropLast_append_getLast hempty
        have hlen : o.script.dropLast.length = o.script.length - 1 := List.length_dropLast _
        have hpos1 : 1 ≤ o.script.length := List.length_pos.2 hempty
        have s3 := skip_outputs o.script.dropLast
          { v with state_pos := (o.script.length : Int) - 1, ptr_off := 8,
                   current_output_val := le_value o.value,
                   status := RawTxStatus.PARSING_OUTPUTS,
                   script_len := o.script.length,
                   to_spend := if v.seen = v.prev_index then
                                 add64 v.to_spend (le_value o.value)
                               else v.to_spend,
                   buf := B, buf_index := I, seen := v.seen + 1 }
          rfl (by simp only [hlen]; omega)
        have s4 := outputs_to_locktime
          { v with state_pos := (o.script.length : Int) - 1 - (o.script.dropLast.length : Int),
                   ptr_off := 8,
                   current_output_val := le_value o.value,
                   status := RawTxStatus.PARSING_OUTPUTS,
                   script_len := o.script.length,
                   to_spend := if v.seen = v.prev_index then
                                 add64 v.to_spend (le_value o.value)
                               else v.to_spend,
                   buf := B, buf_index := I, seen := v.seen + 1 }
          (o.script.getLast hempty) rfl (by simp only [hlen]; omega) (by simp only; omega)
        have s1234 := steps_append (steps_append s12 s3) s4
        have e : [o].flatMap RawOutput.bytes
            = o.value ++ o.script_len ++ o.script.dropLast ++ [o.script.getLast hempty] := by
          simp only [List.flatMap_cons, List.flatMap_nil, List.append_nil, RawOutput.bytes,
            List.append_assoc]
          rw [hsplit]
        rw [e]
        exact ⟨_, s1234, Or.inl ⟨rfl, rfl⟩, hts⟩

/-- A raw transaction on the view: all its bytes but the last take the parser, without a
return from inside the loop, to `PARSING_LOCKTIME`, with `to_spend` grown by the value of
the output at `prev_index`, if there is one. -/
theorem view_raw_tx (t : RawTx) (v : ParserView)
    (hst : v.status = RawTxStatus.NOT_PARSING) (hwf : t.well_formed)
    (hb : t.scripts_below (2 ^ 31 - 40)) :
    ∃ (init : Bytes) (last : Nat) (w : ParserView),
      t.bytes = init ++ [last] ∧ Steps v init w ∧
      w.status = RawTxStatus.PARSING_LOCKTIME ∧
      w.to_spend = raw_spend v.to_spend t.outputs[v.prev_index]? := by
  obtain ⟨w1, w2, w3, w4, w5, w6, w7, w8⟩ := hwf
  obtain ⟨hb1, hb2⟩ := hb
  -- version
  obtain ⟨a, sa, a1, a2, a3, a4, a5⟩ := version_bytes v t.version hst w1
  -- input count
  have sb := varint_input_count a t.input_count t.inputs.length a1 a2 a3 w2
  -- inputs
  obtain ⟨c, sc, c1, c2, c3, c4, c5⟩ := inputs_loop t.inputs
    { a with status := RawTxStatus.PARSING_INPUTS, state_pos := 36, seen := 0,
             inputs_len := t.inputs.length }
    rfl rfl (by simp) w3 a2 a3
    (fun i hi => ⟨w4 i hi, by have := hb1 i hi; omega⟩)
  simp only at c4 c5
  -- output count
  have sd := varint_output_count c t.output_count t.outputs.length c1 c2 c3 w5
  -- outputs
  obtain ⟨e, se, e1, e2⟩ := outputs_loop t.outputs
    { c with status := RawTxStatus.PARSING_OUTPUTS_VALUE, state_pos := 8,
             seen := 0, current_output_val := 0,
             ptr := PtrTarget.current_output_val, ptr_off := 0,
             outputs_len := t.outputs.length }
    rfl rfl rfl rfl rfl (by simp) w6
    (fun o ho => ⟨w7 o ho, by have := hb2 o ho; omega⟩)
  simp only [Nat.zero_le, if_true, Nat.sub_zero] at e2
  rw [c4, a4, c5, a5] at e2
  have sall := steps_append (steps_append (steps_append (steps_append sa sb) sc) sd) se
  -- lock time
  have hne : t.lock_time ≠ [] := by
    intro h; rw [h] at w8; cases w8
  have hsplit := List.dropLast_append_getLast hne
  have hl3 : t.lock_time.dropLast.length = 3 := by rw [List.length_dropLast, w8]
  have hbytes : t.bytes
      = (t.version ++ t.input_count ++ t.inputs.flatMap RawInput.bytes ++ t.output_count
          ++ t.outputs.flatMap RawOutput.bytes ++ t.lock_time.dropLast)
        ++ [t.lock_time.getLast hne] := by
    rw [List.append_assoc _ t.lock_time.dropLast, hsplit]
    rfl
  rcases e1 with ⟨f1, f2⟩ | ⟨f1, f2, f3⟩
  · obtain ⟨w, g1, g2, g3, -⟩ := skip_locktime t.lock_time.dropLast e f1
      (by rw [hl3, f2]; norm_num)
    exact ⟨_, _, w, hbytes, steps_append sall g1, g2, g3.trans e2⟩
  · have hne3 : t.lock_time.dropLast ≠ [] := by
      intro h; rw [h] at hl3; cases hl3
    obtain ⟨x, rest, hx⟩ := List.exists_cons_of_ne_nil hne3
    have hrest : rest.length = 2 := by
      rw [hx] at hl3
      simpa using hl3
    have s1 := outputs_to_locktime e x f1 (by rw [f2]; norm_num) f3
    obtain ⟨w, g1, g2, g3, -⟩ := skip_locktime rest
      (view_reset { e with status := RawTxStatus.PARSING_LOCKTIME, state_pos := 4,
                           ptr := PtrTarget.lock_time, ptr_off := 0 })
      rfl (by rw [hrest]; simp [view_reset])
    have s12 := steps_append s1 g1
    rw [List.singleton_append, ← hx] at s12
    exact ⟨_, _, w, hbytes, steps_append sall s12, g2, g3.trans e2⟩

theorem parse_chunks_view (env : Env) (chunks : List Bytes) :
    ∀ s : State,
      (chunks.foldl (parse_raw_txack env) s).parser
        = chunks.foldl view_parse_raw_txack s.parser := by
  induction chunks with
  | nil => intro s; rfl
  | cons c rest ih =>
    intro s
    rw [List.foldl_cons, List.foldl_cons, ih, parse_raw_txack_view]

/-- C26, for scripts shorter than `2 ^ 31 - 40` bytes: a well-formed raw previous
transaction with at least one input and one output, whose varints have one of the three
forms of `Varint`, is delivered to a parser in `NOT_PARSING` in chunks of any sizes. After
the calls of `parse_raw_txack` on the chunks, `to_spend` has grown, modulo `2 ^ 64`, by the
little-endian value of the eight value bytes of the output at the input's `prev_index`, if
the transaction has such an output, and is unchanged otherwise. -/
theorem raw_previous_to_spend (env : Env) (s : State) (t : RawTx) (chunks : List Bytes)
    (hs : s.raw_tx_status = RawTxStatus.NOT_PARSING) (hwf : t.well_formed)
    (hb : t.scripts_below (2 ^ 31 - 40)) (hc : chunks.flatten = t.bytes) :
    (chunks.foldl (parse_raw_txack env) s).to_spend
      = raw_spend s.to_spend t.outputs[s.input.prev_index]? ∧
    (∀ o : RawOutput, t.outputs[s.input.prev_index]? = some o →
      (chunks.foldl (parse_raw_txack env) s).to_spend
        = (s.to_spend + le_value o.value) % 2 ^ 64) ∧
    (t.outputs.length ≤ s.input.prev_index →
      (chunks.foldl (parse_raw_txack env) s).to_spend = s.to_spend) := by
  obtain ⟨init, last, w, h1, h2, h3, h4⟩ := view_raw_tx t s.parser hs hwf hb
  have key : (chunks.foldl (parse_raw_txack env) s).to_spend
      = raw_spend s.to_spend t.outputs[s.input.prev_index]? := by
    have e1 : (chunks.foldl (parse_raw_txack env) s).to_spend
        = (chunks.foldl (parse_raw_txack env) s).parser.to_spend := rfl
    rw [e1, parse_chunks_view, view_parse_chunks chunks s.parser init last (hc.trans h1) h2.1,
      h2.2, locktime_step_to_spend w last h3, h4]
    rfl
  refine ⟨key, ?_, ?_⟩
  · intro o ho
    rw [key, ho]
    rfl
  · intro hk
    rw [key, List.getElem?_eq_none hk]
    rfl

theorem richTx_well_formed : richTx.well_formed := by
  refine ⟨rfl, Varint.one 1 (by decide), by decide, ?_, Varint.one 1 (by decide), by decide,
    ?_, rfl⟩
  · intro i hi
    simp only [richTx, List.mem_singleton] at hi
    subst hi
    exact ⟨rfl, Varint.one 0 (by decide), rfl⟩
  · intro o ho
    simp only [richTx, List.mem_singleton] at ho
    subst ho
    exact ⟨rfl, by decide, Varint.one 1 (by decide)⟩

theorem richTx_scripts_below : richTx.scripts_below (2 ^ 31 - 40) := by
  constructor
  · intro i hi
    simp only [richTx, List.mem_singleton] at hi
    subst hi
    decide
  · intro o ho
    simp only [richTx, List.mem_singleton] at ho
    subst ho
    decide

/-- Witness for C26: the sixty-one bytes of `richRawTx`, cut after the tenth. -/
theorem raw_previous_to_spend_witness :
    richInputState.to_spend = 0 ∧
    ([richRawTx.take 10, richRawTx.drop 10].foldl (parse_raw_txack demoEnv)
      richInputState).to_spend = 1000000 :=
  ⟨by decide,
   ((raw_previous_to_spend demoEnv richInputState richTx [richRawTx.take 10, richRawTx.drop 10]
      (by decide) richTx_well_formed richTx_scripts_below (by decide)).2.1
      { value := [64, 66, 15, 0, 0, 0, 0, 0], script_len := [1], script := [81] }
      (by decide)).trans (by decide)⟩

theorem longScriptTx_well_formed : longScriptTx.well_formed := by
  refine ⟨rfl, Varint.one 1 (by decide), by decide, ?_, Varint.one 1 (by decide), by decide,
    ?_, rfl⟩
  · intro i hi
    simp only [longScriptTx, List.mem_singleton] at hi
    subst hi
    refine ⟨by simp, ?_, rfl⟩
    have hv := Varint.five 0 0 0 128 (by decide) (by decide) (by decide) (by decide)
    have hl : (longScriptHead ++ List.replicate (2 ^ 31 - 16) 0).length
        = 0 + 0 * 256 + 0 * 65536 + 128 * 16777216 := by
      rw [List.length_append, List.length_replicate]
      rfl
    simp only
    rw [hl]
    exact hv
  · intro o ho
    simp only [longScriptTx, List.mem_singleton] at ho
    subst ho
    exact ⟨rfl, by decide, Varint.one 1 (by decide)⟩

theorem longScriptTx_bytes :
    longScriptTx.bytes
      = longScriptStart
        ++ (List.replicate (2 ^ 31 - 16) 0 ++ [255, 255, 255, 255] ++ [1]
            ++ [136, 19, 0, 0, 0, 0, 0, 0] ++ [1] ++ [81] ++ [0, 0, 0, 0]) := by
  simp only [RawTx.bytes, longScriptTx, longScriptStart, List.flatMap_cons, List.flatMap_nil,
    RawInput.bytes, RawOutput.bytes, List.append_nil, List.append_assoc]

/-- Counterexample for C26: in `longScriptTx`, a well-formed transaction whose output 0 is
worth 5000, the script of the input is `2 ^ 31` bytes long. The signed counter `state_pos`
gets the value `2 ^ 31 + 3`, which is negative in 32 bits, so the parser takes the script for
the rest of the transaction, completes after its sixteenth byte, and `to_spend` is 7. In
`demoEnv`, with the hash of that prefix named by the input, the session goes on to the
outputs. -/
theorem raw_to_spend_long_script :
    longScriptTx.well_formed ∧
    longScriptState.raw_tx_status = RawTxStatus.NOT_PARSING ∧
    raw_spend longScriptState.to_spend longScriptTx.outputs[longScriptState.input.prev_index]?
      = 5000 ∧
    (parse_raw_txack demoEnv longScriptState longScriptTx.bytes).to_spend = 7 ∧
    (parse_raw_txack demoEnv longScriptState longScriptTx.bytes).signing = true ∧
    (parse_raw_txack demoEnv longScriptState longScriptTx.bytes).signing_stage
      = Stage.STAGE_REQUEST_3_OUTPUT := by
  have e : parse_raw_txack demoEnv longScriptState longScriptTx.bytes
      = parse_raw_txack demoEnv longScriptState longScriptStart := by
    rw [longScriptTx_bytes]
    exact parse_raw_txack_completed demoEnv longScriptStart _ longScriptState (by decide)
  rw [e]
  exact ⟨longScriptTx_well_formed, by decide, by decide, by decide, by decide, by decide⟩

theorem testBit_byte_high (v b : Nat) (hv : v < 256) (hb : ¬ b < 8) : v.testBit b = false := by
  apply Nat.testBit_lt_two_pow
  calc v < 256 := hv
    _ = 2 ^ 8 := by norm_num
    _ ≤ 2 ^ b := Nat.pow_le_pow_right (by norm_num) (by omega)

theorem byte_set_bit (v k b : Nat) (hv : v < 256) (hk : k < 8) :
    ((v ||| (1 <<< k)) % 256).testBit b = if b = k then true else v.testBit b := by
  have h256 : (256 : Nat) = 2 ^ 8 := by norm_num
  rw [h256, Nat.testBit_mod_two_pow, Nat.testBit_or, Nat.one_shiftLeft, Nat.testBit_two_pow]
  by_cases hb : b = k
  · subst hb; simp [hk]
  · rw [if_neg hb]
    have hkb : ¬ k = b := fun h => hb h.symm
    by_cases h8 : b < 8
    · simp [h8, hkb]
    · simp [h8, testBit_byte_high v b hv h8]

theorem byte_clear_bit (v k b : Nat) (hv : v < 256) (hk : k < 8) :
    ((v &&& (2 ^ 32 - 1 - (1 <<< k))) % 256).testBit b
      = if b = k then false else v.testBit b := by
  have h256 : (256 : Nat) = 2 ^ 8 := by norm_num
  have hlt : 2 ^ k < 2 ^ 32 := Nat.pow_lt_pow_right (by norm_num) (by omega)
  have hmask : 2 ^ 32 - 1 - (1 <<< k) = 2 ^ 32 - (2 ^ k + 1) := by
    rw [Nat.one_shiftLeft]; omega
  rw [hmask, h256, Nat.testBit_mod_two_pow, Nat.testBit_and,
    Nat.testBit_two_pow_sub_succ hlt, Nat.testBit_two_pow]
  by_cases hb : b = k
  · subst hb; simp
  · rw [if_neg hb]
    have hkb : ¬ k = b := fun h => hb h.symm
    by_cases h8 : b < 8
    · have : b < 32 := by omega
      simp [h8, hkb, this]
    · simp [h8, testBit_byte_high v b hv h8]

theorem getD_set_byte (ram : List Nat) (i j v : Nat) (hi : i < ram.length) :
    (ram.set i v).getD j 0 = if j = i then v else ram.getD j 0 := by
  rw [List.getD_eq_getElem?_getD, List.getD_eq_getElem?_getD, List.getElem?_set]
  by_cases h : i = j
  · subst h; simp [hi]
  · have h2 : ¬ j = i := fun e => h e.symm
    simp [h, h2]

theorem dot_index_lt (xcoord ycoord : Nat) (hx : xcoord ≤ 127) :
    dot_index xcoord ycoord < 1024 := by
  unfold dot_index
  have : (63 - ycoord) / 8 ≤ 7 := by omega
  omega

theorem dogm128_set_dot_eq (ram : List Nat) (xcoord ycoord : Nat)
    (hx : xcoord ≤ 127) (hy : ycoord ≤ 63) :
    dogm128_set_dot ram xcoord ycoord
      = some (ram.set (dot_index xcoord ycoord)
          ((ram.getD (dot_index xcoord ycoord) 0 ||| (1 <<< dot_bit ycoord)) % 256)) := by
  have hlt := dot_index_lt xcoord ycoord hx
  have hxm : xcoord % 256 = xcoord := Nat.mod_eq_of_lt (by omega)
  have hym : ycoord % 256 = ycoord := Nat.mod_eq_of_lt (by omega)
  have hsub : (63 : Int) - ((ycoord : Nat) : Int) = (((63 - ycoord : Nat)) : Int) := by omega
  have hidx : Int.tdiv (63 - ((ycoord : Nat) : Int)) 8 * 128 + ((xcoord : Nat) : Int)
      = ((dot_index xcoord ycoord : Nat) : Int) := by
    rw [hsub]; unfold dot_index
    have : Int.tdiv (((63 - ycoord : Nat)) : Int) 8 = (((63 - ycoord) / 8 : Nat) : Int) :=
      (Int.ofNat_tdiv (63 - ycoord) 8).symm
    rw [this]; push_cast; rfl
  have hsh : Int.tmod (63 - ((ycoord : Nat) : Int)) 8 = ((dot_bit ycoord : Nat) : Int) := by
    rw [hsub]; unfold dot_bit
    exact (Int.ofNat_tmod (63 - ycoord) 8).symm
  simp only [dogm128_set_dot, hxm, hym, hidx, hsh, Int.toNat_ofNat]
  rw [if_pos ⟨by omega, by omega, by omega⟩]

theorem dogm128_clear_dot_eq (ram : List Nat) (xcoord ycoord : Nat)
    (hx : xcoord ≤ 127) (hy : ycoord ≤ 63) :
    dogm128_clear_dot ram xcoord ycoord
      = some (ram.set (dot_index xcoord ycoord)
          ((ram.getD (dot_index xcoord ycoord) 0
            &&& (2 ^ 32 - 1 - (1 <<< dot_bit ycoord))) % 256)) := by
  have hlt := dot_index_lt xcoord ycoord hx
  have hxm : xcoord % 256 = xcoord := Nat.mod_eq_of_lt (by omega)
  have hym : ycoord % 256 = ycoord := Nat.mod_eq_of_lt (by omega)
  have hsub : (63 : Int) - ((ycoord : Nat) : Int) = (((63 - ycoord : Nat)) : Int) := by omega
  have hidx : Int.tdiv (63 - ((ycoord : Nat) : Int)) 8 * 128 + ((xcoord : Nat) : Int)
      = ((dot_index xcoord ycoord : Nat) : Int) := by
    rw [hsub]; unfold dot_index
    have : Int.tdiv (((63 - ycoord : Nat)) : Int) 8 = (((63 - ycoord) / 8 : Nat) : Int) :=
      (Int.ofNat_tdiv (63 - ycoord) 8).symm
    rw [this]; push_cast; rfl
  have hsh : Int.tmod (63 - ((ycoord : Nat) : Int)) 8 = ((dot_bit ycoord : Nat) : Int) := by
    rw [hsub]; unfold dot_bit
    exact (Int.ofNat_tmod (63 - ycoord) 8).symm
  simp only [dogm128_clear_dot, hxm, hym, hidx, hsh, Int.toNat_ofNat]
  rw [if_pos ⟨by omega, by omega, by omega⟩]

theorem getD_byte (ram : List Nat) (hb : ∀ b ∈ ram, b < 256) (j : Nat) : ram.getD j 0 < 256 := by
  rw [List.getD_eq_getElem?_getD]
  by_cases h : j < ram.length
  · rw [List.getElem?_eq_getElem h]; exact hb _ (List.getElem_mem h)
  · rw [List.getElem?_eq_none (by omega)]; decide

theorem list_ext_getD (a b : List Nat) (hl : a.length = b.length)
    (h : ∀ j, a.getD j 0 = b.getD j 0) : a = b := by
  apply List.ext_getElem hl
  intro n h1 h2
  have := h n
  rw [List.getD_eq_getElem?_getD, List.getD_eq_getElem?_getD,
    List.getElem?_eq_getElem h1, List.getElem?_eq_getElem h2] at this
  simpa using this

/-- C35: for `xcoord ≤ 127`, `ycoord ≤ 63` and every content of the 1024-byte display RAM, the
byte index `((63 - ycoord) / 8) * 128 + xcoord` is below 1024; `dogm128_set_dot` returns a RAM
of the same size in which bit `(63 - ycoord) % 8` of that byte is 1 and every other bit of every
byte is unchanged; `dogm128_clear_dot` returns a RAM in which that bit is 0 and every other bit
is unchanged; and `dogm128_clear_dot` after `dogm128_set_dot` restores any RAM in which the bit
was initially 0. -/
theorem set_dot_clear_dot_single_bit (ram : List Nat) (xcoord ycoord : Nat)
    (hram : display_ram ram) (hx : xcoord ≤ 127) (hy : ycoord ≤ 63) :
    dot_index xcoord ycoord < 1024 ∧
    ∃ lit cleared, dogm128_set_dot ram xcoord ycoord = some lit ∧
      dogm128_clear_dot ram xcoord ycoord = some cleared ∧
      display_ram lit ∧ display_ram cleared ∧
      (∀ j b, (lit.getD j 0).testBit b
        = if j = dot_index xcoord ycoord ∧ b = dot_bit ycoord then true
          else (ram.getD j 0).testBit b) ∧
      (∀ j b, (cleared.getD j 0).testBit b
        = if j = dot_index xcoord ycoord ∧ b = dot_bit ycoord then false
          else (ram.getD j 0).testBit b) ∧
      ((ram.getD (dot_index xcoord ycoord) 0).testBit (dot_bit ycoord) = false →
        dogm128_clear_dot lit xcoord ycoord = some ram) := by
  obtain ⟨hlen, hbytes⟩ := hram
  have hlt := dot_index_lt xcoord ycoord hx
  have hi : dot_index xcoord ycoord < ram.length := by omega
  have hk : dot_bit ycoord < 8 := by unfold dot_bit; omega
  have hv := getD_byte ram hbytes (dot_index xcoord ycoord)
  have hset : ∀ v, v < 256 → display_ram (ram.set (dot_index xcoord ycoord) v) := by
    intro v hv256
    refine ⟨by rw [List.length_set]; exact hlen, ?_⟩
    intro b hb
    rcases List.mem_or_eq_of_mem_set hb with h | h
    · exact hbytes b h
    · omega
  have hbit1 : ∀ j b, ((ram.set (dot_index xcoord ycoord)
        ((ram.getD (dot_index xcoord ycoord) 0 ||| (1 <<< dot_bit ycoord)) % 256)).getD j 0).testBit b
      = if j = dot_index xcoord ycoord ∧ b = dot_bit ycoord then true
        else (ram.getD j 0).testBit b := by
    intro j b
    rw [getD_set_byte _ _ _ _ hi]
    by_cases hj : j = dot_index xcoord ycoord
    · subst hj
      rw [if_pos rfl, byte_set_bit _ _ _ hv hk]
      simp
    · simp [hj]
  refine ⟨hlt, _, _, dogm128_set_dot_eq ram xcoord ycoord hx hy,
    dogm128_clear_dot_eq ram xcoord ycoord hx hy,
    hset _ (Nat.mod_lt _ (by norm_num)), hset _ (Nat.mod_lt _ (by norm_num)), hbit1, ?_, ?_⟩
  · intro j b
    rw [getD_set_byte _ _ _ _ hi]
    by_cases hj : j = dot_index xcoord ycoord
    · subst hj
      rw [if_pos rfl, byte_clear_bit _ _ _ hv hk]
      simp
    · simp [hj]
  · intro h0
    rw [dogm128_clear_dot_eq _ xcoord ycoord hx hy]
    congr 1
    apply list_ext_getD
    · rw [List.length_set, List.length_set]
    · intro j
      have hi2 : dot_index xcoord ycoord
          < (ram.set (dot_index xcoord ycoord)
            ((ram.getD (dot_index xcoord ycoord) 0 ||| (1 <<< dot_bit ycoord)) % 256)).length := by
        rw [List.length_set]; exact hi
      rw [getD_set_byte _ _ _ _ hi2]
      by_cases hj : j = dot_index xcoord ycoord
      · subst hj
        rw [if_pos rfl]
        apply Nat.eq_of_testBit_eq
        intro b
        have hlit : (ram.set (dot_index xcoord ycoord)
            ((ram.getD (dot_index xcoord ycoord) 0 ||| (1 <<< dot_bit ycoord)) % 256)).getD
              (dot_index xcoord ycoord) 0 < 256 := by
          rw [getD_set_byte _ _ _ _ hi, if_pos rfl]; exact Nat.mod_lt _ (by norm_num)
        rw [byte_clear_bit _ _ _ hlit hk, hbit1]
        by_cases hb : b = dot_bit ycoord
        · subst hb; rw [if_pos rfl, h0]
        · rw [if_neg hb, if_neg (fun h => hb h.2)]
      · rw [if_neg hj, getD_set_byte _ _ _ _ hi, if_neg hj]

theorem set_dot_clear_dot_single_bit_witness :
    display_ram blankRam ∧ 3 ≤ 127 ∧ 5 ≤ 63 ∧ dot_index 3 5 < 1024 ∧
    ∃ lit cleared, dogm128_set_dot blankRam 3 5 = some lit ∧
      dogm128_clear_dot blankRam 3 5 = some cleared ∧
      display_ram lit ∧ display_ram cleared ∧
      (∀ j b, (lit.getD j 0).testBit b
        = if j = dot_index 3 5 ∧ b = dot_bit 5 then true
          else (blankRam.getD j 0).testBit b) ∧
      (∀ j b, (cleared.getD j 0).testBit b
        = if j = dot_index 3 5 ∧ b = dot_bit 5 then false
          else (blankRam.getD j 0).testBit b) ∧
      ((blankRam.getD (dot_index 3 5) 0).testBit (dot_bit 5) = false →
        dogm128_clear_dot lit 3 5 = some blankRam) :=
  have h : display_ram blankRam :=
    ⟨List.length_replicate 1024 0, fun b hb => by rw [List.eq_of_mem_replicate hb]; decide⟩
  ⟨h, by decide, by decide, set_dot_clear_dot_single_bit blankRam 3 5 h (by decide) (by decide)⟩

theorem deser_length_le (buf : Bytes) : (deser_length buf).1 ≤ 9 := by
  simp only [deser_length]
  split_ifs <;> simp

theorem view_safe_step (v : ParserView) (b : Nat) (h : view_safe v) :
    view_safe (view_parse_raw_byte v b).1 := by
  obtain ⟨status, state_pos, ptr, ptr_off, buf, buf_index, seen, script_len,
    current_output_val, inputs_len, outputs_len, to_spend, prev_index⟩ := v
  have hle := deser_length_le (buf.set buf_index (b % 256))
  cases status <;> simp only [view_safe, VAR_INT_BUFFER] at h
  · -- NOT_PARSING
    simp only [view_parse_raw_byte, view_version, view_store_ptr, view_reset]
    split_ifs <;> simp [view_safe, VAR_INT_BUFFER]
  · -- VERSION
    obtain ⟨h1, h2, h3⟩ := h
    subst h1
    simp only [view_parse_raw_byte, view_version, view_store_ptr, view_reset]
    split_ifs <;> (simp [view_safe, VAR_INT_BUFFER]; try omega)
  · -- INPUT_COUNT
    have hm : (buf_index + 1) % 256 = buf_index + 1 := Nat.mod_eq_of_lt (by omega)
    simp only [view_parse_raw_byte, view_input_count, view_push_var_int, view_reset,
      VAR_INT_BUFFER, if_pos h, hm]
    split_ifs with hc <;> simp only [view_safe, VAR_INT_BUFFER]
    · omega
    · simp only [ge_iff_le, not_le] at hc; omega
  · -- INPUTS
    have hm : (buf_index + 1) % 256 = buf_index + 1 := Nat.mod_eq_of_lt (by omega)
    simp only [view_parse_raw_byte, view_inputs, view_push_var_int, view_reset,
      VAR_INT_BUFFER, if_pos h, hm]
    split_ifs <;> simp only [view_safe, VAR_INT_BUFFER] <;>
      (try simp only [ge_iff_le, not_le] at *) <;> omega
  · -- OUTPUT_COUNT
    have hm : (buf_index + 1) % 256 = buf_index + 1 := Nat.mod_eq_of_lt (by omega)
    simp only [view_parse_raw_byte, view_output_count, view_push_var_int, view_reset,
      VAR_INT_BUFFER, if_pos h, hm]
    split_ifs with hc <;> simp only [view_safe, VAR_INT_BUFFER]
    · exact ⟨trivial, Or.inl trivial⟩
    · simp only [ge_iff_le, not_le] at hc; omega
  · -- OUTPUTS_VALUE
    obtain ⟨h1, h2⟩ := h
    subst h1
    simp only [view_parse_raw_byte, view_outputs_value, view_store_ptr, view_reset]
    split_ifs <;> (try simp only at *) <;> (simp [view_safe, VAR_INT_BUFFER]; try omega)
  · -- OUTPUTS
    simp only [view_parse_raw_byte, view_outputs]
    by_cases h1 : state_pos - 1 < 0 ∧ seen < outputs_len
    · have hb : buf_index < 9 := h.resolve_right (fun hn => hn h1.2)
      have hm : (buf_index + 1) % 256 = buf_index + 1 := Nat.mod_eq_of_lt (by omega)
      simp only [if_pos h1, view_push_var_int, VAR_INT_BUFFER, if_pos hb, hm]
      split_ifs with hc hs
      · simp only [view_safe]; exact ⟨trivial, Or.inl trivial⟩
      · simp only [view_safe]
        exact Or.inr hs
      · simp only [view_safe, VAR_INT_BUFFER]
        simp only [ge_iff_le, not_le] at hc
        left; omega
    · simp only [if_neg h1]
      split_ifs
      · simp only [view_reset, view_safe]
        exact ⟨trivial, by decide, by decide⟩
      · simp only [view_safe, VAR_INT_BUFFER]; exact h
  · -- LOCKTIME
    obtain ⟨h1, h2, h3⟩ := h
    subst h1
    simp only [view_parse_raw_byte, view_locktime, view_store_ptr]
    split_ifs <;> (try simp only at *) <;> (simp [view_safe]; try omega)

theorem store_ptr_stray (s : State) (b : Nat)
    (h : (s.ptr = PtrTarget.version ∧ s.ptr_off < 4) ∨
      (s.ptr = PtrTarget.current_output_val ∧ s.ptr_off < 8) ∨
      (s.ptr = PtrTarget.lock_time ∧ s.ptr_off < 4)) :
    (store_ptr s b).stray_writes = s.stray_writes := by
  simp only [store_ptr]
  rcases h with ⟨h1, h2⟩ | ⟨h1, h2⟩ | ⟨h1, h2⟩ <;> simp only [h1, if_pos h2]

theorem push_var_int_stray (s : State) (b : Nat) (h : s.var_int_buffer_index < 9) :
    (push_var_int s b).stray_writes = s.stray_writes := by
  simp only [push_var_int, VAR_INT_BUFFER, if_pos h]

theorem parsing_version_stray (s : State) (b : Nat) :
    (parsing_version s b).stray_writes = (store_ptr s b).stray_writes := by
  simp only [parsing_version]
  generalize store_ptr s b = t
  split_ifs <;> rfl

theorem parsing_input_count_stray (s : State) (b : Nat) :
    (parsing_input_count s b).stray_writes = (push_var_int s b).stray_writes := by
  simp only [parsing_input_count]
  generalize push_var_int s b = t
  split_ifs <;> rfl

theorem parsing_output_count_stray (s : State) (b : Nat) :
    (parsing_output_count s b).stray_writes = (push_var_int s b).stray_writes := by
  simp only [parsing_output_count]
  generalize push_var_int s b = t
  split_ifs <;> rfl

theorem parsing_inputs_stray (s : State) (b : Nat) :
    (parsing_inputs s b).stray_writes
      = if s.state_pos < 0 ∧ s.seen < s.transaction_previous.inputs_len then
          (push_var_int s b).stray_writes
        else s.stray_writes := by
  simp only [parsing_inputs]
  generalize push_var_int s b = t
  split_ifs <;> rfl

theorem parsing_outputs_stray (s : State) (b : Nat) :
    (parsing_outputs s b).stray_writes
      = if s.state_pos < 0 ∧ s.seen < s.transaction_previous.outputs_len then
          (push_var_int s b).stray_writes
        else s.stray_writes := by
  simp only [parsing_outputs]
  generalize push_var_int s b = t
  split_ifs <;> rfl

theorem parsing_outputs_value_stray (s : State) (b : Nat) :
    (parsing_outputs_value s b).stray_writes
      = if s.state_pos < 8 then (store_ptr s b).stray_writes else s.stray_writes := by
  simp only [parsing_outputs_value]
  generalize store_ptr s b = t
  split_ifs <;> rfl

theorem signing_abort_stray (s : State) : (signing_abort s).stray_writes = s.stray_writes := by
  simp only [signing_abort, go_home]
  split_ifs <;> rfl

theorem parsing_locktime_stray (env : Env) (s : State) (b : Nat) :
    (parsing_locktime env s b).1.stray_writes
      = if s.state_pos ≥ 0 then (store_ptr s b).stray_writes else s.stray_writes := by
  have hpos : ∀ t : State, (store_ptr t b).state_pos = t.state_pos :=
    fun t => store_ptr_state_pos t b
  simp only [parsing_locktime]
  by_cases h : s.state_pos ≥ 0
  · simp only [if_pos h]
    generalize store_ptr s b = t
    split_ifs <;>
      simp only [signing_abort_stray, fsm_sendFailure, hash_raw_byte, send_req_1_input,
        send_req_3_output, msg_write]
  · simp only [if_neg h]
    split_ifs <;>
      simp only [signing_abort_stray, fsm_sendFailure, hash_raw_byte, send_req_1_input,
        send_req_3_output, msg_write]

/-- One byte: from a safe parser state no store falls outside its object. -/
theorem parse_raw_byte_stray (env : Env) (s : State) (b : Nat) (h : view_safe s.parser) :
    (parse_raw_byte env s b).1.stray_writes = s.stray_writes := by
  cases hst : s.raw_tx_status <;>
    simp only [view_safe, State.parser, hst, VAR_INT_BUFFER] at h
  case NOT_PARSING =>
    simp only [parse_raw_byte, hst, hash_raw_byte, parsing_version_stray]
    exact store_ptr_stray _ b (Or.inl ⟨rfl, show (0 : Nat) < 4 by decide⟩)
  case PARSING_VERSION =>
    simp only [parse_raw_byte, hst, hash_raw_byte, parsing_version_stray]
    exact store_ptr_stray _ b (Or.inl ⟨h.1, by have := h.2.1; have := h.2.2; show s.ptr_off < 4; omega⟩)
  case PARSING_INPUT_COUNT =>
    simp only [parse_raw_byte, hst, hash_raw_byte, parsing_input_count_stray]
    exact push_var_int_stray _ b h
  case PARSING_INPUTS =>
    simp only [parse_raw_byte, hst, hash_raw_byte, parsing_inputs_stray]
    split_ifs
    · exact push_var_int_stray _ b h
    · rfl
  case PARSING_OUTPUT_COUNT =>
    simp only [parse_raw_byte, hst, hash_raw_byte, parsing_output_count_stray]
    exact push_var_int_stray _ b h
  case PARSING_OUTPUTS_VALUE =>
    simp only [parse_raw_byte, hst, hash_raw_byte, parsing_outputs_value_stray]
    split_ifs with h8
    · refine store_ptr_stray _ b (Or.inr (Or.inl ⟨h.1, ?_⟩))
      show s.ptr_off < 8
      rcases h.2 with h0 | ⟨h1, h2⟩
      · omega
      · omega
    · rfl
  case PARSING_OUTPUTS =>
    simp only [parse_raw_byte, hst, hash_raw_byte, parsing_outputs_stray]
    split_ifs with hc
    · exact push_var_int_stray _ b (h.resolve_right (fun hn => hn hc.2))
    · rfl
  case PARSING_LOCKTIME =>
    rw [parse_raw_byte_at_locktime env s b hst]
    split_ifs
    · rw [parsing_locktime_stray]
      split_ifs with hp
      · refine store_ptr_stray _ b (Or.inr (Or.inr ⟨h.1, ?_⟩))
        show s.ptr_off < 4
        omega
      · rfl
    · show (parsing_locktime env _ b).1.stray_writes = _
      rw [parsing_locktime_stray]
      split_ifs with hp
      · refine store_ptr_stray _ b (Or.inr (Or.inr ⟨h.1, ?_⟩))
        show s.ptr_off < 4
        omega
      · rfl

/-- A raw message: from a safe parser state, no byte of the message is stored outside the
object it is aimed at, and the parser state after the message is safe again. -/
theorem parse_raw_txack_safe (env : Env) (msg : Bytes) :
    ∀ s : State, view_safe s.parser →
      view_safe (parse_raw_txack env s msg).parser ∧
      (parse_raw_txack env s msg).stray_writes = s.stray_writes := by
  induction msg with
  | nil => intro s h; exact ⟨h, rfl⟩
  | cons b rest ih =>
    intro s h
    have h1 := view_safe_step s.parser b h
    rw [← (parse_raw_byte_view env s b).1] at h1
    have h2 := parse_raw_byte_stray env s b h
    rw [parse_raw_txack]
    split_ifs
    · exact ⟨h1, h2⟩
    · obtain ⟨a1, a2⟩ := ih _ h1
      exact ⟨a1, a2.trans h2⟩

theorem fail_abort_statics (code : FailureType) (text : String) (s : State) :
    (fail_abort code text s).raw_tx_status = s.raw_tx_status ∧
    (fail_abort code text s).state_pos = s.state_pos ∧
    (fail_abort code text s).ptr = s.ptr ∧
    (fail_abort code text s).ptr_off = s.ptr_off ∧
    (fail_abort code text s).var_int_buffer_index = s.var_int_buffer_index ∧
    (fail_abort code text s).seen = s.seen ∧
    (fail_abort code text s).stray_writes = s.stray_writes ∧
    (fail_abort code text s).transaction_previous.outputs_len = s.transaction_previous.outputs_len := by
  simp only [fail_abort, signing_abort, go_home, fsm_sendFailure]
  split_ifs <;> exact ⟨rfl, rfl, rfl, rfl, rfl, rfl, rfl, rfl⟩

theorem signing_abort_statics (s : State) :
    (signing_abort s).raw_tx_status = s.raw_tx_status ∧
    (signing_abort s).state_pos = s.state_pos ∧
    (signing_abort s).ptr = s.ptr ∧
    (signing_abort s).ptr_off = s.ptr_off ∧
    (signing_abort s).var_int_buffer_index = s.var_int_buffer_index ∧
    (signing_abort s).seen = s.seen ∧
    (signing_abort s).stray_writes = s.stray_writes ∧
    (signing_abort s).transaction_previous.outputs_len = s.transaction_previous.outputs_len := by
  simp only [signing_abort, go_home]
  split_ifs <;> exact ⟨rfl, rfl, rfl, rfl, rfl, rfl, rfl, rfl⟩

theorem send_fsm_co_error_message_statics (env : Env) (e : Int) (s : State) :
    (send_fsm_co_error_message env e s).raw_tx_status = s.raw_tx_status ∧
    (send_fsm_co_error_message env e s).state_pos = s.state_pos ∧
    (send_fsm_co_error_message env e s).ptr = s.ptr ∧
    (send_fsm_co_error_message env e s).ptr_off = s.ptr_off ∧
    (send_fsm_co_error_message env e s).var_int_buffer_index = s.var_int_buffer_index ∧
    (send_fsm_co_error_message env e s).seen = s.seen ∧
    (send_fsm_co_error_message env e s).stray_writes = s.stray_writes ∧
    (send_fsm_co_error_message env e s).transaction_previous.outputs_len = s.transaction_previous.outputs_len := by
  simp only [send_fsm_co_error_message, fsm_sendFailure]
  split_ifs <;> (try split) <;> exact ⟨rfl, rfl, rfl, rfl, rfl, rfl, rfl, rfl⟩

theorem input_multisig_fp_statics (env : Env) (s : State) (i : TxInputType) :
    (input_multisig_fp env s i).2.raw_tx_status = s.raw_tx_status ∧
    (input_multisig_fp env s i).2.state_pos = s.state_pos ∧
    (input_multisig_fp env s i).2.ptr = s.ptr ∧
    (input_multisig_fp env s i).2.ptr_off = s.ptr_off ∧
    (input_multisig_fp env s i).2.var_int_buffer_index = s.var_int_buffer_index ∧
    (input_multisig_fp env s i).2.seen = s.seen ∧
    (input_multisig_fp env s i).2.stray_writes = s.stray_writes ∧
    (input_multisig_fp env s i).2.transaction_previous.outputs_len = s.transaction_previous.outputs_len := by
  simp only [input_multisig_fp]
  split_ifs <;> exact ⟨rfl, rfl, rfl, rfl, rfl, rfl, rfl, rfl⟩

theorem txack_request_1_input_statics (env : Env) (s : State) (tx : TransactionType) :
    (txack_request_1_input env s tx).raw_tx_status = s.raw_tx_status ∧
    (txack_request_1_input env s tx).state_pos = s.state_pos ∧
    (txack_request_1_input env s tx).ptr = s.ptr ∧
    (txack_request_1_input env s tx).ptr_off = s.ptr_off ∧
    (txack_request_1_input env s tx).var_int_buffer_index = s.var_int_buffer_index ∧
    (txack_request_1_input env s tx).seen = s.seen ∧
    (txack_request_1_input env s tx).stray_writes = s.stray_writes ∧
    (txack_request_1_input env s tx).transaction_previous.outputs_len = s.transaction_previous.outputs_len := by
  simp only [
    txack_request_1_input, apply_ite State.raw_tx_status, apply_ite State.state_pos,
    apply_ite State.ptr, apply_ite State.ptr_off, apply_ite State.var_int_buffer_index,
    apply_ite State.seen, apply_ite State.stray_writes, apply_ite State.transaction_previous,
    apply_ite TxStruct.outputs_len, fail_abort_statics, input_multisig_fp_statics,
    send_req_2_prev_meta, msg_write, ite_self, and_self]

theorem txack_request_2_prev_meta_statics (s : State) (tx : TransactionType) :
    (txack_request_2_prev_meta s tx).raw_tx_status = s.raw_tx_status ∧
    (txack_request_2_prev_meta s tx).state_pos = s.state_pos ∧
    (txack_request_2_prev_meta s tx).ptr = s.ptr ∧
    (txack_request_2_prev_meta s tx).ptr_off = s.ptr_off ∧
    (txack_request_2_prev_meta s tx).var_int_buffer_index = s.var_int_buffer_index ∧
    (txack_request_2_prev_meta s tx).seen = s.seen ∧
    (txack_request_2_prev_meta s tx).stray_writes = s.stray_writes := by
  exact ⟨rfl, rfl, rfl, rfl, rfl, rfl, rfl⟩

theorem txack_request_2_prev_input_statics (env : Env) (s : State) (tx : TransactionType) :
    (txack_request_2_prev_input env s tx).raw_tx_status = s.raw_tx_status ∧
    (txack_request_2_prev_input env s tx).state_pos = s.state_pos ∧
    (txack_request_2_prev_input env s tx).ptr = s.ptr ∧
    (txack_request_2_prev_input env s tx).ptr_off = s.ptr_off ∧
    (txack_request_2_prev_input env s tx).var_int_buffer_index = s.var_int_buffer_index ∧
    (txack_request_2_prev_input env s tx).seen = s.seen ∧
    (txack_request_2_prev_input env s tx).stray_writes = s.stray_writes ∧
    (txack_request_2_prev_input env s tx).transaction_previous.outputs_len = s.transaction_previous.outputs_len := by
  simp only [
    txack_request_2_prev_input, apply_ite State.raw_tx_status, apply_ite State.state_pos,
    apply_ite State.ptr, apply_ite State.ptr_off, apply_ite State.var_int_buffer_index,
    apply_ite State.seen, apply_ite State.stray_writes, apply_ite State.transaction_previous,
    apply_ite TxStruct.outputs_len, fail_abort_statics, send_req_2_prev_input,
    send_req_2_prev_output, tx_serialize_input_hash, msg_write, ite_self, and_self]

theorem txack_request_2_prev_output_statics (env : Env) (s : State) (tx : TransactionType) :
    (txack_request_2_prev_output env s tx).raw_tx_status = s.raw_tx_status ∧
    (txack_request_2_prev_output env s tx).state_pos = s.state_pos ∧
    (txack_request_2_prev_output env s tx).ptr = s.ptr ∧
    (txack_request_2_prev_output env s tx).ptr_off = s.ptr_off ∧
    (txack_request_2_prev_output env s tx).var_int_buffer_index = s.var_int_buffer_index ∧
    (txack_request_2_prev_output env s tx).seen = s.seen ∧
    (txack_request_2_prev_output env s tx).stray_writes = s.stray_writes ∧
    (txack_request_2_prev_output env s tx).transaction_previous.outputs_len = s.transaction_previous.outputs_len := by
  simp only [
    txack_request_2_prev_output, apply_ite State.raw_tx_status, apply_ite State.state_pos,
    apply_ite State.ptr, apply_ite State.ptr_off, apply_ite State.var_int_buffer_index,
    apply_ite State.seen, apply_ite State.stray_writes, apply_ite State.transaction_previous,
    apply_ite TxStruct.outputs_len, fail_abort_statics, send_req_2_prev_output, send_req_1_input,
    send_req_3_output, tx_serialize_output_hash, msg_write, ite_self, and_self]

theorem txack_confirmation_gate_statics (env : Env) (s : State) :
    (txack_confirmation_gate env s).raw_tx_status = s.raw_tx_status ∧
    (txack_confirmation_gate env s).state_pos = s.state_pos ∧
    (txack_confirmation_gate env s).ptr = s.ptr ∧
    (txack_confirmation_gate env s).ptr_off = s.ptr_off ∧
    (txack_confirmation_gate env s).var_int_buffer_index = s.var_int_buffer_index ∧
    (txack_confirmation_gate env s).seen = s.seen ∧
    (txack_confirmation_gate env s).stray_writes = s.stray_writes ∧
    (txack_confirmation_gate env s).transaction_previous.outputs_len = s.transaction_previous.outputs_len := by
  simp only [
    txack_confirmation_gate, apply_ite State.raw_tx_status, apply_ite State.state_pos,
    apply_ite State.ptr, apply_ite State.ptr_off, apply_ite State.var_int_buffer_index,
    apply_ite State.seen, apply_ite State.stray_writes, apply_ite State.transaction_previous,
    apply_ite TxStruct.outputs_len, fail_abort_statics, send_req_4_input, msg_write, ite_self,
    and_self]

theorem txack_request_3_output_statics (env : Env) (s : State) (tx : TransactionType) :
    (txack_request_3_output env s tx).raw_tx_status = s.raw_tx_status ∧
    (txack_request_3_output env s tx).state_pos = s.state_pos ∧
    (txack_request_3_output env s tx).ptr = s.ptr ∧
    (txack_request_3_output env s tx).ptr_off = s.ptr_off ∧
    (txack_request_3_output env s tx).var_int_buffer_index = s.var_int_buffer_index ∧
    (txack_request_3_output env s tx).seen = s.seen ∧
    (txack_request_3_output env s tx).stray_writes = s.stray_writes ∧
    (txack_request_3_output env s tx).transaction_previous.outputs_len = s.transaction_previous.outputs_len := by
  simp only [txack_request_3_output]
  split
  · exact fail_abort_statics _ _ _
  · split_ifs <;>
      simp only [fail_abort_statics, signing_abort_statics, send_fsm_co_error_message_statics,
        txack_confirmation_gate_statics, run_policy_compile_output, send_req_3_output, msg_write,
        and_self]

theorem compile_input_script_sig_statics (env : Env) (s : State) (i : TxInputType) :
    (compile_input_script_sig env s i).2.1.raw_tx_status = s.raw_tx_status ∧
    (compile_input_script_sig env s i).2.1.state_pos = s.state_pos ∧
    (compile_input_script_sig env s i).2.1.ptr = s.ptr ∧
    (compile_input_script_sig env s i).2.1.ptr_off = s.ptr_off ∧
    (compile_input_script_sig env s i).2.1.var_int_buffer_index = s.var_int_buffer_index ∧
    (compile_input_script_sig env s i).2.1.seen = s.seen ∧
    (compile_input_script_sig env s i).2.1.stray_writes = s.stray_writes ∧
    (compile_input_script_sig env s i).2.1.transaction_previous.outputs_len = s.transaction_previous.outputs_len := by
  simp only [compile_input_script_sig]
  split_ifs <;> exact ⟨rfl, rfl, rfl, rfl, rfl, rfl, rfl, rfl⟩

theorem txack_request_4_input_statics (env : Env) (s : State) (tx : TransactionType) :
    (txack_request_4_input env s tx).raw_tx_status = s.raw_tx_status ∧
    (txack_request_4_input env s tx).state_pos = s.state_pos ∧
    (txack_request_4_input env s tx).ptr = s.ptr ∧
    (txack_request_4_input env s tx).ptr_off = s.ptr_off ∧
    (txack_request_4_input env s tx).var_int_buffer_index = s.var_int_buffer_index ∧
    (txack_request_4_input env s tx).seen = s.seen ∧
    (txack_request_4_input env s tx).stray_writes = s.stray_writes ∧
    (txack_request_4_input env s tx).transaction_previous.outputs_len = s.transaction_previous.outputs_len := by
  simp only [
    txack_request_4_input, apply_ite State.raw_tx_status, apply_ite State.state_pos,
    apply_ite State.ptr, apply_ite State.ptr_off, apply_ite State.var_int_buffer_index,
    apply_ite State.seen, apply_ite State.stray_writes, apply_ite State.transaction_previous,
    apply_ite TxStruct.outputs_len, fail_abort_statics, compile_input_script_sig_statics,
    send_req_4_input, send_req_4_output, msg_write, ite_self, and_self]

theorem txack_sign_input_statics (env : Env) (s : State) (sighash : Nat) :
    (txack_sign_input env s sighash).raw_tx_status = s.raw_tx_status ∧
    (txack_sign_input env s sighash).state_pos = s.state_pos ∧
    (txack_sign_input env s sighash).ptr = s.ptr ∧
    (txack_sign_input env s sighash).ptr_off = s.ptr_off ∧
    (txack_sign_input env s sighash).var_int_buffer_index = s.var_int_buffer_index ∧
    (txack_sign_input env s sighash).seen = s.seen ∧
    (txack_sign_input env s sighash).stray_writes = s.stray_writes ∧
    (txack_sign_input env s sighash).transaction_previous.outputs_len = s.transaction_previous.outputs_len := by
  simp only [
    txack_sign_input, apply_ite State.raw_tx_status, apply_ite State.state_pos,
    apply_ite State.ptr, apply_ite State.ptr_off, apply_ite State.var_int_buffer_index,
    apply_ite State.seen, apply_ite State.stray_writes, apply_ite State.transaction_previous,
    apply_ite TxStruct.outputs_len, fail_abort_statics, send_req_4_input, send_req_5_output,
    msg_write, ite_self, and_self]

theorem txack_finish_inner_sweep_statics (env : Env) (s : State) :
    (txack_finish_inner_sweep env s).raw_tx_status = s.raw_tx_status ∧
    (txack_finish_inner_sweep env s).state_pos = s.state_pos ∧
    (txack_finish_inner_sweep env s).ptr = s.ptr ∧
    (txack_finish_inner_sweep env s).ptr_off = s.ptr_off ∧
    (txack_finish_inner_sweep env s).var_int_buffer_index = s.var_int_buffer_index ∧
    (txack_finish_inner_sweep env s).seen = s.seen ∧
    (txack_finish_inner_sweep env s).stray_writes = s.stray_writes ∧
    (txack_finish_inner_sweep env s).transaction_previous.outputs_len = s.transaction_previous.outputs_len := by
  simp only [
    txack_finish_inner_sweep, apply_ite State.raw_tx_status, apply_ite State.state_pos,
    apply_ite State.ptr, apply_ite State.ptr_off, apply_ite State.var_int_buffer_index,
    apply_ite State.seen, apply_ite State.stray_writes, apply_ite State.transaction_previous,
    apply_ite TxStruct.outputs_len, fail_abort_statics, txack_sign_input_statics,
    compile_input_script_sig_statics, ite_self, and_self]

theorem txack_request_4_output_statics (env : Env) (s : State) (tx : TransactionType) :
    (txack_request_4_output env s tx).raw_tx_status = s.raw_tx_status ∧
    (txack_request_4_output env s tx).state_pos = s.state_pos ∧
    (txack_request_4_output env s tx).ptr = s.ptr ∧
    (txack_request_4_output env s tx).ptr_off = s.ptr_off ∧
    (txack_request_4_output env s tx).var_int_buffer_index = s.var_int_buffer_index ∧
    (txack_request_4_output env s tx).seen = s.seen ∧
    (txack_request_4_output env s tx).stray_writes = s.stray_writes ∧
    (txack_request_4_output env s tx).transaction_previous.outputs_len = s.transaction_previous.outputs_len := by
  simp only [
    txack_request_4_output, apply_ite State.raw_tx_status, apply_ite State.state_pos,
    apply_ite State.ptr, apply_ite State.ptr_off, apply_ite State.var_int_buffer_index,
    apply_ite State.seen, apply_ite State.stray_writes, apply_ite State.transaction_previous,
    apply_ite TxStruct.outputs_len, fail_abort_statics, signing_abort_statics,
    send_fsm_co_error_message_statics, txack_finish_inner_sweep_statics,
    run_policy_compile_output, send_req_4_output, msg_write, ite_self, and_self]

theorem txack_request_5_output_statics (env : Env) (s : State) (tx : TransactionType) :
    (txack_request_5_output env s tx).raw_tx_status = s.raw_tx_status ∧
    (txack_request_5_output env s tx).state_pos = s.state_pos ∧
    (txack_request_5_output env s tx).ptr = s.ptr ∧
    (txack_request_5_output env s tx).ptr_off = s.ptr_off ∧
    (txack_request_5_output env s tx).var_int_buffer_index = s.var_int_buffer_index ∧
    (txack_request_5_output env s tx).seen = s.seen ∧
    (txack_request_5_output env s tx).stray_writes = s.stray_writes ∧
    (txack_request_5_output env s tx).transaction_previous.outputs_len = s.transaction_previous.outputs_len := by
  simp only [
    txack_request_5_output, apply_ite State.raw_tx_status, apply_ite State.state_pos,
    apply_ite State.ptr, apply_ite State.ptr_off, apply_ite State.var_int_buffer_index,
    apply_ite State.seen, apply_ite State.stray_writes, apply_ite State.transaction_previous,
    apply_ite TxStruct.outputs_len, signing_abort_statics, send_fsm_co_error_message_statics,
    run_policy_compile_output, send_req_5_output, send_req_finished, msg_write, ite_self,
    and_self]

/-- A structured `TxAck` never writes the parser's variables and stores nothing out of
bounds; it changes the output count of the previous transaction only in stage
`REQUEST_2_PREV_META` of a live session. -/
theorem signing_txack_statics (env : Env) (s : State) (tx : TransactionType) :
    (signing_txack env s tx).raw_tx_status = s.raw_tx_status ∧
    (signing_txack env s tx).state_pos = s.state_pos ∧
    (signing_txack env s tx).ptr = s.ptr ∧
    (signing_txack env s tx).ptr_off = s.ptr_off ∧
    (signing_txack env s tx).var_int_buffer_index = s.var_int_buffer_index ∧
    (signing_txack env s tx).seen = s.seen ∧
    (signing_txack env s tx).stray_writes = s.stray_writes ∧
    (¬ (s.signing = true ∧ s.signing_stage = Stage.STAGE_REQUEST_2_PREV_META) →
      (signing_txack env s tx).transaction_previous.outputs_len
        = s.transaction_previous.outputs_len) := by
  unfold signing_txack
  split_ifs with hl
  · exact ⟨rfl, rfl, rfl, rfl, rfl, rfl, rfl, fun _ => rfl⟩
  · split
    · obtain ⟨a1, a2, a3, a4, a5, a6, a7, a8⟩ := txack_request_1_input_statics env
        { s with resp := TxRequest.zero } tx
      exact ⟨a1, a2, a3, a4, a5, a6, a7, fun _ => a8⟩
    · rename_i hst
      obtain ⟨a1, a2, a3, a4, a5, a6, a7⟩ := txack_request_2_prev_meta_statics
        { s with resp := TxRequest.zero } tx
      exact ⟨a1, a2, a3, a4, a5, a6, a7, fun hn => absurd ⟨by simpa using hl, hst⟩ hn⟩
    · obtain ⟨a1, a2, a3, a4, a5, a6, a7, a8⟩ := txack_request_2_prev_input_statics env
        { s with resp := TxRequest.zero } tx
      exact ⟨a1, a2, a3, a4, a5, a6, a7, fun _ => a8⟩
    · obtain ⟨a1, a2, a3, a4, a5, a6, a7, a8⟩ := txack_request_2_prev_output_statics env
        { s with resp := TxRequest.zero } tx
      exact ⟨a1, a2, a3, a4, a5, a6, a7, fun _ => a8⟩
    · obtain ⟨a1, a2, a3, a4, a5, a6, a7, a8⟩ := txack_request_3_output_statics env
        { s with resp := TxRequest.zero } tx
      exact ⟨a1, a2, a3, a4, a5, a6, a7, fun _ => a8⟩
    · obtain ⟨a1, a2, a3, a4, a5, a6, a7, a8⟩ := txack_request_4_input_statics env
        { s with resp := TxRequest.zero } tx
      exact ⟨a1, a2, a3, a4, a5, a6, a7, fun _ => a8⟩
    · obtain ⟨a1, a2, a3, a4, a5, a6, a7, a8⟩ := txack_request_4_output_statics env
        { s with resp := TxRequest.zero } tx
      exact ⟨a1, a2, a3, a4, a5, a6, a7, fun _ => a8⟩
    · obtain ⟨a1, a2, a3, a4, a5, a6, a7, a8⟩ := txack_request_5_output_statics env
        { s with resp := TxRequest.zero } tx
      exact ⟨a1, a2, a3, a4, a5, a6, a7, fun _ => a8⟩

/-- A structured `TxAck` keeps the parser state safe, unless it is taken as the metadata of
a previous transaction while the parser is in `PARSING_OUTPUTS`. -/
theorem signing_txack_safe (env : Env) (s : State) (tx : TransactionType)
    (h : view_safe s.parser)
    (hm : ¬ (s.signing = true ∧ s.signing_stage = Stage.STAGE_REQUEST_2_PREV_META ∧
      s.raw_tx_status = RawTxStatus.PARSING_OUTPUTS)) :
    view_safe (signing_txack env s tx).parser ∧
    (signing_txack env s tx).stray_writes = s.stray_writes := by
  obtain ⟨a1, a2, a3, a4, a5, a6, a7, a8⟩ := signing_txack_statics env s tx
  refine ⟨?_, a7⟩
  by_cases hmeta : s.signing = true ∧ s.signing_stage = Stage.STAGE_REQUEST_2_PREV_META
  · have hst : s.raw_tx_status ≠ RawTxStatus.PARSING_OUTPUTS :=
      fun e => hm ⟨hmeta.1, hmeta.2, e⟩
    cases hc : s.raw_tx_status <;>
      simp only [view_safe, State.parser, a1, a2, a3, a4, a5, a6, hc] at h ⊢ <;>
      first | exact h | exact absurd hc hst
  · have a9 := a8 hmeta
    simp only [view_safe, State.parser, a1, a2, a3, a4, a5, a6, a9] at h ⊢
    exact h

theorem run_safe (env : Env) (msgs : List HostMsg) :
    ∀ s : State, outputs_len_stable env s msgs = true → view_safe s.parser →
      view_safe (run env s msgs).parser ∧ (run env s msgs).stray_writes = s.stray_writes := by
  induction msgs with
  | nil => intro s _ h; exact ⟨h, rfl⟩
  | cons m rest ih =>
    intro s hs h
    cases m with
    | txack tx =>
      simp only [outputs_len_stable, Bool.and_eq_true, Bool.not_eq_true', Bool.and_eq_false_iff,
        decide_eq_false_iff_not, decide_eq_true_eq] at hs
      have hm : ¬ (s.signing = true ∧ s.signing_stage = Stage.STAGE_REQUEST_2_PREV_META ∧
          s.raw_tx_status = RawTxStatus.PARSING_OUTPUTS) := by
        rintro ⟨c1, c2, c3⟩
        rcases hs.1 with (h1 | h1) | h1
        · rw [c1] at h1; cases h1
        · exact h1 c2
        · exact h1 c3
      obtain ⟨b1, b2⟩ := signing_txack_safe env s tx h hm
      obtain ⟨c1, c2⟩ := ih _ hs.2 b1
      exact ⟨c1, c2.trans b2⟩
    | raw msg =>
      simp only [outputs_len_stable] at hs
      obtain ⟨b1, b2⟩ := parse_raw_txack_safe env msg s h
      obtain ⟨c1, c2⟩ := ih _ hs b1
      exact ⟨c1, c2.trans b2⟩

theorem signing_init_safe (n m : Nat) (coin : CoinType) (root : HDNode) (v lt : Nat)
    (s0 : State) :
    view_safe (signing_init n m coin root v lt s0).parser ∧
    (signing_init n m coin root v lt s0).stray_writes = s0.stray_writes := by
  refine ⟨?_, rfl⟩
  simp only [view_safe, State.parser, signing_init, send_req_1_input, msg_write]

/-- C31, for every session started by `signing_init` from any earlier module state, and
every sequence of structured and raw host messages (any bytes, any chunking) in which no
`TxAck` is taken as the metadata of a previous transaction while the parser is in
`PARSING_OUTPUTS`: no byte is ever stored at `var_int_buffer[9]` or beyond, beyond the 8 bytes
of `current_output_val`, or beyond the 4 bytes of the previous transaction's `version` and
`lock_time` (the count of such stores is unchanged), and the parser stays in a safe state.
Without the proviso the claim fails: after the raw bytes `nineByteVarintHead` and a
`TxAck` announcing two outputs, `var_int_buffer_index` is 9 and the next raw byte is
stored at `var_int_buffer[9]`. -/
theorem raw_stores_in_bounds (env : Env) (n m : Nat) (coin : CoinType) (root : HDNode)
    (v lt : Nat) (s0 : State) (msgs : List HostMsg)
    (h : outputs_len_stable env (signing_init n m coin root v lt s0) msgs = true) :
    ((run env (signing_init n m coin root v lt s0) msgs).stray_writes = s0.stray_writes ∧
      view_safe (run env (signing_init n m coin root v lt s0) msgs).parser) ∧
    (outputs_len_stable demoEnv demoStart overrunSession = false ∧
      (run demoEnv demoStart overrunSession).signing = true ∧
      (run demoEnv demoStart overrunSession).raw_tx_status = RawTxStatus.PARSING_OUTPUTS ∧
      (run demoEnv demoStart overrunSession).var_int_buffer_index = 9 ∧
      (run demoEnv demoStart overrunSession).stray_writes = 0 ∧
      (parse_raw_txack demoEnv (run demoEnv demoStart overrunSession) [7]).stray_writes = 1) := by
  obtain ⟨i1, i2⟩ := signing_init_safe n m coin root v lt s0
  obtain ⟨r1, r2⟩ := run_safe env msgs _ h i1
  exact ⟨⟨r2.trans i2, r1⟩, by decide, by decide, by decide, by decide, by decide, by decide⟩

theorem raw_stores_in_bounds_witness :
    outputs_len_stable demoEnv (signing_init 1 1 demoCoin demoRoot 1 0 State.boot)
        rawSlicesSession = true ∧
    (run demoEnv (signing_init 1 1 demoCoin demoRoot 1 0 State.boot)
        rawSlicesSession).stray_writes = State.boot.stray_writes ∧
    (run demoEnv (signing_init 1 1 demoCoin demoRoot 1 0 State.boot)
        rawSlicesSession).raw_tx_status = RawTxStatus.NOT_PARSING :=
  ⟨by decide,
    (raw_stores_in_bounds demoEnv 1 1 demoCoin demoRoot 1 0 State.boot rawSlicesSession
      (by decide)).1.1, by decide⟩

theorem fail_abort_funds (code : FailureType) (text : String) (s : State) :
    (fail_abort code text s).spending = s.spending ∧
    (fail_abort code text s).change_spend = s.change_spend ∧
    (fail_abort code text s).to_spend = s.to_spend := by
  simp only [fail_abort, signing_abort, go_home, fsm_sendFailure]
  split_ifs <;> exact ⟨rfl, rfl, rfl⟩

theorem signing_abort_funds (s : State) :
    (signing_abort s).spending = s.spending ∧
    (signing_abort s).change_spend = s.change_spend ∧
    (signing_abort s).to_spend = s.to_spend := by
  simp only [signing_abort, go_home]
  split_ifs <;> exact ⟨rfl, rfl, rfl⟩

theorem send_fsm_co_error_message_funds (env : Env) (e : Int) (s : State) :
    (send_fsm_co_error_message env e s).spending = s.spending ∧
    (send_fsm_co_error_message env e s).change_spend = s.change_spend ∧
    (send_fsm_co_error_message env e s).to_spend = s.to_spend := by
  simp only [send_fsm_co_error_message, fsm_sendFailure]
  split_ifs <;> (try split) <;> exact ⟨rfl, rfl, rfl⟩

theorem input_multisig_fp_funds (env : Env) (s : State) (i : TxInputType) :
    (input_multisig_fp env s i).2.spending = s.spending ∧
    (input_multisig_fp env s i).2.change_spend = s.change_spend ∧
    (input_multisig_fp env s i).2.to_spend = s.to_spend := by
  simp only [input_multisig_fp]
  split_ifs <;> exact ⟨rfl, rfl, rfl⟩

theorem txack_request_1_input_funds (env : Env) (s : State) (tx : TransactionType) :
    (txack_request_1_input env s tx).spending = s.spending ∧
    (txack_request_1_input env s tx).change_spend = s.change_spend ∧
    (txack_request_1_input env s tx).to_spend = s.to_spend := by
  simp only [
    txack_request_1_input, apply_ite State.spending, apply_ite State.change_spend,
    apply_ite State.to_spend, fail_abort_funds, input_multisig_fp_funds, send_req_2_prev_meta,
    msg_write, ite_self, and_self]

theorem txack_request_2_prev_input_funds (env : Env) (s : State) (tx : TransactionType) :
    (txack_request_2_prev_input env s tx).spending = s.spending ∧
    (txack_request_2_prev_input env s tx).change_spend = s.change_spend ∧
    (txack_request_2_prev_input env s tx).to_spend = s.to_spend := by
  simp only [
    txack_request_2_prev_input, apply_ite State.spending, apply_ite State.change_spend,
    apply_ite State.to_spend, fail_abort_funds, send_req_2_prev_input, send_req_2_prev_output,
    msg_write, ite_self, and_self]

theorem txack_request_2_prev_output_funds (env : Env) (s : State) (tx : TransactionType) :
    (txack_request_2_prev_output env s tx).spending = s.spending ∧
    (txack_request_2_prev_output env s tx).change_spend = s.change_spend := by
  simp only [
    txack_request_2_prev_output, apply_ite State.spending, apply_ite State.change_spend,
    apply_ite State.to_spend, fail_abort_funds, send_req_2_prev_output, send_req_1_input,
    send_req_3_output, msg_write, ite_self, and_self]

theorem txack_confirmation_gate_funds (env : Env) (s : State) :
    (txack_confirmation_gate env s).spending = s.spending ∧
    (txack_confirmation_gate env s).change_spend = s.change_spend ∧
    (txack_confirmation_gate env s).to_spend = s.to_spend := by
  simp only [
    txack_confirmation_gate, apply_ite State.spending, apply_ite State.change_spend,
    apply_ite State.to_spend, fail_abort_funds, send_req_4_input, msg_write, ite_self, and_self]

theorem compile_input_script_sig_funds (env : Env) (s : State) (i : TxInputType) :
    (compile_input_script_sig env s i).2.1.spending = s.spending ∧
    (compile_input_script_sig env s i).2.1.change_spend = s.change_spend ∧
    (compile_input_script_sig env s i).2.1.to_spend = s.to_spend := by
  simp only [compile_input_script_sig]
  split_ifs <;> exact ⟨rfl, rfl, rfl⟩

theorem txack_request_4_input_funds (env : Env) (s : State) (tx : TransactionType) :
    (txack_request_4_input env s tx).spending = s.spending ∧
    (txack_request_4_input env s tx).change_spend = s.change_spend ∧
    (txack_request_4_input env s tx).to_spend = s.to_spend := by
  simp only [
    txack_request_4_input, apply_ite State.spending, apply_ite State.change_spend,
    apply_ite State.to_spend, fail_abort_funds, compile_input_script_sig_funds, send_req_4_input,
    send_req_4_output, msg_write, ite_self, and_self]

theorem txack_sign_input_funds (env : Env) (s : State) (sighash : Nat) :
    (txack_sign_input env s sighash).spending = s.spending ∧
    (txack_sign_input env s sighash).change_spend = s.change_spend ∧
    (txack_sign_input env s sighash).to_spend = s.to_spend := by
  simp only [
    txack_sign_input, apply_ite State.spending, apply_ite State.change_spend,
    apply_ite State.to_spend, fail_abort_funds, send_req_4_input, send_req_5_output, msg_write,
    ite_self, and_self]

theorem txack_finish_inner_sweep_funds (env : Env) (s : State) :
    (txack_finish_inner_sweep env s).spending = s.spending ∧
    (txack_finish_inner_sweep env s).change_spend = s.change_spend := by
  simp only [
    txack_finish_inner_sweep, apply_ite State.spending, apply_ite State.change_spend,
    apply_ite State.to_spend, fail_abort_funds, txack_sign_input_funds,
    compile_input_script_sig_funds, ite_self, and_self]

theorem txack_request_4_output_funds (env : Env) (s : State) (tx : TransactionType) :
    (txack_request_4_output env s tx).spending = s.spending ∧
    (txack_request_4_output env s tx).change_spend = s.change_spend := by
  simp only [
    txack_request_4_output, apply_ite State.spending, apply_ite State.change_spend,
    apply_ite State.to_spend, fail_abort_funds, signing_abort_funds,
    send_fsm_co_error_message_funds, txack_finish_inner_sweep_funds, run_policy_compile_output,
    send_req_4_output, msg_write, ite_self, and_self]

theorem txack_request_5_output_funds (env : Env) (s : State) (tx : TransactionType) :
    (txack_request_5_output env s tx).spending = s.spending ∧
    (txack_request_5_output env s tx).change_spend = s.change_spend ∧
    (txack_request_5_output env s tx).to_spend = s.to_spend := by
  simp only [
    txack_request_5_output, apply_ite State.spending, apply_ite State.change_spend,
    apply_ite State.to_spend, signing_abort_funds, send_fsm_co_error_message_funds,
    run_policy_compile_output, send_req_5_output, send_req_finished, msg_write, ite_self,
    and_self]

theorem store_ptr_funds (s : State) (b : Nat) :
    (store_ptr s b).spending = s.spending ∧
    (store_ptr s b).change_spend = s.change_spend ∧
    (store_ptr s b).to_spend = s.to_spend := by
  simp only [store_ptr]
  split <;> (try split_ifs) <;> exact ⟨rfl, rfl, rfl⟩

theorem push_var_int_funds (s : State) (b : Nat) :
    (push_var_int s b).spending = s.spending ∧
    (push_var_int s b).change_spend = s.change_spend ∧
    (push_var_int s b).to_spend = s.to_spend := by
  simp only [push_var_int]
  split_ifs <;> exact ⟨rfl, rfl, rfl⟩

theorem add64_lt (a b : Nat) : add64 a b < 2 ^ 64 := Nat.mod_lt _ (by norm_num)

theorem parsing_version_funds (s : State) (b : Nat) :
    (parsing_version s b).spending = s.spending ∧
    (parsing_version s b).change_spend = s.change_spend ∧
    (parsing_version s b).to_spend = s.to_spend := by
  simp only [parsing_version, reset_parsing_buffer]
  split_ifs <;> simp only [store_ptr_funds, push_var_int_funds, and_self]

theorem parsing_input_count_funds (s : State) (b : Nat) :
    (parsing_input_count s b).spending = s.spending ∧
    (parsing_input_count s b).change_spend = s.change_spend ∧
    (parsing_input_count s b).to_spend = s.to_spend := by
  simp only [parsing_input_count, reset_parsing_buffer]
  split_ifs <;> simp only [store_ptr_funds, push_var_int_funds, and_self]

theorem parsing_inputs_funds (s : State) (b : Nat) :
    (parsing_inputs s b).spending = s.spending ∧
    (parsing_inputs s b).change_spend = s.change_spend ∧
    (parsing_inputs s b).to_spend = s.to_spend := by
  simp only [parsing_inputs, reset_parsing_buffer]
  split_ifs <;> simp only [store_ptr_funds, push_var_int_funds, and_self]

theorem parsing_output_count_funds (s : State) (b : Nat) :
    (parsing_output_count s b).spending = s.spending ∧
    (parsing_output_count s b).change_spend = s.change_spend ∧
    (parsing_output_count s b).to_spend = s.to_spend := by
  simp only [parsing_output_count, reset_parsing_buffer]
  split_ifs <;> simp only [store_ptr_funds, push_var_int_funds, and_self]

theorem parsing_outputs_funds (s : State) (b : Nat) :
    (parsing_outputs s b).spending = s.spending ∧
    (parsing_outputs s b).change_spend = s.change_spend ∧
    (parsing_outputs s b).to_spend = s.to_spend := by
  simp only [parsing_outputs, reset_parsing_buffer]
  split_ifs <;> simp only [store_ptr_funds, push_var_int_funds, and_self]

theorem parsing_outputs_value_funds (s : State) (b : Nat) :
    (parsing_outputs_value s b).spending = s.spending ∧
    (parsing_outputs_value s b).change_spend = s.change_spend ∧
    (s.to_spend < 2 ^ 64 → (parsing_outputs_value s b).to_spend < 2 ^ 64) := by
  simp only [parsing_outputs_value, reset_parsing_buffer]
  split_ifs <;> simp only [store_ptr_funds, true_and] <;>
    first | exact fun h => h | exact fun _ => add64_lt _ _

theorem parsing_locktime_funds (env : Env) (s : State) (b : Nat) :
    (parsing_locktime env s b).1.spending = s.spending ∧
    (parsing_locktime env s b).1.change_spend = s.change_spend ∧
    (parsing_locktime env s b).1.to_spend = s.to_spend := by
  simp only [parsing_locktime, hash_raw_byte]
  split_ifs <;>
    simp only [store_ptr_funds, signing_abort_funds, fsm_sendFailure, send_req_1_input,
      send_req_3_output, msg_write, and_self]

theorem parse_raw_byte_funds (env : Env) (s : State) (b : Nat) :
    (parse_raw_byte env s b).1.spending = s.spending ∧
    (parse_raw_byte env s b).1.change_spend = s.change_spend ∧
    (s.to_spend < 2 ^ 64 → (parse_raw_byte env s b).1.to_spend < 2 ^ 64) := by
  have lift : ∀ t : State, (t.spending = s.spending ∧ t.change_spend = s.change_spend ∧
      t.to_spend = s.to_spend) → (t.spending = s.spending ∧ t.change_spend = s.change_spend ∧
      (s.to_spend < 2 ^ 64 → t.to_spend < 2 ^ 64)) :=
    fun t h => ⟨h.1, h.2.1, fun hh => by rw [h.2.2]; exact hh⟩
  cases hst : s.raw_tx_status
  case PARSING_LOCKTIME =>
    rw [parse_raw_byte_at_locktime env s b hst]
    have l := parsing_locktime_funds env { s with state_pos := s.state_pos - 1 } b
    split_ifs
    · exact lift _ l
    · exact lift _ l
  all_goals simp only [parse_raw_byte, hst, hash_raw_byte]
  · exact lift _ (parsing_version_funds _ b)
  · exact lift _ (parsing_version_funds _ b)
  · exact lift _ (parsing_input_count_funds _ b)
  · exact lift _ (parsing_inputs_funds _ b)
  · exact lift _ (parsing_output_count_funds _ b)
  · exact parsing_outputs_value_funds _ b
  · exact lift _ (parsing_outputs_funds _ b)

theorem parse_raw_txack_funds (env : Env) (msg : Bytes) :
    ∀ s : State,
      (parse_raw_txack env s msg).spending = s.spending ∧
      (parse_raw_txack env s msg).change_spend = s.change_spend ∧
      (s.to_spend < 2 ^ 64 → (parse_raw_txack env s msg).to_spend < 2 ^ 64) := by
  induction msg with
  | nil => intro s; exact ⟨rfl, rfl, fun h => h⟩
  | cons b rest ih =>
    intro s
    obtain ⟨a1, a2, a3⟩ := parse_raw_byte_funds env s b
    rw [parse_raw_txack]
    split_ifs
    · exact ⟨a1, a2, a3⟩
    · obtain ⟨b1, b2, b3⟩ := ih (parse_raw_byte env s b).1
      exact ⟨b1.trans a1, b2.trans a2, fun h => b3 (a3 h)⟩

theorem txack_request_2_prev_output_to_spend_lt (env : Env) (s : State) (tx : TransactionType)
    (h : s.to_spend < 2 ^ 64) : (txack_request_2_prev_output env s tx).to_spend < 2 ^ 64 := by
  simp only [txack_request_2_prev_output]
  split_ifs <;>
    simp only [fail_abort_funds, send_req_2_prev_output, send_req_1_input, send_req_3_output,
      msg_write] <;>
    first | exact h | exact add64_lt _ _

theorem txack_finish_inner_sweep_to_spend_le (env : Env) (s : State) :
    (txack_finish_inner_sweep env s).to_spend ≤ s.to_spend := by
  simp only [txack_finish_inner_sweep]
  split_ifs <;>
    simp only [fail_abort_funds, txack_sign_input_funds, compile_input_script_sig_funds] <;>
    first | exact le_refl _ | exact Nat.sub_le _ _

theorem txack_request_4_output_to_spend_le (env : Env) (s : State) (tx : TransactionType) :
    (txack_request_4_output env s tx).to_spend ≤ s.to_spend := by
  simp only [txack_request_4_output]
  split_ifs <;>
    simp only [fail_abort_funds, signing_abort_funds, send_fsm_co_error_message_funds,
      run_policy_compile_output, send_req_4_output, msg_write] <;>
    first | exact le_refl _ | exact txack_finish_inner_sweep_to_spend_le env _

/-- The amounts after `case STAGE_REQUEST_3_OUTPUT`: `to_spend` is untouched, and if the
session is still live the output was summed into `spending` and, when it is the change
output, recorded in `change_spend`, which was zero before. -/
theorem txack_request_3_output_funds (env : Env) (s : State) (tx : TransactionType) :
    (txack_request_3_output env s tx).to_spend = s.to_spend ∧
    ((txack_request_3_output env s tx).signing = true →
      ∃ b, output_is_change env s tx.outputs = Except.ok b ∧
        ¬ (b = true ∧ s.change_spend ≠ 0) ∧
        env.TXOUT_COMPILE_ERROR
          < (env.run_policy_compile_output s.coin s.root tx.outputs (!b)).1 ∧
        (txack_request_3_output env s tx).spending = add64 s.spending tx.outputs.amount ∧
        (txack_request_3_output env s tx).change_spend
          = if b then tx.outputs.amount else s.change_spend) := by
  cases hb : output_is_change env s tx.outputs with
  | error text =>
    simp only [txack_request_3_output, hb]
    exact ⟨(fail_abort_funds _ _ _).2.2, fun h => by rw [fail_abort_signing] at h; cases h⟩
  | ok b =>
    by_cases hone : b = true ∧ s.change_spend ≠ 0
    · have hc : (b && decide (s.change_spend ≠ 0)) = true := by simp [hone.1, hone.2]
      simp only [txack_request_3_output, hb, hc, if_true]
      exact ⟨(fail_abort_funds _ _ _).2.2, fun h => by rw [fail_abort_signing] at h; cases h⟩
    · by_cases hco : env.TXOUT_COMPILE_ERROR
          < (env.run_policy_compile_output s.coin s.root tx.outputs (!b)).1
      · obtain ⟨sp, -, -, hcore, heq⟩ := txack_request_3_output_ok env s tx b hb hone hco
        obtain ⟨-, -, -, -, -, -, -, -, -, -, f11, f12, f13, -⟩ := core_fields hcore
        dsimp only [State.core] at f11 f12 f13
        rw [heq]
        by_cases hn : s.idx1 < dec32 s.outputs_count
        · rw [if_pos hn]
          exact ⟨f11, fun _ => ⟨b, rfl, hone, hco, f12, f13⟩⟩
        · rw [if_neg hn]
          obtain ⟨g1, g2, g3⟩ := txack_confirmation_gate_funds env sp
          exact ⟨g3.trans f11, fun _ => ⟨b, rfl, hone, hco, g1.trans f12, g2.trans f13⟩⟩
      · have hc : (b && decide (s.change_spend ≠ 0)) = false := by
          cases b
          · rfl
          · simp only [Bool.true_and, decide_eq_false_iff_not]
            exact fun h => hone ⟨rfl, h⟩
        have hle : (run_policy_compile_output env
            { s with change_spend := if b = true then tx.outputs.amount else s.change_spend }
            tx.outputs (!b)).1 ≤ env.TXOUT_COMPILE_ERROR := not_lt.1 hco
        simp only [txack_request_3_output, hb, hc, Bool.false_eq_true, if_false, if_pos hle]
        constructor
        · rw [(signing_abort_funds _).2.2, (send_fsm_co_error_message_funds env _ _).2.2]
          rfl
        · intro h
          have : (signing_abort (send_fsm_co_error_message env
              (run_policy_compile_output env
                { s with change_spend := if b = true then tx.outputs.amount else s.change_spend }
                tx.outputs (!b)).1
              (run_policy_compile_output env
                { s with change_spend := if b = true then tx.outputs.amount else s.change_spend }
                tx.outputs (!b)).2)).signing = false := by
            simp only [signing_abort, go_home]
            split_ifs <;> simp_all
          rw [this] at h; cases h

theorem amounts_total_append (l : List (TxOutputType × Bool)) (o : TxOutputType) (b : Bool) :
    amounts_total (l ++ [(o, b)]) = amounts_total l + o.amount := by
  simp [amounts_total]

theorem change_total_append (l : List (TxOutputType × Bool)) (o : TxOutputType) (b : Bool) :
    change_total (l ++ [(o, b)]) = change_total l + (if b then o.amount else 0) := by
  cases b <;> simp [change_total, List.filter_append, List.filter_cons]

theorem amounts_total_split (l : List (TxOutputType × Bool)) :
    amounts_total l = change_total l + non_change_total l := by
  induction l with
  | nil => rfl
  | cons p rest ih =>
    obtain ⟨o, b⟩ := p
    cases b
    · simp only [amounts_total, change_total, non_change_total, List.map_cons, List.sum_cons,
        List.filter_cons, Bool.false_eq_true, if_false, Bool.not_false, if_true] at ih ⊢
      omega
    · simp only [amounts_total, change_total, non_change_total, List.map_cons, List.sum_cons,
        List.filter_cons, Bool.not_true, Bool.false_eq_true, if_false, if_true] at ih ⊢
      omega

theorem sub64_exact (a c : Nat) (ha : a < 2 ^ 64) (hc : c ≤ a) : sub64 a c = a - c := by
  unfold sub64
  rw [Nat.mod_eq_of_lt ha, Nat.mod_eq_of_lt (lt_of_le_of_lt hc ha)]
  have : a + (2 ^ 64 - c) = (a - c) + 2 ^ 64 := by omega
  rw [this, Nat.add_mod_right]
  exact Nat.mod_eq_of_lt (by omega)

/-- A structured `TxAck` outside stage `REQUEST_3_OUTPUT` of a live session keeps `spending`
and `change_spend`, and keeps `to_spend` below `2 ^ 64`. -/
theorem signing_txack_funds (env : Env) (s : State) (tx : TransactionType)
    (h3 : ¬ (s.signing = true ∧ s.signing_stage = Stage.STAGE_REQUEST_3_OUTPUT))
    (hts : s.to_spend < 2 ^ 64) :
    (signing_txack env s tx).spending = s.spending ∧
    (signing_txack env s tx).change_spend = s.change_spend ∧
    (signing_txack env s tx).to_spend < 2 ^ 64 := by
  unfold signing_txack
  split_ifs with hl
  · exact ⟨rfl, rfl, hts⟩
  · split
    · obtain ⟨a1, a2, a3⟩ := txack_request_1_input_funds env { s with resp := TxRequest.zero } tx
      exact ⟨a1, a2, by rw [a3]; exact hts⟩
    · exact ⟨rfl, rfl, hts⟩
    · obtain ⟨a1, a2, a3⟩ := txack_request_2_prev_input_funds env
        { s with resp := TxRequest.zero } tx
      exact ⟨a1, a2, by rw [a3]; exact hts⟩
    · obtain ⟨a1, a2⟩ := txack_request_2_prev_output_funds env
        { s with resp := TxRequest.zero } tx
      exact ⟨a1, a2, txack_request_2_prev_output_to_spend_lt env _ tx hts⟩
    · rename_i hst
      exact absurd ⟨by simpa using hl, hst⟩ h3
    · obtain ⟨a1, a2, a3⟩ := txack_request_4_input_funds env { s with resp := TxRequest.zero } tx
      exact ⟨a1, a2, by rw [a3]; exact hts⟩
    · obtain ⟨a1, a2⟩ := txack_request_4_output_funds env { s with resp := TxRequest.zero } tx
      exact ⟨a1, a2, lt_of_le_of_lt (txack_request_4_output_to_spend_le env _ tx) hts⟩
    · obtain ⟨a1, a2, a3⟩ := txack_request_5_output_funds env { s with resp := TxRequest.zero } tx
      exact ⟨a1, a2, by rw [a3]; exact hts⟩

/-- One host message keeps the invariant of the amounts. -/
theorem handle_funds_inv (env : Env) (s : State) (m : HostMsg)
    (outs : List (TxOutputType × Bool)) (h : funds_inv s outs) :
    funds_inv (handle env s m) (outs ++ step_outputs env s m) := by
  intro hlive'
  have hlive : s.signing = true := by
    by_contra hn
    have := handle_dead env s m (by simpa using hn)
    rw [this] at hlive'; cases hlive'
  obtain ⟨i1, i2, i3⟩ := h hlive
  cases m with
  | raw msg =>
    obtain ⟨a1, a2, a3⟩ := parse_raw_txack_funds env msg s
    simp only [handle, step_outputs, List.append_nil]
    exact ⟨a3 i1, a1.trans i2, a2.trans i3⟩
  | txack tx =>
    by_cases h3 : s.signing_stage = Stage.STAGE_REQUEST_3_OUTPUT
    · simp only [handle] at hlive' ⊢
      rw [signing_txack_at_3_output env s tx hlive h3] at hlive' ⊢
      obtain ⟨t1, t2⟩ := txack_request_3_output_funds env { s with resp := TxRequest.zero } tx
      obtain ⟨b, hb, hone, hco, t3, t4⟩ := t2 hlive'
      rw [output_is_change_resp] at hb
      have hsum : summed_output env s tx = some b := by
        simp only [summed_output, hlive, h3, and_self, if_true, hb]
        rw [if_neg hone, if_neg (not_le.2 hco)]
      simp only [step_outputs, hsum]
      rw [amounts_total_append, change_total_append]
      refine ⟨by rw [t1]; exact i1, ?_, ?_⟩
      · rw [t3]
        show add64 s.spending tx.outputs.amount = _
        rw [i2, add64, Nat.mod_add_mod]
      · rw [t4]
        show (if b = true then tx.outputs.amount else s.change_spend) = _
        cases b
        · simp only [Bool.false_eq_true, if_false, Nat.add_zero]; exact i3
        · have h0 : s.change_spend = 0 := by
            by_contra hne
            exact hone ⟨rfl, hne⟩
          simp only [if_true]
          rw [← i3, h0, Nat.zero_add]
    · have hnone : summed_output env s tx = none := by
        simp only [summed_output, h3, and_false, if_false]
      obtain ⟨a1, a2, a3⟩ := signing_txack_funds env s tx (fun hh => h3 hh.2) i1
      simp only [handle, step_outputs, hnone, List.append_nil]
      exact ⟨a3, a1.trans i2, a2.trans i3⟩

theorem summed_outputs_append (env : Env) (a b : List HostMsg) :
    ∀ s : State, summed_outputs env s (a ++ b)
      = summed_outputs env s a ++ summed_outputs env (run env s a) b := by
  induction a with
  | nil => intro s; rfl
  | cons m rest ih =>
    intro s
    rw [List.cons_append, summed_outputs, summed_outputs, run, ih, List.append_assoc]

theorem run_funds_inv (env : Env) (msgs : List HostMsg) :
    ∀ (s : State) (outs : List (TxOutputType × Bool)), funds_inv s outs →
      funds_inv (run env s msgs) (outs ++ summed_outputs env s msgs) := by
  induction msgs with
  | nil => intro s outs h; simpa [summed_outputs, run] using h
  | cons m rest ih =>
    intro s outs h
    have := ih _ _ (handle_funds_inv env s m outs h)
    simpa only [summed_outputs, run, List.append_assoc] using this

theorem signing_init_funds_inv (n m : Nat) (coin : CoinType) (root : HDNode) (v lt : Nat)
    (s0 : State) : funds_inv (signing_init n m coin root v lt s0) [] := by
  intro _
  exact ⟨by show (0 : Nat) < 2 ^ 64; norm_num, rfl, rfl⟩

/-- The call of `signing_txack` that invokes `confirm_transaction`: it is the one that takes
the last output to the confirmation gate, and the amounts shown are computed from the
module variables as they are when the call returns. -/
theorem gate_step_shown_total (env : Env) (s : State) (tx : TransactionType)
    (total fee : Nat)
    (hmem : Event.confirm_transaction total fee ∈ new_events s (signing_txack env s tx)) :
    s.signing = true ∧ s.signing_stage = Stage.STAGE_REQUEST_3_OUTPUT ∧
    (∃ b, summed_output env s tx = some b ∧
      (signing_txack env s tx).spending = add64 s.spending tx.outputs.amount ∧
      (signing_txack env s tx).change_spend
        = (if b then tx.outputs.amount else s.change_spend) ∧
      (b = true → s.change_spend = 0)) ∧
    (signing_txack env s tx).to_spend = s.to_spend ∧
    (signing_txack env s tx).spending ≤ (signing_txack env s tx).to_spend ∧
    total = sub64 (signing_txack env s tx).to_spend (signing_txack env s tx).change_spend ∧
    fee = (signing_txack env s tx).to_spend - (signing_txack env s tx).spending := by
  rcases signing_txack_silent_or_gate env s tx with hsil | ⟨hlive, hstage, hlast, b, hb, hone,
    hco, sp, hlog, hresp, hcore, heq⟩
  · obtain ⟨L1, hL1, hs1⟩ := hsil
    rw [new_events_of_append hL1] at hmem
    have := hs1 _ hmem
    simp [Event.silent] at this
  · obtain ⟨f1, -, -, -, -, -, -, -, -, -, f11, f12, f13, -⟩ := core_fields hcore
    dsimp only [State.core] at f1 f11 f12 f13
    obtain ⟨g1, g2, g3⟩ := txack_confirmation_gate_funds env sp
    obtain ⟨L, hL, hcases⟩ := txack_confirmation_gate_log env sp (f1.trans hlive)
      (by rw [hresp]; rfl)
    have hnew : new_events s (signing_txack env s tx)
        = Event.policy_compile_output tx.outputs (!b) :: L := by
      apply new_events_of_append
      rw [heq, hL, hlog]; simp
    rw [hnew] at hmem
    have hmem' : Event.confirm_transaction total fee ∈ L := by
      rcases List.mem_cons.1 hmem with h | h
      · exact absurd h (by simp)
      · exact h
    have key : sp.spending ≤ sp.to_spend ∧ fee = sp.to_spend - sp.spending ∧
        total = sub64 sp.to_spend sp.change_spend := by
      rcases hcases with ⟨-, rfl⟩ | ⟨hle, -, T, rfl, hT⟩ | ⟨hle, -, hL'⟩
      · simp at hmem'
      · rcases List.mem_cons.1 hmem' with h | h
        · exact absurd h (by simp)
        · exact ⟨hle, ((hT _ h).2.1 total fee rfl).1, ((hT _ h).2.1 total fee rfl).2⟩
      · exact ⟨hle, ((hL' _ hmem').2.1 total fee rfl).1, ((hL' _ hmem').2.1 total fee rfl).2⟩
    have hsum : summed_output env s tx = some b := by
      simp only [summed_output, hlive, hstage, and_self, if_true, hb]
      rw [if_neg hone, if_neg (not_le.2 hco)]
    rw [heq, g1, g2, g3]
    refine ⟨hlive, hstage, ⟨b, hsum, f12, f13, ?_⟩, f11, key.1, key.2.2, key.2.1⟩
    intro hbt
    by_contra hne
    exact hone ⟨hbt, hne⟩

/-- C34: whenever a call of `signing_txack`, at any point of any session started by
`signing_init`, invokes `confirm_transaction total fee`, `total` is
`to_spend - change_spend` computed in 64-bit unsigned arithmetic and `fee` is
`to_spend - spending`; and provided the amounts of the outputs that were summed into
`spending` add up to less than `2 ^ 64`, `change_spend` is not above `to_spend`, the
subtraction does not wrap, and `total` equals the sum of the amounts of all summed outputs
that were not recorded as change, plus `fee`. -/
theorem confirmed_total_is_spend_plus_fee (env : Env) (n m : Nat) (coin : CoinType)
    (root : HDNode) (v lt : Nat) (s0 : State) (msgs : List HostMsg) (tx : TransactionType)
    (total fee : Nat)
    (hshown : Event.confirm_transaction total fee
      ∈ new_events (run env (signing_init n m coin root v lt s0) msgs)
          (signing_txack env (run env (signing_init n m coin root v lt s0) msgs) tx)) :
    total = sub64
        (signing_txack env (run env (signing_init n m coin root v lt s0) msgs) tx).to_spend
        (signing_txack env (run env (signing_init n m coin root v lt s0) msgs) tx).change_spend ∧
    fee = (signing_txack env (run env (signing_init n m coin root v lt s0) msgs) tx).to_spend
      - (signing_txack env (run env (signing_init n m coin root v lt s0) msgs) tx).spending ∧
    (amounts_total (summed_outputs env (signing_init n m coin root v lt s0)
        (msgs ++ [HostMsg.txack tx])) < 2 ^ 64 →
      (signing_txack env (run env (signing_init n m coin root v lt s0) msgs) tx).change_spend
        ≤ (signing_txack env (run env (signing_init n m coin root v lt s0) msgs) tx).to_spend ∧
      total
        = (signing_txack env (run env (signing_init n m coin root v lt s0) msgs) tx).to_spend
          - (signing_txack env (run env (signing_init n m coin root v lt s0) msgs)
              tx).change_spend ∧
      total = non_change_total (summed_outputs env (signing_init n m coin root v lt s0)
          (msgs ++ [HostMsg.txack tx])) + fee) := by
  generalize hS : run env (signing_init n m coin root v lt s0) msgs = S at hshown ⊢
  obtain ⟨hlive, hstage, ⟨b, hsum, t3, t4, h0⟩, t1, hle, htot, hfee⟩ :=
    gate_step_shown_total env S tx total fee hshown
  refine ⟨htot, hfee, ?_⟩
  intro hno
  have hinv := run_funds_inv env msgs _ [] (signing_init_funds_inv n m coin root v lt s0)
  rw [hS, List.nil_append] at hinv
  obtain ⟨i1, i2, i3⟩ := hinv hlive
  rw [summed_outputs_append, hS] at hno ⊢
  have hstep : summed_outputs env S [HostMsg.txack tx] = [(tx.outputs, b)] := by
    simp only [summed_outputs, step_outputs, hsum, List.append_nil]
  rw [hstep] at hno ⊢
  generalize summed_outputs env (signing_init n m coin root v lt s0) msgs = outs at *
  have hA := amounts_total_append outs tx.outputs b
  have hC := change_total_append outs tx.outputs b
  have hsplit := amounts_total_split (outs ++ [(tx.outputs, b)])
  generalize signing_txack env S tx = T at *
  have hsp : T.spending = amounts_total (outs ++ [(tx.outputs, b)]) := by
    rw [t3, i2, add64, Nat.mod_add_mod, ← hA]
    exact Nat.mod_eq_of_lt hno
  have hcs : T.change_spend = change_total (outs ++ [(tx.outputs, b)]) := by
    rw [t4, hC]
    cases b
    · simp only [Bool.false_eq_true, if_false, Nat.add_zero]; exact i3
    · simp only [if_true]
      rw [← i3, h0 rfl, Nat.zero_add]
  have hts : T.to_spend < 2 ^ 64 := by rw [t1]; exact i1
  have hcle : T.change_spend ≤ T.to_spend := by omega
  refine ⟨hcle, ?_, ?_⟩
  · rw [htot]; exact sub64_exact _ _ hts hcle
  · rw [htot, sub64_exact _ _ hts hcle, hfee]
    omega

theorem confirmed_total_is_spend_plus_fee_witness :
    Event.confirm_transaction 5000 2000
      ∈ new_events (run demoEnv (signing_init 1 2 demoCoin demoRoot 1 0 State.boot)
            changeSessionHead)
          (signing_txack demoEnv
            (run demoEnv (signing_init 1 2 demoCoin demoRoot 1 0 State.boot) changeSessionHead)
            (ackOutput (changeOutput 5000))) ∧
    amounts_total (summed_outputs demoEnv (signing_init 1 2 demoCoin demoRoot 1 0 State.boot)
        (changeSessionHead ++ [HostMsg.txack (ackOutput (changeOutput 5000))])) < 2 ^ 64 ∧
    non_change_total (summed_outputs demoEnv
        (signing_init 1 2 demoCoin demoRoot 1 0 State.boot)
        (changeSessionHead ++ [HostMsg.txack (ackOutput (changeOutput 5000))])) = 3000 ∧
    5000 = non_change_total (summed_outputs demoEnv
        (signing_init 1 2 demoCoin demoRoot 1 0 State.boot)
        (changeSessionHead ++ [HostMsg.txack (ackOutput (changeOutput 5000))])) + 2000 :=
  ⟨by decide, by decide, by decide,
    ((confirmed_total_is_spend_plus_fee demoEnv 1 2 demoCoin demoRoot 1 0 State.boot
      changeSessionHead (ackOutput (changeOutput 5000)) 5000 2000 (by decide)).2.2
      (by decide)).2.2⟩

/-- C33 fails. `signing_init` resets the variables listed in its body and nothing else: for
any two earlier module states the states after `signing_init` with the same arguments differ
exactly in `node`, `idx2`, `bin_output`, `transaction_previous`, `ti`, `hash`, `hash_check`,
`privkey`, `pubkey`, `sig`, `hash_prevouts`, `hash_sequence`, `hash_outputs`, `multisig_fp`,
the parser's variables other than `raw_tx_status`, and the messages sent before (first
conjunct). One of them is read before it is written: `compile_input_script_sig` compares
the fingerprint of the input with `multisig_fp` whenever `multisig_fp_mismatch` is false,
also when `multisig_fp_set` is false (second conjunct: with the mismatch flag clear, a
multisig input whose fingerprint differs from `multisig_fp` is refused whatever
`multisig_fp_set` is). So the same session, started with the same arguments at power-up and
after an earlier session that left `multisig_fp = [5]`, sends the same first nine messages
and then a failure in one case and the next request in the other; the amounts agree (third
conjunct). -/
theorem stale_state_after_signing_init :
    (∀ (n m : Nat) (coin : CoinType) (root : HDNode) (v lt : Nat) (s1 s2 : State),
      signing_init n m coin root v lt s1
        = { signing_init n m coin root v lt s2 with
            node := s1.node, idx2 := s1.idx2, bin_output := s1.bin_output,
            transaction_previous := s1.transaction_previous, ti := s1.ti,
            hash := s1.hash, hash_check := s1.hash_check, privkey := s1.privkey,
            pubkey := s1.pubkey, sig := s1.sig, hash_prevouts := s1.hash_prevouts,
            hash_sequence := s1.hash_sequence, hash_outputs := s1.hash_outputs,
            multisig_fp := s1.multisig_fp, state_pos := s1.state_pos, ptr := s1.ptr,
            ptr_off := s1.ptr_off, var_int_buffer := s1.var_int_buffer,
            var_int_buffer_index := s1.var_int_buffer_index, seen := s1.seen,
            script_len := s1.script_len, current_output_val := s1.current_output_val,
            stray_writes := s1.stray_writes,
            log := s1.log ++ new_events s2 (signing_init n m coin root v lt s2) }) ∧
    (∀ (env : Env) (s : State) (i : TxInputType),
      s.multisig_fp_mismatch = false →
      memcmp32_ne s.multisig_fp (env.cryptoMultisigFingerprint i.multisig).2 = true →
      compile_input_script_sig env s i = (false, s, i)) ∧
    (State.boot.multisig_fp = List.replicate 32 0 ∧
      multisigGateState.multisig_fp = [5] ∧
      (signing_init 1 1 demoCoin demoRoot 1 0 State.boot).multisig_fp_set = false ∧
      (signing_init 1 1 demoCoin demoRoot 1 0 multisigGateState).multisig_fp_set = false ∧
      (new_events State.boot (staleFingerprintRun State.boot)).take 9
        = (new_events multisigGateState (staleFingerprintRun multisigGateState)).take 9 ∧
      (new_events State.boot (staleFingerprintRun State.boot)).drop 9
        = [Event.failure FailureType.Failure_Other "Failed to compile input",
           Event.go_home] ∧
      (new_events multisigGateState (staleFingerprintRun multisigGateState)).drop 9
        = [Event.tx_request { TxRequest.zero with
            has_request_type := true, request_type := RequestType.TXOUTPUT,
            has_details := true, has_request_index := true, request_index := 0 }] ∧
      (staleFingerprintRun State.boot).signing = false ∧
      (staleFingerprintRun multisigGateState).signing = true ∧
      (staleFingerprintRun State.boot).to_spend
        = (staleFingerprintRun multisigGateState).to_spend ∧
      (staleFingerprintRun State.boot).spending
        = (staleFingerprintRun multisigGateState).spending) := by
  refine ⟨?_, ?_, ?_⟩
  · intro n m coin root v lt s1 s2
    simp [signing_init, send_req_1_input, msg_write, new_events]
  · intro env s i h1 h2
    simp [compile_input_script_sig, h1, h2]
  · exact ⟨by decide, by decide, by decide, by decide, by decide, by decide, by decide,
      by decide, by decide, by decide, by decide⟩

theorem stale_state_after_signing_init_witness :
    (signing_init 1 1 demoCoin demoRoot 1 0 State.boot).multisig_fp_mismatch = false ∧
    memcmp32_ne (signing_init 1 1 demoCoin demoRoot 1 0 State.boot).multisig_fp
      (demoEnv.cryptoMultisigFingerprint (multisigInput [5]).multisig).2 = true ∧
    compile_input_script_sig demoEnv (signing_init 1 1 demoCoin demoRoot 1 0 State.boot)
        (multisigInput [5])
      = (false, signing_init 1 1 demoCoin demoRoot 1 0 State.boot, multisigInput [5]) :=
  ⟨by decide, by decide,
    stale_state_after_signing_init.2.1 demoEnv
      (signing_init 1 1 demoCoin demoRoot 1 0 State.boot) (multisigInput [5])
      (by decide) (by decide)⟩

theorem send_req_1_input_requests (s t : State) (h : t.log = s.log)
    (hz : t.resp.has_tx_hash = false) :
    Requests s (send_req_1_input t) [t.idx1] := by
  exact ⟨[Event.tx_request (send_req_1_input t).resp], by simp only [send_req_1_input, msg_write, h],
    by simp [input_requests, Event.input_request, send_req_1_input, msg_write, hz]⟩

theorem send_req_2_prev_meta_requests (s t : State) (h : t.log = s.log) :
    Requests s (send_req_2_prev_meta t) [] := by
  exact ⟨[Event.tx_request (send_req_2_prev_meta t).resp], by simp only [send_req_2_prev_meta, msg_write, h],
    by simp [input_requests, Event.input_request, send_req_2_prev_meta, msg_write]⟩

theorem send_req_2_prev_input_requests (s t : State) (h : t.log = s.log) :
    Requests s (send_req_2_prev_input t) [] := by
  exact ⟨[Event.tx_request (send_req_2_prev_input t).resp], by simp only [send_req_2_prev_input, msg_write, h],
    by simp [input_requests, Event.input_request, send_req_2_prev_input, msg_write]⟩

theorem send_req_2_prev_output_requests (s t : State) (h : t.log = s.log) :
    Requests s (send_req_2_prev_output t) [] := by
  exact ⟨[Event.tx_request (send_req_2_prev_output t).resp], by simp only [send_req_2_prev_output, msg_write, h],
    by simp [input_requests, Event.input_request, send_req_2_prev_output, msg_write]⟩

theorem send_req_3_output_requests (s t : State) (h : t.log = s.log) :
    Requests s (send_req_3_output t) [] := by
  exact ⟨[Event.tx_request (send_req_3_output t).resp], by simp only [send_req_3_output, msg_write, h],
    by simp [input_requests, Event.input_request, send_req_3_output, msg_write]⟩

theorem txack_request_1_input_requests (env : Env) (s : State) (tx : TransactionType)
    (hl : (txack_request_1_input env s tx).signing = true) :
    (txack_request_1_input env s tx).signing_stage = Stage.STAGE_REQUEST_2_PREV_META ∧
    (txack_request_1_input env s tx).idx1 = s.idx1 ∧
    (txack_request_1_input env s tx).inputs_count = s.inputs_count ∧
    Requests s (txack_request_1_input env s tx) [] := by
  have hlog : (input_multisig_fp env s tx.inputs).2.log = s.log ∧
      (input_multisig_fp env s tx.inputs).2.idx1 = s.idx1 ∧
      (input_multisig_fp env s tx.inputs).2.inputs_count = s.inputs_count := by
    simp only [input_multisig_fp]
    split_ifs <;> exact ⟨rfl, rfl, rfl⟩
  simp only [txack_request_1_input] at hl ⊢
  split_ifs at hl ⊢ with h
  · rw [fail_abort_signing] at hl; cases hl
  · exact ⟨rfl, hlog.2.1, hlog.2.2, send_req_2_prev_meta_requests s _ hlog.1⟩

theorem txack_request_2_prev_meta_requests (s : State) (tx : TransactionType) :
    (txack_request_2_prev_meta s tx).signing_stage = Stage.STAGE_REQUEST_2_PREV_INPUT ∧
    (txack_request_2_prev_meta s tx).idx1 = s.idx1 ∧
    (txack_request_2_prev_meta s tx).inputs_count = s.inputs_count ∧
    Requests s (txack_request_2_prev_meta s tx) [] :=
  ⟨rfl, rfl, rfl, send_req_2_prev_input_requests s _ rfl⟩

theorem txack_request_2_prev_input_requests (env : Env) (s : State) (tx : TransactionType)
    (hl : (txack_request_2_prev_input env s tx).signing = true) :
    ((txack_request_2_prev_input env s tx).signing_stage = Stage.STAGE_REQUEST_2_PREV_INPUT ∨
      (txack_request_2_prev_input env s tx).signing_stage
        = Stage.STAGE_REQUEST_2_PREV_OUTPUT) ∧
    (txack_request_2_prev_input env s tx).idx1 = s.idx1 ∧
    (txack_request_2_prev_input env s tx).inputs_count = s.inputs_count ∧
    Requests s (txack_request_2_prev_input env s tx) [] := by
  simp only [txack_request_2_prev_input] at hl ⊢
  split_ifs at hl ⊢
  · rw [fail_abort_signing] at hl; cases hl
  · exact ⟨Or.inl rfl, rfl, rfl, send_req_2_prev_input_requests s _ rfl⟩
  · exact ⟨Or.inr rfl, rfl, rfl, send_req_2_prev_output_requests s _ rfl⟩

/-- The requests of `case STAGE_REQUEST_2_PREV_OUTPUT`: another output of the previous
transaction, or, after the last one, the next input if `idx1 < inputs_count - 1` and the
first output otherwise. -/
theorem txack_request_2_prev_output_requests (env : Env) (s : State) (tx : TransactionType)
    (hz : s.resp.has_tx_hash = false)
    (hl : (txack_request_2_prev_output env s tx).signing = true) :
    (txack_request_2_prev_output env s tx).inputs_count = s.inputs_count ∧
    ((s.idx2 < dec32 s.transaction_previous.outputs_len ∧
        (txack_request_2_prev_output env s tx).signing_stage
          = Stage.STAGE_REQUEST_2_PREV_OUTPUT ∧
        (txack_request_2_prev_output env s tx).idx1 = s.idx1 ∧
        (txack_request_2_prev_output env s tx).idx2 = s.idx2 + 1 ∧
        Requests s (txack_request_2_prev_output env s tx) []) ∨
      (¬ s.idx2 < dec32 s.transaction_previous.outputs_len ∧ s.idx1 < dec32 s.inputs_count ∧
        (txack_request_2_prev_output env s tx).signing_stage = Stage.STAGE_REQUEST_1_INPUT ∧
        (txack_request_2_prev_output env s tx).idx1 = s.idx1 + 1 ∧
        Requests s (txack_request_2_prev_output env s tx) [s.idx1 + 1]) ∨
      (¬ s.idx2 < dec32 s.transaction_previous.outputs_len ∧
        ¬ s.idx1 < dec32 s.inputs_count ∧
        (txack_request_2_prev_output env s tx).signing_stage = Stage.STAGE_REQUEST_3_OUTPUT ∧
        (txack_request_2_prev_output env s tx).idx1 = 0 ∧
        Requests s (txack_request_2_prev_output env s tx) [])) := by
  have hout : ∀ t : State, (tx_serialize_output_hash env t.transaction_previous
      tx.bin_outputs).2.outputs_len = t.transaction_previous.outputs_len := fun _ => rfl
  simp only [txack_request_2_prev_output] at hl ⊢
  by_cases h1 : (tx_serialize_output_hash env s.transaction_previous tx.bin_outputs).1 = 0
  · rw [if_pos h1, fail_abort_signing] at hl; cases hl
  rw [if_neg h1] at hl ⊢
  by_cases h2 : s.idx2 < dec32 s.transaction_previous.outputs_len
  · have h2' : s.idx2 < dec32 (tx_serialize_output_hash env s.transaction_previous
        tx.bin_outputs).2.outputs_len := h2
    rw [if_pos h2']
    exact ⟨rfl, Or.inl ⟨h2, rfl, rfl, rfl, send_req_2_prev_output_requests s _ rfl⟩⟩
  have h2' : ¬ s.idx2 < dec32 (tx_serialize_output_hash env s.transaction_previous
      tx.bin_outputs).2.outputs_len := h2
  rw [if_neg h2'] at hl ⊢
  generalize (if s.idx2 = s.input.prev_index then add64 s.to_spend tx.bin_outputs.amount
    else s.to_spend) = ts at hl ⊢
  split_ifs at hl ⊢ with h3 h4
  · rw [fail_abort_signing] at hl; cases hl
  · exact ⟨rfl, Or.inr (Or.inl ⟨h2, h4, rfl, rfl, send_req_1_input_requests s _ rfl hz⟩)⟩
  · exact ⟨rfl, Or.inr (Or.inr ⟨h2, h4, rfl, rfl, send_req_3_output_requests s _ rfl⟩)⟩

theorem push_var_int_session (s : State) (b : Nat) :
    (push_var_int s b).log = s.log ∧ (push_var_int s b).signing = s.signing ∧
    (push_var_int s b).signing_stage = s.signing_stage ∧ (push_var_int s b).idx1 = s.idx1 ∧
    (push_var_int s b).inputs_count = s.inputs_count := by
  simp only [push_var_int]
  split_ifs <;> exact ⟨rfl, rfl, rfl, rfl, rfl⟩

theorem store_ptr_session (s : State) (b : Nat) :
    (store_ptr s b).log = s.log ∧ (store_ptr s b).signing = s.signing ∧
    (store_ptr s b).signing_stage = s.signing_stage ∧ (store_ptr s b).idx1 = s.idx1 ∧
    (store_ptr s b).inputs_count = s.inputs_count := by
  obtain ⟨-, -, f3, f4, f5, f6, f7, -⟩ := store_ptr_frame s b
  exact ⟨f3, f4, f6, f5, f7⟩

/-- The lock-time stage: a byte that does not complete the lock time leaves the session as
it is; the byte that completes it, if the hash of the previous transaction matches,
requests the next input when `idx1 < inputs_count - 1` and the first output otherwise. -/
theorem parsing_locktime_requests (env : Env) (s0 s : State) (b : Nat)
    (hlog : s.log = s0.log) :
    ((parsing_locktime env s b).2 = false →
      (parsing_locktime env s b).1.log = s.log ∧
      (parsing_locktime env s b).1.signing = s.signing ∧
      (parsing_locktime env s b).1.signing_stage = s.signing_stage ∧
      (parsing_locktime env s b).1.idx1 = s.idx1 ∧
      (parsing_locktime env s b).1.inputs_count = s.inputs_count) ∧
    ((parsing_locktime env s b).2 = true → (parsing_locktime env s b).1.signing = true →
      (parsing_locktime env s b).1.inputs_count = s.inputs_count ∧
      ((s.idx1 < dec32 s.inputs_count ∧
          (parsing_locktime env s b).1.signing_stage = Stage.STAGE_REQUEST_1_INPUT ∧
          (parsing_locktime env s b).1.idx1 = s.idx1 + 1 ∧
          Requests s0 (parsing_locktime env s b).1 [s.idx1 + 1]) ∨
        (¬ s.idx1 < dec32 s.inputs_count ∧
          (parsing_locktime env s b).1.signing_stage = Stage.STAGE_REQUEST_3_OUTPUT ∧
          (parsing_locktime env s b).1.idx1 = 0 ∧
          Requests s0 (parsing_locktime env s b).1 []))) := by
  obtain ⟨g1, g2, g3, g4, g5⟩ := store_ptr_session s b
  have key : ∀ t : State, t.log = s.log → t.signing = s.signing →
      t.signing_stage = s.signing_stage → t.idx1 = s.idx1 → t.inputs_count = s.inputs_count →
      (let r : State × Bool :=
        if t.state_pos < 1 then
          let s : State := { t with raw_tx_status := RawTxStatus.NOT_PARSING,
                                    resp := TxRequest.zero }
          let s := hash_raw_byte s b
          let s : State := { s with hash := env.tx_hash_final s.transaction_previous true }
          if memcmp32_ne s.hash s.input.prev_hash then
            (signing_abort (fsm_sendFailure FailureType.Failure_Other
              "Encountered invalid prevhash" s), true)
          else if s.idx1 < dec32 s.inputs_count then
            (send_req_1_input { s with idx1 := s.idx1 + 1 }, true)
          else
            (send_req_3_output { s with idx1 := 0 }, true)
        else (t, false)
       (r.2 = false → r.1.log = s.log ∧ r.1.signing = s.signing ∧
          r.1.signing_stage = s.signing_stage ∧ r.1.idx1 = s.idx1 ∧
          r.1.inputs_count = s.inputs_count) ∧
       (r.2 = true → r.1.signing = true →
          r.1.inputs_count = s.inputs_count ∧
          ((s.idx1 < dec32 s.inputs_count ∧
              r.1.signing_stage = Stage.STAGE_REQUEST_1_INPUT ∧ r.1.idx1 = s.idx1 + 1 ∧
              Requests s0 r.1 [s.idx1 + 1]) ∨
            (¬ s.idx1 < dec32 s.inputs_count ∧
              r.1.signing_stage = Stage.STAGE_REQUEST_3_OUTPUT ∧ r.1.idx1 = 0 ∧
              Requests s0 r.1 [])))) := by
    intro t t1 t2 t3 t4 t5
    dsimp only
    by_cases hp : t.state_pos < 1
    · rw [if_pos hp]
      simp only [hash_raw_byte]
      by_cases hm : memcmp32_ne (env.tx_hash_final
          { t.transaction_previous with ctx := t.transaction_previous.ctx ++ [b] } true)
          t.input.prev_hash = true
      · rw [if_pos hm]
        refine ⟨(fun h => by cases h), fun _ hl => ?_⟩
        have : (signing_abort (fsm_sendFailure FailureType.Failure_Other
            "Encountered invalid prevhash"
            ({ t with raw_tx_status := RawTxStatus.NOT_PARSING, resp := TxRequest.zero,
                      transaction_previous :=
                        { t.transaction_previous with ctx := t.transaction_previous.ctx ++ [b] },
                      hash := env.tx_hash_final
                        { t.transaction_previous with ctx := t.transaction_previous.ctx ++ [b] }
                        true } : State))).signing = false := fail_abort_signing _ _ _
        rw [this] at hl; cases hl
      · rw [if_neg hm]
        by_cases hi : t.idx1 < dec32 t.inputs_count
        · rw [if_pos hi]
          refine ⟨(fun h => by cases h), fun _ _ => ⟨t5, Or.inl ⟨by rw [← t4, ← t5]; exact hi, rfl,
            by show t.idx1 + 1 = s.idx1 + 1; rw [t4], ?_⟩⟩⟩
          rw [← t4]
          exact send_req_1_input_requests s0 _ (t1.trans hlog) rfl
        · rw [if_neg hi]
          refine ⟨(fun h => by cases h), fun _ _ => ⟨t5, Or.inr ⟨by rw [← t4, ← t5]; exact hi, rfl,
            rfl, ?_⟩⟩⟩
          exact send_req_3_output_requests s0 _ (t1.trans hlog)
    · rw [if_neg hp]
      exact ⟨fun _ => ⟨t1, t2, t3, t4, t5⟩, fun h => by cases h⟩
  simp only [parsing_locktime]
  by_cases h0 : s.state_pos ≥ 0
  · rw [if_pos h0]
    exact key (store_ptr s b) g1 g2 g3 g4 g5
  · rw [if_neg h0]
    exact key s rfl rfl rfl rfl rfl

theorem parsing_version_session (s : State) (b : Nat) :
    (parsing_version s b).log = s.log ∧
    (parsing_version s b).signing = s.signing ∧
    (parsing_version s b).signing_stage = s.signing_stage ∧
    (parsing_version s b).idx1 = s.idx1 ∧
    (parsing_version s b).inputs_count = s.inputs_count := by
  simp only [parsing_version, reset_parsing_buffer]
  split_ifs <;> simp only [store_ptr_session, push_var_int_session, and_self]

theorem parsing_input_count_session (s : State) (b : Nat) :
    (parsing_input_count s b).log = s.log ∧
    (parsing_input_count s b).signing = s.signing ∧
    (parsing_input_count s b).signing_stage = s.signing_stage ∧
    (parsing_input_count s b).idx1 = s.idx1 ∧
    (parsing_input_count s b).inputs_count = s.inputs_count := by
  simp only [parsing_input_count, reset_parsing_buffer]
  split_ifs <;> simp only [store_ptr_session, push_var_int_session, and_self]

theorem parsing_inputs_session (s : State) (b : Nat) :
    (parsing_inputs s b).log = s.log ∧
    (parsing_inputs s b).signing = s.signing ∧
    (parsing_inputs s b).signing_stage = s.signing_stage ∧
    (parsing_inputs s b).idx1 = s.idx1 ∧
    (parsing_inputs s b).inputs_count = s.inputs_count := by
  simp only [parsing_inputs, reset_parsing_buffer]
  split_ifs <;> simp only [store_ptr_session, push_var_int_session, and_self]

theorem parsing_output_count_session (s : State) (b : Nat) :
    (parsing_output_count s b).log = s.log ∧
    (parsing_output_count s b).signing = s.signing ∧
    (parsing_output_count s b).signing_stage = s.signing_stage ∧
    (parsing_output_count s b).idx1 = s.idx1 ∧
    (parsing_output_count s b).inputs_count = s.inputs_count := by
  simp only [parsing_output_count, reset_parsing_buffer]
  split_ifs <;> simp only [store_ptr_session, push_var_int_session, and_self]

theorem parsing_outputs_value_session (s : State) (b : Nat) :
    (parsing_outputs_value s b).log = s.log ∧
    (parsing_outputs_value s b).signing = s.signing ∧
    (parsing_outputs_value s b).signing_stage = s.signing_stage ∧
    (parsing_outputs_value s b).idx1 = s.idx1 ∧
    (parsing_outputs_value s b).inputs_count = s.inputs_count := by
  simp only [parsing_outputs_value, reset_parsing_buffer]
  split_ifs <;> simp only [store_ptr_session, push_var_int_session, and_self]

theorem parsing_outputs_session (s : State) (b : Nat) :
    (parsing_outputs s b).log = s.log ∧
    (parsing_outputs s b).signing = s.signing ∧
    (parsing_outputs s b).signing_stage = s.signing_stage ∧
    (parsing_outputs s b).idx1 = s.idx1 ∧
    (parsing_outputs s b).inputs_count = s.inputs_count := by
  simp only [parsing_outputs, reset_parsing_buffer]
  split_ifs <;> simp only [store_ptr_session, push_var_int_session, and_self]

/-- One byte of raw input: it leaves the session as it is, or it completes the lock time
and, if the hash of the previous transaction matches, requests the next input when
`idx1 < inputs_count - 1` and the first output otherwise. -/
theorem parse_raw_byte_requests (env : Env) (s0 s : State) (b : Nat) (hlog : s.log = s0.log) :
    ((parse_raw_byte env s b).2 = false →
      (parse_raw_byte env s b).1.log = s.log ∧
      (parse_raw_byte env s b).1.signing = s.signing ∧
      (parse_raw_byte env s b).1.signing_stage = s.signing_stage ∧
      (parse_raw_byte env s b).1.idx1 = s.idx1 ∧
      (parse_raw_byte env s b).1.inputs_count = s.inputs_count) ∧
    ((parse_raw_byte env s b).2 = true → (parse_raw_byte env s b).1.signing = true →
      (parse_raw_byte env s b).1.inputs_count = s.inputs_count ∧
      ((s.idx1 < dec32 s.inputs_count ∧
          (parse_raw_byte env s b).1.signing_stage = Stage.STAGE_REQUEST_1_INPUT ∧
          (parse_raw_byte env s b).1.idx1 = s.idx1 + 1 ∧
          Requests s0 (parse_raw_byte env s b).1 [s.idx1 + 1]) ∨
        (¬ s.idx1 < dec32 s.inputs_count ∧
          (parse_raw_byte env s b).1.signing_stage = Stage.STAGE_REQUEST_3_OUTPUT ∧
          (parse_raw_byte env s b).1.idx1 = 0 ∧
          Requests s0 (parse_raw_byte env s b).1 []))) := by
  cases hst : s.raw_tx_status
  case PARSING_LOCKTIME =>
    rw [parse_raw_byte_at_locktime env s b hst]
    obtain ⟨l1, l2⟩ := parsing_locktime_requests env s0
      { s with state_pos := s.state_pos - 1 } b hlog
    by_cases h : (parsing_locktime env { s with state_pos := s.state_pos - 1 } b).2 = true
    · rw [if_pos h]
      exact ⟨(fun hf => by rw [h] at hf; cases hf), l2⟩
    · rw [if_neg h]
      exact ⟨fun _ => l1 (by simpa using h), fun hf => by cases hf⟩
  all_goals simp only [parse_raw_byte, hst, hash_raw_byte]
  all_goals refine ⟨fun _ => ?_, fun hf => by cases hf⟩
  · exact parsing_version_session _ b
  · exact parsing_version_session _ b
  · exact parsing_input_count_session _ b
  · exact parsing_inputs_session _ b
  · exact parsing_output_count_session _ b
  · exact parsing_outputs_value_session _ b
  · exact parsing_outputs_session _ b

/-- A raw message: it leaves the session as it is, or it completes the lock time of a
previous transaction and, if the session is still live, requests the next input when
`idx1 < inputs_count - 1` and the first output otherwise. -/
theorem parse_raw_txack_requests (env : Env) (s0 : State) (msg : Bytes) :
    ∀ s : State, s.log = s0.log → (parse_raw_txack env s msg).signing = true →
      (parse_raw_txack env s msg).inputs_count = s.inputs_count ∧
      ((reaches_completion env s msg = false ∧ (parse_raw_txack env s msg).log = s.log ∧
          (parse_raw_txack env s msg).signing_stage = s.signing_stage ∧
          (parse_raw_txack env s msg).idx1 = s.idx1) ∨
        (s.idx1 < dec32 s.inputs_count ∧
          (parse_raw_txack env s msg).signing_stage = Stage.STAGE_REQUEST_1_INPUT ∧
          (parse_raw_txack env s msg).idx1 = s.idx1 + 1 ∧
          Requests s0 (parse_raw_txack env s msg) [s.idx1 + 1]) ∨
        (¬ s.idx1 < dec32 s.inputs_count ∧
          (parse_raw_txack env s msg).signing_stage = Stage.STAGE_REQUEST_3_OUTPUT ∧
          (parse_raw_txack env s msg).idx1 = 0 ∧
          Requests s0 (parse_raw_txack env s msg) [])) := by
  induction msg with
  | nil => intro s _ _; exact ⟨rfl, Or.inl ⟨rfl, rfl, rfl, rfl⟩⟩
  | cons b rest ih =>
    intro s hlog hl
    obtain ⟨q1, q2⟩ := parse_raw_byte_requests env s0 s b hlog
    rw [parse_raw_txack] at hl ⊢
    by_cases h : (parse_raw_byte env s b).2 = true
    · rw [if_pos h] at hl ⊢
      obtain ⟨c1, c2⟩ := q2 h hl
      exact ⟨c1, Or.inr c2⟩
    · rw [if_neg h] at hl ⊢
      have hf : (parse_raw_byte env s b).2 = false := by simpa using h
      obtain ⟨a1, a2, a3, a4, a5⟩ := q1 hf
      obtain ⟨c1, c2⟩ := ih _ (a1.trans hlog) hl
      rw [a1, a3, a4, a5] at c2
      rw [a5] at c1
      refine ⟨c1, ?_⟩
      rcases c2 with ⟨d0, d⟩ | d | d
      · exact Or.inl ⟨by rw [reaches_completion, hf, d0]; rfl, d⟩
      · exact Or.inr (Or.inl d)
      · exact Or.inr (Or.inr d)

theorem requests_refl (s t : State) (h : t.log = s.log) : Requests s t [] :=
  ⟨[], by rw [h, List.append_nil], rfl⟩

theorem requests_trans {a b c : State} {X Y : List Nat} (h1 : Requests a b X)
    (h2 : Requests b c Y) : Requests a c (X ++ Y) := by
  obtain ⟨E1, e1, x1⟩ := h1
  obtain ⟨E2, e2, x2⟩ := h2
  refine ⟨E1 ++ E2, by rw [e2, e1, List.append_assoc], ?_⟩
  rw [input_requests, List.filterMap_append]
  exact congrArg₂ (· ++ ·) x1 x2

theorem requests_new_events {s t : State} {X : List Nat} (h : Requests s t X) :
    input_requests (new_events s t) = X := by
  obtain ⟨E, e, x⟩ := h
  rw [new_events_append s t E e]
  exact x

/-- One host message during the input sweep of phase 1, if the session is live after it:
either the sweep goes on with the same `idx1` and no current input is requested; or a
previous transaction was verified with `idx1 < inputs_count - 1` (32-bit), `idx1` is
incremented and that input is requested; or a previous transaction was verified with
`idx1 < inputs_count - 1` false, and the first output is requested. -/
theorem handle_input_sweep (env : Env) (s : State) (m : HostMsg)
    (hsweep : s.signing_stage.in_input_sweep = true)
    (hl : (handle env s m).signing = true) :
    (handle env s m).inputs_count = s.inputs_count ∧
    (((handle env s m).signing_stage.in_input_sweep = true ∧
        (handle env s m).idx1 = s.idx1 ∧ Requests s (handle env s m) []) ∨
      (s.idx1 < dec32 s.inputs_count ∧
        (handle env s m).signing_stage = Stage.STAGE_REQUEST_1_INPUT ∧
        (handle env s m).idx1 = s.idx1 + 1 ∧ Requests s (handle env s m) [s.idx1 + 1]) ∨
      (¬ s.idx1 < dec32 s.inputs_count ∧
        (handle env s m).signing_stage = Stage.STAGE_REQUEST_3_OUTPUT ∧
        (handle env s m).idx1 = 0 ∧ Requests s (handle env s m) [])) := by
  have hlive : s.signing = true := by
    by_contra hn
    have := handle_dead env s m (by simpa using hn)
    rw [this] at hl; cases hl
  cases m with
  | raw msg =>
    simp only [handle] at hl ⊢
    obtain ⟨c1, c2⟩ := parse_raw_txack_requests env s msg s rfl hl
    refine ⟨c1, ?_⟩
    rcases c2 with ⟨-, a1, a2, a3⟩ | c | c
    · exact Or.inl ⟨by rw [a2]; exact hsweep, a3, requests_refl _ _ a1⟩
    · exact Or.inr (Or.inl c)
    · exact Or.inr (Or.inr c)
  | txack tx =>
    simp only [handle] at hl ⊢
    cases hst : s.signing_stage <;> rw [hst] at hsweep <;>
      simp only [Stage.in_input_sweep, Bool.false_eq_true] at hsweep
    · rw [signing_txack_at_1_input env s tx hlive hst] at hl ⊢
      obtain ⟨a1, a2, a3, a4⟩ := txack_request_1_input_requests env
        { s with resp := TxRequest.zero } tx hl
      exact ⟨a3, Or.inl ⟨by rw [a1]; rfl, a2, a4⟩⟩
    · rw [signing_txack_at_2_prev_meta env s tx hlive hst]
      obtain ⟨a1, a2, a3, a4⟩ := txack_request_2_prev_meta_requests
        { s with resp := TxRequest.zero } tx
      exact ⟨a3, Or.inl ⟨by rw [a1]; rfl, a2, a4⟩⟩
    · rw [signing_txack_at_2_prev_input env s tx hlive hst] at hl ⊢
      obtain ⟨a1, a2, a3, a4⟩ := txack_request_2_prev_input_requests env
        { s with resp := TxRequest.zero } tx hl
      refine ⟨a3, Or.inl ⟨?_, a2, a4⟩⟩
      rcases a1 with a1 | a1 <;> rw [a1] <;> rfl
    · rw [signing_txack_at_2_prev_output env s tx hlive hst] at hl ⊢
      obtain ⟨a1, a2⟩ := txack_request_2_prev_output_requests env
        { s with resp := TxRequest.zero } tx rfl hl
      refine ⟨a1, ?_⟩
      rcases a2 with ⟨-, b2, b3, -, b5⟩ | ⟨-, b2, b3, b4, b5⟩ | ⟨-, b2, b3, b4, b5⟩
      · exact Or.inl ⟨by rw [b2]; rfl, b3, b5⟩
      · exact Or.inr (Or.inl ⟨b2, b3, b4, b5⟩)
      · exact Or.inr (Or.inr ⟨b2, b3, b4, b5⟩)

/-- The invariant of the input sweep: with `n = inputs_count`, either the sweep is at input
`idx1 <= n - 1` (32-bit) and the inputs `0 .. idx1` have been requested, in order; or the
first output has been requested after the inputs `0 .. n - 1` (32-bit). -/
theorem run_input_sweep (env : Env) (s0 : State) (n : Nat) (msgs : List HostMsg) :
    ∀ (s : State) (X : List Nat), Requests s0 s X → s.inputs_count = n →
      s.signing_stage.in_input_sweep = true → s.idx1 ≤ dec32 n → X = List.range (s.idx1 + 1) →
      input_sweep env s msgs = true → (run env s msgs).signing = true →
      (run env s msgs).inputs_count = n ∧
      (((run env s msgs).signing_stage.in_input_sweep = true ∧
          (run env s msgs).idx1 ≤ dec32 n ∧
          Requests s0 (run env s msgs) (List.range ((run env s msgs).idx1 + 1))) ∨
        ((run env s msgs).signing_stage = Stage.STAGE_REQUEST_3_OUTPUT ∧
          (run env s msgs).idx1 = 0 ∧
          Requests s0 (run env s msgs) (List.range (dec32 n + 1)))) := by
  induction msgs with
  | nil =>
    intro s X hX hn hsw hle hXe _ _
    subst hXe
    exact ⟨hn, Or.inl ⟨hsw, hle, hX⟩⟩
  | cons m rest ih =>
    intro s X hX hn hsw hle hXe hin hl
    subst hXe
    simp only [input_sweep, Bool.and_eq_true] at hin
    rw [run] at hl ⊢
    have hl1 : (handle env s m).signing = true := by
      by_contra hd
      have := run_dead_signing env rest _ (by simpa using hd)
      rw [this] at hl; cases hl
    obtain ⟨c1, c2⟩ := handle_input_sweep env s m hsw hl1
    rcases c2 with ⟨a1, a2, a3⟩ | ⟨a0, a1, a2, a3⟩ | ⟨a0, a1, a2, a3⟩
    · refine ih _ _ (requests_trans hX a3) (c1.trans hn) a1 (by rw [a2]; exact hle) ?_
        hin.2 hl
      rw [a2, List.append_nil]
    · rw [hn] at a0
      refine ih _ _ (requests_trans hX a3) (c1.trans hn) (by rw [a1]; rfl)
        (by rw [a2]; omega) ?_ hin.2 hl
      rw [a2, List.range_succ (n := s.idx1 + 1)]
    · rw [hn] at a0
      have he : s.idx1 = dec32 n := by omega
      cases rest with
      | nil =>
        refine ⟨c1.trans hn, Or.inr ⟨a1, a2, ?_⟩⟩
        have := requests_trans hX a3
        rw [List.append_nil, he] at this
        exact this
      | cons m2 rest2 =>
        simp only [input_sweep, Bool.and_eq_true] at hin
        rw [a1] at hin
        exact absurd hin.2.1 (by decide)

/-- One structured block of `demoEnv`, from any live state in which an input is due: the
previous transaction is verified, and the session goes on with the next input if
`idx1 < inputs_count - 1` (32-bit), with the first output otherwise. -/
theorem demo_block_run (s : State) (a : Nat) (hlive : s.signing = true)
    (hstage : s.signing_stage = Stage.STAGE_REQUEST_1_INPUT) :
    (run_txacks demoEnv s (demoBlock a).acks).signing = true ∧
    (run_txacks demoEnv s (demoBlock a).acks).inputs_count = s.inputs_count ∧
    (run_txacks demoEnv s (demoBlock a).acks).signing_stage
      = (if s.idx1 < dec32 s.inputs_count then Stage.STAGE_REQUEST_1_INPUT
         else Stage.STAGE_REQUEST_3_OUTPUT) ∧
    (run_txacks demoEnv s (demoBlock a).acks).idx1
      = (if s.idx1 < dec32 s.inputs_count then s.idx1 + 1 else 0) := by
  have e1 : signing_txack demoEnv s (ackInput zeroInput)
      = send_req_2_prev_meta { s with
          resp := TxRequest.zero, multisig_fp_mismatch := true,
          transaction_current := s.transaction_current ++ demoEnv.bytes_TxInputType zeroInput,
          input := zeroInput,
          hashers0 := s.hashers0 ++ demoEnv.tx_prevout_bytes zeroInput,
          hashers1 := s.hashers1 ++ demoEnv.tx_sequence_bytes zeroInput,
          hashers2 := s.hashers2 ++ demoEnv.tx_prevout_bytes zeroInput
                        ++ demoEnv.script_type_window zeroInput } := by
    rw [signing_txack_at_1_input demoEnv s _ hlive hstage]
    simp [txack_request_1_input, input_multisig_fp, ackInput, zeroAck, zeroInput,
      TxInputType.zero]
  generalize hs1 : signing_txack demoEnv s (ackInput zeroInput) = s1 at e1
  have l1 : s1.signing = true := by rw [e1]; exact hlive
  have g1 : s1.signing_stage = Stage.STAGE_REQUEST_2_PREV_META := by rw [e1]; rfl
  have i1 : s1.input = zeroInput := by rw [e1]; rfl
  have c1 : s1.inputs_count = s.inputs_count := by rw [e1]; rfl
  have x1 : s1.idx1 = s.idx1 := by rw [e1]; rfl
  -- the metadata
  have e2 := signing_txack_at_2_prev_meta demoEnv s1 (ackMeta 1 1 1 0) l1 g1
  generalize hs2 : signing_txack demoEnv s1 (ackMeta 1 1 1 0) = s2 at e2
  have l2 : s2.signing = true := by rw [e2]; exact l1
  have g2 : s2.signing_stage = Stage.STAGE_REQUEST_2_PREV_INPUT := by rw [e2]; rfl
  have i2 : s2.input = zeroInput := by rw [e2]; exact i1
  have c2 : s2.inputs_count = s.inputs_count := by rw [e2]; exact c1
  have x2 : s2.idx1 = s.idx1 := by rw [e2]; exact x1
  have t2 : s2.transaction_previous = tx_init 1 1 1 0 false := by rw [e2]; rfl
  have j2 : s2.idx2 = 0 := by rw [e2]; rfl
  -- the input of the previous transaction
  have d1 : dec32 1 = 0 := by decide
  have e3 : signing_txack demoEnv s2 (ackInput zeroInput)
      = send_req_2_prev_output { s2 with
          resp := TxRequest.zero,
          transaction_previous :=
            (tx_serialize_input_hash demoEnv (tx_init 1 1 1 0 false) zeroInput).2,
          idx2 := 0 } := by
    rw [signing_txack_at_2_prev_input demoEnv s2 _ l2 g2]
    simp [txack_request_2_prev_input, t2, j2, tx_serialize_input_hash, tx_init, demoEnv, d1,
      ackInput, zeroAck]
  generalize hs3 : signing_txack demoEnv s2 (ackInput zeroInput) = s3 at e3
  have l3 : s3.signing = true := by rw [e3]; exact l2
  have g3 : s3.signing_stage = Stage.STAGE_REQUEST_2_PREV_OUTPUT := by rw [e3]; rfl
  have i3 : s3.input = zeroInput := by rw [e3]; exact i2
  have c3 : s3.inputs_count = s.inputs_count := by rw [e3]; exact c2
  have x3 : s3.idx1 = s.idx1 := by rw [e3]; exact x2
  have t3 : s3.transaction_previous
      = (tx_serialize_input_hash demoEnv (tx_init 1 1 1 0 false) zeroInput).2 := by
    rw [e3]; rfl
  have j3 : s3.idx2 = 0 := by rw [e3]; rfl
  -- the output of the previous transaction
  have hs4 : signing_txack demoEnv s3 (ackBinOutput a [81])
      = txack_request_2_prev_output demoEnv { s3 with resp := TxRequest.zero }
          (ackBinOutput a [81]) := signing_txack_at_2_prev_output demoEnv s3 _ l3 g3
  simp only [demoBlock, InputBlock.acks, List.singleton_append, run_txacks, hs1, hs2, hs3, hs4]
  have hser : (tx_serialize_output_hash demoEnv
      ({ s3 with resp := TxRequest.zero } : State).transaction_previous
      (ackBinOutput a [81]).bin_outputs).1 = 1 := rfl
  have hlast : ¬ ({ s3 with resp := TxRequest.zero } : State).idx2
      < dec32 (tx_serialize_output_hash demoEnv
          ({ s3 with resp := TxRequest.zero } : State).transaction_previous
          (ackBinOutput a [81]).bin_outputs).2.outputs_len := by
    show ¬ s3.idx2 < dec32 s3.transaction_previous.outputs_len
    rw [j3, t3]
    decide
  have hhash : memcmp32_ne (demoEnv.tx_hash_final (tx_serialize_output_hash demoEnv
      ({ s3 with resp := TxRequest.zero } : State).transaction_previous
      (ackBinOutput a [81]).bin_outputs).2 true)
      ({ s3 with resp := TxRequest.zero } : State).input.prev_hash = false := by
    show memcmp32_ne (demoEnv.tx_hash_final (tx_serialize_output_hash demoEnv
      s3.transaction_previous (ackBinOutput a [81]).bin_outputs).2 true) s3.input.prev_hash
      = false
    rw [t3, i3]
    simp [memcmp32_ne, demoEnv, tx_serialize_output_hash, tx_serialize_input_hash, tx_init,
      zeroInput, TxInputType.zero, List.take_append_of_le_length]
  simp only [txack_request_2_prev_output, hser, hlast, hhash, one_ne_zero, if_false,
    Bool.false_eq_true, x3, c3]
  by_cases hi : s.idx1 < dec32 s.inputs_count
  · rw [if_pos hi, if_pos hi, if_pos hi]
    exact ⟨l3, rfl, rfl, rfl⟩
  · rw [if_neg hi, if_neg hi, if_neg hi]
    exact ⟨l3, rfl, rfl, rfl⟩

theorem input_acks_cons (b : InputBlock) (rest : List InputBlock) :
    input_acks (b :: rest) = b.acks ++ input_acks rest := by
  simp [input_acks, List.flatMap_cons]

/-- The blocks of `k` inputs in `demoEnv`, as long as `idx1` stays at most `inputs_count - 1`
(32-bit): every previous transaction is verified and the next input is requested. -/
theorem demo_blocks_run (a : Nat) (k : Nat) :
    ∀ s : State, s.signing = true → s.signing_stage = Stage.STAGE_REQUEST_1_INPUT →
      s.idx1 + k ≤ dec32 s.inputs_count →
      (run_txacks demoEnv s (input_acks (List.replicate k (demoBlock a)))).signing = true ∧
      (run_txacks demoEnv s (input_acks (List.replicate k (demoBlock a)))).inputs_count
        = s.inputs_count ∧
      (run_txacks demoEnv s (input_acks (List.replicate k (demoBlock a)))).signing_stage
        = Stage.STAGE_REQUEST_1_INPUT ∧
      (run_txacks demoEnv s (input_acks (List.replicate k (demoBlock a)))).idx1
        = s.idx1 + k := by
  induction k with
  | zero => intro s hl hs _; exact ⟨hl, rfl, hs, rfl⟩
  | succ k ih =>
    intro s hl hs hk
    obtain ⟨b1, b2, b3, b4⟩ := demo_block_run s a hl hs
    have hlt : s.idx1 < dec32 s.inputs_count := by omega
    rw [if_pos hlt] at b3 b4
    rw [List.replicate_succ, input_acks_cons, run_txacks_append]
    obtain ⟨c1, c2, c3, c4⟩ := ih _ b1 b3 (by rw [b4, b2]; omega)
    exact ⟨c1, c2.trans b2, c3, by rw [c4, b4]; omega⟩

theorem dec32_succ (n : Nat) (h1 : 1 ≤ n) (h2 : n < 2 ^ 32) : dec32 n + 1 = n := by
  unfold dec32
  omega

/-- C32, as the code has it. For every session started by `signing_init` with
`inputs_count = n` and every sequence of structured and raw messages that arrive during the
input sweep of phase 1 and leave the session live: the sweep is at input `idx1` with
`idx1 <= n - 1` (computed in 32 bits) and exactly the inputs `0 .. idx1` have been requested,
in order; or the stage has advanced to `REQUEST_3_OUTPUT` and exactly the inputs
`0 .. n - 1` (32-bit) have been requested, in order: the inputs `0 .. n - 1` for
`1 <= n < 2 ^ 32`, the inputs `0 .. 2 ^ 32 - 1` for `n = 0` (first two conjuncts). Every
message of the sweep either requests no current input and keeps `idx1`, or, with
`idx1 < n - 1` (32-bit), increments `idx1` and requests that input, or, without, requests
the first output (third). A verified previous transaction, that is, the last previous output
in structured mode or the byte that completes the lock time in raw mode, with the session
live afterwards, does the second if `idx1 < n - 1` (32-bit) and the third otherwise (fourth
and fifth): with `n = 0` it requests another input exactly as long as `idx1 < 2 ^ 32 - 1`.
The tests against `outputs_count - 1` and the previous transaction's `inputs_len - 1` and
`outputs_len - 1` are computed in the same way (last three). -/
theorem current_inputs_requested (env : Env) (n m : Nat) (coin : CoinType) (root : HDNode)
    (v lt : Nat) (s0 : State) (msgs : List HostMsg)
    (hsweep : input_sweep env (signing_init n m coin root v lt s0) msgs = true)
    (hlive : (run env (signing_init n m coin root v lt s0) msgs).signing = true) :
    ((run env (signing_init n m coin root v lt s0) msgs).inputs_count = n ∧
      (((run env (signing_init n m coin root v lt s0) msgs).signing_stage.in_input_sweep = true ∧
          (run env (signing_init n m coin root v lt s0) msgs).idx1 ≤ dec32 n ∧
          input_requests (new_events s0 (run env (signing_init n m coin root v lt s0) msgs))
            = List.range ((run env (signing_init n m coin root v lt s0) msgs).idx1 + 1)) ∨
        ((run env (signing_init n m coin root v lt s0) msgs).signing_stage = Stage.STAGE_REQUEST_3_OUTPUT ∧
          (run env (signing_init n m coin root v lt s0) msgs).idx1 = 0 ∧
          input_requests (new_events s0 (run env (signing_init n m coin root v lt s0) msgs))
            = List.range (dec32 n + 1)))) ∧
    ((1 ≤ n → n < 2 ^ 32 → dec32 n + 1 = n) ∧ dec32 0 = 2 ^ 32 - 1) ∧
    (∀ (s : State) (msg : HostMsg), s.signing_stage.in_input_sweep = true →
      (handle env s msg).signing = true →
      ((handle env s msg).signing_stage.in_input_sweep = true ∧
          (handle env s msg).idx1 = s.idx1 ∧
          input_requests (new_events s (handle env s msg)) = []) ∨
        (s.idx1 < dec32 s.inputs_count ∧
          (handle env s msg).signing_stage = Stage.STAGE_REQUEST_1_INPUT ∧
          (handle env s msg).idx1 = s.idx1 + 1 ∧
          input_requests (new_events s (handle env s msg)) = [s.idx1 + 1]) ∨
        (¬ s.idx1 < dec32 s.inputs_count ∧
          (handle env s msg).signing_stage = Stage.STAGE_REQUEST_3_OUTPUT ∧
          (handle env s msg).idx1 = 0 ∧
          input_requests (new_events s (handle env s msg)) = [])) ∧
    (∀ (s : State) (tx : TransactionType), s.signing = true →
      s.signing_stage = Stage.STAGE_REQUEST_2_PREV_OUTPUT →
      ¬ s.idx2 < dec32 s.transaction_previous.outputs_len →
      (signing_txack env s tx).signing = true →
      (s.idx1 < dec32 s.inputs_count →
        (signing_txack env s tx).signing_stage = Stage.STAGE_REQUEST_1_INPUT ∧
        (signing_txack env s tx).idx1 = s.idx1 + 1 ∧
        input_requests (new_events s (signing_txack env s tx)) = [s.idx1 + 1]) ∧
      (¬ s.idx1 < dec32 s.inputs_count →
        (signing_txack env s tx).signing_stage = Stage.STAGE_REQUEST_3_OUTPUT ∧
        (signing_txack env s tx).idx1 = 0 ∧
        input_requests (new_events s (signing_txack env s tx)) = [])) ∧
    (∀ (s : State) (bytes : Bytes), reaches_completion env s bytes = true →
      (parse_raw_txack env s bytes).signing = true →
      (s.idx1 < dec32 s.inputs_count →
        (parse_raw_txack env s bytes).signing_stage = Stage.STAGE_REQUEST_1_INPUT ∧
        (parse_raw_txack env s bytes).idx1 = s.idx1 + 1 ∧
        input_requests (new_events s (parse_raw_txack env s bytes)) = [s.idx1 + 1]) ∧
      (¬ s.idx1 < dec32 s.inputs_count →
        (parse_raw_txack env s bytes).signing_stage = Stage.STAGE_REQUEST_3_OUTPUT ∧
        (parse_raw_txack env s bytes).idx1 = 0 ∧
        input_requests (new_events s (parse_raw_txack env s bytes)) = [])) ∧
    (∀ (s : State) (tx : TransactionType), s.signing = true →
      s.signing_stage = Stage.STAGE_REQUEST_3_OUTPUT → s.idx1 < dec32 s.outputs_count →
      (signing_txack env s tx).signing = true →
      (signing_txack env s tx).signing_stage = Stage.STAGE_REQUEST_3_OUTPUT ∧
      (signing_txack env s tx).idx1 = s.idx1 + 1) ∧
    (∀ (s : State) (tx : TransactionType), s.signing = true →
      s.signing_stage = Stage.STAGE_REQUEST_2_PREV_INPUT →
      s.idx2 < dec32 s.transaction_previous.inputs_len →
      (signing_txack env s tx).signing = true →
      (signing_txack env s tx).signing_stage = Stage.STAGE_REQUEST_2_PREV_INPUT ∧
      (signing_txack env s tx).idx2 = s.idx2 + 1) ∧
    (∀ (s : State) (tx : TransactionType), s.signing = true →
      s.signing_stage = Stage.STAGE_REQUEST_2_PREV_OUTPUT →
      s.idx2 < dec32 s.transaction_previous.outputs_len →
      (signing_txack env s tx).signing = true →
      (signing_txack env s tx).signing_stage = Stage.STAGE_REQUEST_2_PREV_OUTPUT ∧
      (signing_txack env s tx).idx2 = s.idx2 + 1) := by
  have hinit : Requests s0 (signing_init n m coin root v lt s0) (List.range (0 + 1)) := by
    refine ⟨[Event.tx_request (signing_init n m coin root v lt s0).resp], ?_, ?_⟩
    · simp only [signing_init, send_req_1_input, msg_write]
    · simp [input_requests, Event.input_request, signing_init, send_req_1_input, msg_write,
        TxRequest.zero]
      rfl
  refine ⟨?_, ⟨dec32_succ n, by decide⟩, ?_, ?_, ?_, ?_, ?_, ?_⟩
  · obtain ⟨c1, c2⟩ := run_input_sweep env s0 n msgs (signing_init n m coin root v lt s0) _
      hinit rfl rfl (Nat.zero_le _) rfl hsweep hlive
    refine ⟨c1, ?_⟩
    rcases c2 with ⟨a1, a2, a3⟩ | ⟨a1, a2, a3⟩
    · exact Or.inl ⟨a1, a2, requests_new_events a3⟩
    · exact Or.inr ⟨a1, a2, requests_new_events a3⟩
  · intro s msg hs hl
    obtain ⟨-, c2⟩ := handle_input_sweep env s msg hs hl
    rcases c2 with ⟨a1, a2, a3⟩ | ⟨a0, a1, a2, a3⟩ | ⟨a0, a1, a2, a3⟩
    · exact Or.inl ⟨a1, a2, requests_new_events a3⟩
    · exact Or.inr (Or.inl ⟨a0, a1, a2, requests_new_events a3⟩)
    · exact Or.inr (Or.inr ⟨a0, a1, a2, requests_new_events a3⟩)
  · intro s tx hl hst hlast hl'
    rw [signing_txack_at_2_prev_output env s tx hl hst] at hl' ⊢
    obtain ⟨-, a2⟩ := txack_request_2_prev_output_requests env
      { s with resp := TxRequest.zero } tx rfl hl'
    rcases a2 with ⟨b1, -⟩ | ⟨-, b2, b3, b4, b5⟩ | ⟨-, b2, b3, b4, b5⟩
    · exact absurd b1 hlast
    · exact ⟨fun _ => ⟨b3, b4, requests_new_events b5⟩, fun h => absurd b2 h⟩
    · exact ⟨fun h => absurd h b2, fun _ => ⟨b3, b4, requests_new_events b5⟩⟩
  · intro s bytes hc hl'
    obtain ⟨-, a2⟩ := parse_raw_txack_requests env s bytes s rfl hl'
    rcases a2 with ⟨b1, -⟩ | ⟨b2, b3, b4, b5⟩ | ⟨b2, b3, b4, b5⟩
    · rw [hc] at b1; cases b1
    · exact ⟨fun _ => ⟨b3, b4, requests_new_events b5⟩, fun h => absurd b2 h⟩
    · exact ⟨fun h => absurd h b2, fun _ => ⟨b3, b4, requests_new_events b5⟩⟩
  · intro s tx hl hst hlt hl'
    rcases signing_txack_core_3_output_next env s tx hl hst hlt with hd | hc
    · rw [hd] at hl'; cases hl'
    · obtain ⟨-, f2, f3, -⟩ := core_fields hc
      exact ⟨f2.trans hst, f3⟩
  · intro s tx hl hst hlt hl'
    rcases signing_txack_core_2_prev_input env s tx hl hst with hd | hc
    · rw [hd] at hl'; cases hl'
    · obtain ⟨-, f2, -, f4, -⟩ := core_fields hc
      dsimp only [State.core] at f2 f4
      rw [if_pos hlt] at f2 f4
      exact ⟨f2, f4⟩
  · intro s tx hl hst hlt hl'
    rw [signing_txack_at_2_prev_output env s tx hl hst] at hl' ⊢
    obtain ⟨-, a2⟩ := txack_request_2_prev_output_requests env
      { s with resp := TxRequest.zero } tx rfl hl'
    rcases a2 with ⟨-, b2, -, b4, -⟩ | ⟨b1, -⟩ | ⟨b1, -⟩
    · exact ⟨b2, b4⟩
    · exact absurd hlt b1
    · exact absurd hlt b1

theorem current_inputs_requested_witness :
    input_sweep demoEnv (signing_init 2 1 demoCoin demoRoot 1 0 State.boot) twoInputSweep
      = true ∧
    (run demoEnv (signing_init 2 1 demoCoin demoRoot 1 0 State.boot) twoInputSweep).signing
      = true ∧
    (run demoEnv (signing_init 2 1 demoCoin demoRoot 1 0 State.boot)
      twoInputSweep).signing_stage = Stage.STAGE_REQUEST_3_OUTPUT ∧
    input_requests (new_events State.boot
      (run demoEnv (signing_init 2 1 demoCoin demoRoot 1 0 State.boot) twoInputSweep))
      = [0, 1] ∧
    (run demoEnv (signing_init 2 1 demoCoin demoRoot 1 0 State.boot)
      twoInputSweep).inputs_count = 2 :=
  ⟨by decide, by decide, by decide, by decide,
    (current_inputs_requested demoEnv 2 1 demoCoin demoRoot 1 0 State.boot twoInputSweep
      (by decide) (by decide)).1.1⟩

/-- C32, the sentence about `inputs_count = 0` as it is written, fails at `idx1 = 2 ^ 32 - 1`.
In the session started with `inputs_count = 0`, the first `2 ^ 32 - 1` verified previous
transactions each request another input, and the session is live in `REQUEST_1_INPUT` with
`idx1 = 2 ^ 32 - 1`; the next verified previous transaction advances to
`REQUEST_3_OUTPUT` and requests no input. -/
theorem zero_inputs_reach_outputs :
    (run_txacks demoEnv zeroInputsStart
      (input_acks (List.replicate (2 ^ 32 - 1) (demoBlock 1)))).signing = true ∧
    (run_txacks demoEnv zeroInputsStart
      (input_acks (List.replicate (2 ^ 32 - 1) (demoBlock 1)))).inputs_count = 0 ∧
    (run_txacks demoEnv zeroInputsStart
      (input_acks (List.replicate (2 ^ 32 - 1) (demoBlock 1)))).signing_stage
        = Stage.STAGE_REQUEST_1_INPUT ∧
    (run_txacks demoEnv zeroInputsStart
      (input_acks (List.replicate (2 ^ 32 - 1) (demoBlock 1)))).idx1 = 2 ^ 32 - 1 ∧
    (run_txacks demoEnv
      (run_txacks demoEnv zeroInputsStart
        (input_acks (List.replicate (2 ^ 32 - 1) (demoBlock 1))))
      (demoBlock 1).acks).signing = true ∧
    (run_txacks demoEnv
      (run_txacks demoEnv zeroInputsStart
        (input_acks (List.replicate (2 ^ 32 - 1) (demoBlock 1))))
      (demoBlock 1).acks).signing_stage = Stage.STAGE_REQUEST_3_OUTPUT := by
  have h0 : zeroInputsStart.signing = true := rfl
  have h1 : zeroInputsStart.signing_stage = Stage.STAGE_REQUEST_1_INPUT := rfl
  have h2 : zeroInputsStart.inputs_count = 0 := rfl
  have h3 : zeroInputsStart.idx1 = 0 := rfl
  have hd : dec32 0 = 2 ^ 32 - 1 := by decide
  generalize hk : (2 ^ 32 - 1 : Nat) = k at hd
  obtain ⟨c1, c2, c3, c4⟩ := demo_blocks_run 1 k zeroInputsStart h0 h1
    (by rw [h2, h3, hd]; omega)
  rw [h2] at c2
  rw [h3, Nat.zero_add] at c4
  obtain ⟨b1, -, b3, -⟩ := demo_block_run _ 1 c1 c3
  have hn : ¬ (run_txacks demoEnv zeroInputsStart
      (input_acks (List.replicate k (demoBlock 1)))).idx1
      < dec32 (run_txacks demoEnv zeroInputsStart
        (input_acks (List.replicate k (demoBlock 1)))).inputs_count := by
    rw [c2, c4, hd]; exact lt_irrefl _
  rw [if_neg hn] at b3
  exact ⟨c1, c2, c3, c4, b1, b3⟩

end Signing
